import Mathlib

/-!
# BLP1 file-format plug-in

A shallow embedding of `src/common/BLPFormat.cpp` (with `BLPFormat.h` and
`BLPFormatUI.cpp`).  The plug-in keeps its state in the globals `gFormatRecord`,
`gData` and `gResult`; here they are the fields of `Globals`, passed explicitly.
What the host, the C runtime and libjpeg decide (allocation, `advanceState`, the
JPEG codec, the prior contents of stack arrays) is collected in `Env`.

Conventions: a byte is a `Nat` below 256; `int`/`int32` variables are `Int`,
`uint32` variables are `Nat` with an explicit reduction modulo `2^32`; a buffer is
a `List Nat` of bytes and a NULL pointer is `none`.  The machine is little-endian,
as the file format is, so a header field is the little-endian value of its four
bytes.  A block of a routine that can `return` early is a function into `Except`:
`Except.error` carries the state at the `return`.
-/

namespace BLPFormat

/-! ## Constants of the SDK headers -/

/-- Modelled from the spec: the SDK result code for success (`PITypes.h` is not
under `src/`). -/
def noErr : Int := 0

/-- Modelled from the spec: the SDK result code of a short read, the spec's
end-of-file signal (`PITypes.h` is not under `src/`). -/
def eofErr : Int := -39

/-- Modelled from the spec: the SDK result code of a short write, the spec's
disk-full signal (`PITypes.h` is not under `src/`). -/
def dskFulErr : Int := -34

/-- Modelled from the spec: the SDK result code of a failed allocation, the spec's
out-of-memory kind (`PITypes.h` is not under `src/`). -/
def memFullErr : Int := -108

/-- Modelled from the spec: the SDK result code the plug-in uses for a file it
cannot read, the spec's invalid-magic / unsupported kind (`PIFormat.h` is not
under `src/`). -/
def formatCannotRead : Int := -30501

/-- Modelled from the spec: the SDK image mode of an indexed-colour document
(`PIGeneral.h` is not under `src/`). -/
def plugInModeIndexedColor : Int := 2

/-- Modelled from the spec: the SDK image mode of an RGB document (`PIGeneral.h`
is not under `src/`). -/
def plugInModeRGBColor : Int := 3

/-- The enumerator `BLP_COMPRESSION_JPEG` of `BLPFormat.h`. -/
def BLP_COMPRESSION_JPEG : Nat := 0

/-- The enumerator `BLP_COMPRESSION_DIRECT` of `BLPFormat.h`. -/
def BLP_COMPRESSION_DIRECT : Nat := 1

/-- The value of `sizeof(BLP_HEADER)`: 7 + 16 + 16 packed 32-bit fields. -/
def sizeofHeader : Nat := 156

/-- The constant `DESIREDMATTING`. -/
def DESIREDMATTING : Int := 0

/-! ## Machine integers -/

/-- Conversion to `int32` (two's complement wrap-around). -/
def toInt32 (x : Int) : Int := (x + 2147483648) % 4294967296 - 2147483648

/-- Conversion to `int16` (two's complement wrap-around), as in
`static_cast<int16>`. -/
def toInt16 (x : Int) : Int := (x + 32768) % 65536 - 32768

/-- Conversion to `uint32`. -/
def toUInt32 (x : Int) : Nat := (x % 4294967296).toNat

/-! ## Buffers -/

/-- Bytes `src` stored at the start of the buffer `dst`. -/
def overlay (src dst : List Nat) : List Nat := src ++ dst.drop src.length

/-- Bytes `data` stored at offset `off` of `buf` (a gap before `off` reads as
zero). -/
def writeAt (buf : List Nat) (off : Nat) (data : List Nat) : List Nat :=
  (buf ++ List.replicate (off - buf.length) 0).take off ++ data ++ buf.drop (off + data.length)

/-- The little-endian 32-bit value stored at offset `off` of `bs`. -/
def u32le (bs : List Nat) (off : Nat) : Nat :=
  bs.getD off 0 + 256 * bs.getD (off + 1) 0 + 65536 * bs.getD (off + 2) 0
    + 16777216 * bs.getD (off + 3) 0

/-- The four bytes of a 32-bit value, least significant first. -/
def le32 (x : Nat) : List Nat :=
  [x % 256, x / 256 % 256, x / 65536 % 256, x / 16777216 % 256]

/-! ## The header `BLP_HEADER`

`gData->blpHeader` is filled by reading 156 bytes of the file over it, so it is
kept as its memory image (packed, little-endian); the accessors below read the
fields. -/

/-- Field `Compression` of a header image. -/
def hdrCompression (h : List Nat) : Nat := u32le h 4

/-- Field `alpha_bits` of a header image. -/
def hdrAlphaBits (h : List Nat) : Nat := u32le h 8

/-- Field `Width` of a header image. -/
def hdrWidth (h : List Nat) : Nat := u32le h 12

/-- Field `Height` of a header image. -/
def hdrHeight (h : List Nat) : Nat := u32le h 16

/-- Field `extra` of a header image. -/
def hdrExtra (h : List Nat) : Nat := u32le h 20

/-- Field `has_mipMaps` of a header image. -/
def hdrHasMipMaps (h : List Nat) : Nat := u32le h 24

/-- Field `Offset[i]` of a header image. -/
def hdrOffset (h : List Nat) (i : Nat) : Nat := u32le h (28 + 4 * i)

/-- Field `Size[i]` of a header image. -/
def hdrSize (h : List Nat) (i : Nat) : Nat := u32le h (92 + 4 * i)

/-- The test `magic[0] != 'B' || magic[1] != 'L' || magic[2] != 'P' ||
magic[3] != '1'` on the bytes of `MagicNumber`. -/
def magicMismatch (h : List Nat) : Bool :=
  h.getD 0 0 != 0x42 || h.getD 1 0 != 0x4C || h.getD 2 0 != 0x50 || h.getD 3 0 != 0x31

/-- The local `BLP_HEADER header` that `DoWriteStart` fills field by field. -/
structure BLP_HEADER where
  MagicNumber : Nat
  Compression : Nat
  alpha_bits : Nat
  Width : Nat
  Height : Nat
  extra : Nat
  has_mipMaps : Nat
  Offset : List Nat
  Size : List Nat
deriving DecidableEq

/-- The header after `memset(&header, 0, sizeof(BLP_HEADER))`. -/
def BLP_HEADER.zero : BLP_HEADER :=
  { MagicNumber := 0, Compression := 0, alpha_bits := 0, Width := 0, Height := 0,
    extra := 0, has_mipMaps := 0,
    Offset := List.replicate 16 0, Size := List.replicate 16 0 }

/-- The 156-byte memory image of a header (packed, little-endian). -/
def BLP_HEADER.toBytes (h : BLP_HEADER) : List Nat :=
  le32 h.MagicNumber ++ le32 h.Compression ++ le32 h.alpha_bits ++ le32 h.Width
    ++ le32 h.Height ++ le32 h.extra ++ le32 h.has_mipMaps
    ++ (List.range 16).flatMap (fun i => le32 (h.Offset.getD i 0))
    ++ (List.range 16).flatMap (fun i => le32 (h.Size.getD i 0))

/-! ## Host state -/

/-- Modelled from the spec: the opaque seekable byte stream behind
`gFormatRecord->dataFork` (the SDK's `FileUtilities` are not under `src/`): its
bytes, the current position, and the number of bytes the medium can hold. -/
structure File where
  bytes : List Nat
  pos : Nat
  limit : Nat
deriving DecidableEq

/-- The SDK type `VPoint`. -/
structure VPoint where
  v : Int
  h : Int
deriving DecidableEq

/-- The fields of the host's `FormatRecord` that the plug-in reads or writes. -/
structure FormatRecord where
  HostSupports32BitCoordinates : Bool
  PluginUsing32BitCoordinates : Bool
  imageSize : VPoint
  imageSize32 : VPoint
  depth : Int
  imageMode : Int
  planes : Int
  transparencyPlane : Int
  transparencyMatting : Int
  redLUT : List Nat
  greenLUT : List Nat
  blueLUT : List Nat
  imageRsrcSize : Int
  imageRsrcData : Bool
deriving DecidableEq

/-- The plug-in globals `BLPData` of `BLPFormat.h`. -/
structure BLPData where
  needsSwap : Bool
  openAsSmartObject : Bool
  usePOSIX : Bool
  showDialog : Bool
  saveResources : Bool
  mipmapCount : Int
  blpHeader : List Nat
  imageBuffer : Option (List Nat)
deriving DecidableEq

/-- One row of one plane handed to the host by `advanceState` during a read. -/
structure HostRow where
  plane : Nat
  row : Nat
  data : List Nat
deriving DecidableEq

/-- The plug-in's global state: `gFormatRecord`, `gData`, `*gResult`, the file
behind the data fork, and the rows delivered to the host so far. -/
structure Globals where
  file : File
  gResult : Int
  gFormatRecord : FormatRecord
  gData : BLPData
  delivered : List HostRow
deriving DecidableEq

/-- What libjpeg reports for a decompressed frame. -/
structure JpegFrame where
  output_components : Int
  output_width : Int
  output_height : Int
  scanlines : List (List Nat)
  /-- what a read of `buffer[0][i]` finds when `i` lies past the end of the decoded
  row `row` (the memory behind the one-row sample array, which is not defined) -/
  past : Nat → Nat → Nat

/-- Everything outside the plug-in's control. -/
structure Env where
  /-- width of `size_t` in bits -/
  sizeBits : Nat
  /-- whether `malloc` of the given size returns a non-NULL pointer -/
  mallocOk : Int → Bool
  /-- whether `sPSBuffer->New` of the given size returns a non-NULL pointer -/
  bufferNewOk : Nat → Bool
  /-- the result of the host's `advanceState`, by the number of earlier calls -/
  advanceState : Nat → Int
  /-- the row the host places in `pixelData` for a plane and a row on write -/
  hostRow : Nat → Nat → List Nat
  /-- the prior contents of the stack array `uint8 palette[256 * 4]` -/
  stackPalette : List Nat
  /-- libjpeg decompression of a bitstream; `none` is the `error_exit` path -/
  jpeg_decompress : List Nat → Option JpegFrame
  /-- libjpeg compression of `image_height` scanlines of `image_width` four-sample
  pixels (CMYK input, quality 85, no JFIF or Adobe marker) -/
  jpeg_compress : Int → Int → List (List Nat) → List Nat
  /-- the routine `ResizeImage` (it computes its windows in `float`) -/
  ResizeImage : List Nat → Int → Int → Int → Int → List Nat

/-! ## Host file I/O -/

/-- Modelled from the spec: `PSSDKSetFPos` with `fsFromStart` (the SDK's
`FileUtilities` are not under `src/`): the seek `seek(absolute_offset)` of the
byte cursor, which moves the position and succeeds. -/
def PSSDKSetFPos (f : File) (off : Nat) : Int × File :=
  (noErr, { f with pos := off })

/-- Modelled from the spec: `PSSDKRead` (the SDK's `FileUtilities` are not under
`src/`): reads the bytes available at the position, up to `count`, and reports
how many it read; a count below zero reads nothing. -/
def PSSDKRead (f : File) (count : Int) : Int × Int × List Nat × File :=
  let got := (f.bytes.drop f.pos).take count.toNat
  (noErr, (got.length : Int), got, { f with pos := f.pos + got.length })

/-- Modelled from the spec: `PSSDKWrite` (the SDK's `FileUtilities` are not under
`src/`): stores at the position as many of the bytes as the medium has room for,
and reports how many it wrote. -/
def PSSDKWrite (f : File) (count : Int) (data : List Nat) : Int × Int × File :=
  let put := (data.take count.toNat).take (f.limit - f.pos)
  (noErr, (put.length : Int),
    { f with bytes := writeAt f.bytes f.pos put, pos := f.pos + put.length })

/-- The statement `*gResult = PSSDKSetFPos (..., fsFromStart, off)`. -/
def setFPos (g : Globals) (off : Nat) : Globals :=
  { g with gResult := (PSSDKSetFPos g.file off).1, file := (PSSDKSetFPos g.file off).2 }

/-- The routine `ReadSome (count, buffer)`: nothing happens when an error is
already latched; otherwise the bytes read are stored in the buffer and a short
count becomes `eofErr`.  Returns the globals and the buffer. -/
def ReadSome (count : Int) (buffer : List Nat) (g : Globals) : Globals × List Nat :=
  if g.gResult ≠ noErr then (g, buffer)
  else
    let r := PSSDKRead g.file count
    let res := if r.1 = noErr ∧ r.2.1 ≠ count then eofErr else r.1
    ({ g with gResult := res, file := r.2.2.2 }, overlay r.2.2.1 buffer)

/-- The routine `WriteSome (count, buffer)`: nothing happens when an error is
already latched; otherwise a short count becomes `dskFulErr`. -/
def WriteSome (count : Int) (buffer : List Nat) (g : Globals) : Globals :=
  if g.gResult ≠ noErr then g
  else
    let r := PSSDKWrite g.file count buffer
    let res := if r.1 = noErr ∧ r.2.1 ≠ count then dskFulErr else r.1
    { g with gResult := res, file := r.2.2 }

/-! ## Image size helpers -/

/-- The routine `GetFormatImageSize`. -/
def GetFormatImageSize (fr : FormatRecord) : VPoint :=
  if fr.HostSupports32BitCoordinates && fr.PluginUsing32BitCoordinates then
    { v := fr.imageSize32.v, h := fr.imageSize32.h }
  else
    { v := fr.imageSize.v, h := fr.imageSize.h }

/-- The routine `SetFormatImageSize`. -/
def SetFormatImageSize (inPoint : VPoint) (fr : FormatRecord) : FormatRecord :=
  if fr.HostSupports32BitCoordinates && fr.PluginUsing32BitCoordinates then
    { fr with imageSize32 := { v := inPoint.v, h := inPoint.h } }
  else
    { fr with imageSize := { v := toInt16 inPoint.v, h := toInt16 inPoint.h } }

/-- The routine `RowBytes`: `(imageSize.h * depth + 7) >> 3` as an `unsigned32`. -/
def RowBytes (fr : FormatRecord) : Nat :=
  toUInt32 (toInt32 ((GetFormatImageSize fr).h * fr.depth + 7) / 8)

/-- The routine `DisposeImageResources`. -/
def DisposeImageResources (fr : FormatRecord) : FormatRecord :=
  if fr.imageRsrcData then { fr with imageRsrcData := false, imageRsrcSize := 0 } else fr

/-! ## Reading: `DoReadStart` -/

/-- The expression `(Offset[0] - sizeof(BLP_HEADER)) / 4` stored in an `int32` and
clamped by `if (paletteSize > 256) paletteSize = 256`.  The subtraction and the
division are unsigned, in `size_t` of `sizeBits` bits. -/
def paletteSize (sizeBits : Nat) (offset0 : Nat) : Int :=
  let p := toInt32 ((((offset0 : Int) - 156) % (2 : Int) ^ sizeBits) / 4)
  if p > 256 then 256 else p

/-- The loop of `DoReadStart` that loads one colour table from the palette:
entry `i` receives `palette[i*4 + k]` for `i < paletteSize`. -/
def loadLUT (palette : List Nat) (n : Int) (k : Nat) (lut : List Nat) : List Nat :=
  overlay ((List.range n.toNat).map (fun i => palette.getD (i * 4 + k) 0)) lut

/-- The closing statements of `DoReadStart`, reached by the branches that do not
return: `transparencyMatting = DESIREDMATTING`, `imageRsrcSize = 0`,
`imageRsrcData = NULL`. -/
def readStartFinish (g : Globals) : Globals :=
  { g with gFormatRecord :=
      { g.gFormatRecord with transparencyMatting := DESIREDMATTING,
                             imageRsrcSize := 0, imageRsrcData := false } }

/-- The routine `DoReadStart`. -/
def DoReadStart (env : Env) (g : Globals) : Globals :=
  let g1 := setFPos g 0
  if g1.gResult ≠ noErr then g1
  else
    let rd := ReadSome 156 g1.gData.blpHeader g1
    let g2 : Globals := { rd.1 with gData := { rd.1.gData with blpHeader := rd.2 } }
    if g2.gResult ≠ noErr then g2
    else
      let hdr := g2.gData.blpHeader
      if magicMismatch hdr then { g2 with gResult := formatCannotRead }
      else
        let g3 : Globals := { g2 with gData := { g2.gData with needsSwap := false } }
        let imageSize : VPoint :=
          { v := toInt32 (hdrHeight hdr), h := toInt32 (hdrWidth hdr) }
        let fr0 := { SetFormatImageSize imageSize g3.gFormatRecord with depth := 8 }
        if hdrCompression hdr = BLP_COMPRESSION_DIRECT then
          if hdrAlphaBits hdr > 0 then
            readStartFinish { g3 with gFormatRecord :=
              { fr0 with imageMode := plugInModeRGBColor, planes := 4,
                         transparencyPlane := -1 } }
          else
            let fr1 := { fr0 with imageMode := plugInModeIndexedColor, planes := 1,
                                  transparencyPlane := -1 }
            let n := paletteSize env.sizeBits (hdrOffset hdr 0)
            let rp := ReadSome (n * 4) env.stackPalette { g3 with gFormatRecord := fr1 }
            if rp.1.gResult ≠ noErr then rp.1
            else
              let palette := rp.2
              readStartFinish { rp.1 with gFormatRecord :=
                { rp.1.gFormatRecord with
                    blueLUT := loadLUT palette n 0 rp.1.gFormatRecord.blueLUT,
                    greenLUT := loadLUT palette n 1 rp.1.gFormatRecord.greenLUT,
                    redLUT := loadLUT palette n 2 rp.1.gFormatRecord.redLUT } }
        else if hdrCompression hdr = BLP_COMPRESSION_JPEG then
          readStartFinish { g3 with gFormatRecord :=
            { fr0 with imageMode := plugInModeRGBColor, planes := 4,
                       transparencyPlane := -1 } }
        else { g3 with gFormatRecord := fr0, gResult := formatCannotRead }

/-! ## Reading: `DoReadContinue` -/

/-- The assignment of a buffer (or of NULL) to `gData->imageBuffer`. -/
def setImageBuffer (g : Globals) (buf : Option (List Nat)) : Globals :=
  { g with gData := { g.gData with imageBuffer := buf } }

/-- The value of `a` in the loop "4. Fill imageBuffer" of the DIRECT branch for
pixel `i`: 255 unless `alpha_bits` is 8, 1 or 4, when it is read from the packed
alpha plane. -/
def directAlpha (alpha : List Nat) (alpha_bits : Nat) (i : Nat) : Nat :=
  if alpha_bits > 0 then
    if alpha_bits = 8 then alpha.getD i 0
    else if alpha_bits = 1 then
      (if alpha.getD (i / 8) 0 &&& (1 <<< (i % 8)) ≠ 0 then 255 else 0)
    else if alpha_bits = 4 then
      let byte := alpha.getD (i / 2) 0
      let val := (if i % 2 = 0 then byte >>> 4 else byte &&& 0x0F) % 256
      ((val <<< 4) ||| val) % 256
    else 255
  else 255

/-- One pass of the loop "4. Fill imageBuffer" of the DIRECT branch: the bytes
`r, g, b, a` stored at `imageBuffer[i*4 ..]` for pixel `i`. -/
def directPixel (palette indices alpha : List Nat) (alpha_bits : Nat) (i : Nat) : List Nat :=
  let idx := indices.getD i 0
  let r := palette.getD (idx * 4 + 2) 0
  let g := palette.getD (idx * 4 + 1) 0
  let b := palette.getD (idx * 4 + 0) 0
  [r, g, b, directAlpha alpha alpha_bits i]

/-- The DIRECT branch of `DoReadContinue`, entered with `imageBuffer` allocated and
zeroed.  `Except.error` is an early `return` (the state it leaves), `Except.ok`
falls through to the delivery of the rows. -/
def readDirect (env : Env) (width height : Int) (g : Globals) : Except Globals Globals :=
  let hdr := g.gData.blpHeader
  let n := paletteSize env.sizeBits (hdrOffset hdr 0)
  let rp := ReadSome (n * 4) env.stackPalette (setFPos g sizeofHeader)
  if rp.1.gResult ≠ noErr then .error rp.1
  else
    let palette := rp.2
    let g2 := setFPos rp.1 (hdrOffset hdr 0)
    if g2.gResult ≠ noErr then .error g2
    else
      let npix := toInt32 (width * height)
      if !env.mallocOk npix then .error { g2 with gResult := memFullErr }
      else
        let ri := ReadSome npix [] g2
        if ri.1.gResult ≠ noErr then .error ri.1
        else
          let indices := ri.2
          let alpha_bits := hdrAlphaBits hdr
          let fill (g3 : Globals) (alpha : List Nat) : Globals :=
            setImageBuffer g3 (some (overlay
              ((List.range npix.toNat).flatMap (directPixel palette indices alpha alpha_bits))
              (g3.gData.imageBuffer.getD [])))
          if alpha_bits > 0 then
            let alphaSize : Int := ((toUInt32 npix * alpha_bits + 7) % 4294967296 / 8 : Nat)
            if !env.mallocOk alphaSize then .error { ri.1 with gResult := memFullErr }
            else
              let ra := ReadSome alphaSize [] ri.1
              if ra.1.gResult ≠ noErr then .error ra.1
              else .ok (fill ra.1 ra.2)
          else .ok (fill ri.1 [])

/-- The copy of one decoded scanline into `imageBuffer` (the body of the
`jpeg_read_scanlines` loop).  The fallback reads `buffer[0][x*3 + k]` whatever the
number of components: for a frame of fewer than three components these reads run
past the decoded row, and they find `fr.past`. -/
def jpegRow (width height : Int) (fr : JpegFrame) (buf : List Nat) (row : Nat) : List Nat :=
  if (row : Int) ≥ height then buf
  else
    let line := fr.scanlines.getD row []
    let ncopy := (if width < toInt32 fr.output_width then width else toInt32 fr.output_width).toNat
    let dst := row * width.toNat * 4
    if fr.output_components = 4 then writeAt buf dst (line.take (ncopy * 4))
    else
      writeAt buf dst ((List.range ncopy).flatMap (fun x =>
        [line.getD (x * 3 + 0) (fr.past row (x * 3 + 0)),
         line.getD (x * 3 + 1) (fr.past row (x * 3 + 1)),
         line.getD (x * 3 + 2) (fr.past row (x * 3 + 2)), 255]))

/-- One pass of the loop "Swap R and B (Component 0 and 2)": the four bytes of
pixel `i` afterwards. -/
def swapPixel (buf : List Nat) (i : Nat) : List Nat :=
  [buf.getD (i * 4 + 2) 0, buf.getD (i * 4 + 1) 0, buf.getD (i * 4 + 0) 0,
   buf.getD (i * 4 + 3) 0]

/-- The JPEG branch of `DoReadContinue`, entered with `imageBuffer` allocated and
zeroed; `Except.error` is an early `return`. -/
def readJpeg (env : Env) (width height : Int) (g : Globals) : Except Globals Globals :=
  let hdr := g.gData.blpHeader
  let rh := ReadSome 4 [] (setFPos g sizeofHeader)
  if rh.1.gResult ≠ noErr then .error rh.1
  else
    let headerSize := u32le rh.2 0
    let dataSize := hdrSize hdr 0
    let fullSize := (headerSize + dataSize) % 4294967296
    if !env.mallocOk fullSize then .error { rh.1 with gResult := memFullErr }
    else
      let r1 := ReadSome (toInt32 headerSize) [] rh.1
      if r1.1.gResult ≠ noErr then .error r1.1
      else
        let r2 := ReadSome (toInt32 dataSize) [] (setFPos r1.1 (hdrOffset hdr 0))
        if r2.1.gResult ≠ noErr then .error r2.1
        else
          let fullJpg := (r1.2 ++ r2.2).take fullSize
          match env.jpeg_decompress fullJpg with
          | none => .error { r2.1 with gResult := formatCannotRead }
          | some fr =>
            let buf0 := r2.1.gData.imageBuffer.getD []
            let buf1 := (List.range fr.output_height.toNat).foldl (jpegRow width height fr) buf0
            let npix := toInt32 (width * height)
            let buf2 := overlay ((List.range npix.toNat).flatMap (swapPixel buf1)) buf1
            .ok (setImageBuffer r2.1 (some buf2))

/-- The block "Load and Decode Image Data if not already done" of
`DoReadContinue`; `Except.error` is an early `return`. -/
def loadImage (env : Env) (g : Globals) : Except Globals Globals :=
  match g.gData.imageBuffer with
  | some _ => .ok g
  | none =>
    let imageSize := GetFormatImageSize g.gFormatRecord
    let width := imageSize.h
    let height := imageSize.v
    let size := toInt32 (toInt32 (width * height) * 4)
    if !env.mallocOk size then .error { g with gResult := memFullErr }
    else
      let g1 := setImageBuffer g (some (List.replicate size.toNat 0))
      if hdrCompression g.gData.blpHeader = BLP_COMPRESSION_DIRECT then
        readDirect env width height g1
      else if hdrCompression g.gData.blpHeader = BLP_COMPRESSION_JPEG then
        readJpeg env width height g1
      else .ok g1

/-- The body of the row loop of `DoReadContinue`: one row of one plane is copied
out of `imageBuffer` and handed to the host.  The second component counts the
calls of `advanceState` (the variable `done`). -/
def readRow (env : Env) (h planes : Int) (buf : List Nat) (plane : Nat)
    (st : Globals × Nat) (row : Nat) : Globals × Nat :=
  if st.1.gResult ≠ noErr then st
  else
    let srcRow := buf.drop (row * h.toNat * 4)
    let data := (List.range h.toNat).map
      (fun col => srcRow.getD (col * 4 + (if planes = 1 then 0 else plane)) 0)
    ({ st.1 with gResult := env.advanceState st.2,
                 delivered := st.1.delivered ++ [{ plane := plane, row := row, data := data }] },
     st.2 + 1)

/-- The body of the plane loop of `DoReadContinue`. -/
def readPlane (env : Env) (h v planes : Int) (buf : List Nat)
    (st : Globals × Nat) (plane : Nat) : Globals × Nat :=
  if st.1.gResult ≠ noErr then st
  else (List.range v.toNat).foldl (readRow env h planes buf plane) st

/-- The routine `DoReadContinue`. -/
def DoReadContinue (env : Env) (g : Globals) : Globals :=
  let g0 : Globals := { g with gFormatRecord := DisposeImageResources g.gFormatRecord }
  match loadImage env g0 with
  | .error ge => ge
  | .ok g1 =>
    let imageSize := GetFormatImageSize g1.gFormatRecord
    if !env.bufferNewOk (RowBytes g1.gFormatRecord) then { g1 with gResult := memFullErr }
    else
      let buf := g1.gData.imageBuffer.getD []
      let st := (List.range g1.gFormatRecord.planes.toNat).foldl
        (readPlane env imageSize.h imageSize.v g1.gFormatRecord.planes buf) (g1, 0)
      setImageBuffer st.1 none

/-! ## Options: `DoOptionsStart` and the save dialog -/

/-- The loop `while (maxDim > 1 && calculatedMips < 16) { maxDim /= 2;
calculatedMips++; }`, by the number of passes still allowed. -/
def optionsLoop : Nat → Int → Int → Int
  | 0, _, calculatedMips => calculatedMips
  | fuel + 1, maxDim, calculatedMips =>
    if maxDim > 1 ∧ calculatedMips < 16 then
      optionsLoop fuel (maxDim.tdiv 2) (calculatedMips + 1)
    else calculatedMips

/-- The routine `DoOptionsStart`: it stores the level count in
`gData->mipmapCount`.  The loop runs at most 15 times.  The size is read from
`gFormatRecord->imageSize`, the legacy `Point` whose fields are 16 bits wide. -/
def DoOptionsStart (g : Globals) : Globals :=
  let w := toInt16 g.gFormatRecord.imageSize.h
  let h := toInt16 g.gFormatRecord.imageSize.v
  let maxDim := if w > h then w else h
  let calculatedMips := optionsLoop 15 maxDim 1
  let mipmapCount : Int := if 16 > calculatedMips then calculatedMips else 16
  { g with gData := { g.gData with mipmapCount := mipmapCount } }

/-- The clamping of `BLPSaveDialog::Notify` applied to the number the user typed
(`atoi` of the edit text). -/
def Notify (typed : Int) : Int :=
  let m := if typed < 0 then 0 else typed
  if m > 16 then 16 else m

/-! ## Writing: `DoWriteStart` -/

/-- The computation of `dstIdx` in the copy loop of `DoWriteStart`. -/
def writeDstIdx (planes transparencyPlane : Int) (plane : Nat) : Int :=
  let targetAlphaPlane : Int := if planes > 4 ∧ transparencyPlane = 3 then 4 else 3
  if plane = 0 then 0
  else if plane = 1 then 1
  else if plane = 2 then 2
  else if (plane : Int) = targetAlphaPlane then 3
  else -1

/-- The stores of the copy loop of `DoWriteStart` for one column: `px` are the
four bytes of the pixel before, `val` is `srcRow[col]`. -/
def writePixel (planes transparencyPlane : Int) (plane : Nat) (val : Nat)
    (px : List Nat) : List Nat :=
  if planes = 1 then overlay [val, val, val, 255] px
  else if writeDstIdx planes transparencyPlane plane ≠ -1 then
    let px1 := px.set (writeDstIdx planes transparencyPlane plane).toNat val
    if planes = 3 ∧ plane = 0 then px1.set 3 255 else px1
  else px

/-- The copy of one row of one plane from `pixelData` into `imageBuffer`. -/
def storeRow (planes transparencyPlane width : Int) (plane row : Nat)
    (srcRow buf : List Nat) : List Nat :=
  let base := row * width.toNat * 4
  writeAt buf base ((List.range width.toNat).flatMap (fun col =>
    writePixel planes transparencyPlane plane (srcRow.getD col 0)
      ((buf.drop (base + col * 4)).take 4)))

/-- The body of the row loop of `DoWriteStart`: the host fills `pixelData`, the
row is copied.  The second component counts the calls of `advanceState`. -/
def writeRow (env : Env) (planes transparencyPlane width : Int) (plane : Nat)
    (st : Globals × Nat) (row : Nat) : Globals × Nat :=
  if st.1.gResult ≠ noErr then st
  else
    let buf := storeRow planes transparencyPlane width plane row (env.hostRow plane row)
      (st.1.gData.imageBuffer.getD [])
    (setImageBuffer { st.1 with gResult := env.advanceState st.2 } (some buf), st.2 + 1)

/-- The body of the plane loop of `DoWriteStart`. -/
def writePlane (env : Env) (planes transparencyPlane width height : Int)
    (st : Globals × Nat) (plane : Nat) : Globals × Nat :=
  if st.1.gResult ≠ noErr then st
  else (List.range height.toNat).foldl (writeRow env planes transparencyPlane width plane) st

/-- The state of the "Mipmap Loop" of `DoWriteStart`: the globals, the local
`header`, the loop variables, and the dimensions handed to the JPEG compressor so
far (`image_width`, `image_height` of each `jpeg_start_compress`). -/
structure MipState where
  g : Globals
  header : BLP_HEADER
  mipLevel : Nat
  curW : Int
  curH : Int
  curBuffer : List Nat
  currentOffset : Nat
  levels : List (Int × Int)

/-- The assignments `header.Offset[i] = off; header.Size[i] = size`. -/
def setSlot (h : BLP_HEADER) (i off size : Nat) : BLP_HEADER :=
  { h with Offset := h.Offset.set i off, Size := h.Size.set i size }

/-- The inner loop "Fill remaining with 0": slots `start .. 15` are zeroed. -/
def zeroFrom (h : BLP_HEADER) (start : Nat) : BLP_HEADER :=
  (List.range (16 - start)).foldl (fun hd k => setSlot hd (start + k) 0 0) h

/-- The scanlines handed to `jpeg_write_scanlines`: for each row, the samples
`b, g, r, a` of each of its `curW` pixels, where `r, g, b, a` are the bytes
`src[i*4 + 0 .. 3]`. -/
def scanlines (curBuffer : List Nat) (curW curH : Int) : List (List Nat) :=
  (List.range curH.toNat).map (fun y =>
    (List.range curW.toNat).flatMap (fun i =>
      let src := curBuffer.drop (y * curW.toNat * 4)
      let r := src.getD (i * 4 + 0) 0
      let g := src.getD (i * 4 + 1) 0
      let b := src.getD (i * 4 + 2) 0
      let a := src.getD (i * 4 + 3) 0
      [b, g, r, a]))

/-- One pass of the "Mipmap Loop" `while (mipLevel < 16)` of `DoWriteStart`. -/
def mipStep (env : Env) (maxMips : Int) (s : MipState) : MipState :=
  if (s.mipLevel : Int) ≥ maxMips then
    { s with header := setSlot s.header s.mipLevel 0 0, mipLevel := s.mipLevel + 1 }
  else
    let curW := if s.curW = 0 then 1 else s.curW
    let curH := if s.curH = 0 then 1 else s.curH
    let jpgBuffer := env.jpeg_compress curW curH (scanlines s.curBuffer curW curH)
    let jpgSize := jpgBuffer.length
    let header := setSlot s.header s.mipLevel s.currentOffset (jpgSize % 4294967296)
    let g := WriteSome (toInt32 jpgSize) jpgBuffer s.g
    let currentOffset := (s.currentOffset + jpgSize) % 4294967296
    let nextW := if curW.tdiv 2 < 1 then 1 else curW.tdiv 2
    let nextH := if curH.tdiv 2 < 1 then 1 else curH.tdiv 2
    if (nextW = curW ∧ nextH = curH) ∧ (curW = 1 ∧ curH = 1) then
      { g := g, header := zeroFrom header (s.mipLevel + 1), mipLevel := 16,
        curW := curW, curH := curH, curBuffer := s.curBuffer,
        currentOffset := currentOffset, levels := s.levels ++ [(curW, curH)] }
    else
      { g := g, header := header, mipLevel := s.mipLevel + 1,
        curW := nextW, curH := nextH,
        curBuffer := env.ResizeImage s.curBuffer curW curH nextW nextH,
        currentOffset := currentOffset, levels := s.levels ++ [(curW, curH)] }

/-- The loop `while (mipLevel < 16)`, by the number of passes still allowed. -/
def mipLoop (env : Env) (maxMips : Int) : Nat → MipState → MipState
  | 0, s => s
  | fuel + 1, s => if s.mipLevel < 16 then mipLoop env maxMips fuel (mipStep env maxMips s) else s

/-- What a run of `DoWriteStart` leaves: the globals, the local `header` as last
assigned, and the dimensions of the levels handed to the JPEG compressor. -/
structure WriteResult where
  g : Globals
  header : BLP_HEADER
  levels : List (Int × Int)

/-- The first part of `DoWriteStart`, up to `if (*gResult != noErr) return;`: the
whole-image buffer is allocated (filled with 255) unless one is there, the row
buffer is allocated, and the host's planes are copied row by row into
`gData->imageBuffer`.  `Except.error` is an early `return`. -/
def gatherPlanes (env : Env) (g : Globals) : Except Globals Globals :=
  let imageSize := GetFormatImageSize g.gFormatRecord
  let width := imageSize.h
  let height := imageSize.v
  let planes := g.gFormatRecord.planes
  let size := toInt32 (toInt32 (width * height) * 4)
  if g.gData.imageBuffer = none ∧ env.mallocOk size = false then
    .error { g with gResult := memFullErr }
  else
    let g0 := if g.gData.imageBuffer = none
      then setImageBuffer g (some (List.replicate size.toNat 255)) else g
    if !env.bufferNewOk (RowBytes g0.gFormatRecord) then
      .error { g0 with gResult := memFullErr }
    else
      let g1 : Globals :=
        { g0 with gFormatRecord :=
            { g0.gFormatRecord with transparencyMatting := DESIREDMATTING } }
      let st := (List.range planes.toNat).foldl
        (writePlane env planes g1.gFormatRecord.transparencyPlane width height) (g1, 0)
      if st.1.gResult ≠ noErr then .error st.1 else .ok st.1

/-- The state in which `DoWriteStart` enters its mipmap loop. -/
def mipStart (g : Globals) (header : BLP_HEADER) (width height : Int) : MipState :=
  { g := g, header := header, mipLevel := 0, curW := width, curH := height,
    curBuffer := g.gData.imageBuffer.getD [], currentOffset := sizeofHeader + 4,
    levels := [] }

/-- The second part of `DoWriteStart`, from "Prepare Header" on: the placeholder
header and the shared-header length are written, the mipmap loop runs with
`maxMips = 16`, the header is rewritten and the image buffer released.  Every pass
of the loop raises `mipLevel`, so 16 passes exhaust it. -/
def writeLevels (env : Env) (g2 : Globals) (width height planes : Int) : WriteResult :=
  let header : BLP_HEADER :=
    { BLP_HEADER.zero with
        MagicNumber := 0x31504C42, Width := toUInt32 width,
        Height := toUInt32 height, Compression := BLP_COMPRESSION_JPEG,
        alpha_bits := if planes ≥ 4 then 8 else 0,
        extra := 4, has_mipMaps := 1 }
  let g3 := setFPos g2 0
  if g3.gResult ≠ noErr then { g := g3, header := header, levels := [] }
  else
    let g4 := WriteSome 156 header.toBytes g3
    let g5 := WriteSome 4 (le32 0) g4
    let maxMips : Int := 16
    let s := mipLoop env maxMips 16 (mipStart g5 header width height)
    let g6 := setFPos s.g 0
    if g6.gResult ≠ noErr then { g := g6, header := s.header, levels := s.levels }
    else
      { g := setImageBuffer (WriteSome 156 s.header.toBytes g6) none,
        header := s.header, levels := s.levels }

/-- The routine `DoWriteStart`. -/
def DoWriteStart (env : Env) (g : Globals) : WriteResult :=
  match gatherPlanes env g with
  | .error ge => { g := ge, header := BLP_HEADER.zero, levels := [] }
  | .ok g2 =>
    writeLevels env g2 (GetFormatImageSize g.gFormatRecord).h
      (GetFormatImageSize g.gFormatRecord).v g.gFormatRecord.planes

/-! ## Probing: `DoFilterFile` -/

/-- The routine `DoFilterFile`. -/
def DoFilterFile (g : Globals) : Globals :=
  if g.gResult ≠ noErr then g
  else
    let g1 := setFPos g 0
    if g1.gResult ≠ noErr then g1
    else
      let rd := ReadSome 156 [] g1
      if rd.1.gResult ≠ noErr then rd.1
      else if magicMismatch rd.2 then { rd.1 with gResult := formatCannotRead }
      else rd.1

/-! ## Sample inputs -/

/-- A host in which every allocation and every `advanceState` succeeds, with a
64-bit `size_t`, a zeroed stack, and stand-ins for libjpeg and `ResizeImage`. -/
def sampleEnv : Env :=
  { sizeBits := 64, mallocOk := fun _ => true, bufferNewOk := fun _ => true,
    advanceState := fun _ => noErr, hostRow := fun _ _ => [],
    stackPalette := List.replicate 1024 0,
    jpeg_decompress := fun _ => none,
    jpeg_compress := fun _ _ _ => [0xFF, 0xD8, 0xFF, 0xD9],
    ResizeImage := fun _ _ _ w h => List.replicate (w * h * 4).toNat 0 }

/-- A format record before any selector has run, on a host with 32-bit
coordinates. -/
def sampleRecord : FormatRecord :=
  { HostSupports32BitCoordinates := true, PluginUsing32BitCoordinates := true,
    imageSize := { v := 0, h := 0 }, imageSize32 := { v := 0, h := 0 },
    depth := 0, imageMode := 0, planes := 0, transparencyPlane := 0,
    transparencyMatting := 0, redLUT := List.replicate 256 0,
    greenLUT := List.replicate 256 0, blueLUT := List.replicate 256 0,
    imageRsrcSize := 0, imageRsrcData := false }

/-- The globals as `PluginMain` sets them up (`memset(gData, 0, ...)`) over a file
with the given bytes. -/
def sampleGlobals (bytes : List Nat) : Globals :=
  { file := { bytes := bytes, pos := 0, limit := 4294967296 }, gResult := noErr,
    gFormatRecord := sampleRecord,
    gData := { needsSwap := false, openAsSmartObject := false, usePOSIX := false,
               showDialog := false, saveResources := false, mipmapCount := 0,
               blpHeader := List.replicate 156 0, imageBuffer := none },
    delivered := [] }

/-- A DIRECT-mode file: header, palette, index plane, packed alpha plane. -/
def directFile (alpha_bits width height : Nat) (palette indices alpha : List Nat) : List Nat :=
  ({ BLP_HEADER.zero with
      MagicNumber := 0x31504C42, Compression := BLP_COMPRESSION_DIRECT,
      alpha_bits := alpha_bits, Width := width, Height := height,
      Offset := (156 + palette.length) :: List.replicate 15 0,
      Size := (indices.length + alpha.length) :: List.replicate 15 0 }).toBytes
    ++ palette ++ indices ++ alpha

/-- The raster `gData->imageBuffer` that the load block of `DoReadContinue` builds,
when it does not return early. -/
def loadedBuffer (env : Env) (g : Globals) : Option (List Nat) :=
  match loadImage env g with
  | .ok g1 => g1.gData.imageBuffer
  | .error _ => none

/-- Scenario E1 of the spec: a 2x2 image over a four-entry palette, no alpha. -/
def fileE1 : List Nat :=
  directFile 0 2 2 [0, 0, 255, 0, 0, 255, 0, 0, 255, 0, 0, 0, 255, 255, 255, 0] [0, 1, 2, 3] []

/-- The state after `DoReadStart` on scenario E1. -/
def stateE1 : Globals := DoReadStart sampleEnv (sampleGlobals fileE1)

/-- A 2x1 image over a two-entry palette with an 8-bit alpha plane. -/
def fileA8 : List Nat :=
  directFile 8 2 1 [10, 20, 30, 99, 40, 50, 60, 77] [1, 0] [200, 7]

/-- The state after `DoReadStart` on `fileA8`. -/
def stateA8 : Globals := DoReadStart sampleEnv (sampleGlobals fileA8)

/-- Scenario E2 of the spec: an 8x1 image whose packed 1-bit alpha plane is the
byte `0x55`. -/
def fileE2 : List Nat :=
  directFile 1 8 1 [10, 20, 30, 0] [0, 0, 0, 0, 0, 0, 0, 0] [0x55]

/-- The state after `DoReadStart` on scenario E2. -/
def stateE2 : Globals := DoReadStart sampleEnv (sampleGlobals fileE2)

/-- Scenario E3 of the spec: two pixels whose packed 4-bit alpha plane is the byte
`0xA3`. -/
def fileE3 : List Nat :=
  directFile 4 2 1 [10, 20, 30, 0] [0, 0] [0xA3]

/-- The state after `DoReadStart` on scenario E3. -/
def stateE3 : Globals := DoReadStart sampleEnv (sampleGlobals fileE3)

/-- The alpha bytes of the first `n` pixels of an RGBA raster. -/
def alphasOf (buf : Option (List Nat)) (n : Nat) : List Nat :=
  (List.range n).map (fun i => (buf.getD []).getD (4 * i + 3) 0)

/-- Scenario E6 of the spec: a 156-byte header that begins `'B','L','P','2'`. -/
def fileE6 : List Nat := [0x42, 0x4C, 0x50, 0x32] ++ List.replicate 152 0

/-- A stream that holds the magic `'B','L','P','1'` and nothing else. -/
def fileMagicOnly : List Nat := [0x42, 0x4C, 0x50, 0x31]

/-- A DIRECT-mode 1x1 file whose `alpha_bits` field is 2. -/
def fileAlpha2 : List Nat := directFile 2 1 1 [10, 20, 30, 0] [0] [0xFF]

/-- A 156-byte header with the magic `'B','L','P','1'` and `Compression = 2`. -/
def fileComp2 : List Nat :=
  ({ BLP_HEADER.zero with MagicNumber := 0x31504C42, Compression := 2,
                          Width := 1, Height := 1 }).toBytes

/-- The globals with which the host calls `DoWriteStart` for an image of
`width x height` pixels in `planes` planes, with an empty output file and
`gData->mipmapCount` as given. -/
def writeGlobals (width height planes mipmapCount : Int) : Globals :=
  { file := { bytes := [], pos := 0, limit := 4294967296 }, gResult := noErr,
    gFormatRecord :=
      { sampleRecord with imageSize32 := { v := height, h := width }, depth := 8,
                          planes := planes },
    gData := { needsSwap := false, openAsSmartObject := false, usePOSIX := false,
               showDialog := false, saveResources := false, mipmapCount := mipmapCount,
               blpHeader := List.replicate 156 0, imageBuffer := none },
    delivered := [] }

/-! ## The bitstreams of a run of `DoWriteStart` -/

/-- The header of `DoWriteStart` after "Prepare Header": the scalar fields are
set, the offset and size tables are still zero. -/
def preparedHeader (width height planes : Int) : BLP_HEADER :=
  { BLP_HEADER.zero with
      MagicNumber := 0x31504C42, Width := toUInt32 width,
      Height := toUInt32 height, Compression := BLP_COMPRESSION_JPEG,
      alpha_bits := if planes ≥ 4 then 8 else 0,
      extra := 4, has_mipMaps := 1 }

/-- The state in which the mipmap loop of `DoWriteStart` is entered when the
planes were gathered in `g2`: after the seek to 0, the write of the placeholder
header and the write of the shared-header length 0. -/
def loopStart (g2 : Globals) (width height planes : Int) : MipState :=
  mipStart
    (WriteSome 4 (le32 0)
      (WriteSome 156 (preparedHeader width height planes).toBytes (setFPos g2 0)))
    (preparedHeader width height planes) width height

/-- The bitstream `jpgBuffer` that a pass of the mipmap loop entered in state `s`
obtains from the compressor. -/
def passStream (env : Env) (s : MipState) : List Nat :=
  let curW := if s.curW = 0 then 1 else s.curW
  let curH := if s.curH = 0 then 1 else s.curH
  env.jpeg_compress curW curH (scanlines s.curBuffer curW curH)

/-- The bitstreams obtained by the passes of the mipmap loop, in order (a pass
with `mipLevel >= maxMips` compresses nothing). -/
def mipStreams (env : Env) (maxMips : Int) : Nat → MipState → List (List Nat)
  | 0, _ => []
  | fuel + 1, s =>
    if s.mipLevel < 16 then
      (if (s.mipLevel : Int) ≥ maxMips then [] else [passStream env s])
        ++ mipStreams env maxMips fuel (mipStep env maxMips s)
    else []

/-- The bitstreams `s_0, s_1, ...` that a run of `DoWriteStart` obtains from the
compressor, one per generated level (none when the run returns before the loop). -/
def writtenStreams (env : Env) (g : Globals) : List (List Nat) :=
  match gatherPlanes env g with
  | .error _ => []
  | .ok g2 =>
    mipStreams env 16 16
      (loopStart g2 (GetFormatImageSize g.gFormatRecord).h
        (GetFormatImageSize g.gFormatRecord).v g.gFormatRecord.planes)

/-- The seven scalar fields of a header, in the order of the structure. -/
def scalars (h : BLP_HEADER) : List Nat :=
  [h.MagicNumber, h.Compression, h.alpha_bits, h.Width, h.Height, h.extra, h.has_mipMaps]

/-- The sum of the lengths of the first `k` bitstreams. -/
def sizeBefore (streams : List (List Nat)) (k : Nat) : Nat :=
  ((streams.take k).map List.length).sum

/-! ## Sample inputs for the written header -/

/-- The raster `gData->imageBuffer` that the first part of `DoWriteStart` gathers
from the host's planes, when it does not return early. -/
def gatheredBuffer (env : Env) (g : Globals) : Option (List Nat) :=
  match gatherPlanes env g with
  | .ok g2 => g2.gData.imageBuffer
  | .error _ => none

/-- A host like `sampleEnv` whose image is fully opaque: every row of plane 3 (the
alpha plane) holds 255 in each column, the rows of the colour planes hold 7. -/
def opaqueEnv : Env :=
  { sampleEnv with hostRow := fun plane _ => List.replicate 8 (if plane = 3 then 255 else 7) }

/-- A DIRECT-mode 1x1 file with an 8-bit alpha plane whose header has
`extra = 5` and `has_mipMaps = 0`. -/
def fileFlags : List Nat :=
  ({ BLP_HEADER.zero with
      MagicNumber := 0x31504C42, Compression := BLP_COMPRESSION_DIRECT,
      alpha_bits := 8, Width := 1, Height := 1, extra := 5, has_mipMaps := 0,
      Offset := 160 :: List.replicate 15 0,
      Size := 2 :: List.replicate 15 0 }).toBytes
    ++ [10, 20, 30, 0] ++ [0] ++ [200]

/-- A round trip: the file is decoded by `DoReadStart` and `DoReadContinue`, and
the image is then encoded by `DoWriteStart` into an empty file, with the plug-in
globals and the format record as the decode left them. -/
def reencode (env : Env) (bytes : List Nat) : WriteResult :=
  let g1 := DoReadContinue env (DoReadStart env (sampleGlobals bytes))
  DoWriteStart env { g1 with file := { bytes := [], pos := 0, limit := 4294967296 } }

/-! ## The JPEG branch of the load block -/

/-- The buffer that the spec says is handed to the JPEG decoder: the shared header
blob `file[160 .. 160+Lh)`, with `Lh` the little-endian 32-bit value at offset 156,
followed by the level-0 body `file[Offset[0] .. Offset[0]+Size[0])`. -/
def jpegInput (bytes hdr : List Nat) : List Nat :=
  (bytes.drop 160).take (u32le bytes 156)
    ++ (bytes.drop (hdrOffset hdr 0)).take (hdrSize hdr 0)

/-- The raster that the JPEG branch of `DoReadContinue` leaves in `imageBuffer`
for a decoded frame: the scanline loop copies the rows into the buffer `buf0`,
then the loop "Swap R and B (Component 0 and 2)" runs over `width * height`
pixels. -/
def jpegRaster (width height : Int) (fr : JpegFrame) (buf0 : List Nat) : List Nat :=
  let buf1 := (List.range fr.output_height.toNat).foldl (jpegRow width height fr) buf0
  overlay ((List.range (toInt32 (width * height)).toNat).flatMap (swapPixel buf1)) buf1

/-- A JPEG-mode file: header, length of the shared header blob, the blob, and the
level-0 body right after it. -/
def jpegFile (width height : Nat) (shared body : List Nat) : List Nat :=
  ({ BLP_HEADER.zero with
      MagicNumber := 0x31504C42, Compression := BLP_COMPRESSION_JPEG,
      alpha_bits := 8, Width := width, Height := height,
      Offset := (160 + shared.length) :: List.replicate 15 0,
      Size := body.length :: List.replicate 15 0 }).toBytes
    ++ le32 shared.length ++ shared ++ body

/-- A host like `sampleEnv` whose JPEG decoder yields the frame `fr` for the
bitstream `input` and fails on every other bitstream. -/
def codecEnv (input : List Nat) (fr : JpegFrame) : Env :=
  { sampleEnv with jpeg_decompress := fun bs => if bs = input then some fr else none }

/-- A decoded frame of 2x1 pixels with four components. -/
def frame4 : JpegFrame :=
  { output_components := 4, output_width := 2, output_height := 1,
    scanlines := [[1, 2, 3, 4, 5, 6, 7, 8]], past := fun _ _ => 0 }

/-- A decoded frame of 1x1 pixels with three components `R, G, B = 10, 20, 30`. -/
def frame3 : JpegFrame :=
  { output_components := 3, output_width := 1, output_height := 1,
    scanlines := [[10, 20, 30]], past := fun _ _ => 0 }

/-- A host whose JPEG decoder yields `frame4` for the bitstream `7 7 9 9 9`. -/
def jpegEnv : Env := codecEnv [7, 7, 9, 9, 9] frame4

/-- The state after `DoReadStart` on a 2x1 JPEG-mode file with the shared header
blob `7 7` and the level-0 body `9 9 9`. -/
def stateJpeg : Globals := DoReadStart jpegEnv (sampleGlobals (jpegFile 2 1 [7, 7] [9, 9, 9]))

/-- The globals of `writeGlobals 5 3 4 3` on an output medium with room for 160
bytes only: the header and the shared-header length fit, no level payload does. -/
def fullDiskGlobals : Globals :=
  { writeGlobals 5 3 4 3 with file := { bytes := [], pos := 0, limit := 160 } }

/-- The value of `*gResult` when a run of `DoWriteStart` leaves its mipmap loop,
before the seek of "Rewrite Header" (or on the early return of the first part). -/
def loopResult (env : Env) (g : Globals) : Int :=
  match gatherPlanes env g with
  | .error ge => ge.gResult
  | .ok g2 =>
    (mipLoop env 16 16
      (loopStart g2 (GetFormatImageSize g.gFormatRecord).h
        (GetFormatImageSize g.gFormatRecord).v g.gFormatRecord.planes)).g.gResult

/-! ## Sample inputs for the error paths and the probe -/

/-- The globals of `writeGlobals 5 3 4 3` on an output medium with room for 158
bytes: the placeholder header fits, the four bytes of the shared-header length do
not. -/
def shortLengthGlobals : Globals :=
  { writeGlobals 5 3 4 3 with file := { bytes := [], pos := 0, limit := 158 } }

/-- The SDK result code `userCanceledErr`. -/
def userCanceledErr : Int := -128

/-- A host like `sampleEnv` whose `advanceState` reports that the user cancelled. -/
def cancelEnv : Env :=
  { sampleEnv with advanceState := fun _ => userCanceledErr }

/-- Scenario E1 cut in the middle of its index plane (two of the four index bytes
are there). -/
def fileE1Short : List Nat := fileE1.take 174

/-- A stream of 100 bytes that begins with the magic `'B','L','P','1'`. -/
def fileMagic100 : List Nat := [0x42, 0x4C, 0x50, 0x31] ++ List.replicate 96 0

/-- A DIRECT-mode 1x1 file without alpha whose `Offset[0]` is `156 + 4 * 300`: the
block between the header and level 0 has room for 300 palette entries. -/
def filePal300 : List Nat := directFile 0 1 1 (List.replicate 1200 7) [3] []

/-- The frame that a decoder returns when the codec gives back the samples the
encoder handed to it for the level raster `buf` of `W x H` pixels: four
components, `W x H`, and the scanlines of `scanlines`. -/
def echoFrame (buf : List Nat) (W H : Nat) : JpegFrame :=
  { output_components := 4, output_width := (W : Int), output_height := (H : Int),
    scanlines := scanlines buf (W : Int) (H : Int), past := fun _ _ => 0 }

/-- The globals with which the host calls `DoOptionsStart` and then `DoWriteStart`
for an image of 5x3 pixels in 4 planes: the size is reported in `imageSize` and
in `imageSize32`. -/
def optionsGlobals : Globals :=
  { writeGlobals 5 3 4 0 with
    gFormatRecord := { (writeGlobals 5 3 4 0).gFormatRecord with imageSize := { v := 3, h := 5 } } }

/-- The globals with which a host with 32-bit coordinates calls `DoOptionsStart`
and then `DoWriteStart` for an image of 40000 x 1 pixels in 4 planes: the size is
in `imageSize32`, and the 16-bit `imageSize` holds the low 16 bits of it. -/
def wideGlobals : Globals :=
  { writeGlobals 40000 1 4 0 with
    gFormatRecord := { (writeGlobals 40000 1 4 0).gFormatRecord with
      imageSize := { v := 1, h := toInt16 40000 } } }

/-! ## Single-precision arithmetic of `ResizeImage`

`ResizeImage` computes its window bounds in `float`.  The values that occur
are finite and non-negative, so a `float` is kept as the fraction it denotes,
and every operation rounds its exact result to the nearest value with a 24-bit
significand, ties to even (IEEE 754 binary32, each operation evaluated in
`float`).  The exponent range is not modelled: the quotients and products of
32-bit dimensions stay far inside it. -/

/-- A finite non-negative `float`, as the fraction `num / den`. -/
structure Float32 where
  num : Nat
  den : Nat
deriving DecidableEq

/-- The binary exponent of `v`: the largest `e` with `2 ^ e ≤ v`, for
`1 ≤ v < 2 ^ fuel`. -/
def floorLog2 : Nat → Nat → Nat
  | 0, _ => 0
  | fuel + 1, v => if v < 2 then 0 else floorLog2 fuel (v / 2) + 1

/-- The integer nearest to `A / B`, ties to even. -/
def roundHalfEven (A B : Nat) : Nat :=
  if 2 * (A % B) < B then A / B
  else if B < 2 * (A % B) then A / B + 1
  else if A / B % 2 = 0 then A / B
  else A / B + 1

/-- The `float` nearest to `n / d` (`0 < d`): the significand is scaled into
`[2 ^ 23, 2 ^ 24)` and rounded to an integer. -/
def roundFloat (n d : Nat) : Float32 :=
  if n = 0 then { num := 0, den := 1 }
  else if d ≤ n then
    { num := roundHalfEven (n * 2 ^ (23 - floorLog2 128 (n / d)))
               (d * 2 ^ (floorLog2 128 (n / d) - 23))
             * 2 ^ (floorLog2 128 (n / d) - 23),
      den := 2 ^ (23 - floorLog2 128 (n / d)) }
  else
    { num := roundHalfEven (n * 2 ^ (23 + (floorLog2 128 ((d - 1) / n) + 1))) d,
      den := 2 ^ (23 + (floorLog2 128 ((d - 1) / n) + 1)) }

/-- The conversion `(float)n` of a non-negative `int`. -/
def floatOfInt (n : Int) : Float32 := roundFloat n.toNat 1

/-- The quotient `a / b` in `float`. -/
def floatDiv (a b : Float32) : Float32 := roundFloat (a.num * b.den) (a.den * b.num)

/-- The product `a * b` in `float`. -/
def floatMul (a b : Float32) : Float32 := roundFloat (a.num * b.num) (a.den * b.den)

/-- The conversion `(int)a`, which truncates. -/
def floatToInt (a : Float32) : Int := ((a.num / a.den : Nat) : Int)

/-- The value of a `float` as a rational number. -/
def Float32.toRat (a : Float32) : ℚ := (a.num : ℚ) / (a.den : ℚ)

/-! ## `ResizeImage` -/

/-- The ratio `xRatio = (float)srcW / dstW` of `ResizeImage`. -/
def resizeRatio (srcW dstW : Int) : Float32 :=
  floatDiv (floatOfInt srcW) (floatOfInt dstW)

/-- The bounds `startX`, `endX` of `ResizeImage` for the output column `x`,
after `if (endX <= startX) endX = startX + 1` (the same code gives `startY`,
`endY` from the heights and the output row). -/
def resizeWindow (srcW dstW : Int) (x : Nat) : Int × Int :=
  let xRatio := resizeRatio srcW dstW
  let startX := floatToInt (floatMul (floatOfInt (x : Int)) xRatio)
  let endX := floatToInt (floatMul (floatOfInt ((x : Int) + 1)) xRatio)
  (startX, if endX ≤ startX then startX + 1 else endX)

/-- The source columns that the loop
`for (sx = startX; sx < endX && sx < srcW; sx++)` visits for the output column
`x` (and the source rows of the loop over `sy`, from the heights). -/
def resizeSpan (srcW dstW : Int) (x : Nat) : List Nat :=
  (List.range (min (resizeWindow srcW dstW x).2 srcW - (resizeWindow srcW dstW x).1).toNat).map
    (fun i => (resizeWindow srcW dstW x).1.toNat + i)

/-- The accumulator of channel `k` (`b`, `g`, `r`, `a` for `k = 0 .. 3`) after
the two loops over the window: an `int`, which wraps. -/
def resizeSum (src : List Nat) (srcW : Int) (rows cols : List Nat) (k : Nat) : Int :=
  toInt32 (rows.map (fun sy =>
    (cols.map (fun sx => ((src.getD ((sy * srcW.toNat + sx) * 4 + k) 0 : Nat) : Int))).sum)).sum

/-- The four bytes that `ResizeImage` stores for the output pixel `(x, y)`:
each accumulator divided by `count` and converted to `uint8`; `none` when
`count > 0` fails, and then nothing is stored. -/
def resizePixel (src : List Nat) (srcW srcH dstW dstH : Int) (x y : Nat) :
    Option (List Nat) :=
  let rows := resizeSpan srcH dstH y
  let cols := resizeSpan srcW dstW x
  let count := toInt32 ((rows.length * cols.length : Nat) : Int)
  if 0 < count then
    some ((List.range 4).map (fun k =>
      (Int.tdiv (resizeSum src srcW rows cols k) count % 256).toNat))
  else none

/-- The stores `if (count > 0) { dst[p * 4 + 0] = b / count; ... }` for the output
pixel number `p = y * dstW + x`. -/
def storePixel (dst : List Nat) (p : Nat) : Option (List Nat) → List Nat
  | some px => writeAt dst (p * 4) px
  | none => dst

/-- The routine `ResizeImage(src, srcW, srcH, dst, dstW, dstH)`: the contents
of `dst` afterwards (`dst` is the buffer before the call). -/
def ResizeImage (src dst : List Nat) (srcW srcH dstW dstH : Int) : List Nat :=
  (List.range dstH.toNat).foldl (fun d y =>
    (List.range dstW.toNat).foldl (fun d x =>
      storePixel d (y * dstW.toNat + x) (resizePixel src srcW srcH dstW dstH x y)) d) dst

/-- A raster of `n` pixels that all have the colour `c`. -/
def solidRaster (n : Nat) (c : List Nat) : List Nat :=
  (List.range n).flatMap (fun _ => c)

/-- A one-row raster of 53 pixels: black and transparent except the last
pixel, which is white and opaque. -/
def edgeRaster : List Nat := List.replicate 208 0 ++ [255, 255, 255, 255]

/-! ## Comparing the decodes of two files -/

/-- The globals `g` over another file and with another header image in
`gData->blpHeader`: what a decode of the other file holds at the same point when
the two decodes have read the same values. -/
def withFile (bytes hdr : List Nat) (g : Globals) : Globals :=
  { g with file := { g.file with bytes := bytes },
           gData := { g.gData with blpHeader := hdr } }

/-- The outcome of a block that may return early, over another file. -/
def bothWith (bytes hdr : List Nat) : Except Globals Globals → Except Globals Globals
  | .ok g => .ok (withFile bytes hdr g)
  | .error g => .error (withFile bytes hdr g)

/-- Two streams hold the same bytes at the offsets from `s` up to `e` (and end
at the same place if they end there). -/
def sameBytes (A B : List Nat) (s e : Nat) : Prop :=
  ∀ i, s ≤ i → i < e → A[i]? = B[i]?

/-- The globals before a decode of the stream `bytes`, from the globals `g`. -/
def onFile (g : Globals) (bytes : List Nat) : Globals :=
  { g with file := { g.file with bytes := bytes } }

/-- A decode as the host drives it: `DoReadStart`, and then `DoReadContinue` when
`DoReadStart` reported no error. -/
def decode (env : Env) (g : Globals) : Globals :=
  if (DoReadStart env g).gResult ≠ noErr then DoReadStart env g
  else DoReadContinue env (DoReadStart env g)

/-! ## Sample inputs for the comparison of two files and for the mip chain -/

/-- The file of scenario E1 (a DIRECT file of 2 x 2 pixels without alpha, with a
palette of four entries and one level in the tables), followed by two more
bytes. -/
def fileMipA : List Nat := fileE1 ++ [50, 60]

/-- The file `fileMipA` with a second level in the tables and with other bytes
after the index plane. -/
def fileMipB : List Nat :=
  ({ BLP_HEADER.zero with
      MagicNumber := 0x31504C42, Compression := BLP_COMPRESSION_DIRECT,
      alpha_bits := 0, Width := 2, Height := 2,
      Offset := [172, 176] ++ List.replicate 14 0,
      Size := [4, 3] ++ List.replicate 14 0 }).toBytes
    ++ [0, 0, 255, 0, 0, 255, 0, 0, 255, 0, 0, 0, 255, 255, 255, 0] ++ [0, 1, 2, 3]
    ++ [51, 61, 71]

/-- A host whose `ResizeImage` is the routine of the source, run over a zeroed
`nextBuffer` of `nextW * nextH * 4` bytes. -/
def resizeEnv : Env :=
  { sampleEnv with
    ResizeImage := fun src sw sh dw dh =>
      ResizeImage src (List.replicate (dw * dh * 4).toNat 0) sw sh dw dh }

/-- The mipmap loop at level 0 of a solid image of 5 x 3 pixels. -/
def solidStart : MipState :=
  mipStart (setImageBuffer (writeGlobals 5 3 4 0) (some (solidRaster (5 * 3) [10, 20, 30, 255])))
    BLP_HEADER.zero 5 3

/-! ## Lemmas on the host I/O model -/

theorem setFPos_gResult (g : Globals) (off : Nat) : (setFPos g off).gResult = noErr := rfl

theorem setFPos_file (g : Globals) (off : Nat) :
    (setFPos g off).file = { g.file with pos := off } := rfl

theorem setFPos_gData (g : Globals) (off : Nat) : (setFPos g off).gData = g.gData := rfl

theorem setFPos_gFormatRecord (g : Globals) (off : Nat) :
    (setFPos g off).gFormatRecord = g.gFormatRecord := rfl

theorem setImageBuffer_file (g : Globals) (b : Option (List Nat)) :
    (setImageBuffer g b).file = g.file := rfl

theorem setImageBuffer_gResult (g : Globals) (b : Option (List Nat)) :
    (setImageBuffer g b).gResult = g.gResult := rfl

theorem setImageBuffer_imageBuffer (g : Globals) (b : Option (List Nat)) :
    (setImageBuffer g b).gData.imageBuffer = b := rfl

theorem setImageBuffer_blpHeader (g : Globals) (b : Option (List Nat)) :
    (setImageBuffer g b).gData.blpHeader = g.gData.blpHeader := rfl

/-- A read of `k` bytes that the file can serve succeeds and stores exactly the
bytes at the position. -/
theorem ReadSome_of_avail (k : Nat) (buffer : List Nat) (g : Globals)
    (h0 : g.gResult = noErr) (hk : g.file.pos + k ≤ g.file.bytes.length) :
    ReadSome (k : Int) buffer g =
      ({ g with gResult := noErr, file := { g.file with pos := g.file.pos + k } },
        overlay ((g.file.bytes.drop g.file.pos).take k) buffer) := by
  have hlen : ((g.file.bytes.drop g.file.pos).take k).length = k := by
    rw [List.length_take, List.length_drop]; omega
  simp [ReadSome, h0, PSSDKRead, hlen]

/-- A read of more bytes than the file holds past the position ends in `eofErr`. -/
theorem ReadSome_short (k : Nat) (buffer : List Nat) (g : Globals)
    (h0 : g.gResult = noErr) (hk : g.file.bytes.length - g.file.pos < k) :
    (ReadSome (k : Int) buffer g).1.gResult = eofErr := by
  simp [ReadSome, h0, PSSDKRead]
  intro h; omega

/-! ## Lemmas on buffers and machine integers -/

theorem overlay_nil (xs : List Nat) : overlay xs [] = xs := by simp [overlay]

theorem overlay_of_length_le (src dst : List Nat) (h : dst.length ≤ src.length) :
    overlay src dst = src := by
  simp [overlay, List.drop_eq_nil_of_le h]

theorem overlay_getD (src dst : List Nat) (k : Nat) (h : k < src.length) :
    (overlay src dst).getD k 0 = src.getD k 0 := by
  unfold overlay; exact List.getD_append _ _ _ _ h

theorem flatMap_quad (f : Nat → List Nat) (hf : ∀ i, (f i).length = 4) (n i : Nat)
    (hi : i < n) : (((List.range n).flatMap f).drop (4 * i)).take 4 = f i := by
  induction n generalizing f i with
  | zero => omega
  | succ n ih =>
    rw [List.range_succ_eq_map, List.flatMap_cons, List.flatMap_map]
    cases i with
    | zero => simp [List.take_append_of_le_length, hf]
    | succ j =>
      have h4 : 4 * (j + 1) = (f 0).length + 4 * j := by rw [hf]; omega
      rw [h4, List.drop_append]
      exact ih (fun x => f (x + 1)) (fun x => hf _) j (by omega)

theorem flatMap_quad_length (f : Nat → List Nat) (hf : ∀ i, (f i).length = 4) (n : Nat) :
    ((List.range n).flatMap f).length = 4 * n := by
  induction n with
  | zero => rfl
  | succ n ih =>
    rw [List.range_succ, List.flatMap_append, List.length_append, ih]
    simp [hf]; omega

theorem getD_of_drop_take (buf : List Nat) (i k : Nat) (q : List Nat)
    (h : (buf.drop (4 * i)).take 4 = q) (hk : k < 4) :
    buf.getD (4 * i + k) 0 = q.getD k 0 := by
  subst h
  simp only [List.getD_eq_getElem?_getD, List.getElem?_take, List.getElem?_drop, hk, if_true]

theorem toInt32_of_lt (x : Nat) (h : x < 2147483648) : toInt32 (x : Int) = x := by
  unfold toInt32; omega

theorem toUInt32_natCast (x : Nat) (h : x < 4294967296) : toUInt32 (x : Int) = x := by
  unfold toUInt32; omega

theorem paletteSize_of_ge (sizeBits off0 : Nat) (hbits : 32 ≤ sizeBits) (h1 : 156 ≤ off0)
    (h2 : off0 < 4294967296) :
    paletteSize sizeBits off0 = ((min 256 ((off0 - 156) / 4) : Nat) : Int) := by
  have hp : (4294967296 : Int) ≤ (2 : Int) ^ sizeBits := by
    have : (2 : Int) ^ 32 ≤ (2 : Int) ^ sizeBits := pow_le_pow_right₀ (by norm_num) hbits
    norm_num at this; exact this
  have hsub : ((off0 : Int) - 156) = ((off0 - 156 : Nat) : Int) := by omega
  have hmod : ((off0 - 156 : Nat) : Int) % (2 : Int) ^ sizeBits = ((off0 - 156 : Nat) : Int) :=
    Int.emod_eq_of_lt (by omega) (by omega)
  unfold paletteSize
  rw [hsub, hmod]
  have hdiv : ((off0 - 156 : Nat) : Int) / 4 = (((off0 - 156) / 4 : Nat) : Int) := by omega
  rw [hdiv, toInt32_of_lt _ (by omega)]
  simp only []
  split_ifs with h <;> omega

/-! ## The DIRECT branch of the load block -/

theorem directPixel_length (palette indices alpha : List Nat) (ab i : Nat) :
    (directPixel palette indices alpha ab i).length = 4 := rfl

/-- On a file that holds the palette and the planes, the DIRECT branch reads them
and fills a buffer of the pixels `directPixel`. -/
theorem readDirect_ok (env : Env) (g : Globals) (W H off0 ab : Nat)
    (hbits : 32 ≤ env.sizeBits) (hmalloc : ∀ k, env.mallocOk k = true)
    (hfit : W * H * 4 < 2147483648)
    (hab : hdrAlphaBits g.gData.blpHeader = ab)
    (hoff : hdrOffset g.gData.blpHeader 0 = off0) (h1 : 156 ≤ off0) (h2 : off0 < 4294967296)
    (hpal : 156 + 4 * min 256 ((off0 - 156) / 4) ≤ g.file.bytes.length)
    (hdata : off0 + W * H + (W * H * ab + 7) % 4294967296 / 8 ≤ g.file.bytes.length) :
    ∃ g1, readDirect env (W : Int) (H : Int) g = Except.ok g1 ∧ g1.gResult = noErr ∧
      g1.file.pos = off0 + W * H + (if ab > 0 then (W * H * ab + 7) % 4294967296 / 8 else 0) ∧
      g1.gData.imageBuffer = some (overlay ((List.range (W * H)).flatMap
        (directPixel
          (overlay ((g.file.bytes.drop 156).take (4 * min 256 ((off0 - 156) / 4))) env.stackPalette)
          ((g.file.bytes.drop off0).take (W * H))
          (if ab > 0 then (g.file.bytes.drop (off0 + W * H)).take
              ((W * H * ab + 7) % 4294967296 / 8) else [])
          ab)) (g.gData.imageBuffer.getD [])) := by
  have hlt : W * H < 2147483648 := Nat.lt_of_le_of_lt (Nat.le_mul_of_pos_right _ (by norm_num)) hfit
  have hWH : toInt32 ((W : Int) * (H : Int)) = ((W * H : Nat) : Int) := by
    rw [← Nat.cast_mul]; exact toInt32_of_lt _ hlt
  have hu : toUInt32 ((W * H : Nat) : Int) = W * H :=
    toUInt32_natCast _ (Nat.lt_trans hlt (by norm_num))
  have hn4 : ((min 256 ((off0 - 156) / 4) : Nat) : Int) * 4
      = ((4 * min 256 ((off0 - 156) / 4) : Nat) : Int) := by
    rw [Nat.cast_mul, mul_comm]; rfl
  have hps := paletteSize_of_ge env.sizeBits off0 hbits h1 h2
  have hidx : off0 + W * H ≤ g.file.bytes.length := le_trans (Nat.le_add_right _ _) hdata
  unfold readDirect
  dsimp only
  rw [hoff, hps, hn4, hWH, hab, hu, show sizeofHeader = 156 from rfl]
  simp only [ReadSome_of_avail, setFPos_gResult, setFPos_file, hpal, hidx, hdata, ne_eq,
    not_true_eq_false, if_false, hmalloc, Bool.not_true, Bool.false_eq_true, Int.toNat_ofNat,
    overlay_nil]
  by_cases hz : ab > 0
  · simp only [hz, if_true]
    exact ⟨_, rfl, rfl, rfl, rfl⟩
  · simp only [hz, if_false]
    exact ⟨_, rfl, rfl, rfl, rfl⟩

/-- The load block of `DoReadContinue` on a DIRECT file that holds the palette and
the planes: the raster is the sequence of the pixels `directPixel`. -/
theorem loadImage_direct (env : Env) (g : Globals) (W H off0 ab : Nat)
    (hbits : 32 ≤ env.sizeBits) (hmalloc : ∀ k, env.mallocOk k = true)
    (hbuf : g.gData.imageBuffer = none)
    (hsize : GetFormatImageSize g.gFormatRecord = { v := (H : Int), h := (W : Int) })
    (hfit : W * H * 4 < 2147483648)
    (hcomp : hdrCompression g.gData.blpHeader = BLP_COMPRESSION_DIRECT)
    (hab : hdrAlphaBits g.gData.blpHeader = ab)
    (hoff : hdrOffset g.gData.blpHeader 0 = off0) (h1 : 156 ≤ off0) (h2 : off0 < 4294967296)
    (hpal : 156 + 4 * min 256 ((off0 - 156) / 4) ≤ g.file.bytes.length)
    (hdata : off0 + W * H + (W * H * ab + 7) % 4294967296 / 8 ≤ g.file.bytes.length) :
    ∃ g1, loadImage env g = Except.ok g1 ∧ g1.gResult = noErr ∧
      g1.file.pos = off0 + W * H + (if ab > 0 then (W * H * ab + 7) % 4294967296 / 8 else 0) ∧
      g1.gData.imageBuffer = some ((List.range (W * H)).flatMap
        (directPixel
          (overlay ((g.file.bytes.drop 156).take (4 * min 256 ((off0 - 156) / 4))) env.stackPalette)
          ((g.file.bytes.drop off0).take (W * H))
          (if ab > 0 then (g.file.bytes.drop (off0 + W * H)).take
              ((W * H * ab + 7) % 4294967296 / 8) else [])
          ab)) := by
  have hlt : W * H < 2147483648 := Nat.lt_of_le_of_lt (Nat.le_mul_of_pos_right _ (by norm_num)) hfit
  have hWH : toInt32 ((W : Int) * (H : Int)) = ((W * H : Nat) : Int) := by
    rw [← Nat.cast_mul]; exact toInt32_of_lt _ hlt
  have hsz : toInt32 (((W * H : Nat) : Int) * 4) = ((W * H * 4 : Nat) : Int) := by
    rw [← toInt32_of_lt (W * H * 4) hfit, Nat.cast_mul]; rfl
  obtain ⟨g1, e, hr, hp, hb⟩ := readDirect_ok env
    (setImageBuffer g (some (List.replicate (W * H * 4) 0))) W H off0 ab hbits hmalloc hfit
    hab hoff h1 h2 hpal hdata
  refine ⟨g1, ?_, hr, hp, ?_⟩
  · unfold loadImage
    rw [hbuf]
    dsimp only
    simp only [hsize, hWH, hsz, hmalloc, Bool.not_true, Bool.false_eq_true, if_false, hcomp,
      if_true, Int.toNat_ofNat]
    exact e
  · simp only [setImageBuffer_file, setImageBuffer_imageBuffer, Option.getD_some] at hb
    rw [hb, overlay_of_length_le]
    rw [flatMap_quad_length _ (directPixel_length _ _ _ _), List.length_replicate]
    omega

/-- The load block on a DIRECT file laid out as header, palette of `n` entries,
index plane, packed alpha plane: the raster in terms of the parts of the file. -/
theorem loadImage_direct_layout (env : Env) (g : Globals) (W H n ab : Nat)
    (hd pal idx alpha rest : List Nat)
    (hbits : 32 ≤ env.sizeBits) (hmalloc : ∀ k, env.mallocOk k = true)
    (hbuf : g.gData.imageBuffer = none)
    (hsize : GetFormatImageSize g.gFormatRecord = { v := (H : Int), h := (W : Int) })
    (hfit : W * H * 4 < 2147483648)
    (hcomp : hdrCompression g.gData.blpHeader = BLP_COMPRESSION_DIRECT)
    (hab : hdrAlphaBits g.gData.blpHeader = ab)
    (hoff : hdrOffset g.gData.blpHeader 0 = 156 + 4 * n)
    (hfile : g.file.bytes = hd ++ pal ++ idx ++ alpha ++ rest)
    (hhd : hd.length = 156) (hpal : pal.length = 4 * n) (hn : n ≤ 256)
    (hidx : idx.length = W * H)
    (halpha : alpha.length = if ab > 0 then (W * H * ab + 7) % 4294967296 / 8 else 0) :
    ∃ g1, loadImage env g = Except.ok g1 ∧ g1.gResult = noErr ∧
      g1.file.pos = 156 + 4 * n + W * H + alpha.length ∧
      g1.gData.imageBuffer = some ((List.range (W * H)).flatMap
        (directPixel (overlay pal env.stackPalette) idx alpha ab)) := by
  have hmin : min 256 ((156 + 4 * n - 156) / 4) = n := by omega
  have hlen : g.file.bytes.length
      = 156 + 4 * n + W * H + alpha.length + rest.length := by
    rw [hfile]; simp only [List.length_append, hhd, hpal, hidx]
  have hA : alpha.length ≤ (W * H * ab + 7) % 4294967296 / 8 := by
    rw [halpha]; split_ifs <;> omega
  have e1 : (g.file.bytes.drop 156).take (4 * n) = pal := by
    rw [hfile]; simp only [List.append_assoc]
    rw [List.drop_left' hhd, List.take_left' hpal]
  have e2 : (g.file.bytes.drop (156 + 4 * n)).take (W * H) = idx := by
    rw [hfile]; simp only [List.append_assoc]
    rw [← List.append_assoc hd pal, List.drop_left' (by simp [hhd, hpal]), List.take_left' hidx]
  have e3 : (g.file.bytes.drop (156 + 4 * n + W * H)).take alpha.length = alpha := by
    rw [hfile]; simp only [List.append_assoc]
    rw [← List.append_assoc pal idx, ← List.append_assoc hd,
      List.drop_left' (by simp [hhd, hpal, hidx]; omega), List.take_left' rfl]
  by_cases hz : ab > 0
  · rw [if_pos hz] at halpha
    obtain ⟨g1, e, hr, hp, hb⟩ := loadImage_direct env g W H (156 + 4 * n) ab hbits hmalloc hbuf
      hsize hfit hcomp hab hoff (by omega) (by omega) (by rw [hmin, hlen]; omega)
      (by rw [hlen, ← halpha]; omega)
    refine ⟨g1, e, hr, ?_, ?_⟩
    · rw [hp, if_pos hz, halpha]
    · rw [hb, hmin, e1, e2, if_pos hz, ← halpha, e3]
  · rw [if_neg hz] at halpha
    have hnil : alpha = [] := List.length_eq_zero.mp halpha
    have hab0 : ab = 0 := by omega
    obtain ⟨g1, e, hr, hp, hb⟩ := loadImage_direct env g W H (156 + 4 * n) ab hbits hmalloc hbuf
      hsize hfit hcomp hab hoff (by omega) (by omega) (by rw [hmin, hlen]; omega)
      (by rw [hlen, hab0]; simp only [Nat.mul_zero, Nat.zero_add]; omega)
    refine ⟨g1, e, hr, ?_, ?_⟩
    · rw [hp, if_neg hz, halpha]
    · rw [hb, hmin, e1, e2, if_neg hz, hnil]

/-! ## Claims C1 to C4: the DIRECT branch -/

theorem directPixel_rgb (pal stack idx alpha : List Nat) (ab n i : Nat)
    (hpal : pal.length = 4 * n) (hk : idx.getD i 0 < n) :
    directPixel (overlay pal stack) idx alpha ab i =
      [pal.getD (4 * idx.getD i 0 + 2) 0, pal.getD (4 * idx.getD i 0 + 1) 0,
       pal.getD (4 * idx.getD i 0 + 0) 0, directAlpha alpha ab i] := by
  unfold directPixel
  simp only [Nat.mul_comm (idx.getD i 0) 4]
  rw [overlay_getD _ _ _ (by omega), overlay_getD _ _ _ (by omega),
    overlay_getD _ _ _ (by omega)]

theorem directAlpha_eight (alpha : List Nat) (i : Nat) :
    directAlpha alpha 8 i = alpha.getD i 0 := by
  simp [directAlpha]

theorem directAlpha_one (alpha : List Nat) (i : Nat) :
    directAlpha alpha 1 i = if (alpha.getD (i / 8) 0).testBit (i % 8) then 255 else 0 := by
  simp only [directAlpha, Nat.one_shiftLeft, Nat.and_two_pow]
  cases h : (alpha.getD (i / 8) 0).testBit (i % 8) <;> simp

theorem nibble_lt (byte i : Nat) (hb : byte < 256) :
    (if i % 2 = 0 then byte >>> 4 else byte &&& 0x0F) < 16 := by
  split_ifs
  · rw [Nat.shiftRight_eq_div_pow]; omega
  · exact Nat.lt_succ_of_le Nat.and_le_right

theorem expand_eq : ∀ v, v < 16 → ((v <<< 4) ||| v) = v * 0x11 := by decide

theorem directAlpha_four (alpha : List Nat) (i : Nat) (hb : alpha.getD (i / 2) 0 < 256) :
    directAlpha alpha 4 i =
      (((if i % 2 = 0 then alpha.getD (i / 2) 0 >>> 4 else alpha.getD (i / 2) 0 &&& 0x0F) <<< 4)
        ||| (if i % 2 = 0 then alpha.getD (i / 2) 0 >>> 4 else alpha.getD (i / 2) 0 &&& 0x0F)) := by
  have hv := nibble_lt (alpha.getD (i / 2) 0) i hb
  have h1 := expand_eq _ hv
  simp only [directAlpha, Nat.reduceLT, if_true, Nat.reduceEqDiff, if_false, gt_iff_lt]
  rw [Nat.mod_eq_of_lt (Nat.lt_trans hv (by norm_num)), h1]
  exact Nat.mod_eq_of_lt (by omega)

/-- C1: DIRECT decode with `alpha_bits = 8`.  For a file laid out as header,
palette of `n ≤ 256` BGRA entries, index plane of `W*H` bytes (each below `n`) and
alpha plane of `W*H` bytes, the load block of `DoReadContinue` succeeds and pixel
`i` of the RGBA raster is `(pal[4*idx[i]+2], pal[4*idx[i]+1], pal[4*idx[i]+0],
alpha[i])`: the stored raster is recovered and no fourth palette byte occurs. -/
theorem C1_direct_alpha8 (env : Env) (g : Globals) (W H n : Nat)
    (hd pal idx alpha rest : List Nat)
    (hbits : 32 ≤ env.sizeBits) (hmalloc : ∀ k, env.mallocOk k = true)
    (hbuf : g.gData.imageBuffer = none)
    (hsize : GetFormatImageSize g.gFormatRecord = { v := (H : Int), h := (W : Int) })
    (hfit : W * H * 4 < 2147483648)
    (hcomp : hdrCompression g.gData.blpHeader = BLP_COMPRESSION_DIRECT)
    (hab : hdrAlphaBits g.gData.blpHeader = 8)
    (hoff : hdrOffset g.gData.blpHeader 0 = 156 + 4 * n)
    (hfile : g.file.bytes = hd ++ pal ++ idx ++ alpha ++ rest)
    (hhd : hd.length = 156) (hpal : pal.length = 4 * n) (hn : n ≤ 256)
    (hidx : idx.length = W * H) (halpha : alpha.length = W * H)
    (hrange : ∀ i, i < W * H → idx.getD i 0 < n) :
    ∃ g1 buf, loadImage env g = Except.ok g1 ∧ g1.gResult = noErr ∧
      g1.gData.imageBuffer = some buf ∧ buf.length = 4 * (W * H) ∧
      ∀ i, i < W * H → (buf.drop (4 * i)).take 4 =
        [pal.getD (4 * idx.getD i 0 + 2) 0, pal.getD (4 * idx.getD i 0 + 1) 0,
         pal.getD (4 * idx.getD i 0 + 0) 0, alpha.getD i 0] := by
  obtain ⟨g1, e, hr, -, hb⟩ := loadImage_direct_layout env g W H n 8 hd pal idx alpha rest
    hbits hmalloc hbuf hsize hfit hcomp hab hoff hfile hhd hpal hn hidx
    (by rw [if_pos (by norm_num), halpha]; omega)
  refine ⟨g1, _, e, hr, hb, flatMap_quad_length _ (directPixel_length _ _ _ _) _, ?_⟩
  intro i hi
  rw [flatMap_quad _ (directPixel_length _ _ _ _) _ _ hi,
    directPixel_rgb pal _ idx alpha 8 n i hpal (hrange i hi), directAlpha_eight]

/-- C2: DIRECT decode with `alpha_bits = 1`.  With a packed alpha plane of
`ceil(W*H/8)` bytes, the alpha of pixel `i` in the raster is 255 when bit
`i mod 8` (bit 0 the least significant) of `packed[i div 8]` is set, otherwise 0. -/
theorem C2_direct_alpha1 (env : Env) (g : Globals) (W H n : Nat)
    (hd pal idx packed rest : List Nat)
    (hbits : 32 ≤ env.sizeBits) (hmalloc : ∀ k, env.mallocOk k = true)
    (hbuf : g.gData.imageBuffer = none)
    (hsize : GetFormatImageSize g.gFormatRecord = { v := (H : Int), h := (W : Int) })
    (hfit : W * H * 4 < 2147483648)
    (hcomp : hdrCompression g.gData.blpHeader = BLP_COMPRESSION_DIRECT)
    (hab : hdrAlphaBits g.gData.blpHeader = 1)
    (hoff : hdrOffset g.gData.blpHeader 0 = 156 + 4 * n)
    (hfile : g.file.bytes = hd ++ pal ++ idx ++ packed ++ rest)
    (hhd : hd.length = 156) (hpal : pal.length = 4 * n) (hn : n ≤ 256)
    (hidx : idx.length = W * H) (hpacked : packed.length = (W * H + 7) / 8) :
    ∃ g1 buf, loadImage env g = Except.ok g1 ∧ g1.gResult = noErr ∧
      g1.gData.imageBuffer = some buf ∧
      ∀ i, i < W * H → buf.getD (4 * i + 3) 0 =
        if (packed.getD (i / 8) 0).testBit (i % 8) then 255 else 0 := by
  obtain ⟨g1, e, hr, -, hb⟩ := loadImage_direct_layout env g W H n 1 hd pal idx packed rest
    hbits hmalloc hbuf hsize hfit hcomp hab hoff hfile hhd hpal hn hidx
    (by rw [if_pos (by norm_num), hpacked]; omega)
  refine ⟨g1, _, e, hr, hb, ?_⟩
  intro i hi
  rw [getD_of_drop_take _ i 3 _ (flatMap_quad _ (directPixel_length _ _ _ _) _ _ hi)
    (by norm_num)]
  exact directAlpha_one packed i

/-- C3: DIRECT decode with `alpha_bits = 4`.  With a packed alpha plane of
`ceil(W*H/2)` bytes, `byte = packed[i div 2]` and `v = byte >> 4` for even `i`,
`v = byte & 0x0F` for odd `i`, the alpha of pixel `i` is `(v << 4) | v = v * 0x11`,
with `v < 16`; two pixels with equal alpha have equal nibbles. -/
theorem C3_direct_alpha4 (env : Env) (g : Globals) (W H n : Nat)
    (hd pal idx packed rest : List Nat)
    (hbits : 32 ≤ env.sizeBits) (hmalloc : ∀ k, env.mallocOk k = true)
    (hbuf : g.gData.imageBuffer = none)
    (hsize : GetFormatImageSize g.gFormatRecord = { v := (H : Int), h := (W : Int) })
    (hfit : W * H * 4 < 2147483648)
    (hcomp : hdrCompression g.gData.blpHeader = BLP_COMPRESSION_DIRECT)
    (hab : hdrAlphaBits g.gData.blpHeader = 4)
    (hoff : hdrOffset g.gData.blpHeader 0 = 156 + 4 * n)
    (hfile : g.file.bytes = hd ++ pal ++ idx ++ packed ++ rest)
    (hhd : hd.length = 156) (hpal : pal.length = 4 * n) (hn : n ≤ 256)
    (hidx : idx.length = W * H) (hpacked : packed.length = (W * H + 1) / 2)
    (hbytes : ∀ b, b ∈ packed → b < 256) :
    ∃ g1 buf, loadImage env g = Except.ok g1 ∧ g1.gResult = noErr ∧
      g1.gData.imageBuffer = some buf ∧
      (∀ i, i < W * H → ∃ v,
        v = (if i % 2 = 0 then packed.getD (i / 2) 0 >>> 4 else packed.getD (i / 2) 0 &&& 0x0F) ∧
        v < 16 ∧ buf.getD (4 * i + 3) 0 = ((v <<< 4) ||| v) ∧
        buf.getD (4 * i + 3) 0 = v * 0x11) ∧
      (∀ i j, i < W * H → j < W * H → buf.getD (4 * i + 3) 0 = buf.getD (4 * j + 3) 0 →
        (if i % 2 = 0 then packed.getD (i / 2) 0 >>> 4 else packed.getD (i / 2) 0 &&& 0x0F) =
        (if j % 2 = 0 then packed.getD (j / 2) 0 >>> 4 else packed.getD (j / 2) 0 &&& 0x0F)) := by
  obtain ⟨g1, e, hr, -, hb⟩ := loadImage_direct_layout env g W H n 4 hd pal idx packed rest
    hbits hmalloc hbuf hsize hfit hcomp hab hoff hfile hhd hpal hn hidx
    (by rw [if_pos (by norm_num), hpacked]; omega)
  have hbyte : ∀ k, packed.getD k 0 < 256 := by
    intro k
    rw [List.getD_eq_getElem?_getD]
    cases hk : packed[k]? with
    | none => simp
    | some b => exact hbytes b (List.getElem?_mem hk)
  have key : ∀ i, i < W * H →
      ((List.range (W * H)).flatMap
        (directPixel (overlay pal env.stackPalette) idx packed 4)).getD (4 * i + 3) 0 =
      (((if i % 2 = 0 then packed.getD (i / 2) 0 >>> 4 else packed.getD (i / 2) 0 &&& 0x0F) <<< 4)
        ||| (if i % 2 = 0 then packed.getD (i / 2) 0 >>> 4
              else packed.getD (i / 2) 0 &&& 0x0F)) := by
    intro i hi
    rw [getD_of_drop_take _ i 3 _ (flatMap_quad _ (directPixel_length _ _ _ _) _ _ hi)
      (by norm_num)]
    exact directAlpha_four packed i (hbyte _)
  refine ⟨g1, _, e, hr, hb, ?_, ?_⟩
  · intro i hi
    exact ⟨_, rfl, nibble_lt _ i (hbyte _), key i hi,
      (key i hi).trans (expand_eq _ (nibble_lt _ i (hbyte _)))⟩
  · intro i j hi hj h
    rw [key i hi, key j hj, expand_eq _ (nibble_lt _ i (hbyte _)),
      expand_eq _ (nibble_lt _ j (hbyte _))] at h
    omega

/-- C4: DIRECT decode with `alpha_bits = 0`.  For a file laid out as header,
palette of `n ≤ 256` entries and index plane (each index below `n`), the load
block succeeds having read nothing past the index plane, and pixel `i` of the
raster is `(pal[4*idx[i]+2], pal[4*idx[i]+1], pal[4*idx[i]+0], 255)`. -/
theorem C4_direct_alpha0 (env : Env) (g : Globals) (W H n : Nat)
    (hd pal idx rest : List Nat)
    (hbits : 32 ≤ env.sizeBits) (hmalloc : ∀ k, env.mallocOk k = true)
    (hbuf : g.gData.imageBuffer = none)
    (hsize : GetFormatImageSize g.gFormatRecord = { v := (H : Int), h := (W : Int) })
    (hfit : W * H * 4 < 2147483648)
    (hcomp : hdrCompression g.gData.blpHeader = BLP_COMPRESSION_DIRECT)
    (hab : hdrAlphaBits g.gData.blpHeader = 0)
    (hoff : hdrOffset g.gData.blpHeader 0 = 156 + 4 * n)
    (hfile : g.file.bytes = hd ++ pal ++ idx ++ rest)
    (hhd : hd.length = 156) (hpal : pal.length = 4 * n) (hn : n ≤ 256)
    (hidx : idx.length = W * H)
    (hrange : ∀ i, i < W * H → idx.getD i 0 < n) :
    ∃ g1 buf, loadImage env g = Except.ok g1 ∧ g1.gResult = noErr ∧
      g1.file.pos = 156 + 4 * n + W * H ∧
      g1.gData.imageBuffer = some buf ∧ buf.length = 4 * (W * H) ∧
      ∀ i, i < W * H → (buf.drop (4 * i)).take 4 =
        [pal.getD (4 * idx.getD i 0 + 2) 0, pal.getD (4 * idx.getD i 0 + 1) 0,
         pal.getD (4 * idx.getD i 0 + 0) 0, 255] := by
  obtain ⟨g1, e, hr, hp, hb⟩ := loadImage_direct_layout env g W H n 0 hd pal idx [] rest
    hbits hmalloc hbuf hsize hfit hcomp hab hoff (by rw [hfile, List.append_nil]) hhd hpal hn
    hidx rfl
  refine ⟨g1, _, e, hr, hp, hb, flatMap_quad_length _ (directPixel_length _ _ _ _) _, ?_⟩
  intro i hi
  rw [flatMap_quad _ (directPixel_length _ _ _ _) _ _ hi,
    directPixel_rgb pal _ idx [] 0 n i hpal (hrange i hi)]
  rfl

set_option maxRecDepth 1000000

/-- Witness of C1 on `fileA8`: a 2x1 image, palette entries `(10,20,30,99)` and
`(40,50,60,77)`, indices `1, 0`, alphas `200, 7`. -/
theorem C1_direct_alpha8_witness :
    loadedBuffer sampleEnv stateA8 = some [60, 50, 40, 200, 30, 20, 10, 7] ∧
    ∃ g1 buf, loadImage sampleEnv stateA8 = Except.ok g1 ∧ g1.gResult = noErr ∧
      g1.gData.imageBuffer = some buf ∧ buf.length = 4 * (2 * 1) ∧
      ∀ i, i < 2 * 1 → (buf.drop (4 * i)).take 4 =
        [[10, 20, 30, 99, 40, 50, 60, 77].getD (4 * [1, 0].getD i 0 + 2) 0,
         [10, 20, 30, 99, 40, 50, 60, 77].getD (4 * [1, 0].getD i 0 + 1) 0,
         [10, 20, 30, 99, 40, 50, 60, 77].getD (4 * [1, 0].getD i 0 + 0) 0,
         [200, 7].getD i 0] :=
  ⟨by decide,
   C1_direct_alpha8 sampleEnv stateA8 2 1 2 (fileA8.take 156) [10, 20, 30, 99, 40, 50, 60, 77]
     [1, 0] [200, 7] [] (by decide) (fun _ => rfl) (by decide) (by decide) (by decide)
     (by decide) (by decide) (by decide) (by decide) (by decide) (by decide) (by decide)
     (by decide) (by decide) (by decide)⟩

/-- Witness of C2, scenario E2: the packed byte `0x55` of an 8x1 image decodes to
the alphas `255, 0, 255, 0, 255, 0, 255, 0`. -/
theorem C2_direct_alpha1_witness :
    alphasOf (loadedBuffer sampleEnv stateE2) 8 = [255, 0, 255, 0, 255, 0, 255, 0] ∧
    ∃ g1 buf, loadImage sampleEnv stateE2 = Except.ok g1 ∧ g1.gResult = noErr ∧
      g1.gData.imageBuffer = some buf ∧
      ∀ i, i < 8 * 1 → buf.getD (4 * i + 3) 0 =
        if ([0x55].getD (i / 8) 0).testBit (i % 8) then 255 else 0 :=
  ⟨by decide,
   C2_direct_alpha1 sampleEnv stateE2 8 1 1 (fileE2.take 156) [10, 20, 30, 0]
     [0, 0, 0, 0, 0, 0, 0, 0] [0x55] [] (by decide) (fun _ => rfl) (by decide) (by decide)
     (by decide) (by decide) (by decide) (by decide) (by decide) (by decide) (by decide)
     (by decide) (by decide) (by decide)⟩

/-- Witness of C3, scenario E3: the packed byte `0xA3` of two pixels decodes to the
alphas `0xAA, 0x33`. -/
theorem C3_direct_alpha4_witness :
    alphasOf (loadedBuffer sampleEnv stateE3) 2 = [0xAA, 0x33] ∧
    ∃ g1 buf, loadImage sampleEnv stateE3 = Except.ok g1 ∧ g1.gResult = noErr ∧
      g1.gData.imageBuffer = some buf ∧
      (∀ i, i < 2 * 1 → ∃ v,
        v = (if i % 2 = 0 then [0xA3].getD (i / 2) 0 >>> 4 else [0xA3].getD (i / 2) 0 &&& 0x0F) ∧
        v < 16 ∧ buf.getD (4 * i + 3) 0 = ((v <<< 4) ||| v) ∧
        buf.getD (4 * i + 3) 0 = v * 0x11) ∧
      (∀ i j, i < 2 * 1 → j < 2 * 1 → buf.getD (4 * i + 3) 0 = buf.getD (4 * j + 3) 0 →
        (if i % 2 = 0 then [0xA3].getD (i / 2) 0 >>> 4 else [0xA3].getD (i / 2) 0 &&& 0x0F) =
        (if j % 2 = 0 then [0xA3].getD (j / 2) 0 >>> 4 else [0xA3].getD (j / 2) 0 &&& 0x0F)) :=
  ⟨by decide,
   C3_direct_alpha4 sampleEnv stateE3 2 1 1 (fileE3.take 156) [10, 20, 30, 0] [0, 0] [0xA3] []
     (by decide) (fun _ => rfl) (by decide) (by decide) (by decide) (by decide) (by decide)
     (by decide) (by decide) (by decide) (by decide) (by decide) (by decide) (by decide)
     (by decide)⟩

/-- Witness of C4, scenario E1: the 2x2 image with pixels `(255,0,0)`, `(0,255,0)`,
`(0,0,255)`, `(255,255,255)` over a four-entry palette decodes to the same colours
with alpha 255 everywhere. -/
theorem C4_direct_alpha0_witness :
    loadedBuffer sampleEnv stateE1 =
      some [255, 0, 0, 255, 0, 255, 0, 255, 0, 0, 255, 255, 255, 255, 255, 255] ∧
    ∃ g1 buf, loadImage sampleEnv stateE1 = Except.ok g1 ∧ g1.gResult = noErr ∧
      g1.file.pos = 156 + 4 * 4 + 2 * 2 ∧
      g1.gData.imageBuffer = some buf ∧ buf.length = 4 * (2 * 2) ∧
      ∀ i, i < 2 * 2 → (buf.drop (4 * i)).take 4 =
        [[0, 0, 255, 0, 0, 255, 0, 0, 255, 0, 0, 0, 255, 255, 255, 0].getD
            (4 * [0, 1, 2, 3].getD i 0 + 2) 0,
         [0, 0, 255, 0, 0, 255, 0, 0, 255, 0, 0, 0, 255, 255, 255, 0].getD
            (4 * [0, 1, 2, 3].getD i 0 + 1) 0,
         [0, 0, 255, 0, 0, 255, 0, 0, 255, 0, 0, 0, 255, 255, 255, 0].getD
            (4 * [0, 1, 2, 3].getD i 0 + 0) 0,
         255] :=
  ⟨by decide,
   C4_direct_alpha0 sampleEnv stateE1 2 2 4 (fileE1.take 156)
     [0, 0, 255, 0, 0, 255, 0, 0, 255, 0, 0, 0, 255, 255, 255, 0] [0, 1, 2, 3] []
     (by decide) (fun _ => rfl) (by decide) (by decide) (by decide) (by decide) (by decide)
     (by decide) (by decide) (by decide) (by decide) (by decide) (by decide) (by decide)⟩

/-! ## Claims C5 to C8: the header checks of `DoReadStart` and `DoFilterFile` -/

theorem take_getD (bs : List Nat) (n k : Nat) (hk : k < n) :
    (bs.take n).getD k 0 = bs.getD k 0 := by
  simp only [List.getD_eq_getElem?_getD, List.getElem?_take, hk, if_true]

theorem header_getD (bs old : List Nat) (k : Nat) (hlen : 156 ≤ bs.length) (hk : k < 156) :
    (overlay (bs.take 156) old).getD k 0 = bs.getD k 0 := by
  rw [overlay_getD _ _ _ (by rw [List.length_take]; omega), take_getD _ _ _ hk]

theorem header_u32le (bs old : List Nat) (off : Nat) (hlen : 156 ≤ bs.length)
    (hoff : off + 3 < 156) : u32le (overlay (bs.take 156) old) off = u32le bs off := by
  unfold u32le
  rw [header_getD _ _ _ hlen (by omega), header_getD _ _ _ hlen (by omega),
    header_getD _ _ _ hlen (by omega), header_getD _ _ _ hlen (by omega)]

theorem getD_lt_of_bytes (bs : List Nat) (hb : ∀ b, b ∈ bs → b < 256) (k : Nat) :
    bs.getD k 0 < 256 := by
  rw [List.getD_eq_getElem?_getD]
  cases hk : bs[k]? with
  | none => simp
  | some b => exact hb b (List.getElem?_mem hk)

theorem u32le_lt (bs : List Nat) (hb : ∀ b, b ∈ bs → b < 256) (off : Nat) :
    u32le bs off < 4294967296 := by
  have h0 := getD_lt_of_bytes bs hb off
  have h1 := getD_lt_of_bytes bs hb (off + 1)
  have h2 := getD_lt_of_bytes bs hb (off + 2)
  have h3 := getD_lt_of_bytes bs hb (off + 3)
  unfold u32le; omega

theorem magicMismatch_iff (bs : List Nat) (hlen : 4 ≤ bs.length) :
    magicMismatch bs = true ↔ bs.take 4 ≠ [0x42, 0x4C, 0x50, 0x31] := by
  match bs, hlen with
  | a :: b :: c :: d :: rest, _ =>
    simp only [magicMismatch, List.getD_cons_zero, List.getD_cons_succ, List.take_succ_cons,
      List.take_zero, Bool.or_eq_true, bne_iff_ne, ne_eq, List.cons.injEq, and_true]
    tauto

theorem magicMismatch_header (bs old : List Nat) (hlen : 156 ≤ bs.length) :
    magicMismatch (overlay (bs.take 156) old) = magicMismatch bs := by
  unfold magicMismatch
  rw [header_getD _ _ _ hlen (by norm_num), header_getD _ _ _ hlen (by norm_num),
    header_getD _ _ _ hlen (by norm_num), header_getD _ _ _ hlen (by norm_num)]

/-- The header read at the start of `DoReadStart` and `DoFilterFile`, on a stream
of at least 156 bytes. -/
theorem ReadSome_header (g : Globals) (old : List Nat) (hlen : 156 ≤ g.file.bytes.length) :
    ReadSome 156 old (setFPos g 0) =
      ({ g with gResult := noErr, file := { g.file with pos := 156 } },
        overlay (g.file.bytes.take 156) old) := by
  have h := ReadSome_of_avail 156 old (setFPos g 0) rfl (by simpa [setFPos, PSSDKSetFPos] using hlen)
  simpa [setFPos, PSSDKSetFPos] using h

/-- On a stream shorter than 156 bytes `DoReadStart` ends in `eofErr`. -/
theorem DoReadStart_short (env : Env) (g : Globals) (hlen : g.file.bytes.length < 156) :
    (DoReadStart env g).gResult = eofErr := by
  have h := ReadSome_short 156 g.gData.blpHeader (setFPos g 0) rfl
    (by simp only [setFPos_file]; omega)
  have hne : eofErr ≠ noErr := by decide
  unfold DoReadStart
  simp only [setFPos_gResult, ne_eq, not_true_eq_false, if_false, setFPos_gData]
  simp only [Nat.cast_ofNat] at h
  simp only [h, hne, not_false_eq_true, if_true]

/-- C5: on a stream of at least 156 bytes whose first four bytes are not
`'B','L','P','1'`, `DoReadStart` ends in `formatCannotRead`, a code different from
`noErr`, from the short-read code `eofErr` and from the other failure codes, and
the format record (image size, mode, planes) is left as it was; a stream shorter
than the header ends in `eofErr` instead. -/
theorem C5_invalid_magic (env : Env) (g : Globals)
    (hlen : 156 ≤ g.file.bytes.length)
    (hmagic : g.file.bytes.take 4 ≠ [0x42, 0x4C, 0x50, 0x31]) :
    (DoReadStart env g).gResult = formatCannotRead ∧
    formatCannotRead ≠ noErr ∧ formatCannotRead ≠ eofErr ∧
    formatCannotRead ≠ dskFulErr ∧ formatCannotRead ≠ memFullErr ∧
    (DoReadStart env g).gFormatRecord = g.gFormatRecord ∧
    (∀ g2 : Globals, g2.file.bytes.length < 156 → (DoReadStart env g2).gResult = eofErr) := by
  have hm : magicMismatch (overlay (g.file.bytes.take 156) g.gData.blpHeader) = true := by
    rw [magicMismatch_header _ _ hlen]
    exact (magicMismatch_iff _ (by omega)).mpr hmagic
  refine ⟨?_, by decide, by decide, by decide, by decide, ?_,
    fun g2 h2 => DoReadStart_short env g2 h2⟩
  · unfold DoReadStart
    simp only [setFPos_gResult, ne_eq, not_true_eq_false, if_false, setFPos_gData,
      ReadSome_header g _ hlen, hm, if_true]
  · unfold DoReadStart
    simp only [setFPos_gResult, ne_eq, not_true_eq_false, if_false, setFPos_gData,
      ReadSome_header g _ hlen, hm, if_true]

/-- Witness of C5, scenario E6: a header that begins `'B','L','P','2'` is rejected
with `formatCannotRead` and the format record is untouched. -/
theorem C5_invalid_magic_witness :
    (DoReadStart sampleEnv (sampleGlobals fileE6)).gResult = formatCannotRead ∧
    formatCannotRead ≠ noErr ∧ formatCannotRead ≠ eofErr ∧
    formatCannotRead ≠ dskFulErr ∧ formatCannotRead ≠ memFullErr ∧
    (DoReadStart sampleEnv (sampleGlobals fileE6)).gFormatRecord
      = (sampleGlobals fileE6).gFormatRecord ∧
    (∀ g2 : Globals, g2.file.bytes.length < 156 →
      (DoReadStart sampleEnv g2).gResult = eofErr) :=
  C5_invalid_magic sampleEnv (sampleGlobals fileE6) (by decide) (by decide)

/-- Counterexample to C6 as stated: the four-byte stream `'B','L','P','1'` has the
magic, yet `DoFilterFile` leaves `eofErr`, not `noErr`, because it reads a whole
156-byte header. -/
theorem C6_probe_counterexample :
    (sampleGlobals fileMagicOnly).file.bytes.take 4 = [0x42, 0x4C, 0x50, 0x31] ∧
    (DoFilterFile (sampleGlobals fileMagicOnly)).gResult = eofErr ∧
    ¬ ((DoFilterFile (sampleGlobals fileMagicOnly)).gResult = noErr ↔
        (sampleGlobals fileMagicOnly).file.bytes.take 4 = [0x42, 0x4C, 0x50, 0x31]) := by
  decide

/-- C6, amended: `DoFilterFile` leaves the result at `noErr` exactly when it was
`noErr` on entry, the stream holds at least the 156 bytes of a header, and its
first four bytes are `'B','L','P','1'`. -/
theorem C6_probe_amended (g : Globals) :
    (DoFilterFile g).gResult = noErr ↔
      (g.gResult = noErr ∧ 156 ≤ g.file.bytes.length ∧
        g.file.bytes.take 4 = [0x42, 0x4C, 0x50, 0x31]) := by
  by_cases h0 : g.gResult = noErr
  · by_cases hlen : 156 ≤ g.file.bytes.length
    · have hmm := magicMismatch_iff g.file.bytes (by omega)
      unfold DoFilterFile
      simp only [h0, ne_eq, not_true_eq_false, if_false, setFPos_gResult,
        ReadSome_header g _ hlen, overlay_nil, true_and, hlen]
      have hmh : magicMismatch (g.file.bytes.take 156) = magicMismatch g.file.bytes := by
        rw [← magicMismatch_header g.file.bytes [] hlen, overlay_nil]
      rw [hmh]
      rcases Bool.eq_false_or_eq_true (magicMismatch g.file.bytes) with hm | hm
      · have hne : formatCannotRead ≠ noErr := by decide
        simp only [hm, if_true, hne, false_iff]
        exact hmm.mp hm
      · simp only [hm, Bool.false_eq_true, if_false, true_iff]
        by_contra hc
        rw [hmm.mpr hc] at hm
        exact Bool.noConfusion hm
    · have h := ReadSome_short 156 [] (setFPos g 0) rfl
        (by simp only [setFPos_file]; omega)
      have hne : eofErr ≠ noErr := by decide
      simp only [Nat.cast_ofNat] at h
      unfold DoFilterFile
      simp only [h0, ne_eq, not_true_eq_false, if_false, setFPos_gResult, h, hne,
        not_false_eq_true, if_true, hlen, false_and, and_false]
  · unfold DoFilterFile
    simp only [ne_eq, h0, not_false_eq_true, if_true, false_and]

/-- C7: with the magic `'B','L','P','1'` in a stream of at least 156 bytes, a
`Compression` field other than 0 and 1 makes `DoReadStart` end in
`formatCannotRead`; with `Compression` 0 or 1 it ends in `noErr`, provided that in
the one case that reads a palette (DIRECT with `alpha_bits = 0`) the palette is
there: `Offset[0] ≥ 156` and the stream holds its `min 256 ((Offset[0]-156)/4)`
entries. -/
theorem C7_compression (env : Env) (g : Globals)
    (hlen : 156 ≤ g.file.bytes.length)
    (hmagic : g.file.bytes.take 4 = [0x42, 0x4C, 0x50, 0x31]) :
    (hdrCompression g.file.bytes ≠ 0 → hdrCompression g.file.bytes ≠ 1 →
      (DoReadStart env g).gResult = formatCannotRead) ∧
    ((hdrCompression g.file.bytes = 0 ∨ hdrCompression g.file.bytes = 1) →
      ((hdrCompression g.file.bytes = 1 ∧ hdrAlphaBits g.file.bytes = 0) →
        32 ≤ env.sizeBits ∧ (∀ b, b ∈ g.file.bytes → b < 256) ∧
        156 ≤ hdrOffset g.file.bytes 0 ∧
        156 + 4 * min 256 ((hdrOffset g.file.bytes 0 - 156) / 4) ≤ g.file.bytes.length) →
      (DoReadStart env g).gResult = noErr) := by
  have hm : magicMismatch (overlay (g.file.bytes.take 156) g.gData.blpHeader) = false := by
    rw [magicMismatch_header _ _ hlen]
    have := (magicMismatch_iff g.file.bytes (by omega)).not.mpr (by simpa using hmagic)
    simpa using this
  have hc : hdrCompression (overlay (g.file.bytes.take 156) g.gData.blpHeader)
      = hdrCompression g.file.bytes := header_u32le _ _ 4 hlen (by norm_num)
  have ha : hdrAlphaBits (overlay (g.file.bytes.take 156) g.gData.blpHeader)
      = hdrAlphaBits g.file.bytes := header_u32le _ _ 8 hlen (by norm_num)
  have ho : hdrOffset (overlay (g.file.bytes.take 156) g.gData.blpHeader) 0
      = hdrOffset g.file.bytes 0 := header_u32le _ _ 28 hlen (by norm_num)
  constructor
  · intro h0 h1
    unfold DoReadStart
    simp only [setFPos_gResult, ne_eq, not_true_eq_false, if_false, setFPos_gData,
      ReadSome_header g _ hlen, hm, Bool.false_eq_true, hc, BLP_COMPRESSION_DIRECT,
      BLP_COMPRESSION_JPEG, h0, h1]
  · intro hcomp hpal
    unfold DoReadStart
    simp only [setFPos_gResult, ne_eq, not_true_eq_false, if_false, setFPos_gData,
      ReadSome_header g _ hlen, hm, Bool.false_eq_true, hc, ha, ho, BLP_COMPRESSION_DIRECT,
      BLP_COMPRESSION_JPEG]
    rcases hcomp with h0 | h1
    · simp only [h0, zero_ne_one, if_false, if_true, readStartFinish]
    · simp only [h1, if_true]
      by_cases hz : hdrAlphaBits g.file.bytes > 0
      · simp only [hz, if_true, readStartFinish]
      · have hz0 : hdrAlphaBits g.file.bytes = 0 := by omega
        obtain ⟨hbits, hbytes, hge, hav⟩ := hpal ⟨h1, hz0⟩
        have hps := paletteSize_of_ge env.sizeBits _ hbits hge (u32le_lt _ hbytes _)
        have hn4 : ((min 256 ((hdrOffset g.file.bytes 0 - 156) / 4) : Nat) : Int) * 4
            = ((4 * min 256 ((hdrOffset g.file.bytes 0 - 156) / 4) : Nat) : Int) := by
          rw [Nat.cast_mul, mul_comm]; rfl
        simp only [hz, if_false, hps, hn4]
        rw [ReadSome_of_avail _ _ _ rfl hav]
        simp only [ne_eq, not_true_eq_false, if_false, readStartFinish]

/-- Witness of C7: scenario E1 (DIRECT, palette present) is accepted, a header
with `Compression = 2` is rejected with `formatCannotRead`. -/
theorem C7_compression_witness :
    (DoReadStart sampleEnv (sampleGlobals fileE1)).gResult = noErr ∧
    (DoReadStart sampleEnv (sampleGlobals fileComp2)).gResult = formatCannotRead :=
  ⟨(C7_compression sampleEnv (sampleGlobals fileE1) (by decide) (by decide)).2
      (Or.inr (by decide)) (fun _ => ⟨by decide, by decide, by decide, by decide⟩),
   (C7_compression sampleEnv (sampleGlobals fileComp2) (by decide) (by decide)).1
      (by decide) (by decide)⟩

/-- Counterexample to C8 as stated: a DIRECT 1x1 file with `alpha_bits = 2` is
decoded, not rejected: `DoReadStart` and `DoReadContinue` both end in `noErr`, the
host receives the four planes of the pixel, and its alpha is 255. -/
theorem C8_alpha_bits_counterexample :
    hdrAlphaBits fileAlpha2 = 2 ∧
    (DoReadStart sampleEnv (sampleGlobals fileAlpha2)).gResult = noErr ∧
    loadedBuffer sampleEnv (DoReadStart sampleEnv (sampleGlobals fileAlpha2))
      = some [30, 20, 10, 255] ∧
    (DoReadContinue sampleEnv (DoReadStart sampleEnv (sampleGlobals fileAlpha2))).gResult
      = noErr ∧
    (DoReadContinue sampleEnv (DoReadStart sampleEnv (sampleGlobals fileAlpha2))).delivered
      = [{ plane := 0, row := 0, data := [30] }, { plane := 1, row := 0, data := [20] },
         { plane := 2, row := 0, data := [10] }, { plane := 3, row := 0, data := [255] }] := by
  decide

/-- C8, amended: with the magic `'B','L','P','1'` and `Compression` 0 or 1, an
`alpha_bits` field that is none of 0, 1, 4, 8 is not rejected: `DoReadStart` ends
in `noErr` and declares an RGB image of four planes, and the DIRECT pixel loop
gives every pixel the alpha 255 whatever the packed plane holds. -/
theorem C8_alpha_bits_amended (env : Env) (g : Globals)
    (hlen : 156 ≤ g.file.bytes.length)
    (hmagic : g.file.bytes.take 4 = [0x42, 0x4C, 0x50, 0x31])
    (hcomp : hdrCompression g.file.bytes = 0 ∨ hdrCompression g.file.bytes = 1)
    (h0 : hdrAlphaBits g.file.bytes ≠ 0) (h1 : hdrAlphaBits g.file.bytes ≠ 1)
    (h4 : hdrAlphaBits g.file.bytes ≠ 4) (h8 : hdrAlphaBits g.file.bytes ≠ 8) :
    (DoReadStart env g).gResult = noErr ∧
    (DoReadStart env g).gFormatRecord.imageMode = plugInModeRGBColor ∧
    (DoReadStart env g).gFormatRecord.planes = 4 ∧
    hdrAlphaBits (DoReadStart env g).gData.blpHeader = hdrAlphaBits g.file.bytes ∧
    (∀ alpha i, directAlpha alpha (hdrAlphaBits g.file.bytes) i = 255) := by
  have hm : magicMismatch (overlay (g.file.bytes.take 156) g.gData.blpHeader) = false := by
    rw [magicMismatch_header _ _ hlen]
    have := (magicMismatch_iff g.file.bytes (by omega)).not.mpr (by simpa using hmagic)
    simpa using this
  have hc : hdrCompression (overlay (g.file.bytes.take 156) g.gData.blpHeader)
      = hdrCompression g.file.bytes := header_u32le _ _ 4 hlen (by norm_num)
  have ha : hdrAlphaBits (overlay (g.file.bytes.take 156) g.gData.blpHeader)
      = hdrAlphaBits g.file.bytes := header_u32le _ _ 8 hlen (by norm_num)
  have hz : hdrAlphaBits g.file.bytes > 0 := by omega
  have key : DoReadStart env g = readStartFinish
      { file := { g.file with pos := 156 }, gResult := noErr,
        gFormatRecord :=
          { SetFormatImageSize
              { v := toInt32 (hdrHeight (overlay (g.file.bytes.take 156) g.gData.blpHeader)),
                h := toInt32 (hdrWidth (overlay (g.file.bytes.take 156) g.gData.blpHeader)) }
              g.gFormatRecord with
            depth := 8, imageMode := plugInModeRGBColor, planes := 4, transparencyPlane := -1 },
        gData := { g.gData with
          blpHeader := overlay (g.file.bytes.take 156) g.gData.blpHeader, needsSwap := false },
        delivered := g.delivered } := by
    unfold DoReadStart
    simp only [setFPos_gResult, ne_eq, not_true_eq_false, if_false, setFPos_gData,
      ReadSome_header g _ hlen, hm, Bool.false_eq_true, hc, ha, BLP_COMPRESSION_DIRECT,
      BLP_COMPRESSION_JPEG, hz, if_true]
    rcases hcomp with c0 | c1
    · simp only [c0, zero_ne_one, if_false, if_true]
    · simp only [c1, if_true]
  refine ⟨by rw [key]; rfl, by rw [key]; rfl, by rw [key]; rfl, by rw [key]; exact ha, ?_⟩
  intro alpha i
  simp only [directAlpha, gt_iff_lt, hz, if_true, h8, h1, h4, if_false]

/-- Witness of C8 (amended) on the DIRECT file with `alpha_bits = 2`. -/
theorem C8_alpha_bits_amended_witness :
    (DoReadStart sampleEnv (sampleGlobals fileAlpha2)).gResult = noErr ∧
    (DoReadStart sampleEnv (sampleGlobals fileAlpha2)).gFormatRecord.imageMode
      = plugInModeRGBColor ∧
    (DoReadStart sampleEnv (sampleGlobals fileAlpha2)).gFormatRecord.planes = 4 ∧
    hdrAlphaBits (DoReadStart sampleEnv (sampleGlobals fileAlpha2)).gData.blpHeader
      = hdrAlphaBits (sampleGlobals fileAlpha2).file.bytes ∧
    (∀ alpha i, directAlpha alpha (hdrAlphaBits (sampleGlobals fileAlpha2).file.bytes) i = 255) :=
  C8_alpha_bits_amended sampleEnv (sampleGlobals fileAlpha2) (by decide) (by decide)
    (Or.inr (by decide)) (by decide) (by decide) (by decide) (by decide)

/-! ## Claims C9 and C10: the mipmap loop of `DoWriteStart` -/

theorem set_getD_zero (l : List Nat) (j i : Nat) (h : l.getD i 0 = 0) :
    (l.set j 0).getD i 0 = 0 := by
  rw [List.getD_eq_getElem?_getD] at h ⊢
  rw [List.getElem?_set]
  split_ifs <;> simp_all

theorem set_getD_ne (l : List Nat) (j i x : Nat) (h : j ≠ i) :
    (l.set j x).getD i 0 = l.getD i 0 := by
  rw [List.getD_eq_getElem?_getD, List.getD_eq_getElem?_getD, List.getElem?_set, if_neg h]

theorem zeroFrom_keeps_zero (h : BLP_HEADER) (start i : Nat)
    (hz : h.Offset.getD i 0 = 0 ∧ h.Size.getD i 0 = 0) :
    (zeroFrom h start).Offset.getD i 0 = 0 ∧ (zeroFrom h start).Size.getD i 0 = 0 := by
  unfold zeroFrom
  generalize List.range (16 - start) = l
  induction l generalizing h with
  | nil => exact hz
  | cons k l ih =>
    rw [List.foldl_cons]
    exact ih _ ⟨set_getD_zero _ _ _ hz.1, set_getD_zero _ _ _ hz.2⟩

theorem mipLoop_done (env : Env) (maxMips : Int) (fuel : Nat) (s : MipState)
    (h : ¬ s.mipLevel < 16) : mipLoop env maxMips fuel s = s := by
  cases fuel with
  | zero => rfl
  | succ n => simp only [mipLoop, h, if_false]

theorem halve_cast (a : Nat) :
    (if (a : Int).tdiv 2 < 1 then (1 : Int) else (a : Int).tdiv 2) = ((max 1 (a / 2) : Nat) : Int) := by
  rw [Int.tdiv_eq_ediv (by omega) (by norm_num)]
  have h : (a : Int) / 2 = ((a / 2 : Nat) : Int) := by omega
  rw [h]
  split_ifs with hlt <;> omega

theorem halve_dim (W m : Nat) : max 1 (max 1 (W / 2 ^ m) / 2) = max 1 (W / 2 ^ (m + 1)) := by
  rw [Nat.pow_succ, ← Nat.div_div_eq_div_mul]
  generalize W / 2 ^ m = q
  omega

/-- One pass of the mipmap loop from a state whose current level is `a x b` with
`a, b ≥ 1` and `mipLevel < 16 = maxMips`: the level is handed to the compressor;
a 1x1 level ends the loop, any other level is halved. -/
theorem mipStep_spec (env : Env) (s : MipState) (a b : Nat) (ha : 1 ≤ a) (hb : 1 ≤ b)
    (hcw : s.curW = (a : Int)) (hch : s.curH = (b : Int)) (hm : s.mipLevel < 16) :
    (mipStep env 16 s).levels = s.levels ++ [((a : Int), (b : Int))] ∧
    (∀ i, s.mipLevel < i → (s.header.Offset.getD i 0 = 0 ∧ s.header.Size.getD i 0 = 0) →
      ((mipStep env 16 s).header.Offset.getD i 0 = 0 ∧
        (mipStep env 16 s).header.Size.getD i 0 = 0)) ∧
    (if a = 1 ∧ b = 1 then (mipStep env 16 s).mipLevel = 16
     else (mipStep env 16 s).mipLevel = s.mipLevel + 1 ∧
      (mipStep env 16 s).curW = ((max 1 (a / 2) : Nat) : Int) ∧
      (mipStep env 16 s).curH = ((max 1 (b / 2) : Nat) : Int)) := by
  have hge : ¬ ((s.mipLevel : Int) ≥ 16) := by omega
  have ha0 : ¬ ((a : Int) = 0) := by omega
  have hb0 : ¬ ((b : Int) = 0) := by omega
  unfold mipStep
  simp only [hge, if_false, hcw, hch, ha0, hb0, halve_cast]
  by_cases h1 : a = 1 ∧ b = 1
  · have hc : ((((max 1 (a / 2) : Nat) : Int) = (a : Int) ∧ ((max 1 (b / 2) : Nat) : Int) = (b : Int))
        ∧ ((a : Int) = 1 ∧ (b : Int) = 1)) := by
      obtain ⟨rfl, rfl⟩ := h1; decide
    rw [if_pos hc, if_pos h1]
    refine ⟨rfl, ?_, rfl⟩
    intro i hi hz
    apply zeroFrom_keeps_zero
    simp only [setSlot]
    rw [set_getD_ne _ _ _ _ (by omega), set_getD_ne _ _ _ _ (by omega)]
    exact hz
  · have hc : ¬ ((((max 1 (a / 2) : Nat) : Int) = (a : Int) ∧ ((max 1 (b / 2) : Nat) : Int) = (b : Int))
        ∧ ((a : Int) = 1 ∧ (b : Int) = 1)) := by
      intro ⟨_, h2⟩; apply h1; omega
    rw [if_neg hc, if_neg h1]
    refine ⟨rfl, ?_, rfl, rfl, rfl⟩
    intro i hi hz
    simp only [setSlot]
    rw [set_getD_ne _ _ _ _ (by omega), set_getD_ne _ _ _ _ (by omega)]
    exact hz

theorem replicate_getD_zero (n i : Nat) : (List.replicate n 0).getD i 0 = 0 := by
  rw [List.getD_eq_getElem?_getD, List.getElem?_replicate]
  split_ifs <;> rfl

/-- The mipmap loop from level `m` of a `W x H` image, with 16 - `m` passes
allowed: it ends with `mipLevel = 16`, having compressed the levels
`max 1 (W/2^i) x max 1 (H/2^i)` for `i < L`, where `L` is either 16 or the first
level that is 1x1 counted in; the slots from `L` on stay zero. -/
theorem mipLoop_spec (env : Env) (W H : Nat) :
    ∀ (fuel m : Nat) (s : MipState), m + fuel = 16 → s.mipLevel = m →
      s.curW = ((max 1 (W / 2 ^ m) : Nat) : Int) →
      s.curH = ((max 1 (H / 2 ^ m) : Nat) : Int) →
      s.levels = (List.range m).map
        (fun i => (((max 1 (W / 2 ^ i) : Nat) : Int), ((max 1 (H / 2 ^ i) : Nat) : Int))) →
      (∀ j, j < m → ¬ (max 1 (W / 2 ^ j) = 1 ∧ max 1 (H / 2 ^ j) = 1)) →
      (∀ i, m ≤ i → (s.header.Offset.getD i 0 = 0 ∧ s.header.Size.getD i 0 = 0)) →
      ∃ L, m ≤ L ∧ L ≤ 16 ∧ (fuel ≠ 0 → m < L) ∧
        (mipLoop env 16 fuel s).mipLevel = 16 ∧
        (mipLoop env 16 fuel s).levels = (List.range L).map
          (fun i => (((max 1 (W / 2 ^ i) : Nat) : Int), ((max 1 (H / 2 ^ i) : Nat) : Int))) ∧
        (∀ j, j + 1 < L → ¬ (max 1 (W / 2 ^ j) = 1 ∧ max 1 (H / 2 ^ j) = 1)) ∧
        (L < 16 → (max 1 (W / 2 ^ (L - 1)) = 1 ∧ max 1 (H / 2 ^ (L - 1)) = 1)) ∧
        (∀ i, L ≤ i → ((mipLoop env 16 fuel s).header.Offset.getD i 0 = 0 ∧
          (mipLoop env 16 fuel s).header.Size.getD i 0 = 0)) := by
  intro fuel
  induction fuel with
  | zero =>
    intro m s hm hlev hw hh hl hne hz
    have h16 : m = 16 := by omega
    subst h16
    exact ⟨16, le_refl _, le_refl _, fun h => absurd rfl h, hlev, hl,
      fun j hj => hne j (by omega), fun h => absurd h (by omega), hz⟩
  | succ fuel ih =>
    intro m s hm hlev hw hh hl hne hz
    have hlt : s.mipLevel < 16 := by omega
    obtain ⟨e1, e2, e3⟩ := mipStep_spec env s (max 1 (W / 2 ^ m)) (max 1 (H / 2 ^ m))
      (le_max_left _ _) (le_max_left _ _) hw hh hlt
    have hstep : mipLoop env 16 (fuel + 1) s = mipLoop env 16 fuel (mipStep env 16 s) := by
      simp only [mipLoop, hlt, if_true]
    have hlev1 : (mipStep env 16 s).levels = (List.range (m + 1)).map
        (fun i => (((max 1 (W / 2 ^ i) : Nat) : Int), ((max 1 (H / 2 ^ i) : Nat) : Int))) := by
      rw [e1, hl, List.range_succ, List.map_append]; rfl
    have hz1 : ∀ i, m + 1 ≤ i → ((mipStep env 16 s).header.Offset.getD i 0 = 0 ∧
        (mipStep env 16 s).header.Size.getD i 0 = 0) :=
      fun i hi => e2 i (by omega) (hz i (by omega))
    rw [hstep]
    by_cases hone : max 1 (W / 2 ^ m) = 1 ∧ max 1 (H / 2 ^ m) = 1
    · rw [if_pos hone] at e3
      rw [mipLoop_done env 16 fuel _ (by omega)]
      refine ⟨m + 1, by omega, by omega, fun _ => by omega, e3, hlev1, ?_, ?_, hz1⟩
      · intro j hj; exact hne j (by omega)
      · intro _; simpa using hone
    · rw [if_neg hone] at e3
      obtain ⟨L, h1, h2, -, h4, h5, h6, h7, h8⟩ := ih (m + 1) (mipStep env 16 s) (by omega)
        (by rw [e3.1, hlev]) (by rw [e3.2.1, halve_dim]) (by rw [e3.2.2, halve_dim]) hlev1
        (by
          intro j hj
          by_cases hjm : j = m
          · subst hjm; exact hone
          · exact hne j (by omega))
        hz1
      exact ⟨L, by omega, h2, fun _ => by omega, h4, h5, h6, h7, h8⟩

/-- An early return of the first part of `DoWriteStart` carries an error. -/
theorem gatherPlanes_error (env : Env) (g ge : Globals)
    (h : gatherPlanes env g = Except.error ge) : ge.gResult ≠ noErr := by
  unfold gatherPlanes at h
  dsimp only at h
  split_ifs at h
  all_goals first
    | (cases h; done)
    | (cases h; assumption)
    | (cases h; exact (show memFullErr ≠ noErr by decide))

/-- The second part of `DoWriteStart` returns what the mipmap loop computed. -/
theorem writeLevels_loop (env : Env) (g2 : Globals) (width height planes : Int) :
    ∃ s0 : MipState,
      (writeLevels env g2 width height planes).levels = (mipLoop env 16 16 s0).levels ∧
      (writeLevels env g2 width height planes).header = (mipLoop env 16 16 s0).header ∧
      s0.mipLevel = 0 ∧ s0.curW = width ∧ s0.curH = height ∧ s0.levels = [] ∧
      (∀ i, s0.header.Offset.getD i 0 = 0 ∧ s0.header.Size.getD i 0 = 0) := by
  unfold writeLevels
  simp only [setFPos_gResult, ne_eq, not_true_eq_false, if_false]
  exact ⟨_, rfl, rfl, rfl, rfl, rfl, rfl,
    fun i => ⟨replicate_getD_zero _ _, replicate_getD_zero _ _⟩⟩

/-- A run of `DoWriteStart` that ends in `noErr` went through the mipmap loop,
started at level 0 with the image size and an all-zero offset and size table. -/
theorem DoWriteStart_loop (env : Env) (g : Globals) :
    (DoWriteStart env g).g.gResult = noErr →
    ∃ s0 : MipState,
      (DoWriteStart env g).levels = (mipLoop env 16 16 s0).levels ∧
      (DoWriteStart env g).header = (mipLoop env 16 16 s0).header ∧
      s0.mipLevel = 0 ∧
      s0.curW = (GetFormatImageSize g.gFormatRecord).h ∧
      s0.curH = (GetFormatImageSize g.gFormatRecord).v ∧
      s0.levels = [] ∧
      (∀ i, s0.header.Offset.getD i 0 = 0 ∧ s0.header.Size.getD i 0 = 0) := by
  unfold DoWriteStart
  cases hg : gatherPlanes env g with
  | error ge =>
    intro h
    exact absurd h (gatherPlanes_error env g ge hg)
  | ok g2 =>
    intro _
    exact writeLevels_loop env g2 _ _ _

/-- C9: for a `W x H` image with `W, H ≥ 1`, a run of `DoWriteStart` that ends in
`noErr` hands to the JPEG compressor, as level `i`, a raster of
`max 1 (W / 2^i)` by `max 1 (H / 2^i)` pixels, for the levels `i < L`; the chain
has between 1 and 16 levels, no level before the last is 1x1, the last one is 1x1
unless there are 16, and the slots from `L` to 15 have offset and size 0. -/
theorem C9_mip_dimensions (env : Env) (g : Globals) (W H : Nat)
    (hsize : GetFormatImageSize g.gFormatRecord = { v := (H : Int), h := (W : Int) })
    (hW : 1 ≤ W) (hH : 1 ≤ H)
    (hok : (DoWriteStart env g).g.gResult = noErr) :
    ∃ L, 1 ≤ L ∧ L ≤ 16 ∧
      (DoWriteStart env g).levels = (List.range L).map
        (fun i => (((max 1 (W / 2 ^ i) : Nat) : Int), ((max 1 (H / 2 ^ i) : Nat) : Int))) ∧
      (∀ j, j + 1 < L → ¬ (max 1 (W / 2 ^ j) = 1 ∧ max 1 (H / 2 ^ j) = 1)) ∧
      (L < 16 → (max 1 (W / 2 ^ (L - 1)) = 1 ∧ max 1 (H / 2 ^ (L - 1)) = 1)) ∧
      (∀ i, L ≤ i → i < 16 → ((DoWriteStart env g).header.Offset.getD i 0 = 0 ∧
        (DoWriteStart env g).header.Size.getD i 0 = 0)) := by
  obtain ⟨s0, e1, e2, hm, hw, hh, hl, hz⟩ := DoWriteStart_loop env g hok
  rw [hsize] at hw hh
  obtain ⟨L, -, h2, h3, -, h5, h6, h7, h8⟩ := mipLoop_spec env W H 16 0 s0 rfl hm
    (by rw [hw]; simp; omega) (by rw [hh]; simp; omega) (by rw [hl]; rfl)
    (fun j hj => absurd hj (by omega)) (fun i _ => hz i)
  refine ⟨L, h3 (by norm_num), h2, by rw [e1, h5], h6, h7, ?_⟩
  intro i hi _
  rw [e2]
  exact h8 i hi

/-- Witness of C9, scenario E5: a 5x3 image gives the levels 5x3, 2x1, 1x1 in
three populated slots, and slots 3 to 15 have offset and size 0. -/
theorem C9_mip_dimensions_witness :
    (DoWriteStart sampleEnv (writeGlobals 5 3 4 3)).levels = [(5, 3), (2, 1), (1, 1)] ∧
    (DoWriteStart sampleEnv (writeGlobals 5 3 4 3)).header.Offset
      = [160, 164, 168, 0, 0, 0, 0, 0, 0, 0, 0, 0, 0, 0, 0, 0] ∧
    (DoWriteStart sampleEnv (writeGlobals 5 3 4 3)).header.Size
      = [4, 4, 4, 0, 0, 0, 0, 0, 0, 0, 0, 0, 0, 0, 0, 0] ∧
    ∃ L, 1 ≤ L ∧ L ≤ 16 ∧
      (DoWriteStart sampleEnv (writeGlobals 5 3 4 3)).levels = (List.range L).map
        (fun i => (((max 1 (5 / 2 ^ i) : Nat) : Int), ((max 1 (3 / 2 ^ i) : Nat) : Int))) ∧
      (∀ j, j + 1 < L → ¬ (max 1 (5 / 2 ^ j) = 1 ∧ max 1 (3 / 2 ^ j) = 1)) ∧
      (L < 16 → (max 1 (5 / 2 ^ (L - 1)) = 1 ∧ max 1 (3 / 2 ^ (L - 1)) = 1)) ∧
      (∀ i, L ≤ i → i < 16 →
        ((DoWriteStart sampleEnv (writeGlobals 5 3 4 3)).header.Offset.getD i 0 = 0 ∧
         (DoWriteStart sampleEnv (writeGlobals 5 3 4 3)).header.Size.getD i 0 = 0)) :=
  ⟨by decide, by decide, by decide,
   C9_mip_dimensions sampleEnv (writeGlobals 5 3 4 3) 5 3 (by decide) (by decide) (by decide)
     (by decide)⟩

/-- C10 at the failing input: with `gData->mipmapCount = 1` and a 5x3 image,
`DoWriteStart` still compresses three levels and fills three slots, where the
claim asks for `min 3 1 = 1`; the loop bound is the local constant `maxMips = 16`
and `gData->mipmapCount` is not read. -/
theorem C10_mipmapCount_not_read :
    (writeGlobals 5 3 4 1).gData.mipmapCount = 1 ∧
    Notify 1 = 1 ∧
    (DoWriteStart sampleEnv (writeGlobals 5 3 4 1)).g.gResult = noErr ∧
    (DoWriteStart sampleEnv (writeGlobals 5 3 4 1)).levels = [(5, 3), (2, 1), (1, 1)] ∧
    (DoWriteStart sampleEnv (writeGlobals 5 3 4 1)).header.Size
      = [4, 4, 4, 0, 0, 0, 0, 0, 0, 0, 0, 0, 0, 0, 0, 0] ∧
    (DoWriteStart sampleEnv (writeGlobals 5 3 4 1)).header.Offset
      = [160, 164, 168, 0, 0, 0, 0, 0, 0, 0, 0, 0, 0, 0, 0, 0] := by
  decide

/-! ## The offset and size tables of `DoWriteStart` -/

theorem writeLevels_eq (env : Env) (g2 : Globals) (width height planes : Int) :
    writeLevels env g2 width height planes =
      { g := setImageBuffer
          (WriteSome 156 (mipLoop env 16 16 (loopStart g2 width height planes)).header.toBytes
            (setFPos (mipLoop env 16 16 (loopStart g2 width height planes)).g 0)) none,
        header := (mipLoop env 16 16 (loopStart g2 width height planes)).header,
        levels := (mipLoop env 16 16 (loopStart g2 width height planes)).levels } := by
  unfold writeLevels
  simp only [setFPos_gResult, ne_eq, not_true_eq_false, if_false]
  rfl

/-- A run of `DoWriteStart` that ends in `noErr` gathered the planes in some state
`g2`, ran the mipmap loop from `loopStart`, and rewrote the header. -/
theorem DoWriteStart_eq (env : Env) (g : Globals)
    (hok : (DoWriteStart env g).g.gResult = noErr) :
    ∃ g2, gatherPlanes env g = Except.ok g2 ∧
      DoWriteStart env g = writeLevels env g2 (GetFormatImageSize g.gFormatRecord).h
        (GetFormatImageSize g.gFormatRecord).v g.gFormatRecord.planes ∧
      writtenStreams env g = mipStreams env 16 16
        (loopStart g2 (GetFormatImageSize g.gFormatRecord).h
          (GetFormatImageSize g.gFormatRecord).v g.gFormatRecord.planes) := by
  unfold DoWriteStart writtenStreams at *
  cases hg : gatherPlanes env g with
  | error ge =>
    rw [hg] at hok
    exact absurd hok (gatherPlanes_error env g ge hg)
  | ok g2 => exact ⟨g2, rfl, rfl, rfl⟩

/-- One pass of the mipmap loop below level 16 with `maxMips = 16`: the bitstream
of the pass is written, its offset and size go to the slot `mipLevel`, and either
the loop goes on at the next level or the remaining slots are zeroed and
`mipLevel` becomes 16. -/
theorem mipStep_pass (env : Env) (s : MipState) (hm : s.mipLevel < 16) :
    (mipStep env 16 s).g
      = WriteSome (toInt32 (passStream env s).length) (passStream env s) s.g ∧
    (mipStep env 16 s).currentOffset
      = (s.currentOffset + (passStream env s).length) % 4294967296 ∧
    (mipStep env 16 s).levels.length = s.levels.length + 1 ∧
    (((mipStep env 16 s).mipLevel = s.mipLevel + 1 ∧
        (mipStep env 16 s).header
          = setSlot s.header s.mipLevel s.currentOffset
              ((passStream env s).length % 4294967296)) ∨
     ((mipStep env 16 s).mipLevel = 16 ∧
        (mipStep env 16 s).header
          = zeroFrom (setSlot s.header s.mipLevel s.currentOffset
              ((passStream env s).length % 4294967296)) (s.mipLevel + 1))) := by
  have hge : ¬ ((s.mipLevel : Int) ≥ 16) := by omega
  unfold mipStep passStream
  simp only [hge, if_false]
  split_ifs <;>
    simp only [List.length_append, List.length_singleton, true_and, and_self, or_true, true_or]

theorem set_getD_self (l : List Nat) (i x : Nat) (h : i < l.length) :
    (l.set i x).getD i 0 = x := by
  rw [List.getD_eq_getElem?_getD, List.getElem?_set]
  simp [h]

theorem setSlot_at (h : BLP_HEADER) (i off size : Nat) (hO : i < h.Offset.length)
    (hS : i < h.Size.length) :
    (setSlot h i off size).Offset.getD i 0 = off ∧ (setSlot h i off size).Size.getD i 0 = size :=
  ⟨set_getD_self _ _ _ hO, set_getD_self _ _ _ hS⟩

theorem setSlot_ne (h : BLP_HEADER) (i j off size : Nat) (hne : i ≠ j) :
    (setSlot h i off size).Offset.getD j 0 = h.Offset.getD j 0 ∧
    (setSlot h i off size).Size.getD j 0 = h.Size.getD j 0 :=
  ⟨set_getD_ne _ _ _ _ hne, set_getD_ne _ _ _ _ hne⟩

theorem setSlot_length (h : BLP_HEADER) (i off size : Nat) :
    (setSlot h i off size).Offset.length = h.Offset.length ∧
    (setSlot h i off size).Size.length = h.Size.length :=
  ⟨List.length_set _ _ _, List.length_set _ _ _⟩

theorem setSlot_scalars (h : BLP_HEADER) (i off size : Nat) :
    scalars (setSlot h i off size) = scalars h := rfl

theorem zeroFrom_length (h : BLP_HEADER) (start : Nat) :
    (zeroFrom h start).Offset.length = h.Offset.length ∧
    (zeroFrom h start).Size.length = h.Size.length := by
  unfold zeroFrom
  generalize List.range (16 - start) = l
  induction l generalizing h with
  | nil => exact ⟨rfl, rfl⟩
  | cons k l ih =>
    rw [List.foldl_cons]
    obtain ⟨h1, h2⟩ := ih (setSlot h (start + k) 0 0)
    exact ⟨h1.trans (setSlot_length _ _ _ _).1, h2.trans (setSlot_length _ _ _ _).2⟩

theorem zeroFrom_scalars (h : BLP_HEADER) (start : Nat) :
    scalars (zeroFrom h start) = scalars h := by
  unfold zeroFrom
  generalize List.range (16 - start) = l
  induction l generalizing h with
  | nil => rfl
  | cons k l ih =>
    rw [List.foldl_cons]
    exact (ih _).trans (setSlot_scalars _ _ _ _)

theorem zeroFrom_lt (h : BLP_HEADER) (start i : Nat) (hi : i < start) :
    (zeroFrom h start).Offset.getD i 0 = h.Offset.getD i 0 ∧
    (zeroFrom h start).Size.getD i 0 = h.Size.getD i 0 := by
  unfold zeroFrom
  generalize List.range (16 - start) = l
  induction l generalizing h with
  | nil => exact ⟨rfl, rfl⟩
  | cons k l ih =>
    rw [List.foldl_cons]
    obtain ⟨h1, h2⟩ := ih (setSlot h (start + k) 0 0)
    obtain ⟨h3, h4⟩ := setSlot_ne h (start + k) i 0 0 (by omega)
    exact ⟨h1.trans h3, h2.trans h4⟩

theorem sizeBefore_zero (T : List (List Nat)) : sizeBefore T 0 = 0 := by
  simp [sizeBefore]

theorem sizeBefore_cons (p : List Nat) (T : List (List Nat)) (k : Nat) :
    sizeBefore (p :: T) (k + 1) = p.length + sizeBefore T k := by
  simp [sizeBefore]

theorem mipStreams_done (env : Env) (fuel : Nat) (s : MipState) (h : ¬ s.mipLevel < 16) :
    mipStreams env 16 fuel s = [] := by
  cases fuel with
  | zero => rfl
  | succ n => simp only [mipStreams, h, if_false]

/-- The tables after the mipmap loop, from a state at level `m` with enough passes
left: the `k`-th bitstream of the loop has its offset and size in slot `m + k`,
the offset being the offset on entry plus the sizes before it (modulo `2^32`);
the slots below `m` and the scalar fields are untouched, and the slots past the
last bitstream stay zero. -/
theorem mipLoop_tables (env : Env) :
    ∀ (fuel : Nat) (s : MipState), 16 ≤ s.mipLevel + fuel → s.mipLevel ≤ 16 →
      s.currentOffset < 4294967296 →
      s.header.Offset.length = 16 → s.header.Size.length = 16 →
      s.mipLevel + (mipStreams env 16 fuel s).length ≤ 16 ∧
      (s.mipLevel < 16 → mipStreams env 16 fuel s ≠ []) ∧
      (mipLoop env 16 fuel s).levels.length
        = s.levels.length + (mipStreams env 16 fuel s).length ∧
      (mipLoop env 16 fuel s).header.Offset.length = 16 ∧
      (mipLoop env 16 fuel s).header.Size.length = 16 ∧
      scalars (mipLoop env 16 fuel s).header = scalars s.header ∧
      (∀ k, k < (mipStreams env 16 fuel s).length →
        (mipLoop env 16 fuel s).header.Offset.getD (s.mipLevel + k) 0
          = (s.currentOffset + sizeBefore (mipStreams env 16 fuel s) k) % 4294967296 ∧
        (mipLoop env 16 fuel s).header.Size.getD (s.mipLevel + k) 0
          = ((mipStreams env 16 fuel s).getD k []).length % 4294967296) ∧
      (∀ i, i < s.mipLevel →
        (mipLoop env 16 fuel s).header.Offset.getD i 0 = s.header.Offset.getD i 0 ∧
        (mipLoop env 16 fuel s).header.Size.getD i 0 = s.header.Size.getD i 0) ∧
      (∀ i, s.mipLevel + (mipStreams env 16 fuel s).length ≤ i →
        (s.header.Offset.getD i 0 = 0 ∧ s.header.Size.getD i 0 = 0) →
        ((mipLoop env 16 fuel s).header.Offset.getD i 0 = 0 ∧
          (mipLoop env 16 fuel s).header.Size.getD i 0 = 0)) := by
  intro fuel
  induction fuel with
  | zero =>
    intro s h1 h2 hco hO hS
    have e1 : mipStreams env 16 0 s = [] := rfl
    have e2 : mipLoop env 16 0 s = s := rfl
    rw [e1, e2]
    exact ⟨h2, fun h => absurd h (by omega), rfl, hO, hS, rfl,
      fun k hk => absurd hk (Nat.not_lt_zero _), fun i _ => ⟨rfl, rfl⟩, fun i _ hz => hz⟩
  | succ fuel ih =>
    intro s h1 h2 hco hO hS
    by_cases hm : s.mipLevel < 16
    · have hge : ¬ ((s.mipLevel : Int) ≥ 16) := by omega
      have hT : mipStreams env 16 (fuel + 1) s
          = passStream env s :: mipStreams env 16 fuel (mipStep env 16 s) := by
        simp only [mipStreams, hm, if_true, hge, if_false, List.singleton_append]
      have hL : mipLoop env 16 (fuel + 1) s = mipLoop env 16 fuel (mipStep env 16 s) := by
        simp only [mipLoop, hm, if_true]
      obtain ⟨-, e2, e3, e4⟩ := mipStep_pass env s hm
      have hco1 : (mipStep env 16 s).currentOffset < 4294967296 := by
        rw [e2]; exact Nat.mod_lt _ (by norm_num)
      rw [hT, hL]
      rcases e4 with ⟨hlev, hhdr⟩ | ⟨hlev, hhdr⟩
      · -- the loop goes on at the next level
        have hO1 : (mipStep env 16 s).header.Offset.length = 16 := by
          rw [hhdr, (setSlot_length _ _ _ _).1, hO]
        have hS1 : (mipStep env 16 s).header.Size.length = 16 := by
          rw [hhdr, (setSlot_length _ _ _ _).2, hS]
        obtain ⟨a1, -, a3, a4, a5, a6, a7, a8, a9⟩ := ih (mipStep env 16 s)
          (by rw [hlev]; omega) (by rw [hlev]; omega) hco1 hO1 hS1
        rw [hlev] at a1 a7 a8 a9
        refine ⟨by simp only [List.length_cons]; omega, fun _ => List.cons_ne_nil _ _,
          by rw [a3, e3, List.length_cons]; omega, a4, a5,
          by rw [a6, hhdr, setSlot_scalars], ?_, ?_, ?_⟩
        · intro k hk
          cases k with
          | zero =>
            obtain ⟨b1, b2⟩ := a8 s.mipLevel (by omega)
            obtain ⟨c1, c2⟩ := setSlot_at s.header s.mipLevel s.currentOffset
              ((passStream env s).length % 4294967296) (by omega) (by omega)
            rw [Nat.add_zero, b1, b2, hhdr, c1, c2, sizeBefore_zero, Nat.add_zero,
              Nat.mod_eq_of_lt hco]
            exact ⟨rfl, rfl⟩
          | succ k =>
            obtain ⟨b1, b2⟩ := a7 k (by simpa using hk)
            have hidx : s.mipLevel + (k + 1) = s.mipLevel + 1 + k := by omega
            rw [hidx, b1, b2, e2, sizeBefore_cons, Nat.mod_add_mod, Nat.add_assoc]
            exact ⟨rfl, rfl⟩
        · intro i hi
          obtain ⟨b1, b2⟩ := a8 i (by omega)
          obtain ⟨c1, c2⟩ := setSlot_ne s.header s.mipLevel i s.currentOffset
            ((passStream env s).length % 4294967296) (by omega)
          rw [b1, b2, hhdr, c1, c2]
          exact ⟨rfl, rfl⟩
        · intro i hi hz
          simp only [List.length_cons] at hi
          apply a9 i (by omega)
          obtain ⟨c1, c2⟩ := setSlot_ne s.header s.mipLevel i s.currentOffset
            ((passStream env s).length % 4294967296) (by omega)
          rw [hhdr, c1, c2]
          exact hz
      · -- the 1x1 level: the remaining slots are zeroed and the loop ends
        have hdone : ¬ (mipStep env 16 s).mipLevel < 16 := by rw [hlev]; omega
        rw [mipStreams_done env fuel _ hdone, mipLoop_done env 16 fuel _ hdone]
        refine ⟨by simp only [List.length_singleton]; omega, fun _ => List.cons_ne_nil _ _,
          by rw [e3, List.length_singleton], ?_, ?_,
          by rw [hhdr, zeroFrom_scalars, setSlot_scalars], ?_, ?_, ?_⟩
        · rw [hhdr, (zeroFrom_length _ _).1, (setSlot_length _ _ _ _).1, hO]
        · rw [hhdr, (zeroFrom_length _ _).2, (setSlot_length _ _ _ _).2, hS]
        · intro k hk
          have hk0 : k = 0 := by simpa using hk
          subst hk0
          obtain ⟨b1, b2⟩ := zeroFrom_lt (setSlot s.header s.mipLevel s.currentOffset
            ((passStream env s).length % 4294967296)) (s.mipLevel + 1) s.mipLevel (by omega)
          obtain ⟨c1, c2⟩ := setSlot_at s.header s.mipLevel s.currentOffset
            ((passStream env s).length % 4294967296) (by omega) (by omega)
          rw [Nat.add_zero, hhdr, b1, b2, c1, c2, sizeBefore_zero, Nat.add_zero,
            Nat.mod_eq_of_lt hco]
          exact ⟨rfl, rfl⟩
        · intro i hi
          obtain ⟨b1, b2⟩ := zeroFrom_lt (setSlot s.header s.mipLevel s.currentOffset
            ((passStream env s).length % 4294967296)) (s.mipLevel + 1) i (by omega)
          obtain ⟨c1, c2⟩ := setSlot_ne s.header s.mipLevel i s.currentOffset
            ((passStream env s).length % 4294967296) (by omega)
          rw [hhdr, b1, b2, c1, c2]
          exact ⟨rfl, rfl⟩
        · intro i hi hz
          simp only [List.length_singleton] at hi
          rw [hhdr]
          apply zeroFrom_keeps_zero
          obtain ⟨c1, c2⟩ := setSlot_ne s.header s.mipLevel i s.currentOffset
            ((passStream env s).length % 4294967296) (by omega)
          rw [c1, c2]
          exact hz
    · rw [mipStreams_done env _ _ hm, mipLoop_done env 16 _ _ hm]
      exact ⟨h2, fun h => absurd h hm, rfl, hO, hS, rfl,
        fun k hk => absurd hk (Nat.not_lt_zero _), fun i _ => ⟨rfl, rfl⟩, fun i _ hz => hz⟩

/-! ## The header image in the written file -/

theorem le32_length (x : Nat) : (le32 x).length = 4 := rfl

theorem u32le_le32 (x : Nat) (hx : x < 4294967296) : u32le (le32 x) 0 = x := by
  simp only [u32le, le32, List.getD_cons_zero, List.getD_cons_succ, Nat.zero_add]
  omega

theorem u32le_of_drop_take (bs : List Nat) (off : Nat) (q : List Nat)
    (h : (bs.drop off).take 4 = q) : u32le bs off = u32le q 0 := by
  subst h
  simp only [u32le, List.getD_eq_getElem?_getD, List.getElem?_take, List.getElem?_drop,
    Nat.zero_add, Nat.add_zero, show (0 : Nat) < 4 by norm_num, show (1 : Nat) < 4 by norm_num,
    show (2 : Nat) < 4 by norm_num, show (3 : Nat) < 4 by norm_num, if_true]

theorem toBytes_length (h : BLP_HEADER) : h.toBytes.length = 156 := by
  unfold BLP_HEADER.toBytes
  simp only [List.length_append, le32_length,
    flatMap_quad_length _ (fun i => le32_length _) 16]

/-- The scalar fields and the magic bytes in a stream that begins with a header
image. -/
theorem toBytes_scalars (h : BLP_HEADER) (rest : List Nat) :
    (h.toBytes ++ rest).take 4 = le32 h.MagicNumber ∧
    ((h.toBytes ++ rest).drop 4).take 4 = le32 h.Compression ∧
    ((h.toBytes ++ rest).drop 8).take 4 = le32 h.alpha_bits ∧
    ((h.toBytes ++ rest).drop 12).take 4 = le32 h.Width ∧
    ((h.toBytes ++ rest).drop 16).take 4 = le32 h.Height ∧
    ((h.toBytes ++ rest).drop 20).take 4 = le32 h.extra ∧
    ((h.toBytes ++ rest).drop 24).take 4 = le32 h.has_mipMaps :=
  ⟨rfl, rfl, rfl, rfl, rfl, rfl, rfl⟩

theorem toBytes_split (h : BLP_HEADER) (rest : List Nat) :
    h.toBytes ++ rest =
      (le32 h.MagicNumber ++ le32 h.Compression ++ le32 h.alpha_bits ++ le32 h.Width
        ++ le32 h.Height ++ le32 h.extra ++ le32 h.has_mipMaps)
      ++ ((List.range 16).flatMap (fun i => le32 (h.Offset.getD i 0))
      ++ ((List.range 16).flatMap (fun i => le32 (h.Size.getD i 0)) ++ rest)) := by
  unfold BLP_HEADER.toBytes
  simp only [List.append_assoc]

theorem take_drop_append_quad (xs ys : List Nat) (q : List Nat) (i : Nat)
    (h : (xs.drop (4 * i)).take 4 = q) (hq : q.length = 4) :
    ((xs ++ ys).drop (4 * i)).take 4 = q := by
  have hlen : 4 ≤ (xs.drop (4 * i)).length := by
    have := congrArg List.length h
    rw [List.length_take, hq] at this
    omega
  have hle : 4 * i ≤ xs.length := by
    rw [List.length_drop] at hlen; omega
  rw [List.drop_append_of_le_length hle, List.take_append_of_le_length hlen]
  exact h

theorem toBytes_offset (h : BLP_HEADER) (rest : List Nat) (i : Nat) (hi : i < 16) :
    ((h.toBytes ++ rest).drop (28 + 4 * i)).take 4 = le32 (h.Offset.getD i 0) := by
  rw [toBytes_split]
  have h28 : (le32 h.MagicNumber ++ le32 h.Compression ++ le32 h.alpha_bits ++ le32 h.Width
        ++ le32 h.Height ++ le32 h.extra ++ le32 h.has_mipMaps).length = 28 := rfl
  rw [← h28, ← List.drop_drop, List.drop_left]
  exact take_drop_append_quad _ _ _ i
    (flatMap_quad (fun i => le32 (h.Offset.getD i 0)) (fun _ => rfl) 16 i hi) rfl

theorem toBytes_size (h : BLP_HEADER) (rest : List Nat) (i : Nat) (hi : i < 16) :
    ((h.toBytes ++ rest).drop (92 + 4 * i)).take 4 = le32 (h.Size.getD i 0) := by
  rw [toBytes_split]
  have h28 : (le32 h.MagicNumber ++ le32 h.Compression ++ le32 h.alpha_bits ++ le32 h.Width
        ++ le32 h.Height ++ le32 h.extra ++ le32 h.has_mipMaps).length = 28 := rfl
  have h64 : ((List.range 16).flatMap (fun i => le32 (h.Offset.getD i 0))).length = 64 :=
    flatMap_quad_length _ (fun i => le32_length _) 16
  have e : 92 + 4 * i = 28 + (64 + 4 * i) := by omega
  rw [e, ← h28, ← List.drop_drop, List.drop_left, ← h64, ← List.drop_drop, List.drop_left]
  exact take_drop_append_quad _ _ _ i
    (flatMap_quad (fun i => le32 (h.Size.getD i 0)) (fun _ => rfl) 16 i hi) rfl

/-- A complete write of a 156-byte header image stores it at the position. -/
theorem WriteSome_header (buf : List Nat) (g : Globals) (hlen : buf.length = 156)
    (hg : g.gResult = noErr) (hok : (WriteSome 156 buf g).gResult = noErr) :
    (WriteSome 156 buf g).file.bytes = writeAt g.file.bytes g.file.pos buf := by
  unfold WriteSome PSSDKWrite at *
  simp only [hg, ne_eq, not_true_eq_false, if_false, true_and] at hok ⊢
  have hput : ((List.take (Int.toNat 156) buf).take (g.file.limit - g.file.pos)).length = 156 := by
    by_contra hne
    have hne2 : ¬ ((((List.take (Int.toNat 156) buf).take (g.file.limit - g.file.pos)).length : Int)
        = 156) := by
      intro h; apply hne; exact_mod_cast h
    rw [if_pos hne2] at hok
    exact absurd hok (by decide)
  have h156 : Int.toNat 156 = 156 := rfl
  rw [h156] at hput ⊢
  have e1 : List.take 156 buf = buf := List.take_of_length_le (by omega)
  rw [e1] at hput ⊢
  have e2 : List.take (g.file.limit - g.file.pos) buf = buf := by
    apply List.take_of_length_le
    rw [List.length_take] at hput
    omega
  rw [e2]

theorem writeAt_zero (old buf : List Nat) : writeAt old 0 buf = buf ++ old.drop buf.length := by
  simp [writeAt]

theorem toUInt32_lt (x : Int) : toUInt32 x < 4294967296 := by
  unfold toUInt32; omega

theorem u32le_field (f : List Nat) (off v : Nat) (h : (f.drop off).take 4 = le32 v)
    (hv : v < 4294967296) : u32le f off = v := by
  rw [u32le_of_drop_take f off _ h, u32le_le32 v hv]

theorem writeLevels_file (env : Env) (g2 : Globals) (width height planes : Int)
    (hok : (writeLevels env g2 width height planes).g.gResult = noErr) :
    (writeLevels env g2 width height planes).g.file.bytes
      = (mipLoop env 16 16 (loopStart g2 width height planes)).header.toBytes
        ++ (mipLoop env 16 16 (loopStart g2 width height planes)).g.file.bytes.drop 156 := by
  rw [writeLevels_eq] at hok ⊢
  simp only [setImageBuffer_gResult, setImageBuffer_file] at hok ⊢
  rw [WriteSome_header _ _ (toBytes_length _) (setFPos_gResult _ _) hok]
  simp only [setFPos_file]
  rw [writeAt_zero, toBytes_length]

/-- The file that a run of `DoWriteStart` ending in `noErr` leaves begins with the
image of the local header as last assigned, and that header is the one the mipmap
loop leaves when entered in `loopStart`. -/
theorem DoWriteStart_file (env : Env) (g : Globals)
    (hok : (DoWriteStart env g).g.gResult = noErr) :
    ∃ g2 rest, gatherPlanes env g = Except.ok g2 ∧
      (DoWriteStart env g).header
        = (mipLoop env 16 16 (loopStart g2 (GetFormatImageSize g.gFormatRecord).h
            (GetFormatImageSize g.gFormatRecord).v g.gFormatRecord.planes)).header ∧
      (DoWriteStart env g).levels
        = (mipLoop env 16 16 (loopStart g2 (GetFormatImageSize g.gFormatRecord).h
            (GetFormatImageSize g.gFormatRecord).v g.gFormatRecord.planes)).levels ∧
      writtenStreams env g = mipStreams env 16 16
        (loopStart g2 (GetFormatImageSize g.gFormatRecord).h
          (GetFormatImageSize g.gFormatRecord).v g.gFormatRecord.planes) ∧
      (DoWriteStart env g).g.file.bytes = (DoWriteStart env g).header.toBytes ++ rest := by
  obtain ⟨g2, hg, hD, hT⟩ := DoWriteStart_eq env g hok
  rw [hD] at hok ⊢
  have hf := writeLevels_file env g2 _ _ _ hok
  have hh : (writeLevels env g2 (GetFormatImageSize g.gFormatRecord).h
      (GetFormatImageSize g.gFormatRecord).v g.gFormatRecord.planes).header
      = (mipLoop env 16 16 (loopStart g2 (GetFormatImageSize g.gFormatRecord).h
            (GetFormatImageSize g.gFormatRecord).v g.gFormatRecord.planes)).header := by
    rw [writeLevels_eq]
  have hl : (writeLevels env g2 (GetFormatImageSize g.gFormatRecord).h
      (GetFormatImageSize g.gFormatRecord).v g.gFormatRecord.planes).levels
      = (mipLoop env 16 16 (loopStart g2 (GetFormatImageSize g.gFormatRecord).h
            (GetFormatImageSize g.gFormatRecord).v g.gFormatRecord.planes)).levels := by
    rw [writeLevels_eq]
  exact ⟨g2, _, hg, hh, hl, hT, by rw [hf, hh]⟩

theorem hdrOffset_toBytes (h : BLP_HEADER) (rest : List Nat) (i : Nat) (hi : i < 16)
    (hv : h.Offset.getD i 0 < 4294967296) :
    hdrOffset (h.toBytes ++ rest) i = h.Offset.getD i 0 :=
  u32le_field _ _ _ (toBytes_offset h rest i hi) hv

theorem hdrSize_toBytes (h : BLP_HEADER) (rest : List Nat) (i : Nat) (hi : i < 16)
    (hv : h.Size.getD i 0 < 4294967296) :
    hdrSize (h.toBytes ++ rest) i = h.Size.getD i 0 :=
  u32le_field _ _ _ (toBytes_size h rest i hi) hv

/-- The local header that a run of `DoWriteStart` ending in `noErr` leaves: at
least one and at most 16 bitstreams were obtained, slot `k` holds the offset
`160 + (sizes before k)` and the size of the `k`-th bitstream (both modulo
`2^32`), the slots past the last bitstream are zero, and the scalar fields are
those of "Prepare Header". -/
theorem DoWriteStart_fields (env : Env) (g : Globals)
    (hok : (DoWriteStart env g).g.gResult = noErr) :
    writtenStreams env g ≠ [] ∧ (writtenStreams env g).length ≤ 16 ∧
    (DoWriteStart env g).levels.length = (writtenStreams env g).length ∧
    (DoWriteStart env g).header.Offset.length = 16 ∧
    (DoWriteStart env g).header.Size.length = 16 ∧
    scalars (DoWriteStart env g).header
      = scalars (preparedHeader (GetFormatImageSize g.gFormatRecord).h
          (GetFormatImageSize g.gFormatRecord).v g.gFormatRecord.planes) ∧
    (∀ k, k < (writtenStreams env g).length →
      (DoWriteStart env g).header.Offset.getD k 0
        = (160 + sizeBefore (writtenStreams env g) k) % 4294967296 ∧
      (DoWriteStart env g).header.Size.getD k 0
        = ((writtenStreams env g).getD k []).length % 4294967296) ∧
    (∀ i, (writtenStreams env g).length ≤ i →
      (DoWriteStart env g).header.Offset.getD i 0 = 0 ∧
      (DoWriteStart env g).header.Size.getD i 0 = 0) := by
  obtain ⟨g2, rest, -, hh, hl, hT, -⟩ := DoWriteStart_file env g hok
  obtain ⟨a1, a2, a3, a4, a5, a6, a7, -, a9⟩ := mipLoop_tables env 16
    (loopStart g2 (GetFormatImageSize g.gFormatRecord).h
      (GetFormatImageSize g.gFormatRecord).v g.gFormatRecord.planes)
    (by show 16 ≤ 0 + 16; omega) (by show 0 ≤ 16; omega)
    (by show (156 + 4 : Nat) < 4294967296; norm_num) rfl rfl
  rw [hh, hl, hT]
  refine ⟨a2 (by show 0 < 16; omega), ?_, ?_, a4, a5, a6, ?_, ?_⟩
  · have : (loopStart g2 (GetFormatImageSize g.gFormatRecord).h
        (GetFormatImageSize g.gFormatRecord).v g.gFormatRecord.planes).mipLevel = 0 := rfl
    rw [this] at a1; omega
  · rw [a3]
    show 0 + _ = _
    omega
  · intro k hk
    have := a7 k hk
    have e0 : (loopStart g2 (GetFormatImageSize g.gFormatRecord).h
        (GetFormatImageSize g.gFormatRecord).v g.gFormatRecord.planes).mipLevel + k = k := by
      show 0 + k = k; omega
    rw [e0] at this
    exact this
  · intro i hi
    apply a9 i
    · show 0 + _ ≤ i; omega
    · exact ⟨replicate_getD_zero 16 i, replicate_getD_zero 16 i⟩

/-- The fields of the header in the file that a run of `DoWriteStart` ending in
`noErr` leaves. -/
theorem DoWriteStart_written (env : Env) (g : Globals)
    (hok : (DoWriteStart env g).g.gResult = noErr) :
    156 ≤ (DoWriteStart env g).g.file.bytes.length ∧
    (DoWriteStart env g).g.file.bytes.take 4 = [0x42, 0x4C, 0x50, 0x31] ∧
    hdrCompression (DoWriteStart env g).g.file.bytes = 0 ∧
    hdrAlphaBits (DoWriteStart env g).g.file.bytes
      = (if g.gFormatRecord.planes ≥ 4 then 8 else 0) ∧
    hdrWidth (DoWriteStart env g).g.file.bytes
      = toUInt32 (GetFormatImageSize g.gFormatRecord).h ∧
    hdrHeight (DoWriteStart env g).g.file.bytes
      = toUInt32 (GetFormatImageSize g.gFormatRecord).v ∧
    hdrExtra (DoWriteStart env g).g.file.bytes = 4 ∧
    hdrHasMipMaps (DoWriteStart env g).g.file.bytes = 1 ∧
    (∀ i, i < 16 →
      (hdrOffset (DoWriteStart env g).g.file.bytes i
        = if i < (writtenStreams env g).length
          then (160 + sizeBefore (writtenStreams env g) i) % 4294967296 else 0) ∧
      (hdrSize (DoWriteStart env g).g.file.bytes i
        = if i < (writtenStreams env g).length
          then ((writtenStreams env g).getD i []).length % 4294967296 else 0)) := by
  obtain ⟨-, -, -, -, -, b6, b7, b8⟩ := DoWriteStart_fields env g hok
  obtain ⟨g2, rest, -, -, -, -, hf⟩ := DoWriteStart_file env g hok
  rw [hf]
  obtain ⟨s1, s2, s3, s4, s5, s6, s7⟩ := toBytes_scalars (DoWriteStart env g).header rest
  simp only [scalars, preparedHeader, List.cons.injEq, and_true] at b6
  obtain ⟨m1, m2, m3, m4, m5, m6, m7⟩ := b6
  rw [m1] at s1; rw [m2] at s2; rw [m3] at s3; rw [m4] at s4; rw [m5] at s5
  rw [m6] at s6; rw [m7] at s7
  refine ⟨by rw [List.length_append, toBytes_length]; omega, s1,
    u32le_field _ 4 _ s2 (by decide), u32le_field _ 8 _ s3 (by split_ifs <;> norm_num),
    u32le_field _ 12 _ s4 (toUInt32_lt _), u32le_field _ 16 _ s5 (toUInt32_lt _),
    u32le_field _ 20 _ s6 (by norm_num), u32le_field _ 24 _ s7 (by norm_num), ?_⟩
  intro i hi
  by_cases hlt : i < (writtenStreams env g).length
  · obtain ⟨c1, c2⟩ := b7 i hlt
    rw [if_pos hlt, if_pos hlt, ← c1, ← c2]
    exact ⟨hdrOffset_toBytes _ _ i hi (by rw [c1]; exact Nat.mod_lt _ (by norm_num)),
      hdrSize_toBytes _ _ i hi (by rw [c2]; exact Nat.mod_lt _ (by norm_num))⟩
  · obtain ⟨c1, c2⟩ := b8 i (by omega)
    rw [if_neg hlt, if_neg hlt]
    exact ⟨(hdrOffset_toBytes _ _ i hi (by rw [c1]; norm_num)).trans c1,
      (hdrSize_toBytes _ _ i hi (by rw [c2]; norm_num)).trans c2⟩

/-! ## Claims C12 to C16: the header of a written file -/

theorem sizeBefore_succ (T : List (List Nat)) (k : Nat) (hk : k < T.length) :
    sizeBefore T (k + 1) = sizeBefore T k + (T.getD k []).length := by
  induction T generalizing k with
  | nil => exact absurd hk (Nat.not_lt_zero _)
  | cons p T ih =>
    cases k with
    | zero => simp [sizeBefore]
    | succ k =>
      rw [sizeBefore_cons, sizeBefore_cons, ih k (by simpa using hk), List.getD_cons_succ]
      omega

theorem sizeBefore_mono (T : List (List Nat)) (k : Nat) :
    sizeBefore T k ≤ sizeBefore T T.length := by
  induction T generalizing k with
  | nil => simp [sizeBefore]
  | cons p T ih =>
    cases k with
    | zero => rw [sizeBefore_zero]; exact Nat.zero_le _
    | succ k =>
      rw [List.length_cons, sizeBefore_cons, sizeBefore_cons]
      exact Nat.add_le_add_left (ih k) _

theorem getD_mem_of_lt (T : List (List Nat)) (k : Nat) (hk : k < T.length) :
    T.getD k [] ∈ T := by
  rw [List.getD_eq_getElem?_getD, List.getElem?_eq_getElem hk]
  exact List.getElem_mem hk

/-- C12 (offset monotonicity): in the file of a run of `DoWriteStart` that ends in
`noErr`, with `L` the number of levels generated (at least 1, at most 16), every
bitstream of the compressor non-empty and the file below 4 GiB, the stored tables
satisfy `Offset[0] = 160 ≥ 156`, and for every `i + 1 < L` both
`Offset[i] < Offset[i+1]` and `Offset[i] + Size[i] ≤ Offset[i+1]`. -/
theorem C12_offset_monotone (env : Env) (g : Globals)
    (hok : (DoWriteStart env g).g.gResult = noErr)
    (hne : ∀ s, s ∈ writtenStreams env g → s ≠ [])
    (hfit : 160 + sizeBefore (writtenStreams env g) (writtenStreams env g).length
      < 4294967296) :
    1 ≤ (writtenStreams env g).length ∧ (writtenStreams env g).length ≤ 16 ∧
    (DoWriteStart env g).levels.length = (writtenStreams env g).length ∧
    hdrOffset (DoWriteStart env g).g.file.bytes 0 = 160 ∧
    156 ≤ hdrOffset (DoWriteStart env g).g.file.bytes 0 ∧
    (∀ i, i + 1 < (writtenStreams env g).length →
      hdrOffset (DoWriteStart env g).g.file.bytes i
        < hdrOffset (DoWriteStart env g).g.file.bytes (i + 1) ∧
      hdrOffset (DoWriteStart env g).g.file.bytes i + hdrSize (DoWriteStart env g).g.file.bytes i
        ≤ hdrOffset (DoWriteStart env g).g.file.bytes (i + 1)) := by
  obtain ⟨b1, b2, b3, -⟩ := DoWriteStart_fields env g hok
  obtain ⟨-, -, -, -, -, -, -, -, w⟩ := DoWriteStart_written env g hok
  have hL : 1 ≤ (writtenStreams env g).length := by
    cases hT : writtenStreams env g with
    | nil => exact absurd hT b1
    | cons p T => simp
  have h0 : hdrOffset (DoWriteStart env g).g.file.bytes 0 = 160 := by
    rw [(w 0 (by norm_num)).1, if_pos (by omega), sizeBefore_zero]
  refine ⟨hL, b2, b3, h0, by rw [h0]; norm_num, ?_⟩
  intro i hi
  have m1 := sizeBefore_mono (writtenStreams env g) i
  have m2 := sizeBefore_mono (writtenStreams env g) (i + 1)
  have hs := sizeBefore_succ (writtenStreams env g) i (by omega)
  have hpos : 0 < ((writtenStreams env g).getD i []).length :=
    List.length_pos.mpr (hne _ (getD_mem_of_lt _ i (by omega)))
  have hi0 : i < (writtenStreams env g).length := by omega
  have o1 := (w i (by omega)).1
  have s1 := (w i (by omega)).2
  have o2 := (w (i + 1) (by omega)).1
  rw [if_pos hi0, Nat.mod_eq_of_lt (by omega)] at o1 s1
  rw [if_pos hi, Nat.mod_eq_of_lt (by omega)] at o2
  rw [o1, s1, o2]
  omega

/-- Witness of C12: the 5x3 image of scenario E5, whose three levels are stored at
the offsets 160, 164, 168. -/
theorem C12_offset_monotone_witness :
    (DoWriteStart sampleEnv (writeGlobals 5 3 4 3)).g.gResult = noErr ∧
    hdrOffset (DoWriteStart sampleEnv (writeGlobals 5 3 4 3)).g.file.bytes 1 = 164 ∧
    1 ≤ (writtenStreams sampleEnv (writeGlobals 5 3 4 3)).length ∧
    (writtenStreams sampleEnv (writeGlobals 5 3 4 3)).length ≤ 16 ∧
    (DoWriteStart sampleEnv (writeGlobals 5 3 4 3)).levels.length
      = (writtenStreams sampleEnv (writeGlobals 5 3 4 3)).length ∧
    hdrOffset (DoWriteStart sampleEnv (writeGlobals 5 3 4 3)).g.file.bytes 0 = 160 ∧
    156 ≤ hdrOffset (DoWriteStart sampleEnv (writeGlobals 5 3 4 3)).g.file.bytes 0 ∧
    (∀ i, i + 1 < (writtenStreams sampleEnv (writeGlobals 5 3 4 3)).length →
      hdrOffset (DoWriteStart sampleEnv (writeGlobals 5 3 4 3)).g.file.bytes i
        < hdrOffset (DoWriteStart sampleEnv (writeGlobals 5 3 4 3)).g.file.bytes (i + 1) ∧
      hdrOffset (DoWriteStart sampleEnv (writeGlobals 5 3 4 3)).g.file.bytes i
          + hdrSize (DoWriteStart sampleEnv (writeGlobals 5 3 4 3)).g.file.bytes i
        ≤ hdrOffset (DoWriteStart sampleEnv (writeGlobals 5 3 4 3)).g.file.bytes (i + 1)) :=
  ⟨by decide, by decide,
   C12_offset_monotone sampleEnv (writeGlobals 5 3 4 3) (by decide) (by decide) (by decide)⟩

/-- C13 (zero tail): in the file of a run of `DoWriteStart` that ends in `noErr`,
with every bitstream of the compressor non-empty and the file below 4 GiB: the
header image holds both tables in full (16 entries each, 156 bytes in all), every
slot `i < 16` with `Size[i] = 0` has `Offset[i] = 0`, every slot from the number
of generated levels on has `Offset[i] = Size[i] = 0`, and every slot below it has a
size other than 0. -/
theorem C13_zero_tail (env : Env) (g : Globals)
    (hok : (DoWriteStart env g).g.gResult = noErr)
    (hne : ∀ s, s ∈ writtenStreams env g → s ≠ [])
    (hfit : 160 + sizeBefore (writtenStreams env g) (writtenStreams env g).length
      < 4294967296) :
    (DoWriteStart env g).header.Offset.length = 16 ∧
    (DoWriteStart env g).header.Size.length = 16 ∧
    (DoWriteStart env g).g.file.bytes.take 156 = (DoWriteStart env g).header.toBytes ∧
    (∀ i, i < 16 → hdrSize (DoWriteStart env g).g.file.bytes i = 0 →
      hdrOffset (DoWriteStart env g).g.file.bytes i = 0) ∧
    (∀ i, (DoWriteStart env g).levels.length ≤ i → i < 16 →
      hdrOffset (DoWriteStart env g).g.file.bytes i = 0 ∧
      hdrSize (DoWriteStart env g).g.file.bytes i = 0) ∧
    (∀ i, i < (DoWriteStart env g).levels.length →
      hdrSize (DoWriteStart env g).g.file.bytes i ≠ 0) := by
  obtain ⟨-, b2, b3, b4, b5, -⟩ := DoWriteStart_fields env g hok
  obtain ⟨-, -, -, -, -, -, -, -, w⟩ := DoWriteStart_written env g hok
  obtain ⟨g2, rest, -, -, -, -, hf⟩ := DoWriteStart_file env g hok
  have hsz : ∀ i, i < (writtenStreams env g).length →
      hdrSize (DoWriteStart env g).g.file.bytes i ≠ 0 := by
    intro i hi
    have m1 := sizeBefore_mono (writtenStreams env g) (i + 1)
    have hs := sizeBefore_succ (writtenStreams env g) i hi
    have hpos : 0 < ((writtenStreams env g).getD i []).length :=
      List.length_pos.mpr (hne _ (getD_mem_of_lt _ i hi))
    have s1 := (w i (by omega)).2
    rw [if_pos hi, Nat.mod_eq_of_lt (by omega)] at s1
    omega
  refine ⟨b4, b5, ?_, ?_, ?_, ?_⟩
  · rw [hf, List.take_left' (toBytes_length _)]
  · intro i hi hz
    by_cases hlt : i < (writtenStreams env g).length
    · exact absurd hz (hsz i hlt)
    · rw [(w i hi).1, if_neg hlt]
  · intro i hL hi
    rw [b3] at hL
    rw [(w i hi).1, (w i hi).2, if_neg (by omega), if_neg (by omega)]
    exact ⟨rfl, rfl⟩
  · intro i hi
    rw [b3] at hi
    exact hsz i hi

/-- Witness of C13: the 5x3 image of scenario E5 fills slots 0 to 2 and leaves
slots 3 to 15 at zero. -/
theorem C13_zero_tail_witness :
    (DoWriteStart sampleEnv (writeGlobals 5 3 4 3)).levels.length = 3 ∧
    (List.range 16).map (hdrSize (DoWriteStart sampleEnv (writeGlobals 5 3 4 3)).g.file.bytes)
      = [4, 4, 4, 0, 0, 0, 0, 0, 0, 0, 0, 0, 0, 0, 0, 0] ∧
    (DoWriteStart sampleEnv (writeGlobals 5 3 4 3)).header.Offset.length = 16 ∧
    (DoWriteStart sampleEnv (writeGlobals 5 3 4 3)).header.Size.length = 16 ∧
    (DoWriteStart sampleEnv (writeGlobals 5 3 4 3)).g.file.bytes.take 156
      = (DoWriteStart sampleEnv (writeGlobals 5 3 4 3)).header.toBytes ∧
    (∀ i, i < 16 → hdrSize (DoWriteStart sampleEnv (writeGlobals 5 3 4 3)).g.file.bytes i = 0 →
      hdrOffset (DoWriteStart sampleEnv (writeGlobals 5 3 4 3)).g.file.bytes i = 0) ∧
    (∀ i, (DoWriteStart sampleEnv (writeGlobals 5 3 4 3)).levels.length ≤ i → i < 16 →
      hdrOffset (DoWriteStart sampleEnv (writeGlobals 5 3 4 3)).g.file.bytes i = 0 ∧
      hdrSize (DoWriteStart sampleEnv (writeGlobals 5 3 4 3)).g.file.bytes i = 0) ∧
    (∀ i, i < (DoWriteStart sampleEnv (writeGlobals 5 3 4 3)).levels.length →
      hdrSize (DoWriteStart sampleEnv (writeGlobals 5 3 4 3)).g.file.bytes i ≠ 0) :=
  ⟨by decide, by decide,
   C13_zero_tail sampleEnv (writeGlobals 5 3 4 3) (by decide) (by decide) (by decide)⟩

/-- On a stream of at least 156 bytes that begins with the magic, `DoFilterFile`
entered with `noErr` leaves `noErr`. -/
theorem DoFilterFile_accepts (g : Globals) (h0 : g.gResult = noErr)
    (hlen : 156 ≤ g.file.bytes.length)
    (hmagic : g.file.bytes.take 4 = [0x42, 0x4C, 0x50, 0x31]) :
    (DoFilterFile g).gResult = noErr := by
  have hm : magicMismatch (overlay (g.file.bytes.take 156) []) = false := by
    rw [magicMismatch_header _ _ hlen]
    have := (magicMismatch_iff g.file.bytes (by omega)).not.mpr (by simpa using hmagic)
    simpa using this
  unfold DoFilterFile
  simp only [h0, ne_eq, not_true_eq_false, if_false, setFPos_gResult,
    ReadSome_header g _ hlen, hm, Bool.false_eq_true]

/-- On a stream of at least 156 bytes that begins with the magic and has
`Compression = 0`, `DoReadStart` passes its magic check and ends in `noErr`. -/
theorem DoReadStart_jpeg (env : Env) (g : Globals)
    (hlen : 156 ≤ g.file.bytes.length)
    (hmagic : g.file.bytes.take 4 = [0x42, 0x4C, 0x50, 0x31])
    (hcomp : hdrCompression g.file.bytes = 0) :
    (DoReadStart env g).gResult = noErr := by
  have hm : magicMismatch (overlay (g.file.bytes.take 156) g.gData.blpHeader) = false := by
    rw [magicMismatch_header _ _ hlen]
    have := (magicMismatch_iff g.file.bytes (by omega)).not.mpr (by simpa using hmagic)
    simpa using this
  have hc : hdrCompression (overlay (g.file.bytes.take 156) g.gData.blpHeader)
      = hdrCompression g.file.bytes := header_u32le _ _ 4 hlen (by norm_num)
  unfold DoReadStart
  simp only [setFPos_gResult, ne_eq, not_true_eq_false, if_false, setFPos_gData,
    ReadSome_header g _ hlen, hm, Bool.false_eq_true, hc, hcomp, BLP_COMPRESSION_DIRECT,
    BLP_COMPRESSION_JPEG, zero_ne_one, if_true, readStartFinish]

/-- C14 (magic invariance): the file of a run of `DoWriteStart` that ends in
`noErr` begins with the bytes `42 4C 50 31`, which are the little-endian image of
the value `0x31504C42` assigned to `MagicNumber`; `DoFilterFile` (entered with
`noErr`) and `DoReadStart` on a stream with these bytes both end in `noErr`, so
neither magic check rejects the file. -/
theorem C14_magic_invariance (env : Env) (g : Globals)
    (hok : (DoWriteStart env g).g.gResult = noErr) :
    (DoWriteStart env g).header.MagicNumber = 0x31504C42 ∧
    le32 (DoWriteStart env g).header.MagicNumber = [0x42, 0x4C, 0x50, 0x31] ∧
    (DoWriteStart env g).g.file.bytes.take 4 = [0x42, 0x4C, 0x50, 0x31] ∧
    magicMismatch (DoWriteStart env g).g.file.bytes = false ∧
    (∀ g1 : Globals, g1.file.bytes = (DoWriteStart env g).g.file.bytes →
      g1.gResult = noErr → (DoFilterFile g1).gResult = noErr) ∧
    (∀ (env1 : Env) (g1 : Globals), g1.file.bytes = (DoWriteStart env g).g.file.bytes →
      (DoReadStart env1 g1).gResult = noErr) := by
  obtain ⟨-, -, -, -, -, b6, -⟩ := DoWriteStart_fields env g hok
  obtain ⟨w1, w2, w3, -⟩ := DoWriteStart_written env g hok
  simp only [scalars, preparedHeader, List.cons.injEq, and_true] at b6
  have hmm : magicMismatch (DoWriteStart env g).g.file.bytes = false := by
    have := (magicMismatch_iff (DoWriteStart env g).g.file.bytes (by omega)).not.mpr
      (by simpa using w2)
    simpa using this
  refine ⟨b6.1, by rw [b6.1]; rfl, w2, hmm, ?_, ?_⟩
  · intro g1 hb h0
    exact DoFilterFile_accepts g1 h0 (by rw [hb]; exact w1) (by rw [hb]; exact w2)
  · intro env1 g1 hb
    exact DoReadStart_jpeg env1 g1 (by rw [hb]; exact w1) (by rw [hb]; exact w2)
      (by rw [hb]; exact w3)

/-- Witness of C14 on the 5x3 image of scenario E5: the written file is accepted
by `DoFilterFile` and by `DoReadStart`. -/
theorem C14_magic_invariance_witness :
    (DoFilterFile (sampleGlobals
      (DoWriteStart sampleEnv (writeGlobals 5 3 4 3)).g.file.bytes)).gResult = noErr ∧
    (DoReadStart sampleEnv (sampleGlobals
      (DoWriteStart sampleEnv (writeGlobals 5 3 4 3)).g.file.bytes)).gResult = noErr ∧
    (DoWriteStart sampleEnv (writeGlobals 5 3 4 3)).header.MagicNumber = 0x31504C42 ∧
    le32 (DoWriteStart sampleEnv (writeGlobals 5 3 4 3)).header.MagicNumber
      = [0x42, 0x4C, 0x50, 0x31] ∧
    (DoWriteStart sampleEnv (writeGlobals 5 3 4 3)).g.file.bytes.take 4
      = [0x42, 0x4C, 0x50, 0x31] ∧
    magicMismatch (DoWriteStart sampleEnv (writeGlobals 5 3 4 3)).g.file.bytes = false ∧
    (∀ g1 : Globals,
      g1.file.bytes = (DoWriteStart sampleEnv (writeGlobals 5 3 4 3)).g.file.bytes →
      g1.gResult = noErr → (DoFilterFile g1).gResult = noErr) ∧
    (∀ (env1 : Env) (g1 : Globals),
      g1.file.bytes = (DoWriteStart sampleEnv (writeGlobals 5 3 4 3)).g.file.bytes →
      (DoReadStart env1 g1).gResult = noErr) :=
  ⟨by decide, by decide,
   C14_magic_invariance sampleEnv (writeGlobals 5 3 4 3) (by decide)⟩

/-- Counterexample to C15 as stated: a 2x2 image of four planes whose alpha plane
is uniformly 255 (trivial alpha) is written with `alpha_bits = 8`, not 0: the
field is set from the number of planes, the alpha samples are not examined. -/
theorem C15_alpha_bits_counterexample :
    (writeGlobals 2 2 4 2).gFormatRecord.planes = 4 ∧
    (∀ row, row < 2 → ∀ b, b ∈ (opaqueEnv.hostRow 3 row).take 2 → b = 255) ∧
    gatheredBuffer opaqueEnv (writeGlobals 2 2 4 2)
      = some [7, 7, 7, 255, 7, 7, 7, 255, 7, 7, 7, 255, 7, 7, 7, 255] ∧
    (DoWriteStart opaqueEnv (writeGlobals 2 2 4 2)).g.gResult = noErr ∧
    hdrAlphaBits (DoWriteStart opaqueEnv (writeGlobals 2 2 4 2)).g.file.bytes = 8 := by
  decide

/-- C15, amended: the header in the file of a run of `DoWriteStart` that ends in
`noErr`, for an image of `W x H` pixels, has `Compression = 0` (JPEG),
`Width = W`, `Height = H`, and `alpha_bits = 8` when the host hands over four or
more planes and `alpha_bits = 0` when it hands over fewer, whatever the alpha
samples are. -/
theorem C15_header_fields_amended (env : Env) (g : Globals) (W H : Nat)
    (hsize : GetFormatImageSize g.gFormatRecord = { v := (H : Int), h := (W : Int) })
    (hW : W < 4294967296) (hH : H < 4294967296)
    (hok : (DoWriteStart env g).g.gResult = noErr) :
    (DoWriteStart env g).g.file.bytes.take 156 = (DoWriteStart env g).header.toBytes ∧
    hdrCompression (DoWriteStart env g).g.file.bytes = BLP_COMPRESSION_JPEG ∧
    hdrWidth (DoWriteStart env g).g.file.bytes = W ∧
    hdrHeight (DoWriteStart env g).g.file.bytes = H ∧
    (g.gFormatRecord.planes ≥ 4 → hdrAlphaBits (DoWriteStart env g).g.file.bytes = 8) ∧
    (g.gFormatRecord.planes < 4 → hdrAlphaBits (DoWriteStart env g).g.file.bytes = 0) := by
  obtain ⟨-, -, w3, w4, w5, w6, -⟩ := DoWriteStart_written env g hok
  obtain ⟨g2, rest, -, -, -, -, hf⟩ := DoWriteStart_file env g hok
  rw [hsize] at w5 w6
  refine ⟨by rw [hf, List.take_left' (toBytes_length _)], w3,
    by rw [w5]; exact toUInt32_natCast W hW, by rw [w6]; exact toUInt32_natCast H hH, ?_, ?_⟩
  · intro hp
    rw [w4, if_pos hp]
  · intro hp
    rw [w4, if_neg (by omega)]

/-- Witness of C15 (amended): the opaque four-plane 2x2 image is written with
`alpha_bits = 8`, a three-plane 5x3 image with `alpha_bits = 0`. -/
theorem C15_header_fields_amended_witness :
    hdrAlphaBits (DoWriteStart sampleEnv (writeGlobals 5 3 3 3)).g.file.bytes = 0 ∧
    ((DoWriteStart opaqueEnv (writeGlobals 2 2 4 2)).g.file.bytes.take 156
      = (DoWriteStart opaqueEnv (writeGlobals 2 2 4 2)).header.toBytes ∧
    hdrCompression (DoWriteStart opaqueEnv (writeGlobals 2 2 4 2)).g.file.bytes
      = BLP_COMPRESSION_JPEG ∧
    hdrWidth (DoWriteStart opaqueEnv (writeGlobals 2 2 4 2)).g.file.bytes = 2 ∧
    hdrHeight (DoWriteStart opaqueEnv (writeGlobals 2 2 4 2)).g.file.bytes = 2 ∧
    ((writeGlobals 2 2 4 2).gFormatRecord.planes ≥ 4 →
      hdrAlphaBits (DoWriteStart opaqueEnv (writeGlobals 2 2 4 2)).g.file.bytes = 8) ∧
    ((writeGlobals 2 2 4 2).gFormatRecord.planes < 4 →
      hdrAlphaBits (DoWriteStart opaqueEnv (writeGlobals 2 2 4 2)).g.file.bytes = 0)) :=
  ⟨by decide,
   C15_header_fields_amended opaqueEnv (writeGlobals 2 2 4 2) 2 2 (by decide) (by decide)
     (by decide) (by decide)⟩

/-- Counterexample to C16 as stated: a file whose header has `extra = 5` and
`has_mipMaps = 0` is decoded without error, and the file written when the decoded
image is encoded again has `extra = 4` and `has_mipMaps = 1`. -/
theorem C16_flags_counterexample :
    hdrExtra fileFlags = 5 ∧ hdrHasMipMaps fileFlags = 0 ∧
    (DoReadStart sampleEnv (sampleGlobals fileFlags)).gResult = noErr ∧
    hdrExtra (DoReadStart sampleEnv (sampleGlobals fileFlags)).gData.blpHeader = 5 ∧
    hdrHasMipMaps (DoReadStart sampleEnv (sampleGlobals fileFlags)).gData.blpHeader = 0 ∧
    (DoReadContinue sampleEnv (DoReadStart sampleEnv (sampleGlobals fileFlags))).gResult
      = noErr ∧
    hdrExtra (DoReadContinue sampleEnv
      (DoReadStart sampleEnv (sampleGlobals fileFlags))).gData.blpHeader = 5 ∧
    (reencode sampleEnv fileFlags).g.gResult = noErr ∧
    hdrExtra (reencode sampleEnv fileFlags).g.file.bytes = 4 ∧
    hdrHasMipMaps (reencode sampleEnv fileFlags).g.file.bytes = 1 := by
  decide

/-- C16, amended: the header in the file of every run of `DoWriteStart` that ends
in `noErr` has `extra = 4` and `has_mipMaps = 1`, whatever header
`gData->blpHeader` holds from an earlier decode; the two fields of a decoded file
are not carried over. -/
theorem C16_flags_amended (env : Env) (g : Globals)
    (hok : (DoWriteStart env g).g.gResult = noErr) :
    (DoWriteStart env g).header.extra = 4 ∧
    (DoWriteStart env g).header.has_mipMaps = 1 ∧
    hdrExtra (DoWriteStart env g).g.file.bytes = 4 ∧
    hdrHasMipMaps (DoWriteStart env g).g.file.bytes = 1 := by
  obtain ⟨-, -, -, -, -, b6, -⟩ := DoWriteStart_fields env g hok
  obtain ⟨-, -, -, -, -, -, w7, w8, -⟩ := DoWriteStart_written env g hok
  simp only [scalars, preparedHeader, List.cons.injEq, and_true] at b6
  exact ⟨b6.2.2.2.2.2.1, b6.2.2.2.2.2.2, w7, w8⟩

/-- Witness of C16 (amended): the round trip of the file with `extra = 5`,
`has_mipMaps = 0`. -/
theorem C16_flags_amended_witness :
    hdrExtra (DoReadContinue sampleEnv
      (DoReadStart sampleEnv (sampleGlobals fileFlags))).gData.blpHeader = 5 ∧
    (reencode sampleEnv fileFlags).header.extra = 4 ∧
    (reencode sampleEnv fileFlags).header.has_mipMaps = 1 ∧
    hdrExtra (reencode sampleEnv fileFlags).g.file.bytes = 4 ∧
    hdrHasMipMaps (reencode sampleEnv fileFlags).g.file.bytes = 1 :=
  ⟨by decide,
   C16_flags_amended sampleEnv
     { DoReadContinue sampleEnv (DoReadStart sampleEnv (sampleGlobals fileFlags)) with
       file := { bytes := [], pos := 0, limit := 4294967296 } } (by decide)⟩

/-! ## Claim C17: the scanlines handed to the compressor -/

theorem drop_getD (l : List Nat) (n k : Nat) : (l.drop n).getD k 0 = l.getD (n + k) 0 := by
  simp only [List.getD_eq_getElem?_getD, List.getElem?_drop]

theorem map_range_getD {α : Type} (f : Nat → α) (n k : Nat) (d : α) (hk : k < n) :
    ((List.range n).map f).getD k d = f k := by
  simp [List.getD_eq_getElem?_getD, List.getElem?_range hk]

/-- C17 (encode component order): the scanlines handed to the compressor for a
level raster `buf` of `W x H` RGBA pixels are `H` rows, in the order of the rows
of the raster; each row has `W` pixels of four samples, and the samples of the
pixel at column `x` of row `y`, whose bytes `r, g, b, a` are
`buf[(y*W + x)*4 + 0 .. 3]`, are `b, g, r, a` in this order, unchanged in value.
Every pass of the mipmap loop hands exactly these scanlines to the compressor. -/
theorem C17_component_order (buf : List Nat) (W H : Nat) :
    (scanlines buf (W : Int) (H : Int)).length = H ∧
    (∀ y, y < H →
      ((scanlines buf (W : Int) (H : Int)).getD y []).length = 4 * W ∧
      ∀ x, x < W →
        (((scanlines buf (W : Int) (H : Int)).getD y []).drop (4 * x)).take 4
          = [buf.getD ((y * W + x) * 4 + 2) 0, buf.getD ((y * W + x) * 4 + 1) 0,
             buf.getD ((y * W + x) * 4 + 0) 0, buf.getD ((y * W + x) * 4 + 3) 0]) ∧
    (∀ (env : Env) (s : MipState),
      passStream env s
        = env.jpeg_compress (if s.curW = 0 then 1 else s.curW) (if s.curH = 0 then 1 else s.curH)
            (scanlines s.curBuffer (if s.curW = 0 then 1 else s.curW)
              (if s.curH = 0 then 1 else s.curH))) := by
  refine ⟨?_, ?_, fun _ _ => rfl⟩
  · simp only [scanlines, List.length_map, List.length_range, Int.toNat_ofNat]
  · intro y hy
    have hrow : (scanlines buf (W : Int) (H : Int)).getD y []
        = (List.range W).flatMap (fun i =>
            [(buf.drop (y * W * 4)).getD (i * 4 + 2) 0, (buf.drop (y * W * 4)).getD (i * 4 + 1) 0,
             (buf.drop (y * W * 4)).getD (i * 4 + 0) 0,
             (buf.drop (y * W * 4)).getD (i * 4 + 3) 0]) := by
      simp only [scanlines, Int.toNat_ofNat]
      rw [map_range_getD _ _ _ _ hy]
    rw [hrow]
    have hF : ∀ i : Nat,
        ([(buf.drop (y * W * 4)).getD (i * 4 + 2) 0, (buf.drop (y * W * 4)).getD (i * 4 + 1) 0,
          (buf.drop (y * W * 4)).getD (i * 4 + 0) 0,
          (buf.drop (y * W * 4)).getD (i * 4 + 3) 0] : List Nat).length = 4 := fun _ => rfl
    refine ⟨flatMap_quad_length _ hF W, ?_⟩
    intro x hx
    rw [flatMap_quad _ hF W x hx]
    have e : ∀ k, y * W * 4 + (x * 4 + k) = (y * W + x) * 4 + k := by
      intro k; rw [Nat.add_mul, Nat.add_assoc]
    simp only [drop_getD, e]

/-! ## The JPEG branch of the load block -/

theorem writeAt_eq (buf : List Nat) (off : Nat) (data : List Nat) (h : off ≤ buf.length) :
    writeAt buf off data = buf.take off ++ data ++ buf.drop (off + data.length) := by
  unfold writeAt
  rw [Nat.sub_eq_zero_of_le h, List.replicate_zero, List.append_nil]

theorem writeAt_length (buf : List Nat) (off : Nat) (data : List Nat)
    (h : off + data.length ≤ buf.length) : (writeAt buf off data).length = buf.length := by
  rw [writeAt_eq _ _ _ (by omega)]
  simp only [List.length_append, List.length_take, List.length_drop]
  omega

theorem writeAt_getD_in (buf : List Nat) (off : Nat) (data : List Nat) (j : Nat)
    (h : off ≤ buf.length) (hj : j < data.length) :
    (writeAt buf off data).getD (off + j) 0 = data.getD j 0 := by
  rw [writeAt_eq _ _ _ h, List.append_assoc]
  have hl : (buf.take off).length = off := by rw [List.length_take]; omega
  rw [List.getD_append_right _ _ _ _ (by omega), hl, Nat.add_sub_cancel_left,
    List.getD_append _ _ _ _ hj]

theorem writeAt_getD_lt (buf : List Nat) (off : Nat) (data : List Nat) (i : Nat)
    (h : off ≤ buf.length) (hi : i < off) :
    (writeAt buf off data).getD i 0 = buf.getD i 0 := by
  rw [writeAt_eq _ _ _ h, List.append_assoc]
  have hl : (buf.take off).length = off := by rw [List.length_take]; omega
  rw [List.getD_append _ _ _ _ (by omega), take_getD _ _ _ hi]

theorem row_fits (W H n : Nat) (hn : n < H) : n * W * 4 + W * 4 ≤ W * H * 4 := by
  have h := Nat.mul_le_mul_right W (Nat.succ_le_of_lt hn)
  rw [Nat.succ_mul, Nat.mul_comm H W] at h
  omega

theorem pixel_fits (W H y x : Nat) (hy : y < H) (hx : x < W) : y * W + x < W * H := by
  have h := Nat.mul_le_mul_right W (Nat.succ_le_of_lt hy)
  rw [Nat.succ_mul, Nat.mul_comm H W] at h
  omega

theorem row_before (W y n j : Nat) (hy : y < n) (hj : j < 4 * W) : y * W * 4 + j < n * W * 4 := by
  have h := Nat.mul_le_mul_right W (Nat.succ_le_of_lt hy)
  rw [Nat.succ_mul] at h
  omega

/-- The body of the scanline loop for a frame of four components as wide as the
image: the first `4 * W` samples of the scanline are stored at the row. -/
theorem jpegRow_four (W H : Nat) (fr : JpegFrame) (buf : List Nat) (row : Nat)
    (hc : fr.output_components = 4) (hw : fr.output_width = (W : Int))
    (hW : W < 2147483648) (hrow : row < H) :
    jpegRow (W : Int) (H : Int) fr buf row
      = writeAt buf (row * W * 4) ((fr.scanlines.getD row []).take (W * 4)) := by
  have h1 : ¬ ((row : Int) ≥ (H : Int)) := by omega
  unfold jpegRow
  simp only [h1, if_false, hc, if_true, hw, toInt32_of_lt W hW, lt_self_iff_false,
    Int.toNat_ofNat]

/-- The scanline loop for a frame of four components of the size of the image:
after the first `n` rows the buffer holds, at row `y < n`, the first `4 * W`
samples of scanline `y`. -/
theorem rows_four (W H : Nat) (fr : JpegFrame)
    (hc : fr.output_components = 4) (hw : fr.output_width = (W : Int))
    (hW : W < 2147483648)
    (hlines : ∀ y, y < H → 4 * W ≤ (fr.scanlines.getD y []).length)
    (buf0 : List Nat) (hbuf : buf0.length = W * H * 4) :
    ∀ n, n ≤ H →
      ((List.range n).foldl (jpegRow (W : Int) (H : Int) fr) buf0).length = W * H * 4 ∧
      ∀ y, y < n → ∀ j, j < 4 * W →
        ((List.range n).foldl (jpegRow (W : Int) (H : Int) fr) buf0).getD (y * W * 4 + j) 0
          = (fr.scanlines.getD y []).getD j 0 := by
  intro n
  induction n with
  | zero =>
    intro _
    exact ⟨hbuf, fun y hy => absurd hy (Nat.not_lt_zero _)⟩
  | succ n ih =>
    intro hn
    obtain ⟨hl, hv⟩ := ih (by omega)
    have hfit := row_fits W H n (by omega)
    have hdl : ((fr.scanlines.getD n []).take (W * 4)).length = W * 4 := by
      rw [List.length_take]
      have := hlines n (by omega)
      omega
    rw [List.range_succ, List.foldl_append, List.foldl_cons, List.foldl_nil,
      jpegRow_four W H fr _ n hc hw hW (by omega)]
    refine ⟨by rw [writeAt_length _ _ _ (by rw [hdl, hl]; exact hfit), hl], ?_⟩
    intro y hy j hj
    by_cases hyn : y = n
    · subst hyn
      rw [writeAt_getD_in _ _ _ j (by rw [hl]; omega) (by rw [hdl]; omega),
        take_getD _ _ _ (by omega)]
    · have hlt := row_before W y n j (by omega) hj
      rw [writeAt_getD_lt _ _ _ _ (by rw [hl]; omega) hlt]
      exact hv y (by omega) j hj

/-- The raster of the JPEG branch for a frame of four components of the size of
the image: pixel `(x, y)` holds the samples 2, 1, 0, 3 of the pixel of the
scanline. -/
theorem jpegRaster_four (W H : Nat) (fr : JpegFrame)
    (hc : fr.output_components = 4) (hw : fr.output_width = (W : Int))
    (hh : fr.output_height = (H : Int)) (hW : W < 2147483648)
    (hfit : W * H * 4 < 2147483648)
    (hlines : ∀ y, y < H → 4 * W ≤ (fr.scanlines.getD y []).length)
    (buf0 : List Nat) (hbuf : buf0.length = W * H * 4) :
    (jpegRaster (W : Int) (H : Int) fr buf0).length = 4 * (W * H) ∧
    ∀ y, y < H → ∀ x, x < W →
      ((jpegRaster (W : Int) (H : Int) fr buf0).drop (4 * (y * W + x))).take 4
        = [(fr.scanlines.getD y []).getD (4 * x + 2) 0, (fr.scanlines.getD y []).getD (4 * x + 1) 0,
           (fr.scanlines.getD y []).getD (4 * x + 0) 0,
           (fr.scanlines.getD y []).getD (4 * x + 3) 0] := by
  have hlt : W * H < 2147483648 :=
    Nat.lt_of_le_of_lt (Nat.le_mul_of_pos_right _ (by norm_num)) hfit
  have hWH : toInt32 ((W : Int) * (H : Int)) = ((W * H : Nat) : Int) := by
    rw [← Nat.cast_mul]; exact toInt32_of_lt _ hlt
  obtain ⟨hl, hv⟩ := rows_four W H fr hc hw hW hlines buf0 hbuf H (Nat.le_refl _)
  have hq : ∀ i, (swapPixel ((List.range H).foldl (jpegRow (W : Int) (H : Int) fr) buf0) i).length
      = 4 := fun _ => rfl
  have hraster : jpegRaster (W : Int) (H : Int) fr buf0
      = (List.range (W * H)).flatMap
          (swapPixel ((List.range H).foldl (jpegRow (W : Int) (H : Int) fr) buf0)) := by
    unfold jpegRaster
    simp only [hh, hWH, Int.toNat_ofNat]
    apply overlay_of_length_le
    rw [flatMap_quad_length _ hq, hl]
    omega
  rw [hraster]
  refine ⟨flatMap_quad_length _ hq _, ?_⟩
  intro y hy x hx
  rw [flatMap_quad _ hq _ _ (pixel_fits W H y x hy hx)]
  have e : ∀ k, (y * W + x) * 4 + k = y * W * 4 + (4 * x + k) := by
    intro k; rw [Nat.add_mul]; omega
  unfold swapPixel
  rw [e 2, e 1, e 0, e 3, hv y hy _ (by omega), hv y hy _ (by omega), hv y hy _ (by omega),
    hv y hy _ (by omega)]

theorem ReadSome_four (g : Globals) (h0 : g.gResult = noErr)
    (hk : g.file.pos + 4 ≤ g.file.bytes.length) :
    ReadSome 4 [] g =
      ({ g with gResult := noErr, file := { g.file with pos := g.file.pos + 4 } },
        (g.file.bytes.drop g.file.pos).take 4) := by
  have h := ReadSome_of_avail 4 [] g h0 hk
  simpa [overlay_nil] using h

/-- The JPEG branch on a file that holds the shared-header length, the blob and
the level-0 body (both below `2^31` bytes): the decoder is handed `jpegInput`, and
the raster is `jpegRaster` of the frame it returns. -/
theorem readJpeg_ok (env : Env) (g : Globals) (width height : Int)
    (hmalloc : ∀ k, env.mallocOk k = true)
    (h160 : 160 ≤ g.file.bytes.length)
    (hLh : u32le g.file.bytes 156 < 2147483648)
    (hsz : hdrSize g.gData.blpHeader 0 < 2147483648)
    (h1 : 160 + u32le g.file.bytes 156 ≤ g.file.bytes.length)
    (h2 : hdrOffset g.gData.blpHeader 0 + hdrSize g.gData.blpHeader 0 ≤ g.file.bytes.length) :
    readJpeg env width height g =
      match env.jpeg_decompress (jpegInput g.file.bytes g.gData.blpHeader) with
      | none => Except.error
          { g with gResult := formatCannotRead,
                   file := { g.file with pos := hdrOffset g.gData.blpHeader 0
                                                 + hdrSize g.gData.blpHeader 0 } }
      | some fr => Except.ok (setImageBuffer
          { g with gResult := noErr,
                   file := { g.file with pos := hdrOffset g.gData.blpHeader 0
                                                 + hdrSize g.gData.blpHeader 0 } }
          (some (jpegRaster width height fr (g.gData.imageBuffer.getD [])))) := by
  have hq : u32le ((g.file.bytes.drop 156).take 4) 0 = u32le g.file.bytes 156 :=
    (u32le_of_drop_take g.file.bytes 156 _ rfl).symm
  have hlen1 : ((g.file.bytes.drop 160).take (u32le g.file.bytes 156)).length
      = u32le g.file.bytes 156 := by
    rw [List.length_take, List.length_drop]; omega
  have hlen2 : ((g.file.bytes.drop (hdrOffset g.gData.blpHeader 0)).take
      (hdrSize g.gData.blpHeader 0)).length = hdrSize g.gData.blpHeader 0 := by
    rw [List.length_take, List.length_drop]; omega
  have htake : (((g.file.bytes.drop 160).take (u32le g.file.bytes 156))
      ++ ((g.file.bytes.drop (hdrOffset g.gData.blpHeader 0)).take
          (hdrSize g.gData.blpHeader 0))).take
        ((u32le g.file.bytes 156 + hdrSize g.gData.blpHeader 0) % 4294967296)
      = jpegInput g.file.bytes g.gData.blpHeader := by
    unfold jpegInput
    apply List.take_of_length_le
    rw [List.length_append, hlen1, hlen2, Nat.mod_eq_of_lt (by omega)]
  unfold readJpeg
  dsimp only
  rw [show sizeofHeader = 156 from rfl,
    ReadSome_four (setFPos g 156) rfl (by simp only [setFPos_file]; omega)]
  simp only [setFPos_file, setFPos_gData, hq, toInt32_of_lt _ hLh, toInt32_of_lt _ hsz,
    ne_eq, not_true_eq_false, if_false, hmalloc, Bool.not_true, Bool.false_eq_true]
  rw [ReadSome_of_avail _ _ _ rfl (by simpa using h1)]
  simp only [ne_eq, not_true_eq_false, if_false, overlay_nil]
  rw [ReadSome_of_avail _ _ _ (setFPos_gResult _ _) (by simpa [setFPos_file] using h2)]
  simp only [ne_eq, not_true_eq_false, if_false, overlay_nil, setFPos_file, htake]
  cases env.jpeg_decompress (jpegInput g.file.bytes g.gData.blpHeader) with
  | none => rfl
  | some fr => rfl

/-- The JPEG branch on a file too short for one of its reads ends in `eofErr`:
the file ends before offset 160, or inside the shared header blob, or the
(non-empty) level-0 body does not lie inside the file. -/
theorem readJpeg_short (env : Env) (g : Globals) (width height : Int)
    (hmalloc : ∀ k, env.mallocOk k = true)
    (hLh : u32le g.file.bytes 156 < 2147483648)
    (hsz : hdrSize g.gData.blpHeader 0 < 2147483648)
    (hshort : g.file.bytes.length < 160 ∨
      g.file.bytes.length < 160 + u32le g.file.bytes 156 ∨
      (0 < hdrSize g.gData.blpHeader 0 ∧
        g.file.bytes.length < hdrOffset g.gData.blpHeader 0 + hdrSize g.gData.blpHeader 0)) :
    ∃ ge, readJpeg env width height g = Except.error ge ∧ ge.gResult = eofErr := by
  have hne : eofErr ≠ noErr := by decide
  by_cases h160 : g.file.bytes.length < 160
  · have h := ReadSome_short 4 [] (setFPos g 156) rfl (by simp only [setFPos_file]; omega)
    simp only [Nat.cast_ofNat] at h
    unfold readJpeg
    dsimp only
    rw [show sizeofHeader = 156 from rfl]
    simp only [h, ne_eq, hne, not_false_eq_true, if_true]
    exact ⟨_, rfl, h⟩
  · have hq : u32le ((g.file.bytes.drop 156).take 4) 0 = u32le g.file.bytes 156 :=
      (u32le_of_drop_take g.file.bytes 156 _ rfl).symm
    by_cases h1 : g.file.bytes.length < 160 + u32le g.file.bytes 156
    · have h := ReadSome_short (u32le g.file.bytes 156) []
        { setFPos g 156 with gResult := noErr, file := { (setFPos g 156).file with pos := 156 + 4 } }
        rfl (by simp only [setFPos_file]; omega)
      unfold readJpeg
      dsimp only
      rw [show sizeofHeader = 156 from rfl,
        ReadSome_four (setFPos g 156) rfl (by simp only [setFPos_file]; omega)]
      simp only [setFPos_file, setFPos_gData, hq, toInt32_of_lt _ hLh,
        ne_eq, not_true_eq_false, if_false, hmalloc, Bool.not_true, Bool.false_eq_true] at h ⊢
      simp only [h, hne, not_false_eq_true, if_true]
      exact ⟨_, rfl, h⟩
    · have h2 : 0 < hdrSize g.gData.blpHeader 0 ∧
          g.file.bytes.length < hdrOffset g.gData.blpHeader 0 + hdrSize g.gData.blpHeader 0 := by
        rcases hshort with h | h | h
        · exact absurd h h160
        · exact absurd h h1
        · exact h
      have h := ReadSome_short (hdrSize g.gData.blpHeader 0) []
        (setFPos { g with gResult := noErr,
                          file := { g.file with pos := 156 + 4 + u32le g.file.bytes 156 } }
          (hdrOffset g.gData.blpHeader 0))
        rfl (by simp only [setFPos_file]; omega)
      unfold readJpeg
      dsimp only
      rw [show sizeofHeader = 156 from rfl,
        ReadSome_four (setFPos g 156) rfl (by simp only [setFPos_file]; omega)]
      simp only [setFPos_file, setFPos_gData, hq, toInt32_of_lt _ hLh, toInt32_of_lt _ hsz,
        ne_eq, not_true_eq_false, if_false, hmalloc, Bool.not_true, Bool.false_eq_true]
      rw [ReadSome_of_avail _ _ _ rfl (by simp only []; omega)]
      simp only [ne_eq, not_true_eq_false, if_false, overlay_nil]
      simp only [setFPos_file] at h
      simp only [setFPos, PSSDKSetFPos] at h ⊢
      simp only [h, hne, not_false_eq_true, if_true]
      exact ⟨_, rfl, h⟩

/-- The load block of `DoReadContinue` on a JPEG-mode header enters the JPEG
branch with a zeroed raster of `W * H * 4` bytes. -/
theorem loadImage_jpeg (env : Env) (g : Globals) (W H : Nat)
    (hmalloc : ∀ k, env.mallocOk k = true)
    (hbuf : g.gData.imageBuffer = none)
    (hsize : GetFormatImageSize g.gFormatRecord = { v := (H : Int), h := (W : Int) })
    (hfit : W * H * 4 < 2147483648)
    (hcomp : hdrCompression g.gData.blpHeader = BLP_COMPRESSION_JPEG) :
    loadImage env g
      = readJpeg env (W : Int) (H : Int) (setImageBuffer g (some (List.replicate (W * H * 4) 0))) := by
  have hlt : W * H < 2147483648 :=
    Nat.lt_of_le_of_lt (Nat.le_mul_of_pos_right _ (by norm_num)) hfit
  have hWH : toInt32 ((W : Int) * (H : Int)) = ((W * H : Nat) : Int) := by
    rw [← Nat.cast_mul]; exact toInt32_of_lt _ hlt
  have hsz : toInt32 (((W * H : Nat) : Int) * 4) = ((W * H * 4 : Nat) : Int) := by
    rw [← toInt32_of_lt (W * H * 4) hfit, Nat.cast_mul]; rfl
  unfold loadImage
  rw [hbuf]
  dsimp only
  simp only [hsize, hWH, hsz, hmalloc, Bool.not_true, Bool.false_eq_true, if_false, hcomp,
    BLP_COMPRESSION_JPEG, BLP_COMPRESSION_DIRECT, zero_ne_one, if_true, Int.toNat_ofNat]

/-! ## Claims C18 to C20: the JPEG branch -/

theorem codecEnv_decompress (input : List Nat) (fr : JpegFrame) (bs : List Nat)
    (h : bs = input) : (codecEnv input fr).jpeg_decompress bs = some fr := if_pos h

/-- C18 (JPEG decode, four components): for a JPEG-mode header and a file that
holds the shared header blob and the level-0 body, when the decoder returns a
frame of four components with the width and height of the header, the load block
of `DoReadContinue` succeeds and the pixel at column `x` of row `y` of the RGBA
raster is `(c2, c1, c0, c3)`, where `c0 .. c3` are the samples `4*x .. 4*x+3` of
scanline `y`: components 0 and 2 are exchanged once, 1 and 3 are unchanged. -/
theorem C18_jpeg_four_components (env : Env) (g : Globals) (W H : Nat) (fr : JpegFrame)
    (hmalloc : ∀ k, env.mallocOk k = true)
    (hbuf : g.gData.imageBuffer = none)
    (hsize : GetFormatImageSize g.gFormatRecord = { v := (H : Int), h := (W : Int) })
    (hW : W < 2147483648) (hfit : W * H * 4 < 2147483648)
    (hcomp : hdrCompression g.gData.blpHeader = BLP_COMPRESSION_JPEG)
    (h160 : 160 ≤ g.file.bytes.length)
    (hLh : u32le g.file.bytes 156 < 2147483648)
    (hsz : hdrSize g.gData.blpHeader 0 < 2147483648)
    (h1 : 160 + u32le g.file.bytes 156 ≤ g.file.bytes.length)
    (h2 : hdrOffset g.gData.blpHeader 0 + hdrSize g.gData.blpHeader 0 ≤ g.file.bytes.length)
    (hdec : env.jpeg_decompress (jpegInput g.file.bytes g.gData.blpHeader) = some fr)
    (hc : fr.output_components = 4) (hw : fr.output_width = (W : Int))
    (hh : fr.output_height = (H : Int))
    (hlines : ∀ y, y < H → 4 * W ≤ (fr.scanlines.getD y []).length) :
    ∃ g1 buf, loadImage env g = Except.ok g1 ∧ g1.gResult = noErr ∧
      g1.gData.imageBuffer = some buf ∧ buf.length = 4 * (W * H) ∧
      ∀ y, y < H → ∀ x, x < W →
        (buf.drop (4 * (y * W + x))).take 4
          = [(fr.scanlines.getD y []).getD (4 * x + 2) 0,
             (fr.scanlines.getD y []).getD (4 * x + 1) 0,
             (fr.scanlines.getD y []).getD (4 * x + 0) 0,
             (fr.scanlines.getD y []).getD (4 * x + 3) 0] := by
  obtain ⟨hl, hp⟩ := jpegRaster_four W H fr hc hw hh hW hfit hlines
    (List.replicate (W * H * 4) 0) (List.length_replicate _ _)
  have e := readJpeg_ok env (setImageBuffer g (some (List.replicate (W * H * 4) 0)))
    (W : Int) (H : Int) hmalloc h160 hLh hsz h1 h2
  simp only [setImageBuffer_file, setImageBuffer_blpHeader, hdec, setImageBuffer_imageBuffer,
    Option.getD_some] at e
  rw [loadImage_jpeg env g W H hmalloc hbuf hsize hfit hcomp, e]
  exact ⟨_, _, rfl, rfl, rfl, hl, hp⟩

/-- Witness of C18: a 2x1 JPEG-mode file whose level-0 body decodes to the
samples `1 2 3 4 | 5 6 7 8` gives the raster `3 2 1 4 | 7 6 5 8`. -/
theorem C18_jpeg_four_components_witness :
    loadedBuffer (codecEnv [9, 9, 9] frame4)
        (DoReadStart (codecEnv [9, 9, 9] frame4) (sampleGlobals (jpegFile 2 1 [] [9, 9, 9])))
      = some [3, 2, 1, 4, 7, 6, 5, 8] ∧
    ∃ g1 buf, loadImage (codecEnv [9, 9, 9] frame4)
        (DoReadStart (codecEnv [9, 9, 9] frame4) (sampleGlobals (jpegFile 2 1 [] [9, 9, 9])))
        = Except.ok g1 ∧ g1.gResult = noErr ∧
      g1.gData.imageBuffer = some buf ∧ buf.length = 4 * (2 * 1) ∧
      ∀ y, y < 1 → ∀ x, x < 2 →
        (buf.drop (4 * (y * 2 + x))).take 4
          = [(frame4.scanlines.getD y []).getD (4 * x + 2) 0,
             (frame4.scanlines.getD y []).getD (4 * x + 1) 0,
             (frame4.scanlines.getD y []).getD (4 * x + 0) 0,
             (frame4.scanlines.getD y []).getD (4 * x + 3) 0] :=
  ⟨by decide,
   C18_jpeg_four_components (codecEnv [9, 9, 9] frame4)
     (DoReadStart (codecEnv [9, 9, 9] frame4) (sampleGlobals (jpegFile 2 1 [] [9, 9, 9])))
     2 1 frame4 (fun _ => rfl) (by decide) (by decide) (by decide) (by decide) (by decide)
     (by decide) (by decide) (by decide) (by decide) (by decide) (codecEnv_decompress _ _ _ (by decide)) rfl rfl rfl
     (by decide)⟩

/-- C19 at the failing input: a 1x1 JPEG-mode file whose body decodes to a frame
of three components `R, G, B = 10, 20, 30`.  The fallback loop stores
`10, 20, 30, 255`, and the loop "Swap R and B", which is not restricted to frames
of four components, then exchanges bytes 0 and 2: the raster and the planes handed
to the host are `30, 20, 10, 255`, not `10, 20, 30, 255`. -/
theorem C19_three_components_swapped :
    frame3.output_components = 3 ∧ frame3.scanlines = [[10, 20, 30]] ∧
    (DoReadStart (codecEnv [9, 9, 9] frame3)
      (sampleGlobals (jpegFile 1 1 [] [9, 9, 9]))).gResult = noErr ∧
    jpegInput (jpegFile 1 1 [] [9, 9, 9]) ((jpegFile 1 1 [] [9, 9, 9]).take 156) = [9, 9, 9] ∧
    jpegRow 1 1 frame3 [0, 0, 0, 0] 0 = [10, 20, 30, 255] ∧
    loadedBuffer (codecEnv [9, 9, 9] frame3)
        (DoReadStart (codecEnv [9, 9, 9] frame3) (sampleGlobals (jpegFile 1 1 [] [9, 9, 9])))
      = some [30, 20, 10, 255] ∧
    loadedBuffer (codecEnv [9, 9, 9] frame3)
        (DoReadStart (codecEnv [9, 9, 9] frame3) (sampleGlobals (jpegFile 1 1 [] [9, 9, 9])))
      ≠ some [10, 20, 30, 255] ∧
    (DoReadContinue (codecEnv [9, 9, 9] frame3)
      (DoReadStart (codecEnv [9, 9, 9] frame3)
        (sampleGlobals (jpegFile 1 1 [] [9, 9, 9])))).gResult = noErr ∧
    (DoReadContinue (codecEnv [9, 9, 9] frame3)
      (DoReadStart (codecEnv [9, 9, 9] frame3)
        (sampleGlobals (jpegFile 1 1 [] [9, 9, 9])))).delivered
      = [{ plane := 0, row := 0, data := [30] }, { plane := 1, row := 0, data := [20] },
         { plane := 2, row := 0, data := [10] }, { plane := 3, row := 0, data := [255] }] := by
  decide

/-- C20 (JPEG decode input): for a JPEG-mode header, with `Lh` the little-endian
32-bit value at offset 156 of the file and `Lh`, `Size[0]` below `2^31`: when the
ranges `[160, 160+Lh)` and `[Offset[0], Offset[0]+Size[0])` lie inside the file,
the load block of `DoReadContinue` calls the decoder on `jpegInput`, the first
range followed by the second, of `Lh + Size[0]` bytes (the level-0 body alone when
`Lh = 0`), and its outcome is determined by what the decoder returns for that
buffer; when the file ends before offset 160, or inside the first range, or the
non-empty second range is not inside the file, it returns early with `eofErr`. -/
theorem C20_jpeg_input (env : Env) (g : Globals) (W H : Nat)
    (hmalloc : ∀ k, env.mallocOk k = true)
    (hbuf : g.gData.imageBuffer = none)
    (hsize : GetFormatImageSize g.gFormatRecord = { v := (H : Int), h := (W : Int) })
    (hfit : W * H * 4 < 2147483648)
    (hcomp : hdrCompression g.gData.blpHeader = BLP_COMPRESSION_JPEG)
    (hLh : u32le g.file.bytes 156 < 2147483648)
    (hsz : hdrSize g.gData.blpHeader 0 < 2147483648) :
    (160 + u32le g.file.bytes 156 ≤ g.file.bytes.length →
      hdrOffset g.gData.blpHeader 0 + hdrSize g.gData.blpHeader 0 ≤ g.file.bytes.length →
      (jpegInput g.file.bytes g.gData.blpHeader).length
        = u32le g.file.bytes 156 + hdrSize g.gData.blpHeader 0 ∧
      (u32le g.file.bytes 156 = 0 →
        jpegInput g.file.bytes g.gData.blpHeader
          = (g.file.bytes.drop (hdrOffset g.gData.blpHeader 0)).take
              (hdrSize g.gData.blpHeader 0)) ∧
      ∃ gX, gX.gResult = noErr ∧
        gX.file.pos = hdrOffset g.gData.blpHeader 0 + hdrSize g.gData.blpHeader 0 ∧
        loadImage env g =
          match env.jpeg_decompress (jpegInput g.file.bytes g.gData.blpHeader) with
          | none => Except.error { gX with gResult := formatCannotRead }
          | some fr => Except.ok (setImageBuffer gX
              (some (jpegRaster (W : Int) (H : Int) fr (List.replicate (W * H * 4) 0))))) ∧
    ((g.file.bytes.length < 160 ∨
        g.file.bytes.length < 160 + u32le g.file.bytes 156 ∨
        (0 < hdrSize g.gData.blpHeader 0 ∧
          g.file.bytes.length
            < hdrOffset g.gData.blpHeader 0 + hdrSize g.gData.blpHeader 0)) →
      ∃ ge, loadImage env g = Except.error ge ∧ ge.gResult = eofErr) := by
  rw [loadImage_jpeg env g W H hmalloc hbuf hsize hfit hcomp]
  constructor
  · intro h1 h2
    refine ⟨?_, ?_, ?_⟩
    · unfold jpegInput
      rw [List.length_append, List.length_take, List.length_take, List.length_drop,
        List.length_drop]
      omega
    · intro h0
      unfold jpegInput
      rw [h0, List.take_zero, List.nil_append]
    · have e := readJpeg_ok env (setImageBuffer g (some (List.replicate (W * H * 4) 0)))
        (W : Int) (H : Int) hmalloc (by rw [setImageBuffer_file]; omega) hLh hsz h1 h2
      simp only [setImageBuffer_file, setImageBuffer_blpHeader, setImageBuffer_imageBuffer,
        Option.getD_some] at e
      exact ⟨{ setImageBuffer g (some (List.replicate (W * H * 4) 0)) with
               gResult := noErr,
               file := { g.file with pos := hdrOffset g.gData.blpHeader 0
                                             + hdrSize g.gData.blpHeader 0 } },
        rfl, rfl, e⟩
  · intro hshort
    exact readJpeg_short env (setImageBuffer g (some (List.replicate (W * H * 4) 0)))
      (W : Int) (H : Int) hmalloc hLh hsz hshort

/-- Witness of C20: a 2x1 JPEG-mode file with the shared header blob `7 7` and the
level-0 body `9 9 9`; the decoder is handed `7 7 9 9 9`, of 2 + 3 bytes.  The same
file cut after its first 163 bytes ends in `eofErr`. -/
theorem C20_jpeg_input_witness :
    stateJpeg.file.bytes = jpegFile 2 1 [7, 7] [9, 9, 9] ∧
    stateJpeg.gData.blpHeader = (jpegFile 2 1 [7, 7] [9, 9, 9]).take 156 ∧
    jpegInput stateJpeg.file.bytes stateJpeg.gData.blpHeader = [7, 7, 9, 9, 9] ∧
    loadedBuffer jpegEnv stateJpeg = some [3, 2, 1, 4, 7, 6, 5, 8] ∧
    (DoReadContinue jpegEnv
      (DoReadStart jpegEnv
        (sampleGlobals ((jpegFile 2 1 [7, 7] [9, 9, 9]).take 163)))).gResult = eofErr ∧
    (jpegInput stateJpeg.file.bytes stateJpeg.gData.blpHeader).length
      = u32le stateJpeg.file.bytes 156 + hdrSize stateJpeg.gData.blpHeader 0 :=
  ⟨by decide, by decide, by decide, by decide, by decide,
   ((C20_jpeg_input jpegEnv stateJpeg 2 1 (fun _ => rfl) (by decide) (by decide) (by decide)
      (by decide) (by decide) (by decide)).1 (by decide) (by decide)).1⟩

/-! ## Claim C11: the layout of a written file -/

theorem foldl_file {α : Type} (f : Globals × Nat → α → Globals × Nat)
    (hf : ∀ st x, (f st x).1.file = st.1.file) (l : List α) (st : Globals × Nat) :
    (l.foldl f st).1.file = st.1.file := by
  induction l generalizing st with
  | nil => rfl
  | cons x l ih => rw [List.foldl_cons, ih, hf]

theorem writeRow_file (env : Env) (planes transparencyPlane width : Int) (plane : Nat)
    (st : Globals × Nat) (row : Nat) :
    (writeRow env planes transparencyPlane width plane st row).1.file = st.1.file := by
  unfold writeRow
  split_ifs <;> rfl

theorem writePlane_file (env : Env) (planes transparencyPlane width height : Int)
    (st : Globals × Nat) (plane : Nat) :
    (writePlane env planes transparencyPlane width height st plane).1.file = st.1.file := by
  unfold writePlane
  split_ifs
  · rfl
  · exact foldl_file _ (writeRow_file env planes transparencyPlane width plane) _ _

/-- The first part of `DoWriteStart` does not touch the file. -/
theorem gatherPlanes_file (env : Env) (g g2 : Globals)
    (h : gatherPlanes env g = Except.ok g2) : g2.file = g.file := by
  unfold gatherPlanes at h
  dsimp only at h
  split_ifs at h
  all_goals first
    | (cases h; done)
    | (cases h; rw [foldl_file _ (writePlane_file env _ _ _ _) _ _]; done)
    | (cases h; rw [foldl_file _ (writePlane_file env _ _ _ _) _ _]; rfl)

/-- A write at the end of the file, for which the medium has room, appends the
bytes. -/
theorem WriteSome_append (count : Int) (p : List Nat) (g : Globals)
    (h0 : g.gResult = noErr) (hc : count = (p.length : Int))
    (hpos : g.file.pos = g.file.bytes.length)
    (hroom : g.file.pos + p.length ≤ g.file.limit) :
    WriteSome count p g =
      { g with gResult := noErr,
               file := { g.file with bytes := g.file.bytes ++ p,
                                     pos := g.file.pos + p.length } } := by
  subst hc
  have e1 : (List.take p.length p).take (g.file.limit - g.file.pos) = p := by
    rw [List.take_length]
    exact List.take_of_length_le (by omega)
  have e2 : writeAt g.file.bytes g.file.pos p = g.file.bytes ++ p := by
    rw [writeAt_eq _ _ _ (by omega), hpos, List.take_length,
      List.drop_eq_nil_of_le (by omega), List.append_nil]
  unfold WriteSome PSSDKWrite
  simp only [h0, ne_eq, not_true_eq_false, if_false, Int.toNat_ofNat, e1, e2, true_and,
    and_false]

/-- A write of a 156-byte header image for which the medium has room succeeds. -/
theorem WriteSome_header_ok (buf : List Nat) (g : Globals) (hlen : buf.length = 156)
    (h0 : g.gResult = noErr) (hroom : g.file.pos + 156 ≤ g.file.limit) :
    (WriteSome 156 buf g).gResult = noErr := by
  have e1 : ((List.take (Int.toNat 156) buf).take (g.file.limit - g.file.pos)).length = 156 := by
    have h156 : Int.toNat 156 = 156 := rfl
    rw [h156, List.length_take, List.length_take]
    omega
  unfold WriteSome PSSDKWrite
  simp only [h0, ne_eq, not_true_eq_false, if_false, e1, Nat.cast_ofNat, true_and,
    and_false]

/-- The file during the mipmap loop, when it is entered without error at the end
of the file, the medium has room for all bitstreams and each is below `2^31`
bytes: the bitstreams are appended in order. -/
theorem mipLoop_file (env : Env) :
    ∀ (fuel : Nat) (s : MipState), s.g.gResult = noErr →
      s.g.file.pos = s.g.file.bytes.length →
      s.g.file.pos + (mipStreams env 16 fuel s).flatten.length ≤ s.g.file.limit →
      (∀ p, p ∈ mipStreams env 16 fuel s → p.length < 2147483648) →
      (mipLoop env 16 fuel s).g.gResult = noErr ∧
      (mipLoop env 16 fuel s).g.file.bytes
        = s.g.file.bytes ++ (mipStreams env 16 fuel s).flatten ∧
      (mipLoop env 16 fuel s).g.file.limit = s.g.file.limit := by
  intro fuel
  induction fuel with
  | zero =>
    intro s h0 _ _ _
    have e1 : mipStreams env 16 0 s = [] := rfl
    have e2 : mipLoop env 16 0 s = s := rfl
    rw [e1, e2, List.flatten_nil, List.append_nil]
    exact ⟨h0, rfl, rfl⟩
  | succ fuel ih =>
    intro s h0 hpos hroom hsmall
    by_cases hm : s.mipLevel < 16
    · have hge : ¬ ((s.mipLevel : Int) ≥ 16) := by omega
      have hT : mipStreams env 16 (fuel + 1) s
          = passStream env s :: mipStreams env 16 fuel (mipStep env 16 s) := by
        simp only [mipStreams, hm, if_true, hge, if_false, List.singleton_append]
      have hL : mipLoop env 16 (fuel + 1) s = mipLoop env 16 fuel (mipStep env 16 s) := by
        simp only [mipLoop, hm, if_true]
      rw [hT] at hroom hsmall
      rw [List.flatten_cons, List.length_append] at hroom
      obtain ⟨e1, -⟩ := mipStep_pass env s hm
      have hw := WriteSome_append (toInt32 (passStream env s).length) (passStream env s) s.g h0
        (toInt32_of_lt _ (hsmall _ (List.mem_cons_self _ _))) hpos (by omega)
      rw [← e1] at hw
      obtain ⟨a1, a2, a3⟩ := ih (mipStep env 16 s) (by rw [hw])
        (by rw [hw]; simp only [List.length_append]; omega)
        (by rw [hw]; simp only []; omega)
        (fun p hp => hsmall p (List.mem_cons_of_mem _ hp))
      rw [hT, hL, List.flatten_cons, a2, a3, hw]
      exact ⟨a1, by simp only [List.append_assoc], rfl⟩
    · rw [mipStreams_done env _ _ hm, mipLoop_done env 16 _ _ hm, List.flatten_nil,
        List.append_nil]
      exact ⟨h0, rfl, rfl⟩

/-- The file on entry to the mipmap loop, when the output file was empty and the
medium has room for 160 bytes: the placeholder header and four zero bytes. -/
theorem loopStart_file (g2 : Globals) (width height planes : Int)
    (hempty : g2.file.bytes = []) (hroom : 160 ≤ g2.file.limit) :
    (loopStart g2 width height planes).g.gResult = noErr ∧
    (loopStart g2 width height planes).g.file.bytes
      = (preparedHeader width height planes).toBytes ++ le32 0 ∧
    (loopStart g2 width height planes).g.file.pos = 160 ∧
    (loopStart g2 width height planes).g.file.limit = g2.file.limit := by
  have hA := WriteSome_append 156 (preparedHeader width height planes).toBytes (setFPos g2 0)
    rfl (by rw [toBytes_length]; norm_num) (by simp only [setFPos_file, hempty, List.length_nil])
    (by simp only [setFPos_file, toBytes_length]; omega)
  have hB := WriteSome_append 4 (le32 0)
    (WriteSome 156 (preparedHeader width height planes).toBytes (setFPos g2 0))
    (by rw [hA]) (by rw [le32_length]; norm_num)
    (by rw [hA]; simp only [setFPos_file, hempty, List.length_append, List.length_nil,
          toBytes_length])
    (by rw [hA]; simp only [setFPos_file, toBytes_length, le32_length]; omega)
  have hg : (loopStart g2 width height planes).g
      = WriteSome 4 (le32 0)
          (WriteSome 156 (preparedHeader width height planes).toBytes (setFPos g2 0)) := by
    unfold loopStart mipStart
    rfl
  have hpA : (WriteSome 156 (preparedHeader width height planes).toBytes (setFPos g2 0)).file.bytes
      = (preparedHeader width height planes).toBytes := by
    rw [hA]
    show g2.file.bytes ++ (preparedHeader width height planes).toBytes = _
    rw [hempty]
    exact List.nil_append _
  have hqA : (WriteSome 156 (preparedHeader width height planes).toBytes (setFPos g2 0)).file.pos
      = 156 := by
    rw [hA]
    simp only [setFPos_file, toBytes_length]
  have hlA : (WriteSome 156 (preparedHeader width height planes).toBytes (setFPos g2 0)).file.limit
      = g2.file.limit := by
    rw [hA]
    rfl
  refine ⟨by rw [hg, hB], ?_, ?_, ?_⟩
  · rw [hg, hB]
    exact congrArg (fun l => l ++ le32 0) hpA
  · rw [hg, hB]
    show (WriteSome 156 (preparedHeader width height planes).toBytes (setFPos g2 0)).file.pos
      + (le32 0).length = 160
    rw [hqA]
    rfl
  · rw [hg, hB]
    exact hlA

theorem flatten_slice (T : List (List Nat)) (k : Nat) (hk : k < T.length) :
    (T.flatten.drop (sizeBefore T k)).take (T.getD k []).length = T.getD k [] := by
  induction T generalizing k with
  | nil => exact absurd hk (Nat.not_lt_zero _)
  | cons p T ih =>
    cases k with
    | zero =>
      rw [sizeBefore_zero, List.drop_zero, List.flatten_cons, List.getD_cons_zero,
        List.take_left]
    | succ k =>
      rw [sizeBefore_cons, List.flatten_cons, List.getD_cons_succ, List.drop_append]
      exact ih k (by simpa using hk)

theorem sizeBefore_length (T : List (List Nat)) : sizeBefore T T.length = T.flatten.length := by
  induction T with
  | nil => rfl
  | cons p T ih => rw [List.length_cons, sizeBefore_cons, ih, List.flatten_cons, List.length_append]

/-- The file that the second part of `DoWriteStart` leaves when the output file
was empty, the medium has room for the header, the four bytes of the
shared-header length and all bitstreams, and each bitstream is below `2^31`
bytes: the final header, four zero bytes, and the bitstreams back to back. -/
theorem writeLevels_layout (env : Env) (g2 : Globals) (width height planes : Int)
    (hempty : g2.file.bytes = [])
    (hroom : 160 + (mipStreams env 16 16 (loopStart g2 width height planes)).flatten.length
      ≤ g2.file.limit)
    (hsmall : ∀ p, p ∈ mipStreams env 16 16 (loopStart g2 width height planes) →
      p.length < 2147483648) :
    (writeLevels env g2 width height planes).g.gResult = noErr ∧
    (writeLevels env g2 width height planes).g.file.bytes
      = (mipLoop env 16 16 (loopStart g2 width height planes)).header.toBytes ++ le32 0
        ++ (mipStreams env 16 16 (loopStart g2 width height planes)).flatten := by
  obtain ⟨s1, s2, s3, s4⟩ := loopStart_file g2 width height planes hempty (by omega)
  obtain ⟨a1, a2, a3⟩ := mipLoop_file env 16 (loopStart g2 width height planes) s1
    (by rw [s3, s2, List.length_append, toBytes_length, le32_length])
    (by rw [s3, s4]; exact hroom) hsmall
  have hok : (writeLevels env g2 width height planes).g.gResult = noErr := by
    rw [writeLevels_eq, setImageBuffer_gResult]
    exact WriteSome_header_ok _ _ (toBytes_length _) (setFPos_gResult _ _)
      (by simp only [setFPos_file]; rw [a3, s4]; omega)
  refine ⟨hok, ?_⟩
  rw [writeLevels_file env g2 width height planes hok, a2, s2, List.append_assoc,
    List.append_assoc, List.drop_left' (toBytes_length _)]

/-- The layout of the file of a run of `DoWriteStart` into an empty output file on
a medium with room for everything written (each bitstream below `2^31` bytes, the
file below 4 GiB): the run ends in `noErr`, the four bytes at offset 156 are zero,
`Offset[0] = 160`, `Size[i]` is the length of bitstream `i`,
`Offset[i+1] = Offset[i] + Size[i]`, and the bytes `[Offset[i], Offset[i]+Size[i])`
of the file are bitstream `i`. -/
theorem DoWriteStart_layout (env : Env) (g g2 : Globals)
    (hgather : gatherPlanes env g = Except.ok g2)
    (hempty : g.file.bytes = [])
    (hroom : 160 + (writtenStreams env g).flatten.length ≤ g.file.limit)
    (hfit : 160 + (writtenStreams env g).flatten.length < 4294967296)
    (hsmall : ∀ p, p ∈ writtenStreams env g → p.length < 2147483648) :
    (DoWriteStart env g).g.gResult = noErr ∧
    (DoWriteStart env g).g.file.bytes
      = (DoWriteStart env g).header.toBytes ++ le32 0 ++ (writtenStreams env g).flatten ∧
    ((DoWriteStart env g).g.file.bytes.drop 156).take 4 = [0, 0, 0, 0] ∧
    hdrOffset (DoWriteStart env g).g.file.bytes 0 = 160 ∧
    (∀ i, i < (writtenStreams env g).length →
      hdrOffset (DoWriteStart env g).g.file.bytes i = 160 + sizeBefore (writtenStreams env g) i ∧
      hdrSize (DoWriteStart env g).g.file.bytes i = ((writtenStreams env g).getD i []).length ∧
      (i + 1 < (writtenStreams env g).length →
        hdrOffset (DoWriteStart env g).g.file.bytes (i + 1)
          = hdrOffset (DoWriteStart env g).g.file.bytes i
            + hdrSize (DoWriteStart env g).g.file.bytes i) ∧
      ((DoWriteStart env g).g.file.bytes.drop
          (hdrOffset (DoWriteStart env g).g.file.bytes i)).take
          (hdrSize (DoWriteStart env g).g.file.bytes i)
        = (writtenStreams env g).getD i []) := by
  have hT : writtenStreams env g = mipStreams env 16 16
      (loopStart g2 (GetFormatImageSize g.gFormatRecord).h
        (GetFormatImageSize g.gFormatRecord).v g.gFormatRecord.planes) := by
    unfold writtenStreams
    rw [hgather]
  have hD : DoWriteStart env g = writeLevels env g2 (GetFormatImageSize g.gFormatRecord).h
      (GetFormatImageSize g.gFormatRecord).v g.gFormatRecord.planes := by
    unfold DoWriteStart
    rw [hgather]
  have hfile := gatherPlanes_file env g g2 hgather
  obtain ⟨hok, hbytes⟩ := writeLevels_layout env g2 (GetFormatImageSize g.gFormatRecord).h
    (GetFormatImageSize g.gFormatRecord).v g.gFormatRecord.planes
    (by rw [hfile]; exact hempty) (by rw [← hT, hfile]; exact hroom) (by rw [← hT]; exact hsmall)
  rw [← hD] at hok
  have hhdr : (DoWriteStart env g).header
      = (mipLoop env 16 16 (loopStart g2 (GetFormatImageSize g.gFormatRecord).h
          (GetFormatImageSize g.gFormatRecord).v g.gFormatRecord.planes)).header := by
    rw [hD, writeLevels_eq]
  rw [← hD, ← hT, ← hhdr] at hbytes
  obtain ⟨b1, b2, -⟩ := DoWriteStart_fields env g hok
  obtain ⟨-, -, -, -, -, -, -, -, w⟩ := DoWriteStart_written env g hok
  have hL : 1 ≤ (writtenStreams env g).length := by
    cases hTT : writtenStreams env g with
    | nil => exact absurd hTT b1
    | cons p T => simp
  have hoff : ∀ i, i < (writtenStreams env g).length →
      hdrOffset (DoWriteStart env g).g.file.bytes i
        = 160 + sizeBefore (writtenStreams env g) i := by
    intro i hi
    have m1 := sizeBefore_mono (writtenStreams env g) i
    rw [sizeBefore_length] at m1
    rw [(w i (by omega)).1, if_pos hi, Nat.mod_eq_of_lt (by omega)]
  have hsize : ∀ i, i < (writtenStreams env g).length →
      hdrSize (DoWriteStart env g).g.file.bytes i
        = ((writtenStreams env g).getD i []).length := by
    intro i hi
    have hlt := hsmall _ (getD_mem_of_lt _ i hi)
    rw [(w i (by omega)).2, if_pos hi, Nat.mod_eq_of_lt (by omega)]
  refine ⟨hok, hbytes, ?_, ?_, ?_⟩
  · rw [hbytes, List.append_assoc, List.drop_left' (toBytes_length _)]
    rfl
  · rw [hoff 0 (by omega), sizeBefore_zero]
  · intro i hi
    refine ⟨hoff i hi, hsize i hi, ?_, ?_⟩
    · intro hi1
      rw [hoff (i + 1) hi1, hoff i hi, hsize i hi, sizeBefore_succ _ i hi, Nat.add_assoc]
    · rw [hoff i hi, hsize i hi]
      have e : (DoWriteStart env g).g.file.bytes.drop (160 + sizeBefore (writtenStreams env g) i)
          = (writtenStreams env g).flatten.drop (sizeBefore (writtenStreams env g) i) := by
        rw [hbytes, ← List.drop_drop]
        rw [List.drop_left' (by rw [List.length_append, toBytes_length, le32_length])]
      rw [e]
      exact flatten_slice _ i hi

/-- C11 at the failing input: a 5x3 image written to a medium with room for 160
bytes.  The placeholder header and the four zero bytes are written, the write of
the level-0 bitstream is short and latches `dskFulErr`, the later writes do
nothing; the seek of "Rewrite Header" then assigns its own result to `*gResult`,
the header is rewritten, and the run ends in `noErr`.  The file has 160 bytes and
its header says `Offset[0] = 160`, `Size[0] = 4`, but the bytes of that range are
not the bitstream.  On a medium with room the same image gives the layout of the
claim. -/
theorem C11_payload_missing :
    writtenStreams sampleEnv fullDiskGlobals
      = [[0xFF, 0xD8, 0xFF, 0xD9], [0xFF, 0xD8, 0xFF, 0xD9], [0xFF, 0xD8, 0xFF, 0xD9]] ∧
    loopResult sampleEnv fullDiskGlobals = dskFulErr ∧
    (DoWriteStart sampleEnv fullDiskGlobals).g.gResult = noErr ∧
    (DoWriteStart sampleEnv fullDiskGlobals).g.file.bytes.length = 160 ∧
    ((DoWriteStart sampleEnv fullDiskGlobals).g.file.bytes.drop 156).take 4 = [0, 0, 0, 0] ∧
    hdrOffset (DoWriteStart sampleEnv fullDiskGlobals).g.file.bytes 0 = 160 ∧
    hdrSize (DoWriteStart sampleEnv fullDiskGlobals).g.file.bytes 0 = 4 ∧
    ((DoWriteStart sampleEnv fullDiskGlobals).g.file.bytes.drop 160).take 4 = [] ∧
    ((DoWriteStart sampleEnv fullDiskGlobals).g.file.bytes.drop
        (hdrOffset (DoWriteStart sampleEnv fullDiskGlobals).g.file.bytes 0)).take
        (hdrSize (DoWriteStart sampleEnv fullDiskGlobals).g.file.bytes 0)
      ≠ (writtenStreams sampleEnv fullDiskGlobals).getD 0 [] ∧
    loopResult sampleEnv (writeGlobals 5 3 4 3) = noErr ∧
    (DoWriteStart sampleEnv (writeGlobals 5 3 4 3)).g.file.bytes.drop 156
      = [0, 0, 0, 0, 0xFF, 0xD8, 0xFF, 0xD9, 0xFF, 0xD8, 0xFF, 0xD9, 0xFF, 0xD8, 0xFF, 0xD9] := by
  decide

/-! ## Claims C22 and C23: errors on the way -/

/-- C22 at the failing input: a 5x3 image written to a medium with room for 158
bytes.  The placeholder header is written, the write of the shared-header length
is short (two of four bytes) and latches `dskFulErr`, every write of the mipmap
loop returns at once, and the loop is left with `dskFulErr`.  The statement
`*gResult = PSSDKSetFPos (...)` of "Rewrite Header" then replaces the latched
error by the result of the seek, the header is rewritten, and the run ends in
`noErr` with a file of 158 bytes. -/
theorem C22_latch_cleared :
    shortLengthGlobals.file.limit = 158 ∧
    loopResult sampleEnv shortLengthGlobals = dskFulErr ∧
    dskFulErr ≠ noErr ∧
    (DoWriteStart sampleEnv shortLengthGlobals).g.gResult = noErr ∧
    (DoWriteStart sampleEnv shortLengthGlobals).g.file.bytes.length = 158 ∧
    (DoWriteStart sampleEnv shortLengthGlobals).g.file.bytes.drop 156 = [0, 0] ∧
    hdrSize (DoWriteStart sampleEnv shortLengthGlobals).g.file.bytes 0 = 4 ∧
    hdrSize (DoWriteStart sampleEnv shortLengthGlobals).g.file.bytes 2 = 4 := by
  decide

/-- C23 at the failing inputs.  Decode: on scenario E1 cut inside its index plane
the read of the indices is short, `DoReadContinue` returns with `eofErr`, and
`gData->imageBuffer` still holds the zeroed raster; a second call finds the
buffer there, skips the load block and hands the zero raster to the host with
`noErr`.  Encode: when `advanceState` reports a cancel, `DoWriteStart` returns
with that code and `gData->imageBuffer` still holds the raster.  On the runs
without error both routines leave `imageBuffer` at NULL. -/
theorem C23_buffer_kept :
    (DoReadStart sampleEnv (sampleGlobals fileE1Short)).gResult = noErr ∧
    (DoReadContinue sampleEnv (DoReadStart sampleEnv (sampleGlobals fileE1Short))).gResult
      = eofErr ∧
    (DoReadContinue sampleEnv
      (DoReadStart sampleEnv (sampleGlobals fileE1Short))).gData.imageBuffer
      = some (List.replicate 16 0) ∧
    (DoReadContinue sampleEnv { DoReadContinue sampleEnv
        (DoReadStart sampleEnv (sampleGlobals fileE1Short)) with gResult := noErr }).gResult
      = noErr ∧
    (DoReadContinue sampleEnv { DoReadContinue sampleEnv
        (DoReadStart sampleEnv (sampleGlobals fileE1Short)) with gResult := noErr }).delivered
      = [{ plane := 0, row := 0, data := [0, 0] }, { plane := 0, row := 1, data := [0, 0] }] ∧
    (DoWriteStart cancelEnv (writeGlobals 2 1 4 1)).g.gResult = userCanceledErr ∧
    (DoWriteStart cancelEnv (writeGlobals 2 1 4 1)).g.gData.imageBuffer
      = some [0, 255, 255, 255, 0, 255, 255, 255] ∧
    (DoReadContinue sampleEnv (DoReadStart sampleEnv (sampleGlobals fileE1))).gData.imageBuffer
      = none ∧
    (DoWriteStart sampleEnv (writeGlobals 2 1 4 1)).g.gData.imageBuffer = none := by
  decide

/-! ## Claim C26: the reads of `DoFilterFile` -/

/-- Counterexample to C26 as stated: on a stream of 100 bytes that begins with the
magic, `DoFilterFile` leaves the position at 100 and the result at `eofErr`: its
one read asked for more than the 100 bytes there are (it asks for the 156 bytes
of a header) and went past offset 4. -/
theorem C26_probe_read_counterexample :
    fileMagic100.length = 100 ∧
    fileMagic100.take 4 = [0x42, 0x4C, 0x50, 0x31] ∧
    (DoFilterFile (sampleGlobals fileMagic100)).file.pos = 100 ∧
    (DoFilterFile (sampleGlobals fileMagic100)).gResult = eofErr ∧
    (DoFilterFile (sampleGlobals fileE1)).file.pos = 156 ∧
    ¬ ((DoFilterFile (sampleGlobals fileE1)).file.pos ≤ 4) := by
  decide

/-- The position after a read. -/
theorem ReadSome_pos (count : Int) (buffer : List Nat) (g : Globals) (h0 : g.gResult = noErr) :
    (ReadSome count buffer g).1.file.pos
      = g.file.pos + min count.toNat (g.file.bytes.length - g.file.pos) ∧
    (ReadSome count buffer g).1.file.bytes = g.file.bytes := by
  unfold ReadSome PSSDKRead
  simp only [h0, ne_eq, not_true_eq_false, if_false, List.length_take, List.length_drop]
  exact ⟨trivial, trivial⟩

/-- C26, amended: entered with `noErr`, `DoFilterFile` seeks to offset 0 and makes
one read, of `sizeof (BLP_HEADER)` = 156 bytes: the file it leaves is the one left
by `ReadSome 156` after the seek, its position is `min 156 (length of the
stream)`, never beyond offset 156, and its bytes are unchanged. -/
theorem C26_probe_read_amended (g : Globals) (h0 : g.gResult = noErr) :
    (DoFilterFile g).file = (ReadSome 156 [] (setFPos g 0)).1.file ∧
    (DoFilterFile g).file.pos = min 156 g.file.bytes.length ∧
    (DoFilterFile g).file.pos ≤ 156 ∧
    (DoFilterFile g).file.bytes = g.file.bytes := by
  have hf : (DoFilterFile g).file = (ReadSome 156 [] (setFPos g 0)).1.file := by
    unfold DoFilterFile
    simp only [h0, ne_eq, not_true_eq_false, if_false, setFPos_gResult]
    split_ifs <;> rfl
  obtain ⟨hp, hb⟩ := ReadSome_pos 156 [] (setFPos g 0) rfl
  simp only [setFPos_file, Nat.zero_add, Nat.sub_zero] at hp hb
  have h156 : Int.toNat 156 = 156 := rfl
  rw [h156] at hp
  refine ⟨hf, by rw [hf, hp], by rw [hf, hp]; exact Nat.min_le_left _ _, by rw [hf, hb]⟩

/-- Witness of C26 (amended): on scenario E1 the probe leaves the position at
156. -/
theorem C26_probe_read_amended_witness :
    (DoFilterFile (sampleGlobals fileE1)).file.pos = 156 ∧
    ((DoFilterFile (sampleGlobals fileE1)).file
        = (ReadSome 156 [] (setFPos (sampleGlobals fileE1) 0)).1.file ∧
      (DoFilterFile (sampleGlobals fileE1)).file.pos
        = min 156 (sampleGlobals fileE1).file.bytes.length ∧
      (DoFilterFile (sampleGlobals fileE1)).file.pos ≤ 156 ∧
      (DoFilterFile (sampleGlobals fileE1)).file.bytes = (sampleGlobals fileE1).file.bytes) :=
  ⟨by decide, C26_probe_read_amended (sampleGlobals fileE1) (by decide)⟩

/-! ## Claim C24: the number of palette entries -/

/-- Counterexample to C24 as stated: a DIRECT file with
`(Offset[0] - 156) / 4 = 300 > 256` is not rejected.  `DoReadStart` and
`DoReadContinue` end in `noErr`; the count is clamped to 256, so 1024 palette
bytes are read (the position after `DoReadStart` is `156 + 1024`), and the pixel
is decoded from palette entry 3. -/
theorem C24_palette_counterexample :
    (hdrOffset filePal300 0 - 156) / 4 = 300 ∧
    paletteSize sampleEnv.sizeBits (hdrOffset filePal300 0) = 256 ∧
    (DoReadStart sampleEnv (sampleGlobals filePal300)).gResult = noErr ∧
    (DoReadStart sampleEnv (sampleGlobals filePal300)).file.pos = 156 + 1024 ∧
    (DoReadContinue sampleEnv (DoReadStart sampleEnv (sampleGlobals filePal300))).gResult
      = noErr ∧
    loadedBuffer sampleEnv (DoReadStart sampleEnv (sampleGlobals filePal300))
      = some [7, 7, 7, 255] := by
  decide

/-! ## Claim C29: the channel orders of the encoder and the decoder -/

/-- The scanline of row `y` handed to the compressor: its length and the samples
of the pixel at column `x`. -/
theorem scanlines_row (buf : List Nat) (W H y : Nat) (hy : y < H) :
    ((scanlines buf (W : Int) (H : Int)).getD y []).length = 4 * W ∧
    ∀ x, x < W →
      (((scanlines buf (W : Int) (H : Int)).getD y []).drop (4 * x)).take 4
        = [buf.getD ((y * W + x) * 4 + 2) 0, buf.getD ((y * W + x) * 4 + 1) 0,
           buf.getD ((y * W + x) * 4 + 0) 0, buf.getD ((y * W + x) * 4 + 3) 0] := by
  have hrow : (scanlines buf (W : Int) (H : Int)).getD y []
      = (List.range W).flatMap (fun i =>
          [(buf.drop (y * W * 4)).getD (i * 4 + 2) 0, (buf.drop (y * W * 4)).getD (i * 4 + 1) 0,
           (buf.drop (y * W * 4)).getD (i * 4 + 0) 0,
           (buf.drop (y * W * 4)).getD (i * 4 + 3) 0]) := by
    simp only [scanlines, Int.toNat_ofNat]
    rw [map_range_getD _ _ _ _ hy]
  rw [hrow]
  have hF : ∀ i : Nat,
      ([(buf.drop (y * W * 4)).getD (i * 4 + 2) 0, (buf.drop (y * W * 4)).getD (i * 4 + 1) 0,
        (buf.drop (y * W * 4)).getD (i * 4 + 0) 0,
        (buf.drop (y * W * 4)).getD (i * 4 + 3) 0] : List Nat).length = 4 := fun _ => rfl
  refine ⟨flatMap_quad_length _ hF W, ?_⟩
  intro x hx
  rw [flatMap_quad _ hF W x hx]
  have e : ∀ k, y * W * 4 + (x * 4 + k) = (y * W + x) * 4 + k := by
    intro k; rw [Nat.add_mul, Nat.add_assoc]
  simp only [drop_getD, e]

/-- Two rasters of `N` pixels with the same four bytes at every pixel are equal. -/
theorem eq_of_quads (l1 l2 : List Nat) (N : Nat) (h1 : l1.length = 4 * N)
    (h2 : l2.length = 4 * N)
    (h : ∀ i, i < N → (l1.drop (4 * i)).take 4 = (l2.drop (4 * i)).take 4) : l1 = l2 := by
  apply List.ext_getElem (by rw [h1, h2])
  intro j hj1 hj2
  have hq := h (j / 4) (by omega)
  have e1 := getD_of_drop_take l1 (j / 4) (j % 4) _ rfl (Nat.mod_lt _ (by norm_num))
  have e2 := getD_of_drop_take l2 (j / 4) (j % 4) _ rfl (Nat.mod_lt _ (by norm_num))
  have ej : 4 * (j / 4) + j % 4 = j := Nat.div_add_mod j 4
  rw [ej] at e1 e2
  rw [hq] at e1
  have e3 := e1.trans e2.symm
  rw [List.getD_eq_getElem _ _ hj1, List.getD_eq_getElem _ _ hj2] at e3
  exact e3

/-- The four bytes of pixel `p` of a raster that holds it. -/
theorem quad_of_raster (buf : List Nat) (p : Nat) (h : 4 * p + 4 ≤ buf.length) :
    (buf.drop (4 * p)).take 4
      = [buf.getD (p * 4 + 0) 0, buf.getD (p * 4 + 1) 0, buf.getD (p * 4 + 2) 0,
         buf.getD (p * 4 + 3) 0] := by
  apply List.ext_getElem
  · simp only [List.length_take, List.length_drop, List.length_cons, List.length_nil]
    omega
  · intro k hk1 hk2
    have hk : k < 4 := by simpa using hk2
    have e := getD_of_drop_take buf p k _ rfl hk
    rw [List.getD_eq_getElem _ _ hk1] at e
    rw [← e, Nat.mul_comm p 4]
    have hk' : k = 0 ∨ k = 1 ∨ k = 2 ∨ k = 3 := by omega
    rcases hk' with rfl | rfl | rfl | rfl <;> rfl

/-- C29: the decoder's channel handling undoes the encoder's.  For a pixel
`(r, g, b, a)` the encoder hands `(b, g, r, a)` to the compressor, and the
decoder's four-component path (copy, then swap of bytes 0 and 2) applied to these
samples gives `(r, g, b, a)`; the swap applied twice to a pixel gives the pixel
back; and for every raster `buf` of `W x H` RGBA pixels, the raster that the JPEG
branch of the decoder builds from the frame holding the encoder's scanlines of
`buf` is `buf`. -/
theorem C29_channel_round_trip (buf : List Nat) (W H : Nat)
    (hW : W < 2147483648) (hfit : W * H * 4 < 2147483648) (hlen : buf.length = W * H * 4) :
    (∀ r g b a : Nat, scanlines [r, g, b, a] 1 1 = [[b, g, r, a]] ∧
      jpegRaster 1 1 (echoFrame [r, g, b, a] 1 1) [0, 0, 0, 0] = [r, g, b, a]) ∧
    (∀ p0 p1 p2 p3 : Nat, swapPixel (swapPixel [p0, p1, p2, p3] 0) 0 = [p0, p1, p2, p3]) ∧
    jpegRaster (W : Int) (H : Int) (echoFrame buf W H) (List.replicate (W * H * 4) 0) = buf := by
  refine ⟨fun r g b a => ⟨rfl, rfl⟩, fun _ _ _ _ => rfl, ?_⟩
  obtain ⟨hl, hp⟩ := jpegRaster_four W H (echoFrame buf W H) rfl rfl rfl hW hfit
    (fun y hy => by
      have := (scanlines_row buf W H y hy).1
      show 4 * W ≤ ((scanlines buf (W : Int) (H : Int)).getD y []).length
      omega)
    (List.replicate (W * H * 4) 0) (List.length_replicate _ _)
  apply eq_of_quads _ _ (W * H) hl (by rw [hlen]; omega)
  intro i hi
  have hWpos : 0 < W := by
    rcases Nat.eq_zero_or_pos W with h0 | h0
    · rw [h0, Nat.zero_mul] at hi; exact absurd hi (Nat.not_lt_zero _)
    · exact h0
  have hx : i % W < W := Nat.mod_lt _ hWpos
  have hy : i / W < H := by
    rw [Nat.div_lt_iff_lt_mul hWpos, Nat.mul_comm]; exact hi
  have ei : i / W * W + i % W = i := Nat.div_add_mod' i W
  have h1 := hp (i / W) hy (i % W) hx
  rw [ei] at h1
  rw [h1, quad_of_raster buf i (by rw [hlen]; omega)]
  obtain ⟨-, hs⟩ := scanlines_row buf W H (i / W) hy
  have hq := hs (i % W) hx
  rw [ei] at hq
  have hline : (echoFrame buf W H).scanlines = scanlines buf (W : Int) (H : Int) := rfl
  rw [hline,
    getD_of_drop_take _ (i % W) 2 _ hq (by norm_num),
    getD_of_drop_take _ (i % W) 1 _ hq (by norm_num),
    getD_of_drop_take _ (i % W) 0 _ hq (by norm_num),
    getD_of_drop_take _ (i % W) 3 _ hq (by norm_num)]
  rfl

/-- Witness of C29: a raster of 2x1 pixels goes through the encoder's reorder and
the decoder's copy and swap unchanged. -/
theorem C29_channel_round_trip_witness :
    scanlines [1, 2, 3, 4, 5, 6, 7, 8] 2 1 = [[3, 2, 1, 4, 7, 6, 5, 8]] ∧
    ((∀ r g b a : Nat, scanlines [r, g, b, a] 1 1 = [[b, g, r, a]] ∧
      jpegRaster 1 1 (echoFrame [r, g, b, a] 1 1) [0, 0, 0, 0] = [r, g, b, a]) ∧
    (∀ p0 p1 p2 p3 : Nat, swapPixel (swapPixel [p0, p1, p2, p3] 0) 0 = [p0, p1, p2, p3]) ∧
    jpegRaster ((2 : Nat) : Int) ((1 : Nat) : Int) (echoFrame [1, 2, 3, 4, 5, 6, 7, 8] 2 1)
        (List.replicate (2 * 1 * 4) 0)
      = [1, 2, 3, 4, 5, 6, 7, 8]) :=
  ⟨by decide,
   C29_channel_round_trip [1, 2, 3, 4, 5, 6, 7, 8] 2 1 (by decide) (by decide) (by decide)⟩

/-! ## Claim C30: the indexed-colour path -/

/-- The state that `DoReadStart` leaves on a DIRECT header without alpha when the
stream holds the palette (on a host with 32-bit coordinates). -/
theorem DoReadStart_indexed (env : Env) (g : Globals)
    (hlen : 156 ≤ g.file.bytes.length)
    (hmagic : g.file.bytes.take 4 = [0x42, 0x4C, 0x50, 0x31])
    (hcomp : hdrCompression g.file.bytes = BLP_COMPRESSION_DIRECT)
    (hab : hdrAlphaBits g.file.bytes = 0)
    (hbits : 32 ≤ env.sizeBits)
    (hge : 156 ≤ hdrOffset g.file.bytes 0) (hlt : hdrOffset g.file.bytes 0 < 4294967296)
    (hav : 156 + 4 * min 256 ((hdrOffset g.file.bytes 0 - 156) / 4) ≤ g.file.bytes.length)
    (hc1 : g.gFormatRecord.HostSupports32BitCoordinates = true)
    (hc2 : g.gFormatRecord.PluginUsing32BitCoordinates = true) :
    DoReadStart env g =
      { file := { g.file with pos := 156 + 4 * min 256 ((hdrOffset g.file.bytes 0 - 156) / 4) },
        gResult := noErr,
        gFormatRecord :=
          { g.gFormatRecord with
            imageSize32 := { v := toInt32 (hdrHeight g.file.bytes),
                             h := toInt32 (hdrWidth g.file.bytes) },
            depth := 8, imageMode := plugInModeIndexedColor, planes := 1,
            transparencyPlane := -1,
            blueLUT := loadLUT (overlay ((g.file.bytes.drop 156).take
                (4 * min 256 ((hdrOffset g.file.bytes 0 - 156) / 4))) env.stackPalette)
              ((min 256 ((hdrOffset g.file.bytes 0 - 156) / 4) : Nat) : Int) 0
              g.gFormatRecord.blueLUT,
            greenLUT := loadLUT (overlay ((g.file.bytes.drop 156).take
                (4 * min 256 ((hdrOffset g.file.bytes 0 - 156) / 4))) env.stackPalette)
              ((min 256 ((hdrOffset g.file.bytes 0 - 156) / 4) : Nat) : Int) 1
              g.gFormatRecord.greenLUT,
            redLUT := loadLUT (overlay ((g.file.bytes.drop 156).take
                (4 * min 256 ((hdrOffset g.file.bytes 0 - 156) / 4))) env.stackPalette)
              ((min 256 ((hdrOffset g.file.bytes 0 - 156) / 4) : Nat) : Int) 2
              g.gFormatRecord.redLUT,
            transparencyMatting := DESIREDMATTING, imageRsrcSize := 0,
            imageRsrcData := false },
        gData := { g.gData with
          blpHeader := overlay (g.file.bytes.take 156) g.gData.blpHeader,
          needsSwap := false },
        delivered := g.delivered } := by
  have hm : magicMismatch (overlay (g.file.bytes.take 156) g.gData.blpHeader) = false := by
    rw [magicMismatch_header _ _ hlen]
    have := (magicMismatch_iff g.file.bytes (by omega)).not.mpr (by simpa using hmagic)
    simpa using this
  have hc : hdrCompression (overlay (g.file.bytes.take 156) g.gData.blpHeader)
      = hdrCompression g.file.bytes := header_u32le _ _ 4 hlen (by norm_num)
  have ha : hdrAlphaBits (overlay (g.file.bytes.take 156) g.gData.blpHeader)
      = hdrAlphaBits g.file.bytes := header_u32le _ _ 8 hlen (by norm_num)
  have hw : hdrWidth (overlay (g.file.bytes.take 156) g.gData.blpHeader)
      = hdrWidth g.file.bytes := header_u32le _ _ 12 hlen (by norm_num)
  have hh : hdrHeight (overlay (g.file.bytes.take 156) g.gData.blpHeader)
      = hdrHeight g.file.bytes := header_u32le _ _ 16 hlen (by norm_num)
  have ho : hdrOffset (overlay (g.file.bytes.take 156) g.gData.blpHeader) 0
      = hdrOffset g.file.bytes 0 := header_u32le _ _ 28 hlen (by norm_num)
  have hps := paletteSize_of_ge env.sizeBits _ hbits hge hlt
  have hn4 : ((min 256 ((hdrOffset g.file.bytes 0 - 156) / 4) : Nat) : Int) * 4
      = ((4 * min 256 ((hdrOffset g.file.bytes 0 - 156) / 4) : Nat) : Int) := by
    rw [Nat.cast_mul, mul_comm]; rfl
  have hz : ¬ hdrAlphaBits g.file.bytes > 0 := by omega
  unfold DoReadStart
  simp only [setFPos_gResult, ne_eq, not_true_eq_false, if_false, setFPos_gData,
    ReadSome_header g _ hlen, hm, Bool.false_eq_true, hc, ha, ho, hw, hh, hcomp, if_true, hz,
    hps, hn4]
  rw [ReadSome_of_avail _ _ _ rfl hav]
  simp only [ne_eq, not_true_eq_false, if_false, readStartFinish, SetFormatImageSize, hc1, hc2,
    Bool.and_self, if_true]

theorem readRow_ok (env : Env) (h planes : Int) (buf : List Nat) (plane : Nat)
    (hadv : ∀ k, env.advanceState k = noErr) (st : Globals × Nat) (row : Nat)
    (h0 : st.1.gResult = noErr) :
    (readRow env h planes buf plane st row).1
      = { st.1 with
          delivered := st.1.delivered ++
            [({ plane := plane, row := row,
                data := (List.range h.toNat).map (fun col =>
                  (buf.drop (row * h.toNat * 4)).getD
                    (col * 4 + (if planes = 1 then 0 else plane)) 0) } : HostRow)] } := by
  unfold readRow
  simp only [h0, ne_eq, not_true_eq_false, if_false, hadv]

/-- The row loop of `DoReadContinue` for one plane, when `advanceState` always
succeeds: one record per row is handed to the host, the rest of the state is
kept. -/
theorem readRows_fold (env : Env) (h planes : Int) (buf : List Nat) (plane : Nat)
    (hadv : ∀ k, env.advanceState k = noErr) :
    ∀ (n : Nat) (st : Globals × Nat), st.1.gResult = noErr →
      ((List.range n).foldl (readRow env h planes buf plane) st).1
        = { st.1 with
            delivered := st.1.delivered ++ (List.range n).map (fun row =>
              ({ plane := plane, row := row,
                 data := (List.range h.toNat).map (fun col =>
                   (buf.drop (row * h.toNat * 4)).getD
                     (col * 4 + (if planes = 1 then 0 else plane)) 0) } : HostRow)) } := by
  intro n
  induction n with
  | zero =>
    intro st _
    simp only [List.range_zero, List.foldl_nil, List.map_nil, List.append_nil]
  | succ n ih =>
    intro st h0
    rw [List.range_succ, List.foldl_append, List.foldl_cons, List.foldl_nil, List.map_append,
      List.map_cons, List.map_nil]
    have hprev := ih st h0
    have hres : ((List.range n).foldl (readRow env h planes buf plane) st).1.gResult = noErr := by
      rw [hprev]; exact h0
    rw [readRow_ok env h planes buf plane hadv _ n hres, hprev]
    simp only [List.append_assoc]

theorem ReadSome_frame (count : Int) (buffer : List Nat) (g : Globals) :
    (ReadSome count buffer g).1.gFormatRecord = g.gFormatRecord ∧
    (ReadSome count buffer g).1.delivered = g.delivered ∧
    (ReadSome count buffer g).1.gData = g.gData ∧
    (ReadSome count buffer g).1.file.bytes = g.file.bytes ∧
    (ReadSome count buffer g).1.file.limit = g.file.limit := by
  unfold ReadSome
  split_ifs <;> exact ⟨rfl, rfl, rfl, rfl, rfl⟩

/-- The DIRECT branch of the load block changes the result, the position and the
raster only. -/
theorem readDirect_frame (env : Env) (width height : Int) (g g1 : Globals)
    (h : readDirect env width height g = Except.ok g1) :
    g1.gFormatRecord = g.gFormatRecord ∧ g1.delivered = g.delivered ∧
    g1.gData.blpHeader = g.gData.blpHeader ∧ g1.file.bytes = g.file.bytes := by
  have f1 := ReadSome_frame
    (paletteSize env.sizeBits (hdrOffset g.gData.blpHeader 0) * 4) env.stackPalette
    (setFPos g sizeofHeader)
  have f2 := ReadSome_frame (toInt32 (width * height)) []
    (setFPos (ReadSome (paletteSize env.sizeBits (hdrOffset g.gData.blpHeader 0) * 4)
      env.stackPalette (setFPos g sizeofHeader)).1 (hdrOffset g.gData.blpHeader 0))
  have f3 := ReadSome_frame
    (((toUInt32 (toInt32 (width * height)) * hdrAlphaBits g.gData.blpHeader + 7)
      % 4294967296 / 8 : Nat) : Int) []
    (ReadSome (toInt32 (width * height)) []
      (setFPos (ReadSome (paletteSize env.sizeBits (hdrOffset g.gData.blpHeader 0) * 4)
        env.stackPalette (setFPos g sizeofHeader)).1 (hdrOffset g.gData.blpHeader 0))).1
  simp only [setFPos_gFormatRecord, setFPos_gData, setFPos_file] at f1 f2 f3
  have d1 : (setFPos g sizeofHeader).delivered = g.delivered := rfl
  have d2 : (setFPos (ReadSome (paletteSize env.sizeBits (hdrOffset g.gData.blpHeader 0) * 4)
      env.stackPalette (setFPos g sizeofHeader)).1 (hdrOffset g.gData.blpHeader 0)).delivered
      = (ReadSome (paletteSize env.sizeBits (hdrOffset g.gData.blpHeader 0) * 4)
      env.stackPalette (setFPos g sizeofHeader)).1.delivered := rfl
  have F2 := And.intro (f2.1.trans f1.1) (And.intro (f2.2.1.trans (d2.trans (f1.2.1.trans d1)))
    (And.intro (f2.2.2.1.trans f1.2.2.1) (f2.2.2.2.1.trans f1.2.2.2.1)))
  have F3 := And.intro (f3.1.trans F2.1) (And.intro (f3.2.1.trans F2.2.1)
    (And.intro (f3.2.2.1.trans F2.2.2.1) (f3.2.2.2.1.trans F2.2.2.2)))
  have H2 := congrArg BLPData.blpHeader F2.2.2.1
  have H3 := congrArg BLPData.blpHeader F3.2.2.1
  unfold readDirect at h
  dsimp only at h
  split_ifs at h
  all_goals first
    | (cases h; done)
    | (cases h; exact ⟨F3.1, F3.2.1, H3, F3.2.2.2⟩)
    | (cases h; exact ⟨F2.1, F2.2.1, H2, F2.2.2.2⟩)

/-- The load block of `DoReadContinue` on a DIRECT header enters the DIRECT branch
with a zeroed raster of `W * H * 4` bytes. -/
theorem loadImage_direct_eq (env : Env) (g : Globals) (W H : Nat)
    (hmalloc : ∀ k, env.mallocOk k = true)
    (hbuf : g.gData.imageBuffer = none)
    (hsize : GetFormatImageSize g.gFormatRecord = { v := (H : Int), h := (W : Int) })
    (hfit : W * H * 4 < 2147483648)
    (hcomp : hdrCompression g.gData.blpHeader = BLP_COMPRESSION_DIRECT) :
    loadImage env g
      = readDirect env (W : Int) (H : Int)
          (setImageBuffer g (some (List.replicate (W * H * 4) 0))) := by
  have hlt : W * H < 2147483648 :=
    Nat.lt_of_le_of_lt (Nat.le_mul_of_pos_right _ (by norm_num)) hfit
  have hWH : toInt32 ((W : Int) * (H : Int)) = ((W * H : Nat) : Int) := by
    rw [← Nat.cast_mul]; exact toInt32_of_lt _ hlt
  have hsz : toInt32 (((W * H : Nat) : Int) * 4) = ((W * H * 4 : Nat) : Int) := by
    rw [← toInt32_of_lt (W * H * 4) hfit, Nat.cast_mul]; rfl
  unfold loadImage
  rw [hbuf]
  dsimp only
  simp only [hsize, hWH, hsz, hmalloc, Bool.not_true, Bool.false_eq_true, if_false, hcomp,
    if_true, Int.toNat_ofNat]

/-- The delivery loops of `DoReadContinue` for an image of one plane, when the row
buffer is allocated and `advanceState` always succeeds. -/
theorem DoReadContinue_one_plane (env : Env) (g g1 : Globals) (W H : Nat) (buf : List Nat)
    (hnew : ∀ k, env.bufferNewOk k = true) (hadv : ∀ k, env.advanceState k = noErr)
    (hrsrc : g.gFormatRecord.imageRsrcData = false)
    (hload : loadImage env g = Except.ok g1)
    (hres : g1.gResult = noErr)
    (hsize : GetFormatImageSize g1.gFormatRecord = { v := (H : Int), h := (W : Int) })
    (hplanes : g1.gFormatRecord.planes = 1)
    (hb : g1.gData.imageBuffer = some buf) :
    (DoReadContinue env g).gResult = noErr ∧
    (DoReadContinue env g).gData.imageBuffer = none ∧
    (DoReadContinue env g).delivered
      = g1.delivered ++ (List.range H).map (fun row =>
          ({ plane := 0, row := row,
             data := (List.range W).map (fun col => buf.getD ((row * W + col) * 4) 0) }
            : HostRow)) := by
  have hg : ({ g with gFormatRecord := DisposeImageResources g.gFormatRecord } : Globals) = g := by
    unfold DisposeImageResources
    simp only [hrsrc, Bool.false_eq_true, if_false]
  have hfold := readRows_fold env (W : Int) 1 buf 0 hadv H (g1, 0) hres
  have hdata : ∀ row : Nat, (List.range (W : Int).toNat).map (fun col =>
        (buf.drop (row * (W : Int).toNat * 4)).getD
          (col * 4 + (if (1 : Int) = 1 then 0 else 0)) 0)
      = (List.range W).map (fun col => buf.getD ((row * W + col) * 4) 0) := by
    intro row
    simp only [Int.toNat_ofNat, if_true, Nat.add_zero, drop_getD]
    apply List.map_congr_left
    intro col _
    rw [Nat.add_mul]
  unfold DoReadContinue
  simp only [hg, hload, hnew, Bool.not_true, Bool.false_eq_true, if_false, hsize, hplanes, hb,
    Option.getD_some]
  rw [show List.range (Int.toNat 1) = [0] from rfl, List.foldl_cons, List.foldl_nil]
  unfold readPlane
  simp only [hres, ne_eq, not_true_eq_false, if_false, Int.toNat_ofNat]
  rw [hfold]
  refine ⟨hres, rfl, ?_⟩
  show g1.delivered ++ _ = _
  congr 1
  apply List.map_congr_left
  intro row _
  rw [hdata row]

/-- C30: a DIRECT file without alpha, laid out as header, palette of `n ≤ 256`
entries and index plane of `W * H` bytes (each index below `n`), on a host with
32-bit coordinates where the allocations and `advanceState` succeed.
`DoReadStart` declares an indexed-colour image of one plane and loads entry `i` of
the red, green and blue tables from the palette bytes `4*i+2`, `4*i+1`, `4*i`.
`DoReadContinue` then hands the host, for the pixel at column `col` of row `row`
of that plane, the byte `pal[4*idx[row*W+col] + 2]`: the red component of the
palette entry, not the index. -/
theorem C30_indexed_delivery (env : Env) (g : Globals) (W H n : Nat)
    (hd pal idx rest : List Nat)
    (hbits : 32 ≤ env.sizeBits) (hmalloc : ∀ k, env.mallocOk k = true)
    (hnew : ∀ k, env.bufferNewOk k = true) (hadv : ∀ k, env.advanceState k = noErr)
    (hc1 : g.gFormatRecord.HostSupports32BitCoordinates = true)
    (hc2 : g.gFormatRecord.PluginUsing32BitCoordinates = true)
    (hbuf : g.gData.imageBuffer = none)
    (hfile : g.file.bytes = hd ++ pal ++ idx ++ rest)
    (hhd : hd.length = 156) (hpal : pal.length = 4 * n) (hn : n ≤ 256)
    (hidx : idx.length = W * H)
    (hrange : ∀ i, i < W * H → idx.getD i 0 < n)
    (hmagic : g.file.bytes.take 4 = [0x42, 0x4C, 0x50, 0x31])
    (hcomp : hdrCompression g.file.bytes = BLP_COMPRESSION_DIRECT)
    (hab : hdrAlphaBits g.file.bytes = 0)
    (hw : hdrWidth g.file.bytes = W) (hh : hdrHeight g.file.bytes = H)
    (hoff : hdrOffset g.file.bytes 0 = 156 + 4 * n)
    (hW : W < 2147483648) (hH : H < 2147483648) (hfit : W * H * 4 < 2147483648) :
    (DoReadStart env g).gResult = noErr ∧
    (DoReadStart env g).gFormatRecord.imageMode = plugInModeIndexedColor ∧
    (DoReadStart env g).gFormatRecord.planes = 1 ∧
    (∀ i, i < n →
      (DoReadStart env g).gFormatRecord.redLUT.getD i 0 = pal.getD (4 * i + 2) 0 ∧
      (DoReadStart env g).gFormatRecord.greenLUT.getD i 0 = pal.getD (4 * i + 1) 0 ∧
      (DoReadStart env g).gFormatRecord.blueLUT.getD i 0 = pal.getD (4 * i + 0) 0) ∧
    (DoReadContinue env (DoReadStart env g)).gResult = noErr ∧
    (DoReadContinue env (DoReadStart env g)).delivered
      = g.delivered ++ (List.range H).map (fun row =>
          ({ plane := 0, row := row,
             data := (List.range W).map (fun col =>
               pal.getD (4 * idx.getD (row * W + col) 0 + 2) 0) } : HostRow)) := by
  have hmin : min 256 ((156 + 4 * n - 156) / 4) = n := by omega
  have hlenf : g.file.bytes.length = 156 + 4 * n + W * H + rest.length := by
    rw [hfile]; simp only [List.length_append, hhd, hpal, hidx]
  have hlen : 156 ≤ g.file.bytes.length := by omega
  have e1 : (g.file.bytes.drop 156).take (4 * n) = pal := by
    rw [hfile]; simp only [List.append_assoc]
    rw [List.drop_left' hhd, List.take_left' hpal]
  have key := DoReadStart_indexed env g hlen hmagic hcomp hab hbits (by omega) (by omega)
    (by rw [hoff, hmin]; omega) hc1 hc2
  rw [hoff, hmin, e1, hw, hh, toInt32_of_lt W hW, toInt32_of_lt H hH] at key
  have hlut : ∀ (k i : Nat) (lut : List Nat), k < 4 → i < n →
      (loadLUT (overlay pal env.stackPalette) (n : Int) k lut).getD i 0
        = pal.getD (4 * i + k) 0 := by
    intro k i lut hk hi
    unfold loadLUT
    rw [overlay_getD _ _ _ (by simp only [List.length_map, List.length_range, Int.toNat_ofNat]; exact hi),
      Int.toNat_ofNat, map_range_getD _ _ _ _ hi, overlay_getD _ _ _ (by omega), Nat.mul_comm i 4]
  -- the state after `DoReadStart`
  have s1 : (DoReadStart env g).gData.imageBuffer = none := by rw [key]; exact hbuf
  have s2 : GetFormatImageSize (DoReadStart env g).gFormatRecord
      = { v := (H : Int), h := (W : Int) } := by
    rw [key]
    simp only [GetFormatImageSize, hc1, hc2, Bool.and_self, if_true]
  have s3 : hdrCompression (DoReadStart env g).gData.blpHeader = BLP_COMPRESSION_DIRECT := by
    rw [key]; exact (header_u32le _ _ 4 hlen (by norm_num)).trans hcomp
  have s4 : hdrAlphaBits (DoReadStart env g).gData.blpHeader = 0 := by
    rw [key]; exact (header_u32le _ _ 8 hlen (by norm_num)).trans hab
  have s5 : hdrOffset (DoReadStart env g).gData.blpHeader 0 = 156 + 4 * n := by
    rw [key]; exact (header_u32le _ _ 28 hlen (by norm_num)).trans hoff
  have s6 : (DoReadStart env g).file.bytes = hd ++ pal ++ idx ++ [] ++ rest := by
    rw [key, List.append_nil]; exact hfile
  have s7 : (DoReadStart env g).gFormatRecord.imageRsrcData = false := by rw [key]
  have s8 : (DoReadStart env g).gFormatRecord.planes = 1 := by rw [key]
  have s9 : (DoReadStart env g).delivered = g.delivered := by rw [key]
  obtain ⟨g2, e, hr, -, hb⟩ := loadImage_direct_layout env (DoReadStart env g) W H n 0
    hd pal idx [] rest hbits hmalloc s1 s2 hfit s3 s4 s5 s6 hhd hpal hn hidx rfl
  have e' := e
  rw [loadImage_direct_eq env _ W H hmalloc s1 s2 hfit s3] at e'
  obtain ⟨f1, f2, -, -⟩ := readDirect_frame env _ _ _ g2 e'
  have t1 : GetFormatImageSize g2.gFormatRecord = { v := (H : Int), h := (W : Int) } := by
    rw [f1]; exact s2
  have t2 : g2.gFormatRecord.planes = 1 := by rw [f1]; exact s8
  obtain ⟨d1, -, d3⟩ := DoReadContinue_one_plane env (DoReadStart env g) g2 W H _
    hnew hadv s7 e hr t1 t2 hb
  refine ⟨by rw [key], by rw [key], s8, ?_, d1, ?_⟩
  · intro i hi
    rw [key]
    exact ⟨hlut 2 i _ (by norm_num) hi, hlut 1 i _ (by norm_num) hi, hlut 0 i _ (by norm_num) hi⟩
  · rw [d3, f2]
    show (DoReadStart env g).delivered ++ _ = _
    rw [s9]
    congr 1
    apply List.map_congr_left
    intro row hrow
    have hrowlt : row < H := List.mem_range.mp hrow
    congr 1
    apply List.map_congr_left
    intro col hcol
    have hcollt : col < W := List.mem_range.mp hcol
    have hi := pixel_fits W H row col hrowlt hcollt
    have hq := flatMap_quad (directPixel (overlay pal env.stackPalette) idx [] 0)
      (directPixel_length _ _ _ _) (W * H) (row * W + col) hi
    rw [directPixel_rgb pal _ idx [] 0 n _ hpal (hrange _ hi)] at hq
    have hg0 := getD_of_drop_take _ (row * W + col) 0 _ hq (by norm_num)
    rw [Nat.add_zero, Nat.mul_comm 4 (row * W + col)] at hg0
    rw [hg0]
    rfl

/-- Witness of C30, scenario E1: the indices `0, 1, 2, 3` of the file are handed
to the host as `255, 0, 0, 255`, the red components of the four palette
entries. -/
theorem C30_indexed_delivery_witness :
    (DoReadContinue sampleEnv (DoReadStart sampleEnv (sampleGlobals fileE1))).delivered
      = [{ plane := 0, row := 0, data := [255, 0] }, { plane := 0, row := 1, data := [0, 255] }] ∧
    ((DoReadStart sampleEnv (sampleGlobals fileE1)).gResult = noErr ∧
    (DoReadStart sampleEnv (sampleGlobals fileE1)).gFormatRecord.imageMode
      = plugInModeIndexedColor ∧
    (DoReadStart sampleEnv (sampleGlobals fileE1)).gFormatRecord.planes = 1 ∧
    (∀ i, i < 4 →
      (DoReadStart sampleEnv (sampleGlobals fileE1)).gFormatRecord.redLUT.getD i 0
        = [0, 0, 255, 0, 0, 255, 0, 0, 255, 0, 0, 0, 255, 255, 255, 0].getD (4 * i + 2) 0 ∧
      (DoReadStart sampleEnv (sampleGlobals fileE1)).gFormatRecord.greenLUT.getD i 0
        = [0, 0, 255, 0, 0, 255, 0, 0, 255, 0, 0, 0, 255, 255, 255, 0].getD (4 * i + 1) 0 ∧
      (DoReadStart sampleEnv (sampleGlobals fileE1)).gFormatRecord.blueLUT.getD i 0
        = [0, 0, 255, 0, 0, 255, 0, 0, 255, 0, 0, 0, 255, 255, 255, 0].getD (4 * i + 0) 0) ∧
    (DoReadContinue sampleEnv (DoReadStart sampleEnv (sampleGlobals fileE1))).gResult = noErr ∧
    (DoReadContinue sampleEnv (DoReadStart sampleEnv (sampleGlobals fileE1))).delivered
      = (sampleGlobals fileE1).delivered ++ (List.range 2).map (fun row =>
          ({ plane := 0, row := row,
             data := (List.range 2).map (fun col =>
               [0, 0, 255, 0, 0, 255, 0, 0, 255, 0, 0, 0, 255, 255, 255, 0].getD
                 (4 * [0, 1, 2, 3].getD (row * 2 + col) 0 + 2) 0) } : HostRow))) :=
  ⟨by decide,
   C30_indexed_delivery sampleEnv (sampleGlobals fileE1) 2 2 4
     (fileE1.take 156) [0, 0, 255, 0, 0, 255, 0, 0, 255, 0, 0, 0, 255, 255, 255, 0] [0, 1, 2, 3] []
     (by decide) (fun _ => rfl) (fun _ => rfl) (fun _ => rfl) rfl rfl rfl (by decide)
     (by decide) (by decide) (by decide) (by decide) (by decide) (by decide) (by decide)
     (by decide) (by decide) (by decide) (by decide) (by decide) (by decide) (by decide)⟩

/-! ## Claim C27: the level count of the options step and of the writer -/

/-- The loop of `DoOptionsStart` entered with a dimension `M ≥ 1` and a count `c`
that leaves enough passes: it ends with `min 16 (c + floor (log2 M))`. -/
theorem optionsLoop_eq : ∀ (fuel M c : Nat), 1 ≤ M → 1 ≤ c → c + fuel = 16 →
    optionsLoop fuel (M : Int) (c : Int) = ((min 16 (c + Nat.log 2 M) : Nat) : Int) := by
  intro fuel
  induction fuel with
  | zero =>
    intro M c _ _ hc
    have h16 : c = 16 := by omega
    subst h16
    simp only [optionsLoop]
    rw [Nat.min_eq_left (by omega)]
  | succ fuel ih =>
    intro M c hM hc hcf
    by_cases h2 : 2 ≤ M
    · have hcond : ((M : Int) > 1 ∧ (c : Int) < 16) := ⟨by omega, by omega⟩
      have hdiv : (M : Int).tdiv 2 = ((M / 2 : Nat) : Int) := by
        rw [Int.tdiv_eq_ediv (by omega) (by norm_num)]; rfl
      have hlog : Nat.log 2 M = Nat.log 2 (M / 2) + 1 :=
        Nat.log_of_one_lt_of_le (by norm_num) h2
      simp only [optionsLoop, hcond, and_self, if_true, hdiv]
      have hc1 : (c : Int) + 1 = ((c + 1 : Nat) : Int) := by push_cast; rfl
      rw [hc1, ih (M / 2) (c + 1) (by omega) (by omega) (by omega), hlog]
      congr 2
      omega
    · have hM1 : M = 1 := by omega
      subst hM1
      have hcond : ¬ (((1 : Nat) : Int) > 1 ∧ (c : Int) < 16) := by
        intro h; omega
      simp only [optionsLoop, hcond, if_false, Nat.log_one_right, Nat.add_zero]
      rw [Nat.min_eq_right (by omega)]

/-- The level count of the writer: a number `L` of levels characterised as in
`mipLoop_spec` is `min 16 (floor (log2 (max W H)) + 1)`. -/
theorem level_count_eq (W H L : Nat) (hW : 1 ≤ W) (h1 : 1 ≤ L) (h16 : L ≤ 16)
    (hbefore : ∀ j, j + 1 < L → ¬ (max 1 (W / 2 ^ j) = 1 ∧ max 1 (H / 2 ^ j) = 1))
    (hlast : L < 16 → (max 1 (W / 2 ^ (L - 1)) = 1 ∧ max 1 (H / 2 ^ (L - 1)) = 1)) :
    L = min 16 (Nat.log 2 (max W H) + 1) := by
  have hlow : 2 ^ (L - 1) ≤ max W H := by
    by_cases hL1 : L = 1
    · subst hL1
      simp only [Nat.sub_self, pow_zero]
      exact le_trans hW (le_max_left _ _)
    · have hb := hbefore (L - 2) (by omega)
      have hp : 2 ^ (L - 1) = 2 ^ (L - 2) * 2 := by
        rw [← pow_succ]; congr 1; omega
      have hpos : 0 < 2 ^ (L - 2) := Nat.two_pow_pos _
      by_contra hcon
      have hlt : max W H < 2 ^ (L - 2) * 2 := by rw [← hp]; omega
      have hWlt : W / 2 ^ (L - 2) < 2 :=
        (Nat.div_lt_iff_lt_mul hpos).mpr (by
          rw [Nat.mul_comm]; exact lt_of_le_of_lt (le_max_left _ _) hlt)
      have hHlt : H / 2 ^ (L - 2) < 2 :=
        (Nat.div_lt_iff_lt_mul hpos).mpr (by
          rw [Nat.mul_comm]; exact lt_of_le_of_lt (le_max_right _ _) hlt)
      apply hb
      constructor <;> omega
  have hlog_ge : L - 1 ≤ Nat.log 2 (max W H) :=
    (Nat.pow_le_iff_le_log (by norm_num) (by
      have := le_trans hW (le_max_left W H); omega)).mp hlow
  by_cases hL : L < 16
  · obtain ⟨a, b⟩ := hlast hL
    have hpos : 0 < 2 ^ (L - 1) := Nat.two_pow_pos _
    have hWlt : W < 2 ^ (L - 1) * 2 := by
      have : W / 2 ^ (L - 1) < 2 := by omega
      rw [Nat.mul_comm]
      exact (Nat.div_lt_iff_lt_mul hpos).mp this
    have hHlt : H < 2 ^ (L - 1) * 2 := by
      have : H / 2 ^ (L - 1) < 2 := by omega
      rw [Nat.mul_comm]
      exact (Nat.div_lt_iff_lt_mul hpos).mp this
    have hup : max W H < 2 ^ (L - 1 + 1) := by
      rw [pow_succ]; exact max_lt hWlt hHlt
    have hlog : Nat.log 2 (max W H) = L - 1 :=
      Nat.log_eq_of_pow_le_of_lt_pow hlow hup
    rw [hlog]
    omega
  · have : L = 16 := by omega
    subst this
    omega

theorem toInt16_of_le (x : Nat) (h : x ≤ 32767) : toInt16 (x : Int) = x := by
  unfold toInt16; omega

theorem toInt16_le (x : Int) : toInt16 x ≤ 32767 := by
  unfold toInt16; omega

theorem optionsLoop_small (fuel : Nat) (M c : Int) (h : M ≤ 1) : optionsLoop fuel M c = c := by
  cases fuel with
  | zero => rfl
  | succ n =>
    have hc : ¬ (M > 1 ∧ c < 16) := fun hh => absurd hh.1 (by omega)
    simp only [optionsLoop, hc, if_false]

/-- The count of `DoOptionsStart` from a largest dimension `M`, as the 16-bit
field holds it. -/
theorem optionsLoop_bound (M : Int) (hM : M ≤ 32767) :
    1 ≤ optionsLoop 15 M 1 ∧ optionsLoop 15 M 1 ≤ 15 := by
  by_cases h1 : M ≤ 1
  · rw [optionsLoop_small 15 M 1 h1]; exact ⟨le_refl _, by norm_num⟩
  · have hcast : M = ((M.toNat : Nat) : Int) := by omega
    have hlog : Nat.log 2 M.toNat < 15 :=
      Nat.log_lt_of_lt_pow (by omega) (by norm_num; omega)
    have e := optionsLoop_eq 15 M.toNat 1 (by omega) (le_refl _) rfl
    rw [hcast, show ((1 : Int)) = ((1 : Nat) : Int) from rfl, e]
    have hmin : min 16 (1 + Nat.log 2 M.toNat) = 1 + Nat.log 2 M.toNat :=
      Nat.min_eq_right (by omega)
    rw [hmin]
    constructor
    · exact_mod_cast (by omega : 1 ≤ 1 + Nat.log 2 M.toNat)
    · exact_mod_cast (by omega : 1 + Nat.log 2 M.toNat ≤ 15)

/-- The slots that `DoWriteStart` fills for an image of `W x H` pixels: a run
that ends in `noErr` compresses `min 16 (floor (log2 (max W H)) + 1)` levels,
and in its file the slots with a size other than 0 are exactly the slots below
that number (the compressor giving non-empty bitstreams and the file staying
below 4 GiB). -/
theorem writer_slots (env : Env) (g : Globals) (W H : Nat) (hW : 1 ≤ W) (hH : 1 ≤ H)
    (hsize : GetFormatImageSize g.gFormatRecord = { v := (H : Int), h := (W : Int) })
    (hok : (DoWriteStart env g).g.gResult = noErr)
    (hne : ∀ s, s ∈ writtenStreams env g → s ≠ [])
    (hfit : 160 + sizeBefore (writtenStreams env g) (writtenStreams env g).length
      < 4294967296) :
    (DoWriteStart env g).levels.length = min 16 (Nat.log 2 (max W H) + 1) ∧
    (∀ i, i < 16 →
      (hdrSize (DoWriteStart env g).g.file.bytes i ≠ 0
        ↔ i < min 16 (Nat.log 2 (max W H) + 1))) := by
  obtain ⟨s0, e1, -, hm, hw, hh, hl, hz⟩ := DoWriteStart_loop env g hok
  rw [hsize] at hw hh
  obtain ⟨L, -, h2, h3, -, h5, h6, h7, -⟩ := mipLoop_spec env W H 16 0 s0 rfl hm
    (by rw [hw]; simp; omega) (by rw [hh]; simp; omega) (by rw [hl]; rfl)
    (fun j hj => absurd hj (by omega)) (fun i _ => hz i)
  have hL := level_count_eq W H L hW (h3 (by norm_num)) h2 h6 h7
  have hlen : (DoWriteStart env g).levels.length = L := by
    rw [e1, h5, List.length_map, List.length_range]
  obtain ⟨-, -, b3, -⟩ := DoWriteStart_fields env g hok
  obtain ⟨-, -, -, -, -, -, -, -, w⟩ := DoWriteStart_written env g hok
  refine ⟨by rw [hlen, hL], ?_⟩
  intro i hi
  rw [← hL, ← hlen, b3]
  by_cases hlt : i < (writtenStreams env g).length
  · have m1 := sizeBefore_mono (writtenStreams env g) (i + 1)
    have hs := sizeBefore_succ (writtenStreams env g) i hlt
    have hpos : 0 < ((writtenStreams env g).getD i []).length :=
      List.length_pos.mpr (hne _ (getD_mem_of_lt _ i hlt))
    have s1 := (w i hi).2
    rw [if_pos hlt, Nat.mod_eq_of_lt (by omega)] at s1
    constructor
    · intro _; exact hlt
    · intro _; omega
  · have s1 := (w i hi).2
    rw [if_neg hlt] at s1
    constructor
    · intro hne0; exact absurd s1 hne0
    · intro h; exact absurd h hlt

/-- For an image of `W x H` pixels with `1 ≤ W, H ≤ 32767` whose size the host
reports both in the 16-bit `imageSize` (read by `DoOptionsStart`) and through
`GetFormatImageSize` (read by `DoWriteStart`), the `mipmapCount` stored by
`DoOptionsStart` is `min 16 (floor (log2 (max W H)) + 1)`, a number from 1 to 16,
and in the file of a run of `DoWriteStart` that follows and ends in `noErr` the
slots with a size other than 0 are exactly the slots below that number (the
compressor giving non-empty bitstreams and the file staying below 4 GiB). -/
theorem level_count_agree (env : Env) (g : Globals) (W H : Nat)
    (hW : 1 ≤ W) (hH : 1 ≤ H) (hW16 : W ≤ 32767) (hH16 : H ≤ 32767)
    (hlegacy : g.gFormatRecord.imageSize = { v := (H : Int), h := (W : Int) })
    (hsize : GetFormatImageSize g.gFormatRecord = { v := (H : Int), h := (W : Int) })
    (hok : (DoWriteStart env (DoOptionsStart g)).g.gResult = noErr)
    (hne : ∀ s, s ∈ writtenStreams env (DoOptionsStart g) → s ≠ [])
    (hfit : 160 + sizeBefore (writtenStreams env (DoOptionsStart g))
        (writtenStreams env (DoOptionsStart g)).length < 4294967296) :
    (DoOptionsStart g).gData.mipmapCount
      = ((min 16 (Nat.log 2 (max W H) + 1) : Nat) : Int) ∧
    1 ≤ min 16 (Nat.log 2 (max W H) + 1) ∧ min 16 (Nat.log 2 (max W H) + 1) ≤ 16 ∧
    (DoWriteStart env (DoOptionsStart g)).levels.length = min 16 (Nat.log 2 (max W H) + 1) ∧
    (∀ i, i < 16 →
      (hdrSize (DoWriteStart env (DoOptionsStart g)).g.file.bytes i ≠ 0
        ↔ i < min 16 (Nat.log 2 (max W H) + 1))) := by
  have hsize2 : GetFormatImageSize (DoOptionsStart g).gFormatRecord
      = { v := (H : Int), h := (W : Int) } := hsize
  -- the options step
  have hopt : (DoOptionsStart g).gData.mipmapCount
      = ((min 16 (Nat.log 2 (max W H) + 1) : Nat) : Int) := by
    have hmax : (if (W : Int) > (H : Int) then (W : Int) else (H : Int))
        = ((max W H : Nat) : Int) := by
      split_ifs with h
      · rw [max_eq_left (by omega)]
      · rw [max_eq_right (by omega)]
    have hloop := optionsLoop_eq 15 (max W H) 1 (le_trans hW (le_max_left _ _)) (le_refl _) rfl
    unfold DoOptionsStart
    simp only [hlegacy, toInt16_of_le W hW16, toInt16_of_le H hH16, hmax]
    rw [show ((1 : Int)) = ((1 : Nat) : Int) from rfl, hloop, Nat.add_comm 1]
    split_ifs with h
    · rfl
    · have : min 16 (Nat.log 2 (max W H) + 1) = 16 := by
        have h2 : min 16 (Nat.log 2 (max W H) + 1) ≤ 16 := Nat.min_le_left _ _
        omega
      rw [this]
      rfl
  -- the writer
  have hwr := writer_slots env (DoOptionsStart g) W H hW hH hsize2 hok hne hfit
  exact ⟨hopt, by omega, Nat.min_le_left _ _, hwr.1, hwr.2⟩

/-- The agreement of `level_count_agree` on the 5x3 image of scenario E5:
`DoOptionsStart` stores 3, and the writer fills the slots 0, 1, 2. -/
theorem level_count_agree_example :
    (DoOptionsStart optionsGlobals).gData.mipmapCount = 3 ∧
    (List.range 16).map
        (hdrSize (DoWriteStart sampleEnv (DoOptionsStart optionsGlobals)).g.file.bytes)
      = [4, 4, 4, 0, 0, 0, 0, 0, 0, 0, 0, 0, 0, 0, 0, 0] := by
  decide

/-- Claim C27 (failing input).  An image of 40000 x 1 pixels on a host with
32-bit coordinates: `DoWriteStart` takes the size from `GetFormatImageSize`,
and a run that ends in `noErr` compresses
`min 16 (floor (log2 40000) + 1) = 16` levels and leaves a size other than 0 in
each of the 16 slots (the compressor giving non-empty bitstreams and the file
staying below 4 GiB), while `DoOptionsStart` reads the 16-bit legacy field
`imageSize`, which cannot hold 40000: with the low 16 bits in it the stored
`mipmapCount` is 1, and whatever it holds the count is at most 15. -/
theorem C27_legacy_size :
    GetFormatImageSize (DoOptionsStart wideGlobals).gFormatRecord = { v := 1, h := 40000 }
      ∧ (DoOptionsStart wideGlobals).gData.mipmapCount = 1
      ∧ (∀ g : Globals, 1 ≤ (DoOptionsStart g).gData.mipmapCount
          ∧ (DoOptionsStart g).gData.mipmapCount ≤ 15)
      ∧ min 16 (Nat.log 2 (max 40000 1) + 1) = 16
      ∧ (∀ env : Env,
          (DoWriteStart env (DoOptionsStart wideGlobals)).g.gResult = noErr →
          (∀ s, s ∈ writtenStreams env (DoOptionsStart wideGlobals) → s ≠ []) →
          160 + sizeBefore (writtenStreams env (DoOptionsStart wideGlobals))
              (writtenStreams env (DoOptionsStart wideGlobals)).length < 4294967296 →
          (DoWriteStart env (DoOptionsStart wideGlobals)).levels.length = 16
            ∧ ∀ i, i < 16 →
                hdrSize (DoWriteStart env (DoOptionsStart wideGlobals)).g.file.bytes i ≠ 0) := by
  have hlog : Nat.log 2 (max 40000 1) = 15 :=
    Nat.log_eq_of_pow_le_of_lt_pow (by norm_num) (by norm_num)
  have h16 : min 16 (Nat.log 2 (max 40000 1) + 1) = 16 := by rw [hlog]; rfl
  refine ⟨by decide, by decide, ?_, h16, ?_⟩
  · intro g
    have hb : (if toInt16 g.gFormatRecord.imageSize.h > toInt16 g.gFormatRecord.imageSize.v
        then toInt16 g.gFormatRecord.imageSize.h else toInt16 g.gFormatRecord.imageSize.v)
        ≤ 32767 := by
      split_ifs
      · exact toInt16_le _
      · exact toInt16_le _
    have hl := optionsLoop_bound _ hb
    show 1 ≤ (if 16 > optionsLoop 15 _ 1 then optionsLoop 15 _ 1 else 16)
      ∧ (if 16 > optionsLoop 15 _ 1 then optionsLoop 15 _ 1 else 16) ≤ 15
    rw [if_pos (by omega)]
    exact hl
  · intro env hok hne hfit
    have hwr := writer_slots env (DoOptionsStart wideGlobals) 40000 1 (by norm_num)
      (by norm_num) (by decide) hok hne hfit
    rw [h16] at hwr
    exact ⟨hwr.1, fun i hi => (hwr.2 i hi).mpr hi⟩

/-! ## The rounding of `float` operations -/

theorem floorLog2_le (fuel v k : Nat) (h : v < 2 ^ (k + 1)) : floorLog2 fuel v ≤ k := by
  induction fuel generalizing v k with
  | zero => simp [floorLog2]
  | succ fuel ih =>
    unfold floorLog2
    split
    · omega
    · cases k with
      | zero => simp at h; omega
      | succ k =>
        have h2 : v / 2 < 2 ^ (k + 1) := by
          apply Nat.div_lt_of_lt_mul
          rw [pow_succ] at h; omega
        have := ih (v / 2) k h2
        omega

theorem floorLog2_pow_le (fuel v : Nat) (h : 1 ≤ v) : 2 ^ floorLog2 fuel v ≤ v := by
  induction fuel generalizing v with
  | zero => simpa [floorLog2] using h
  | succ fuel ih =>
    unfold floorLog2
    split
    · simpa using h
    · have := ih (v / 2) (by omega)
      rw [pow_succ]; omega

theorem roundHalfEven_le (A B : Nat) (hB : 0 < B) :
    2 * (roundHalfEven A B * B) ≤ 2 * A + B := by
  have h := Nat.div_add_mod A B
  have hm := Nat.mod_lt A hB
  rw [Nat.mul_comm] at h
  unfold roundHalfEven
  split_ifs <;> first | omega | (rw [Nat.add_mul]; omega)

theorem roundHalfEven_ge (A B : Nat) : A / B ≤ roundHalfEven A B := by
  unfold roundHalfEven
  split_ifs <;> omega

theorem roundFloat_den_pos (n d : Nat) : 0 < (roundFloat n d).den := by
  unfold roundFloat
  split_ifs <;> simp

theorem pow_split (e : Nat) : 2 ^ (23 - e) * 2 ^ e = 2 ^ 23 * 2 ^ (e - 23) := by
  rw [← pow_add, ← pow_add]; congr 1; omega

theorem roundFloat_le (n d : Nat) (hd : 0 < d) (hnd : d ≤ n) :
    (roundFloat n d).toRat ≤ (n : ℚ) / (d : ℚ) * (1 + 1 / 2 ^ 24) := by
  have hn : n ≠ 0 := by omega
  have he := floorLog2_pow_le 128 (n / d) ((Nat.le_div_iff_mul_le hd).mpr (by omega))
  have he2 : 2 ^ floorLog2 128 (n / d) * d ≤ n := (Nat.le_div_iff_mul_le hd).mp he
  unfold roundFloat Float32.toRat
  rw [if_neg hn, if_pos hnd]
  generalize floorLog2 128 (n / d) = e at he2 ⊢
  have hp := pow_split e
  generalize hs : 2 ^ (23 - e) = s at hp ⊢
  generalize ht : 2 ^ (e - 23) = t at hp ⊢
  have hs0 : 0 < s := by rw [← hs]; exact Nat.two_pow_pos _
  have ht0 : 0 < t := by rw [← ht]; exact Nat.two_pow_pos _
  have hr := roundHalfEven_le (n * s) (d * t) (Nat.mul_pos hd ht0)
  generalize roundHalfEven (n * s) (d * t) = m at hr ⊢
  generalize 2 ^ e = E at hp he2
  have key : m * t * d * 2 ^ 24 ≤ n * s * (2 ^ 24 + 1) := by
    have h1 : d * t * 2 ^ 23 ≤ n * s := by
      calc d * t * 2 ^ 23 = (s * E) * d := by rw [hp]; ring
        _ = s * (E * d) := by ring
        _ ≤ s * n := Nat.mul_le_mul_left _ he2
        _ = n * s := by ring
    nlinarith
  have keyQ : ((m : ℚ) * t * d * 2 ^ 24) ≤ (n : ℚ) * s * (2 ^ 24 + 1) := by exact_mod_cast key
  have hsQ : (0 : ℚ) < s := by exact_mod_cast hs0
  have hdQ : (0 : ℚ) < d := by exact_mod_cast hd
  simp only [Nat.cast_mul]
  rw [div_le_iff₀ hsQ]
  have : (n : ℚ) / d * (1 + 1 / 2 ^ 24) * s = ((n : ℚ) * s * (2 ^ 24 + 1)) / (d * 2 ^ 24) := by
    field_simp
    ring
  rw [this, le_div_iff₀ (by positivity)]
  linarith

theorem roundFloat_ge_one (n d : Nat) (hd : 0 < d) (hnd : d ≤ n) :
    (roundFloat n d).den ≤ (roundFloat n d).num := by
  have hn : n ≠ 0 := by omega
  have he := floorLog2_pow_le 128 (n / d) ((Nat.le_div_iff_mul_le hd).mpr (by omega))
  have he2 : 2 ^ floorLog2 128 (n / d) * d ≤ n := (Nat.le_div_iff_mul_le hd).mp he
  unfold roundFloat
  rw [if_neg hn, if_pos hnd]
  generalize floorLog2 128 (n / d) = e at he2 ⊢
  show 2 ^ (23 - e) ≤ roundHalfEven (n * 2 ^ (23 - e)) (d * 2 ^ (e - 23)) * 2 ^ (e - 23)
  have hg := roundHalfEven_ge (n * 2 ^ (23 - e)) (d * 2 ^ (e - 23))
  have hp := pow_split e
  have hs0 : 0 < 2 ^ (23 - e) := Nat.two_pow_pos _
  have ht0 : 0 < 2 ^ (e - 23) := Nat.two_pow_pos _
  have hq : 2 ^ (23 - e) ≤ n * 2 ^ (23 - e) / (d * 2 ^ (e - 23)) * 2 ^ (e - 23) := by
    rcases Nat.le_total e 23 with h | h
    · rw [Nat.sub_eq_zero_of_le h, pow_zero, Nat.mul_one, Nat.mul_one]
      exact (Nat.le_div_iff_mul_le hd).mpr (by rw [Nat.mul_comm]; exact Nat.mul_le_mul_right _ hnd)
    · rw [Nat.sub_eq_zero_of_le h, pow_zero, Nat.mul_one]
      have h1 : d * 2 ^ (e - 23) ≤ n := by
        have : 2 ^ (e - 23) ≤ 2 ^ e := Nat.pow_le_pow_right (by norm_num) (by omega)
        calc d * 2 ^ (e - 23) ≤ d * 2 ^ e := Nat.mul_le_mul_left _ this
          _ = 2 ^ e * d := Nat.mul_comm _ _
          _ ≤ n := he2
      have h2 : 1 ≤ n / (d * 2 ^ (e - 23)) :=
        (Nat.le_div_iff_mul_le (Nat.mul_pos hd ht0)).mpr (by omega)
      calc 1 ≤ 1 * 1 := by norm_num
        _ ≤ n / (d * 2 ^ (e - 23)) * 2 ^ (e - 23) := Nat.mul_le_mul h2 ht0
  exact le_trans hq (Nat.mul_le_mul_right _ hg)

theorem roundFloat_int (n : Nat) (h : n < 2 ^ 24) :
    (roundFloat n 1).num = n * (roundFloat n 1).den := by
  unfold roundFloat
  by_cases hn : n = 0
  · simp [hn]
  · have h1 : 1 ≤ n := by omega
    rw [if_neg hn, if_pos h1]
    have he : floorLog2 128 (n / 1) ≤ 23 := floorLog2_le _ _ _ (by rw [Nat.div_one]; exact h)
    show roundHalfEven _ _ * _ = n * 2 ^ (23 - floorLog2 128 (n / 1))
    rw [Nat.sub_eq_zero_of_le he, pow_zero, Nat.mul_one, Nat.mul_one]
    unfold roundHalfEven
    simp [Nat.mod_one]

theorem floatOfInt_num (n : Nat) (h : n < 2 ^ 24) :
    (floatOfInt (n : Int)).num = n * (floatOfInt (n : Int)).den := by
  unfold floatOfInt; rw [Int.toNat_natCast]; exact roundFloat_int n h

theorem floatOfInt_den_pos (n : Int) : 0 < (floatOfInt n).den := roundFloat_den_pos _ _

theorem resizeRatio_le (srcW dstW : Nat) (h1 : 1 ≤ dstW) (h2 : dstW ≤ srcW)
    (h3 : srcW < 2 ^ 24) :
    (resizeRatio (srcW : Int) (dstW : Int)).toRat ≤ (srcW : ℚ) / (dstW : ℚ) * (1 + 1 / 2 ^ 24)
      ∧ (resizeRatio (srcW : Int) (dstW : Int)).den ≤ (resizeRatio (srcW : Int) (dstW : Int)).num := by
  unfold resizeRatio floatDiv
  have ha := floatOfInt_num srcW h3
  have hb := floatOfInt_num dstW (by omega)
  have ha0 := floatOfInt_den_pos (srcW : Int)
  have hb0 := floatOfInt_den_pos (dstW : Int)
  generalize floatOfInt (srcW : Int) = a at ha ha0 ⊢
  generalize floatOfInt (dstW : Int) = b at hb hb0 ⊢
  have hd : 0 < a.den * b.num := by rw [hb]; exact Nat.mul_pos ha0 (Nat.mul_pos h1 hb0)
  have hnd : a.den * b.num ≤ a.num * b.den := by
    rw [ha, hb]
    calc a.den * (dstW * b.den) = dstW * (a.den * b.den) := by ring
      _ ≤ srcW * (a.den * b.den) := Nat.mul_le_mul_right _ h2
      _ = srcW * a.den * b.den := by ring
  refine ⟨?_, roundFloat_ge_one _ _ hd hnd⟩
  have h := roundFloat_le _ _ hd hnd
  have e : ((a.num * b.den : Nat) : ℚ) / ((a.den * b.num : Nat) : ℚ) = (srcW : ℚ) / (dstW : ℚ) := by
    rw [ha, hb]
    have hA : (a.den : ℚ) ≠ 0 := by exact_mod_cast ha0.ne'
    have hB : (b.den : ℚ) ≠ 0 := by exact_mod_cast hb0.ne'
    have hD : (dstW : ℚ) ≠ 0 := by exact_mod_cast (by omega : dstW ≠ 0)
    push_cast
    field_simp
    ring
  rw [e] at h
  exact h

theorem resizeWindow_fst (srcW dstW : Int) (x : Nat) :
    (resizeWindow srcW dstW x).1
      = floatToInt (floatMul (floatOfInt (x : Int)) (resizeRatio srcW dstW)) := rfl

theorem resizeWindow_lt (srcW dstW : Int) (x : Nat) :
    (resizeWindow srcW dstW x).1 < (resizeWindow srcW dstW x).2 := by
  unfold resizeWindow
  simp only
  split_ifs <;> omega

/-- The first source column of a window lies inside the source, for sizes
whose conversions to `float` are exact enough. -/
theorem resizeWindow_start (srcW dstW x : Nat) (h1 : 1 ≤ dstW) (h2 : dstW ≤ srcW)
    (h3 : srcW < 2 ^ 24) (h4 : dstW ≤ 2 ^ 23) (hx : x < dstW) :
    0 ≤ (resizeWindow (srcW : Int) (dstW : Int) x).1
      ∧ (resizeWindow (srcW : Int) (dstW : Int) x).1 < (srcW : Int) := by
  rw [resizeWindow_fst]
  unfold floatToInt
  refine ⟨Int.natCast_nonneg _, ?_⟩
  have hr := resizeRatio_le srcW dstW h1 h2 h3
  have hr0 : 0 < (resizeRatio (srcW : Int) (dstW : Int)).den := roundFloat_den_pos _ _
  generalize resizeRatio (srcW : Int) (dstW : Int) = r at hr hr0 ⊢
  have hX := floatOfInt_num x (by omega)
  have hX0 := floatOfInt_den_pos (x : Int)
  generalize floatOfInt (x : Int) = X at hX hX0 ⊢
  unfold floatMul
  norm_cast
  by_cases hx0 : x = 0
  · have : X.num * r.num = 0 := by rw [hX, hx0]; simp
    rw [this]
    unfold roundFloat
    simp
    omega
  · have hd : 0 < X.den * r.den := Nat.mul_pos hX0 hr0
    have hnd : X.den * r.den ≤ X.num * r.num := by
      rw [hX]
      calc X.den * r.den ≤ X.den * r.num := Nat.mul_le_mul_left _ hr.2
        _ = 1 * X.den * r.num := by ring
        _ ≤ x * X.den * r.num :=
            Nat.mul_le_mul_right _ (Nat.mul_le_mul_right _ (by omega))
    have hp := roundFloat_le _ _ hd hnd
    have hp0 := roundFloat_den_pos (X.num * r.num) (X.den * r.den)
    generalize roundFloat (X.num * r.num) (X.den * r.den) = p at hp hp0 ⊢
    rw [Nat.div_lt_iff_lt_mul hp0]
    have hpQ : (0 : ℚ) < (p.den : ℚ) := by exact_mod_cast hp0
    have hXQ : (X.den : ℚ) ≠ 0 := by exact_mod_cast hX0.ne'
    have hrQ : (0 : ℚ) < (r.den : ℚ) := by exact_mod_cast hr0
    have hdQ : (0 : ℚ) < (dstW : ℚ) := by exact_mod_cast h1
    have hsQ : (0 : ℚ) < (srcW : ℚ) := by exact_mod_cast (by omega : 0 < srcW)
    have e : ((X.num * r.num : Nat) : ℚ) / ((X.den * r.den : Nat) : ℚ) = (x : ℚ) * r.toRat := by
      rw [hX]; unfold Float32.toRat; push_cast; field_simp; ring
    rw [e] at hp
    have hxQ : (x : ℚ) + 1 ≤ (dstW : ℚ) := by exact_mod_cast hx
    have hdW : (dstW : ℚ) ≤ 2 ^ 23 := by exact_mod_cast h4
    have hx0Q : (0 : ℚ) ≤ (x : ℚ) := Nat.cast_nonneg _
    have hq : (0 : ℚ) ≤ (srcW : ℚ) / (dstW : ℚ) := by positivity
    -- p ≤ x * (srcW / dstW) * (1 + ε)², and x * (1 + ε)² < dstW
    have c1 : p.toRat ≤ (x : ℚ) * ((srcW : ℚ) / (dstW : ℚ) * (1 + 1 / 2 ^ 24)) * (1 + 1 / 2 ^ 24) := by
      refine le_trans hp ?_
      apply mul_le_mul_of_nonneg_right _ (by norm_num)
      exact mul_le_mul_of_nonneg_left hr.1 hx0Q
    have c2 : (x : ℚ) * ((1 + 1 / 2 ^ 24) * (1 + 1 / 2 ^ 24)) < (dstW : ℚ) := by
      norm_num
      linarith
    have c3 : p.toRat < (srcW : ℚ) := by
      calc p.toRat ≤ (x : ℚ) * ((srcW : ℚ) / (dstW : ℚ) * (1 + 1 / 2 ^ 24)) * (1 + 1 / 2 ^ 24) := c1
        _ = ((x : ℚ) * ((1 + 1 / 2 ^ 24) * (1 + 1 / 2 ^ 24))) * ((srcW : ℚ) / (dstW : ℚ)) := by ring
        _ < (dstW : ℚ) * ((srcW : ℚ) / (dstW : ℚ)) :=
            mul_lt_mul_of_pos_right c2 (by positivity)
        _ = (srcW : ℚ) := by field_simp
    unfold Float32.toRat at c3
    rw [div_lt_iff₀ hpQ] at c3
    exact_mod_cast c3

theorem roundHalfEven_lower (A B : Nat) (hB : 0 < B) :
    2 * A ≤ 2 * (roundHalfEven A B * B) + B := by
  have h := Nat.div_add_mod A B
  have hm := Nat.mod_lt A hB
  rw [Nat.mul_comm] at h
  unfold roundHalfEven
  split_ifs <;> first | omega | (rw [Nat.add_mul]; omega)

theorem roundFloat_ge (n d : Nat) (hd : 0 < d) (hnd : d ≤ n) :
    (n : ℚ) / (d : ℚ) * (1 - 1 / 2 ^ 24) ≤ (roundFloat n d).toRat := by
  have hn : n ≠ 0 := by omega
  have he := floorLog2_pow_le 128 (n / d) ((Nat.le_div_iff_mul_le hd).mpr (by omega))
  have he2 : 2 ^ floorLog2 128 (n / d) * d ≤ n := (Nat.le_div_iff_mul_le hd).mp he
  unfold roundFloat Float32.toRat
  rw [if_neg hn, if_pos hnd]
  generalize floorLog2 128 (n / d) = e at he2 ⊢
  have hp := pow_split e
  generalize hs : 2 ^ (23 - e) = s at hp ⊢
  generalize ht : 2 ^ (e - 23) = t at hp ⊢
  have hs0 : 0 < s := by rw [← hs]; exact Nat.two_pow_pos _
  have ht0 : 0 < t := by rw [← ht]; exact Nat.two_pow_pos _
  have hr := roundHalfEven_lower (n * s) (d * t) (Nat.mul_pos hd ht0)
  generalize roundHalfEven (n * s) (d * t) = m at hr ⊢
  generalize 2 ^ e = E at hp he2
  have key : n * s * 2 ^ 24 ≤ m * t * d * 2 ^ 24 + n * s := by
    have h1 : d * t * 2 ^ 23 ≤ n * s := by
      calc d * t * 2 ^ 23 = (s * E) * d := by rw [hp]; ring
        _ = s * (E * d) := by ring
        _ ≤ s * n := Nat.mul_le_mul_left _ he2
        _ = n * s := by ring
    nlinarith
  have keyQ : ((n : ℚ) * s * 2 ^ 24) ≤ (m : ℚ) * t * d * 2 ^ 24 + (n : ℚ) * s := by
    exact_mod_cast key
  have hsQ : (0 : ℚ) < s := by exact_mod_cast hs0
  have hdQ : (0 : ℚ) < d := by exact_mod_cast hd
  simp only [Nat.cast_mul]
  rw [le_div_iff₀ hsQ]
  have : (n : ℚ) / d * (1 - 1 / 2 ^ 24) * s = ((n : ℚ) * s * (2 ^ 24 - 1)) / (d * 2 ^ 24) := by
    field_simp
    ring
  rw [this, div_le_iff₀ (by positivity)]
  linarith

theorem floatToInt_le (a : Float32) (h : 0 < a.den) :
    ((floatToInt a : Int) : ℚ) ≤ a.toRat ∧ a.toRat < ((floatToInt a : Int) : ℚ) + 1 := by
  unfold floatToInt Float32.toRat
  have hQ : (0 : ℚ) < (a.den : ℚ) := by exact_mod_cast h
  have h1 : a.num / a.den * a.den ≤ a.num := Nat.div_mul_le_self _ _
  have h2 : a.num < (a.num / a.den + 1) * a.den := by
    have := Nat.div_add_mod a.num a.den
    have := Nat.mod_lt a.num h
    rw [Nat.add_mul, Nat.mul_comm (a.num / a.den)]
    omega
  constructor
  · rw [le_div_iff₀ hQ]; exact_mod_cast h1
  · rw [div_lt_iff₀ hQ]; exact_mod_cast h2

/-- The product `(float)n * r` of `ResizeImage` lies within one rounding of the
exact product, for `n` below `2 ^ 24` and a ratio `r` of at least one. -/
theorem floatMul_bounds (n : Nat) (r : Float32) (hn : n < 2 ^ 24) (hr0 : 0 < r.den)
    (hr1 : r.den ≤ r.num) :
    (floatMul (floatOfInt (n : Int)) r).toRat ≤ (n : ℚ) * r.toRat * (1 + 1 / 2 ^ 24)
      ∧ (n : ℚ) * r.toRat * (1 - 1 / 2 ^ 24) ≤ (floatMul (floatOfInt (n : Int)) r).toRat
      ∧ 0 < (floatMul (floatOfInt (n : Int)) r).den := by
  have hX := floatOfInt_num n hn
  have hX0 := floatOfInt_den_pos (n : Int)
  generalize floatOfInt (n : Int) = X at hX hX0 ⊢
  unfold floatMul
  refine ⟨?_, ?_, roundFloat_den_pos _ _⟩
  all_goals
    by_cases hn0 : n = 0
    · have : X.num * r.num = 0 := by rw [hX, hn0]; simp
      rw [this, hn0]
      unfold roundFloat Float32.toRat
      simp
    · have hd : 0 < X.den * r.den := Nat.mul_pos hX0 hr0
      have hnd : X.den * r.den ≤ X.num * r.num := by
        rw [hX]
        calc X.den * r.den ≤ X.den * r.num := Nat.mul_le_mul_left _ hr1
          _ = 1 * X.den * r.num := by ring
          _ ≤ n * X.den * r.num :=
              Nat.mul_le_mul_right _ (Nat.mul_le_mul_right _ (by omega))
      have hXQ : (X.den : ℚ) ≠ 0 := by exact_mod_cast hX0.ne'
      have hrQ : (r.den : ℚ) ≠ 0 := by exact_mod_cast hr0.ne'
      have e : ((X.num * r.num : Nat) : ℚ) / ((X.den * r.den : Nat) : ℚ)
          = (n : ℚ) * r.toRat := by
        rw [hX]; unfold Float32.toRat; push_cast; field_simp; ring
      first
        | (have hp := roundFloat_le _ _ hd hnd; rw [e] at hp; exact hp)
        | (have hp := roundFloat_ge _ _ hd hnd; rw [e] at hp; exact hp)

theorem width_bound (r ρ x W q pe ps E S : ℚ) (hx0 : 0 ≤ x) (hr : r ≤ ρ * (1 + 1 / 2 ^ 24))
    (hxρ : x * ρ ≤ W) (hρW : ρ ≤ W) (hW : W ≤ 2 ^ 24) (hq : ρ < q + 1)
    (hpe : pe ≤ (x + 1) * r * (1 + 1 / 2 ^ 24)) (hps : x * r * (1 - 1 / 2 ^ 24) ≤ ps)
    (hE : E ≤ pe) (hS : ps < S + 1) : E - S < q + 7 := by
  have a1 : x * r ≤ x * (ρ * (1 + 1 / 2 ^ 24)) := mul_le_mul_of_nonneg_left hr hx0
  have a2 : x * ρ * (1 + 1 / 2 ^ 24) ≤ W * (1 + 1 / 2 ^ 24) :=
    mul_le_mul_of_nonneg_right hxρ (by norm_num)
  have a3 : x * (ρ * (1 + 1 / 2 ^ 24)) = x * ρ * (1 + 1 / 2 ^ 24) := by ring
  have a4 : (x + 1) * r * (1 + 1 / 2 ^ 24) - x * r * (1 - 1 / 2 ^ 24)
      = r * (1 + 1 / 2 ^ 24) + 2 / 2 ^ 24 * (x * r) := by ring
  generalize x * r = xr at a1 a4 hps
  generalize x * ρ = xρ at a2 a3 hxρ
  norm_num at *
  linarith

/-- The window of an output column is at most six source columns wider than
the quotient of the widths, for sizes whose conversions to `float` are
exact. -/
theorem resizeWindow_width (srcW dstW x : Nat) (h1 : 1 ≤ dstW) (h2 : dstW ≤ srcW)
    (h3 : srcW < 2 ^ 24) (hx : x < dstW) :
    (resizeWindow (srcW : Int) (dstW : Int) x).2 - (resizeWindow (srcW : Int) (dstW : Int) x).1
      ≤ ((srcW / dstW + 6 : Nat) : Int) := by
  have hr := resizeRatio_le srcW dstW h1 h2 h3
  have hr0 : 0 < (resizeRatio (srcW : Int) (dstW : Int)).den := roundFloat_den_pos _ _
  have hqN : srcW < (srcW / dstW + 1) * dstW := by
    rw [Nat.mul_comm]; exact Nat.lt_mul_div_succ srcW (show 0 < dstW from h1)
  generalize srcW / dstW = q at hqN ⊢
  unfold resizeWindow
  simp only
  generalize resizeRatio (srcW : Int) (dstW : Int) = r at hr hr0 ⊢
  have hs := floatMul_bounds x r (by omega) hr0 hr.2
  have he := floatMul_bounds (x + 1) r (by omega) hr0 hr.2
  have fs := floatToInt_le _ hs.2.2
  have fe := floatToInt_le _ he.2.2
  rw [show ((x : Int) + 1) = ((x + 1 : Nat) : Int) from by push_cast; rfl]
  generalize floatMul (floatOfInt ((x : Nat) : Int)) r = ps at hs fs ⊢
  generalize floatMul (floatOfInt ((x + 1 : Nat) : Int)) r = pe at he fe ⊢
  generalize floatToInt ps = S at fs ⊢
  generalize floatToInt pe = E at fe ⊢
  split_ifs with hES
  · push_cast; omega
  · have hdQ : (0 : ℚ) < (dstW : ℚ) := by exact_mod_cast h1
    have hW0 : (0 : ℚ) ≤ (srcW : ℚ) := Nat.cast_nonneg _
    have hxρ : (x : ℚ) * ((srcW : ℚ) / (dstW : ℚ)) ≤ (srcW : ℚ) := by
      have hxd : (x : ℚ) ≤ (dstW : ℚ) := by exact_mod_cast hx.le
      calc (x : ℚ) * ((srcW : ℚ) / (dstW : ℚ)) ≤ (dstW : ℚ) * ((srcW : ℚ) / (dstW : ℚ)) :=
            mul_le_mul_of_nonneg_right hxd (by positivity)
        _ = (srcW : ℚ) := by field_simp
    have hρW : (srcW : ℚ) / (dstW : ℚ) ≤ (srcW : ℚ) :=
      div_le_self hW0 (by exact_mod_cast h1)
    have hWQ : (srcW : ℚ) ≤ 2 ^ 24 := by exact_mod_cast h3.le
    have hq : (srcW : ℚ) / (dstW : ℚ) < (q : ℚ) + 1 := by
      rw [div_lt_iff₀ hdQ]
      exact_mod_cast hqN
    have hpe : pe.toRat ≤ ((x : ℚ) + 1) * r.toRat * (1 + 1 / 2 ^ 24) := by
      have := he.1; push_cast at this; exact this
    have key := width_bound r.toRat ((srcW : ℚ) / (dstW : ℚ)) (x : ℚ) (srcW : ℚ)
      (q : ℚ) pe.toRat ps.toRat (E : ℚ) (S : ℚ) (Nat.cast_nonneg _) hr.1
      hxρ hρW hWQ hq hpe hs.2.1 fe.1 fs.2
    have key2 : ((E - S : Int) : ℚ) < (((q : Int) + 7 : Int) : ℚ) := by
      push_cast; exact key
    have key3 := Int.cast_lt.mp key2
    push_cast
    omega

theorem floorLog2_ge (fuel v k : Nat) (hk : k ≤ fuel) (h : 2 ^ k ≤ v) :
    k ≤ floorLog2 fuel v := by
  induction fuel generalizing v k with
  | zero => omega
  | succ fuel ih =>
    unfold floorLog2
    cases k with
    | zero => omega
    | succ k =>
      have h2 : 2 ≤ v := by
        have : 1 ≤ 2 ^ k := Nat.one_le_two_pow
        rw [pow_succ] at h; omega
      rw [if_neg (by omega)]
      have h3 : 2 ^ k ≤ v / 2 := by
        rw [pow_succ] at h; omega
      have := ih (v / 2) k (by omega) h3
      omega

theorem floorLog2_eq (v k : Nat) (hk : k ≤ 128) (h1 : 2 ^ k ≤ v) (h2 : v < 2 ^ (k + 1)) :
    floorLog2 128 v = k :=
  le_antisymm (floorLog2_le 128 v k h2) (floorLog2_ge 128 v k hk h1)

theorem roundFloat_of_exp (n d e : Nat) (hn : n ≠ 0) (hd : d ≤ n)
    (he : floorLog2 128 (n / d) = e) :
    roundFloat n d
      = { num := roundHalfEven (n * 2 ^ (23 - e)) (d * 2 ^ (e - 23)) * 2 ^ (e - 23),
          den := 2 ^ (23 - e) } := by
  unfold roundFloat
  rw [if_neg hn, if_pos hd, he]

/-- The integer nearest to `A / B` is `m` when `A / B` lies less than one half
away from `m`. -/
theorem roundHalfEven_eq (A B m : Nat) (hB : 0 < B) (h1 : 2 * (m * B) < 2 * A + B)
    (h2 : 2 * A < 2 * (m * B) + B) : roundHalfEven A B = m := by
  have hu := roundHalfEven_le A B hB
  have hl := roundHalfEven_lower A B hB
  generalize roundHalfEven A B = r at hu hl
  apply le_antisymm
  · by_contra hc
    have h3 : (m + 1) * B ≤ r * B := Nat.mul_le_mul_right B (by omega)
    rw [Nat.add_mul, Nat.one_mul] at h3
    omega
  · by_contra hc
    have h3 : (r + 1) * B ≤ m * B := Nat.mul_le_mul_right B (by omega)
    rw [Nat.add_mul, Nat.one_mul] at h3
    omega

/-- A product `v * D` over `D` is converted without rounding when `v` has at
most 24 significant bits. -/
theorem roundFloat_exact (v D : Nat) (hD : 0 < D)
    (hv : v < 2 ^ 24 ∨ (v < 2 ^ 25 ∧ v % 2 = 0)) :
    floatToInt (roundFloat (v * D) D) = (v : Int) := by
  unfold floatToInt
  congr 1
  by_cases hv0 : v = 0
  · subst hv0
    simp [roundFloat]
  have hn : v * D ≠ 0 := Nat.mul_ne_zero hv0 hD.ne'
  have hd : D ≤ v * D := Nat.le_mul_of_pos_left D (by omega)
  have hq : v * D / D = v := Nat.mul_div_cancel v hD
  by_cases h24 : v < 2 ^ 24
  · have he : floorLog2 128 (v * D / D) ≤ 23 := by rw [hq]; exact floorLog2_le _ _ _ h24
    rw [roundFloat_of_exp _ _ _ hn hd rfl]
    simp only
    rw [Nat.sub_eq_zero_of_le he, pow_zero, Nat.mul_one, Nat.mul_one]
    have hs0 : 0 < 2 ^ (23 - floorLog2 128 (v * D / D)) := Nat.two_pow_pos _
    generalize 2 ^ (23 - floorLog2 128 (v * D / D)) = s at hs0 ⊢
    have hs : roundHalfEven (v * D * s) D = v * s :=
      roundHalfEven_eq _ _ _ hD (by nlinarith) (by nlinarith)
    rw [hs]
    exact Nat.mul_div_cancel v hs0
  · have hv2 : v < 2 ^ 25 ∧ v % 2 = 0 := by
      rcases hv with h | h
      · exact absurd h h24
      · exact h
    have he : floorLog2 128 (v * D / D) = 24 := by
      rw [hq]; exact floorLog2_eq v 24 (by norm_num) (by omega) hv2.1
    rw [roundFloat_of_exp _ _ _ hn hd he]
    simp only
    have hs : roundHalfEven (v * D * 2 ^ (23 - 24)) (D * 2 ^ (24 - 23)) = v / 2 := by
      apply roundHalfEven_eq _ _ _ (by norm_num; exact hD)
      · norm_num
        have : v / 2 * (D * 2) = v * D := by
          have h2 : v / 2 * 2 = v := by omega
          calc v / 2 * (D * 2) = (v / 2 * 2) * D := by ring
            _ = v * D := by rw [h2]
        omega
      · norm_num
        have : v / 2 * (D * 2) = v * D := by
          have h2 : v / 2 * 2 = v := by omega
          calc v / 2 * (D * 2) = (v / 2 * 2) * D := by ring
            _ = v * D := by rw [h2]
        omega
    rw [hs]
    norm_num
    omega

theorem floorLog2_lt (fuel v : Nat) (h : v < 2 ^ fuel) : v < 2 ^ (floorLog2 fuel v + 1) := by
  induction fuel generalizing v with
  | zero => simp at h; subst h; simp [floorLog2]
  | succ fuel ih =>
    unfold floorLog2
    split
    · simpa using (by omega : v < 2)
    · have h2 : v / 2 < 2 ^ fuel := by
        apply Nat.div_lt_of_lt_mul
        rw [pow_succ] at h; omega
      have := ih (v / 2) h2
      rw [pow_succ]
      omega

theorem roundHalfEven_two (W : Nat) :
    roundHalfEven W 2 = W / 2 ∨ (roundHalfEven W 2 = W / 2 + 1 ∧ W % 2 = 1) := by
  unfold roundHalfEven
  split_ifs <;> omega

/-- The conversion `(float)W` of a width from `2 ^ 24` to `2 ^ 25 - 1`: an even
number, `W` rounded to a multiple of 2. -/
theorem floatOfInt_wide (W : Nat) (h1 : 2 ^ 24 ≤ W) (h2 : W < 2 ^ 25) :
    floatOfInt (W : Int) = { num := roundHalfEven W 2 * 2, den := 1 } := by
  unfold floatOfInt
  rw [Int.toNat_natCast, roundFloat_of_exp W 1 24 (by omega) (by omega)
    (by rw [Nat.div_one]; exact floorLog2_eq W 24 (by norm_num) h1 h2)]
  norm_num

/-- The ratio `xRatio` of a halving step from a width `W` from `2 ^ 24` to
25,165,826: it is 2, or `2 + 2 ^ -22` for some odd `W`. -/
theorem resizeRatio_wide (W : Nat) (h1 : 2 ^ 24 ≤ W) (h2 : W < 25165827) :
    resizeRatio (W : Int) ((W / 2 : Nat) : Int) = { num := 2 ^ 23, den := 2 ^ 22 }
      ∨ (resizeRatio (W : Int) ((W / 2 : Nat) : Int) = { num := 2 ^ 23 + 1, den := 2 ^ 22 }
          ∧ W % 2 = 1) := by
  have hd1 : 2 ^ 23 ≤ W / 2 := by omega
  have hd2 : W % 2 = 1 → W / 2 < 12582913 := by omega
  have hd3 : W / 2 < 2 ^ 24 := by omega
  have hb := floatOfInt_num (W / 2) hd3
  have hb0 := floatOfInt_den_pos ((W / 2 : Nat) : Int)
  have hW := roundHalfEven_two W
  unfold resizeRatio floatDiv
  rw [floatOfInt_wide W h1 (by omega)]
  generalize floatOfInt ((W / 2 : Nat) : Int) = b at hb hb0 ⊢
  simp only [Nat.one_mul]
  rw [hb]
  generalize roundHalfEven W 2 = m at hW ⊢
  generalize W / 2 = d at hd1 hd2 hd3 hW ⊢
  have hD : 0 < d * b.den := Nat.mul_pos (by omega) hb0
  generalize hDD : d * b.den = D at hD
  rcases hW with h | ⟨h, hodd⟩
  · left
    subst h
    have hn : m * 2 * b.den = 2 * D := by rw [← hDD]; ring
    rw [hn, roundFloat_of_exp (2 * D) D 1 (by omega) (by omega)
      (by rw [Nat.mul_div_cancel _ hD]; rfl)]
    have hr : roundHalfEven (2 * D * 2 ^ (23 - 1)) (D * 2 ^ (1 - 23)) = 2 ^ 23 := by
      apply roundHalfEven_eq _ _ _ (by norm_num; exact hD) <;> norm_num <;> omega
    rw [hr]
    norm_num
  · right
    subst h
    refine ⟨?_, hodd⟩
    have hd4 := hd2 hodd
    have hn : (d + 1) * 2 * b.den = 2 * D + 2 * b.den := by rw [← hDD]; ring
    have hbD : 2 * b.den < D := by
      rw [← hDD]
      calc 2 * b.den < d * b.den := Nat.mul_lt_mul_of_pos_right (by omega) hb0
        _ = d * b.den := rfl
    have hq : (2 * D + 2 * b.den) / D = 2 := by
      apply Nat.div_eq_of_lt_le <;> omega
    rw [hn, roundFloat_of_exp (2 * D + 2 * b.den) D 1 (by omega) (by omega) (by rw [hq]; rfl)]
    have hr : roundHalfEven ((2 * D + 2 * b.den) * 2 ^ (23 - 1)) (D * 2 ^ (1 - 23))
        = 2 ^ 23 + 1 := by
      have e1 : 2 ^ 24 * b.den ≤ 2 * D := by
        rw [← hDD]
        calc 2 ^ 24 * b.den = 2 * (2 ^ 23 * b.den) := by ring
          _ ≤ 2 * (d * b.den) :=
              Nat.mul_le_mul_left _ (Nat.mul_le_mul_right _ hd1)
      have e2 : D < 2 ^ 24 * b.den := by
        rw [← hDD]; exact Nat.mul_lt_mul_of_pos_right hd3 hb0
      apply roundHalfEven_eq _ _ _ (by norm_num; exact hD) <;> norm_num <;> omega
    rw [hr]
    norm_num

/-- A product below `2 * d + 1`, with `2 * d` from `2 ^ 24` to `2 ^ 25`, is
rounded and truncated to at most `2 * d`: from `2 ^ 24` on the values of `float`
are the even integers. -/
theorem floatToInt_le_even (N D d : Nat) (hD : 0 < D) (hd1 : 2 ^ 23 ≤ d) (hd2 : 2 * d + 1 ≤ 2 ^ 25)
    (hND : D ≤ N) (hN : N < (2 * d + 1) * D) :
    floatToInt (roundFloat N D) ≤ ((2 * d : Nat) : Int) := by
  have hq : N / D < 2 ^ 25 :=
    (Nat.div_lt_iff_lt_mul hD).mpr (lt_of_lt_of_le hN (Nat.mul_le_mul_right D hd2))
  have he24 : floorLog2 128 (N / D) ≤ 24 := floorLog2_le _ _ 24 hq
  have hlt : N / D < 2 ^ (floorLog2 128 (N / D) + 1) :=
    floorLog2_lt 128 _ (lt_trans hq (by norm_num))
  rw [roundFloat_of_exp N D _ (by omega) hND rfl]
  unfold floatToInt
  simp only
  generalize floorLog2 128 (N / D) = e at he24 hlt
  have hN2 : N < 2 ^ (e + 1) * D := (Nat.div_lt_iff_lt_mul hD).mp hlt
  apply Int.ofNat_le.mpr
  by_cases he : e ≤ 23
  · rw [Nat.sub_eq_zero_of_le he, pow_zero, Nat.mul_one, Nat.mul_one]
    have hs : 2 ^ (e + 1) * 2 ^ (23 - e) = 2 ^ 24 := by
      rw [← pow_add]; congr 1; omega
    have hs0 : 0 < 2 ^ (23 - e) := Nat.two_pow_pos _
    generalize 2 ^ (23 - e) = s at hs hs0 ⊢
    generalize 2 ^ (e + 1) = E at hs hN2
    have hNs : N * s < 2 ^ 24 * D := by
      calc N * s < E * D * s := Nat.mul_lt_mul_of_pos_right hN2 hs0
        _ = (E * s) * D := by ring
        _ = 2 ^ 24 * D := by rw [hs]
    have hr := roundHalfEven_le (N * s) D hD
    generalize roundHalfEven (N * s) D = m at hr ⊢
    have hm : m ≤ 2 ^ 24 := by
      by_contra hc
      have : (2 ^ 24 + 1) * D ≤ m * D := Nat.mul_le_mul_right D (by omega)
      rw [Nat.add_mul, Nat.one_mul] at this
      omega
    calc m / s ≤ m := Nat.div_le_self _ _
      _ ≤ 2 ^ 24 := hm
      _ ≤ 2 * d := by omega
  · have he2 : e = 24 := by omega
    subst he2
    norm_num
    have hr := roundHalfEven_le N (D * 2) (by omega)
    generalize roundHalfEven N (D * 2) = m at hr ⊢
    have hm : m ≤ d := by
      by_contra hc
      have : (d + 1) * D ≤ m * D := Nat.mul_le_mul_right D (by omega)
      have e1 : m * (D * 2) = 2 * (m * D) := by ring
      have e2 : (2 * d + 1) * D = 2 * (d * D) + D := by ring
      rw [Nat.add_mul, Nat.one_mul] at this
      rw [e1] at hr
      rw [e2] at hN
      omega
    omega

/-- In a halving step from a width `W` from `2 ^ 24` to 25,165,826 the first
source column of every window lies inside the source. -/
theorem resizeWindow_start_wide (W x : Nat) (h1 : 2 ^ 24 ≤ W) (h2 : W < 25165827)
    (hx : x < W / 2) :
    (resizeWindow (W : Int) ((W / 2 : Nat) : Int) x).1 < (W : Int) := by
  rw [resizeWindow_fst]
  have hX := floatOfInt_num x (by omega)
  have hX0 := floatOfInt_den_pos (x : Int)
  generalize floatOfInt (x : Int) = X at hX hX0 ⊢
  rcases resizeRatio_wide W h1 h2 with hr | ⟨hr, hodd⟩
  · rw [hr]
    unfold floatMul
    simp only
    rw [hX, show x * X.den * 2 ^ 23 = (2 * x) * (X.den * 2 ^ 22) from by ring,
      roundFloat_exact (2 * x) _ (Nat.mul_pos hX0 (by norm_num)) (Or.inr ⟨by omega, by omega⟩)]
    push_cast
    omega
  · rw [hr]
    unfold floatMul
    simp only
    rw [hX]
    by_cases hx0 : x = 0
    · subst hx0
      simp [roundFloat, floatToInt]
      omega
    · have hle := floatToInt_le_even (x * X.den * (2 ^ 23 + 1)) (X.den * 2 ^ 22) (W / 2)
        (Nat.mul_pos hX0 (by norm_num)) (by omega) (by omega)
        (by
          calc X.den * 2 ^ 22 ≤ X.den * (2 ^ 23 + 1) := Nat.mul_le_mul_left _ (by norm_num)
            _ = 1 * X.den * (2 ^ 23 + 1) := by ring
            _ ≤ x * X.den * (2 ^ 23 + 1) :=
                Nat.mul_le_mul_right _ (Nat.mul_le_mul_right _ (by omega)))
        (by
          have hlin : x * (2 ^ 23 + 1) < (2 * (W / 2) + 1) * 2 ^ 22 := by omega
          calc x * X.den * (2 ^ 23 + 1) = (x * (2 ^ 23 + 1)) * X.den := by ring
            _ < ((2 * (W / 2) + 1) * 2 ^ 22) * X.den := Nat.mul_lt_mul_of_pos_right hlin hX0
            _ = (2 * (W / 2) + 1) * (X.den * 2 ^ 22) := by ring)
      have : ((2 * (W / 2) : Nat) : Int) < (W : Int) := by omega
      omega

/-! ## The raster that `ResizeImage` leaves -/

theorem writeAt_getElem? (buf : List Nat) (off : Nat) (data : List Nat) (i : Nat)
    (h : off + data.length ≤ buf.length) :
    (writeAt buf off data)[i]?
      = if i < off then buf[i]? else if i < off + data.length then data[i - off]? else buf[i]? := by
  rw [writeAt_eq _ _ _ (by omega), List.append_assoc]
  have hl : (buf.take off).length = off := by rw [List.length_take]; omega
  by_cases h1 : i < off
  · rw [if_pos h1, List.getElem?_append_left (by omega), List.getElem?_take_of_lt h1]
  · rw [if_neg h1, List.getElem?_append_right (by omega), hl]
    by_cases h2 : i < off + data.length
    · rw [if_pos h2, List.getElem?_append_left (by omega)]
    · rw [if_neg h2, List.getElem?_append_right (by omega), List.getElem?_drop]
      congr 1; omega

theorem writeAt_quad (buf : List Nat) (p q : Nat) (px : List Nat) (hpx : px.length = 4)
    (hp : p * 4 + 4 ≤ buf.length) :
    ((writeAt buf (p * 4) px).drop (4 * q)).take 4
      = if q = p then px else (buf.drop (4 * q)).take 4 := by
  apply List.ext_getElem?
  intro k
  rw [List.getElem?_take, List.getElem?_drop, writeAt_getElem? _ _ _ _ (by omega)]
  by_cases hk : k < 4
  · rw [if_pos hk]
    by_cases hq : q = p
    · subst hq
      rw [if_neg (by omega), if_pos (by omega), if_pos rfl]
      congr 1; omega
    · rw [if_neg hq, List.getElem?_take, List.getElem?_drop, if_pos hk]
      by_cases h1 : q < p
      · rw [if_pos (by omega)]
      · rw [if_neg (by omega), if_neg (by omega)]
  · rw [if_neg hk]
    by_cases hq : q = p
    · rw [if_pos hq]; exact (List.getElem?_eq_none (by omega)).symm
    · rw [if_neg hq, List.getElem?_take, if_neg hk]

/-- Pixels stored one after the other, each at its own place: afterwards each
stored pixel holds its new bytes and every other one its old bytes. -/
theorem foldl_quads (f : Nat → Option (List Nat))
    (hf : ∀ p px, f p = some px → px.length = 4) (N : Nat) (dst : List Nat)
    (hdst : dst.length = 4 * N) (n : Nat) (hn : n ≤ N) :
    ((List.range n).foldl (fun d p => storePixel d p (f p)) dst).length = 4 * N
      ∧ ∀ q, (((List.range n).foldl (fun d p => storePixel d p (f p)) dst).drop (4 * q)).take 4
          = if q < n then (f q).getD ((dst.drop (4 * q)).take 4)
            else (dst.drop (4 * q)).take 4 := by
  induction n with
  | zero => exact ⟨hdst, fun q => by simp⟩
  | succ n ih =>
    obtain ⟨hl, hq⟩ := ih (by omega)
    rw [List.range_succ, List.foldl_append, List.foldl_cons, List.foldl_nil]
    generalize (List.range n).foldl (fun d p => storePixel d p (f p)) dst = prev at hl hq ⊢
    cases hfn : f n with
    | none =>
      refine ⟨hl, fun q => ?_⟩
      show (prev.drop (4 * q)).take 4 = _
      rw [hq q]
      by_cases h1 : q < n
      · rw [if_pos h1, if_pos (by omega)]
      · rw [if_neg h1]
        by_cases h2 : q = n
        · subst h2; rw [if_pos (by omega), hfn]; rfl
        · rw [if_neg (by omega)]
    | some px =>
      have h4 := hf n px hfn
      refine ⟨?_, fun q => ?_⟩
      · show (writeAt prev (n * 4) px).length = _
        rw [writeAt_length _ _ _ (by omega), hl]
      · show ((writeAt prev (n * 4) px).drop (4 * q)).take 4 = _
        rw [writeAt_quad _ _ _ _ h4 (by omega)]
        by_cases h2 : q = n
        · subst h2; rw [if_pos rfl, if_pos (by omega), hfn]; rfl
        · rw [if_neg h2, hq q]
          by_cases h1 : q < n
          · rw [if_pos h1, if_pos (by omega)]
          · rw [if_neg h1, if_neg (by omega)]

theorem foldl_nested_range {β : Type} (h : β → Nat → Nat → β) (g : β → Nat → β) (W H : Nat)
    (hg : ∀ d y x, x < W → h d y x = g d (y * W + x)) (init : β) :
    (List.range H).foldl (fun d y => (List.range W).foldl (fun d x => h d y x) d) init
      = (List.range (H * W)).foldl g init := by
  induction H with
  | zero => simp
  | succ H ih =>
    rw [List.range_succ, List.foldl_append, ih, List.foldl_cons, List.foldl_nil,
      Nat.succ_mul, List.range_add, List.foldl_append, List.foldl_map]
    apply List.foldl_ext
    intro d x hx
    exact hg d H x (List.mem_range.mp hx)

theorem resizePixel_length (src : List Nat) (srcW srcH dstW dstH : Int) (x y : Nat)
    (px : List Nat) (h : resizePixel src srcW srcH dstW dstH x y = some px) : px.length = 4 := by
  unfold resizePixel at h
  simp only at h
  split_ifs at h
  cases h
  simp

/-- Every output pixel of `ResizeImage` holds the bytes computed for it, or
its old bytes when `count > 0` failed. -/
theorem ResizeImage_quad (src dst : List Nat) (srcW srcH : Int) (dstW dstH : Nat)
    (hdst : dst.length = 4 * (dstH * dstW)) :
    (ResizeImage src dst srcW srcH (dstW : Int) (dstH : Int)).length = 4 * (dstH * dstW)
      ∧ ∀ q, q < dstH * dstW →
          ((ResizeImage src dst srcW srcH (dstW : Int) (dstH : Int)).drop (4 * q)).take 4
            = (resizePixel src srcW srcH (dstW : Int) (dstH : Int) (q % dstW) (q / dstW)).getD
                ((dst.drop (4 * q)).take 4) := by
  have hg : ∀ (d : List Nat) (y x : Nat), x < dstW →
      storePixel d (y * dstW + x) (resizePixel src srcW srcH (dstW : Int) (dstH : Int) x y)
        = storePixel d (y * dstW + x) (resizePixel src srcW srcH (dstW : Int) (dstH : Int)
            ((y * dstW + x) % dstW) ((y * dstW + x) / dstW)) := by
    intro d y x hx
    have e1 : (y * dstW + x) % dstW = x := by
      rw [Nat.add_comm, Nat.add_mul_mod_self_right, Nat.mod_eq_of_lt hx]
    have e2 : (y * dstW + x) / dstW = y := by
      rw [Nat.add_comm, Nat.add_mul_div_right _ _ (by omega), Nat.div_eq_of_lt hx, Nat.zero_add]
    rw [e1, e2]
  have e := @foldl_nested_range (List Nat)
    (fun d y x => storePixel d (y * dstW + x)
      (resizePixel src srcW srcH (dstW : Int) (dstH : Int) x y))
    (fun d p => storePixel d p
      (resizePixel src srcW srcH (dstW : Int) (dstH : Int) (p % dstW) (p / dstW)))
    dstW dstH hg dst
  have h := foldl_quads
    (fun p => resizePixel src srcW srcH (dstW : Int) (dstH : Int) (p % dstW) (p / dstW))
    (fun p px hp => resizePixel_length _ _ _ _ _ _ _ _ hp) (dstH * dstW) dst hdst
    (dstH * dstW) (Nat.le_refl _)
  have e3 : ResizeImage src dst srcW srcH (dstW : Int) (dstH : Int)
      = (List.range (dstH * dstW)).foldl (fun d p => storePixel d p
          (resizePixel src srcW srcH (dstW : Int) (dstH : Int) (p % dstW) (p / dstW))) dst := by
    rw [← e]
    unfold ResizeImage
    rw [Int.toNat_natCast, Int.toNat_natCast]
  rw [e3]
  refine ⟨h.1, fun q hq => ?_⟩
  have h2 := h.2 q
  rw [if_pos hq] at h2
  exact h2

/-! ## Claim C21: the windows of `ResizeImage` -/

/-- Claim C21 (failing input).  A row of 53 pixels resized to 26, the width of
the next mip level: in `float` the ratio is 2.0384614..., and 26 times it rounds
to 52.999996..., so the window of the last output pixel is the columns 50 and
51, where exact arithmetic gives 50, 51 and 52.  With only column 52 white the
stored pixel is 0, and the mean over the three columns is 85. -/
theorem C21_window_float :
    resizeWindow 53 26 25 = (50, 52)
      ∧ 25 * 53 / 26 = 50 ∧ (25 + 1) * 53 / 26 = 53
      ∧ max 1 (53 / 2) = 26
      ∧ resizeSpan 53 26 25 = [50, 51]
      ∧ resizePixel edgeRaster 53 1 26 1 25 0 = some [0, 0, 0, 0]
      ∧ (ResizeImage edgeRaster (List.replicate 104 0) 53 1 26 1).drop 100 = [0, 0, 0, 0]
      ∧ (edgeRaster.getD (50 * 4) 0 + edgeRaster.getD (51 * 4) 0
          + edgeRaster.getD (52 * 4) 0) / 3 = 85 := by
  decide

/-! ## Solid rasters -/

theorem solidRaster_getD (n : Nat) (c : List Nat) (hc : c.length = 4) (p k : Nat)
    (hp : p < n) (hk : k < 4) : (solidRaster n c).getD (p * 4 + k) 0 = c.getD k 0 := by
  unfold solidRaster
  rw [Nat.mul_comm p 4]
  exact getD_of_drop_take _ p k c (flatMap_quad (fun _ => c) (fun _ => hc) n p hp) hk

theorem solidRaster_length (n : Nat) (c : List Nat) (hc : c.length = 4) :
    (solidRaster n c).length = 4 * n :=
  flatMap_quad_length (fun _ => c) (fun _ => hc) n

theorem resizeWindow_nonneg (srcW dstW : Int) (x : Nat) : 0 ≤ (resizeWindow srcW dstW x).1 := by
  rw [resizeWindow_fst]; unfold floatToInt; exact Int.natCast_nonneg _

theorem resizeSpan_lt (srcW dstW : Int) (x : Nat) :
    ∀ s ∈ resizeSpan srcW dstW x, (s : Int) < srcW := by
  intro s hs
  unfold resizeSpan at hs
  rw [List.mem_map] at hs
  obtain ⟨i, hi, rfl⟩ := hs
  rw [List.mem_range] at hi
  have h0 := resizeWindow_nonneg srcW dstW x
  omega

theorem resizeSpan_length (srcW dstW : Int) (x : Nat) :
    (resizeSpan srcW dstW x).length
      = (min (resizeWindow srcW dstW x).2 srcW - (resizeWindow srcW dstW x).1).toNat := by
  unfold resizeSpan
  rw [List.length_map, List.length_range]

theorem sum_const_int (l : List Nat) (f : Nat → Int) (v : Int) (h : ∀ a ∈ l, f a = v) :
    (l.map f).sum = (l.length : Int) * v := by
  induction l with
  | nil => simp
  | cons a t ih =>
    rw [List.map_cons, List.sum_cons, h a (List.mem_cons_self _ _),
      ih (fun b hb => h b (List.mem_cons_of_mem _ hb)), List.length_cons]
    push_cast; ring

theorem resizeSum_solid (srcW srcH : Nat) (c : List Nat) (hc : c.length = 4)
    (rows cols : List Nat) (hrows : ∀ sy ∈ rows, sy < srcH) (hcols : ∀ sx ∈ cols, sx < srcW)
    (k : Nat) (hk : k < 4) :
    resizeSum (solidRaster (srcW * srcH) c) (srcW : Int) rows cols k
      = toInt32 (((rows.length * cols.length * c.getD k 0 : Nat)) : Int) := by
  unfold resizeSum
  rw [Int.toNat_natCast]
  congr 1
  rw [sum_const_int rows _ ((cols.length : Int) * (c.getD k 0 : Nat))]
  · push_cast; ring
  · intro sy hsy
    apply sum_const_int
    intro sx hsx
    have h1 := hrows sy hsy
    have h2 := hcols sx hsx
    have h3 : sy * srcW + sx < srcW * srcH := by
      calc sy * srcW + sx < sy * srcW + srcW := by omega
        _ = (sy + 1) * srcW := by ring
        _ ≤ srcH * srcW := Nat.mul_le_mul_right _ h1
        _ = srcW * srcH := Nat.mul_comm _ _
    rw [solidRaster_getD _ _ hc _ _ h3 hk]

theorem resizePixel_eq (src : List Nat) (srcW srcH dstW dstH : Int) (x y : Nat) :
    resizePixel src srcW srcH dstW dstH x y
      = if 0 < toInt32 ((((resizeSpan srcH dstH y).length
                * (resizeSpan srcW dstW x).length : Nat)) : Int) then
          some ((List.range 4).map (fun k =>
            (Int.tdiv (resizeSum src srcW (resizeSpan srcH dstH y) (resizeSpan srcW dstW x) k)
              (toInt32 ((((resizeSpan srcH dstH y).length
                * (resizeSpan srcW dstW x).length : Nat)) : Int)) % 256).toNat))
        else none := rfl

/-- The bytes computed for an output pixel from a solid source. -/
theorem resizePixel_solid (srcW srcH : Nat) (dstW dstH : Int) (c : List Nat)
    (hc : c.length = 4) (x y : Nat) :
    resizePixel (solidRaster (srcW * srcH) c) (srcW : Int) (srcH : Int) dstW dstH x y
      = if 0 < toInt32 ((((resizeSpan (srcH : Int) dstH y).length
                * (resizeSpan (srcW : Int) dstW x).length : Nat)) : Int) then
          some ((List.range 4).map (fun k =>
            (Int.tdiv (toInt32 ((((resizeSpan (srcH : Int) dstH y).length
                  * (resizeSpan (srcW : Int) dstW x).length * c.getD k 0 : Nat)) : Int))
              (toInt32 ((((resizeSpan (srcH : Int) dstH y).length
                * (resizeSpan (srcW : Int) dstW x).length : Nat)) : Int)) % 256).toNat))
        else none := by
  rw [resizePixel_eq]
  have hm : (List.range 4).map (fun k =>
      (Int.tdiv (resizeSum (solidRaster (srcW * srcH) c) (srcW : Int)
          (resizeSpan (srcH : Int) dstH y) (resizeSpan (srcW : Int) dstW x) k)
        (toInt32 ((((resizeSpan (srcH : Int) dstH y).length
          * (resizeSpan (srcW : Int) dstW x).length : Nat)) : Int)) % 256).toNat)
      = (List.range 4).map (fun k =>
      (Int.tdiv (toInt32 ((((resizeSpan (srcH : Int) dstH y).length
            * (resizeSpan (srcW : Int) dstW x).length * c.getD k 0 : Nat)) : Int))
        (toInt32 ((((resizeSpan (srcH : Int) dstH y).length
          * (resizeSpan (srcW : Int) dstW x).length : Nat)) : Int)) % 256).toNat) := by
    apply List.map_congr_left
    intro k hk
    rw [resizeSum_solid srcW srcH c hc _ _
      (fun sy hsy => Int.ofNat_lt.mp (resizeSpan_lt _ _ _ sy hsy))
      (fun sx hsx => Int.ofNat_lt.mp (resizeSpan_lt _ _ _ sx hsx)) k (List.mem_range.mp hk)]
  rw [hm]

/-! ## Claim C28: solid colours under `ResizeImage` -/

/-- The loop over the source columns of an output column runs at least once,
at most `srcW` times and at most `srcW / dstW + 6` times. -/
theorem resizeSpan_length_bounds (srcW dstW x : Nat) (h1 : 1 ≤ dstW) (h2 : dstW ≤ srcW)
    (h3 : srcW < 2 ^ 24) (h4 : dstW ≤ 2 ^ 23) (hx : x < dstW) :
    1 ≤ (resizeSpan (srcW : Int) (dstW : Int) x).length
      ∧ (resizeSpan (srcW : Int) (dstW : Int) x).length ≤ min srcW (srcW / dstW + 6) := by
  rw [resizeSpan_length]
  have hs := resizeWindow_start srcW dstW x h1 h2 h3 h4 hx
  have hl := resizeWindow_lt (srcW : Int) (dstW : Int) x
  have hw := resizeWindow_width srcW dstW x h1 h2 h3 hx
  generalize (resizeWindow (srcW : Int) (dstW : Int) x).1 = s at hs hl hw
  generalize (resizeWindow (srcW : Int) (dstW : Int) x).2 = e at hl hw
  generalize srcW / dstW = q at hw
  push_cast at hw
  omega

theorem width_bound_wide (r x pe ps E S : ℚ) (hx : x ≤ 2 ^ 24) (hr0 : 0 ≤ r)
    (hr : r ≤ 3) (hpe : pe ≤ (x + 1) * r * (1 + 1 / 2 ^ 24))
    (hps : x * r * (1 - 1 / 2 ^ 24) ≤ ps) (hE : E ≤ pe) (hS : ps < S + 1) : E - S < 12 := by
  have a1 : x * r ≤ 2 ^ 24 * 3 := mul_le_mul hx hr hr0 (by norm_num)
  have a4 : (x + 1) * r * (1 + 1 / 2 ^ 24) - x * r * (1 - 1 / 2 ^ 24)
      = r * (1 + 1 / 2 ^ 24) + 2 / 2 ^ 24 * (x * r) := by ring
  generalize x * r = xr at a1 a4 hps
  norm_num at *
  linarith

/-- In a halving step from a width `W` from `2 ^ 24` to 25,165,826 the loop over
the source columns of an output column runs at least once and at most 11
times. -/
theorem resizeSpan_length_wide (W x : Nat) (h1 : 2 ^ 24 ≤ W) (h2 : W < 25165827)
    (hx : x < W / 2) :
    1 ≤ (resizeSpan (W : Int) ((W / 2 : Nat) : Int) x).length
      ∧ (resizeSpan (W : Int) ((W / 2 : Nat) : Int) x).length ≤ 11 := by
  rw [resizeSpan_length]
  have hs := resizeWindow_start_wide W x h1 h2 hx
  have hn := resizeWindow_nonneg (W : Int) ((W / 2 : Nat) : Int) x
  have hl := resizeWindow_lt (W : Int) ((W / 2 : Nat) : Int) x
  have hw : (resizeWindow (W : Int) ((W / 2 : Nat) : Int) x).2
      - (resizeWindow (W : Int) ((W / 2 : Nat) : Int) x).1 ≤ 11 := by
    have hrf : 0 < (resizeRatio (W : Int) ((W / 2 : Nat) : Int)).den
        ∧ (resizeRatio (W : Int) ((W / 2 : Nat) : Int)).den
            ≤ (resizeRatio (W : Int) ((W / 2 : Nat) : Int)).num
        ∧ (resizeRatio (W : Int) ((W / 2 : Nat) : Int)).num
            ≤ 3 * (resizeRatio (W : Int) ((W / 2 : Nat) : Int)).den := by
      rcases resizeRatio_wide W h1 h2 with hr | ⟨hr, -⟩ <;> rw [hr] <;> norm_num
    unfold resizeWindow
    simp only
    generalize resizeRatio (W : Int) ((W / 2 : Nat) : Int) = r at hrf ⊢
    obtain ⟨hr0, hr1, hr3⟩ := hrf
    have hps := floatMul_bounds x r (by omega) hr0 hr1
    have hpe := floatMul_bounds (x + 1) r (by omega) hr0 hr1
    have fs := floatToInt_le _ hps.2.2
    have fe := floatToInt_le _ hpe.2.2
    rw [show ((x : Int) + 1) = ((x + 1 : Nat) : Int) from by push_cast; rfl]
    generalize floatMul (floatOfInt ((x : Nat) : Int)) r = ps at hps fs ⊢
    generalize floatMul (floatOfInt ((x + 1 : Nat) : Int)) r = pe at hpe fe ⊢
    generalize floatToInt ps = S at fs ⊢
    generalize floatToInt pe = E at fe ⊢
    split_ifs with hES
    · omega
    · have hrQ : (0 : ℚ) < (r.den : ℚ) := by exact_mod_cast hr0
      have hr3Q : r.toRat ≤ 3 := by
        unfold Float32.toRat
        rw [div_le_iff₀ hrQ]
        exact_mod_cast hr3
      have hr0Q : 0 ≤ r.toRat := by
        unfold Float32.toRat; positivity
      have hxQ : (x : ℚ) ≤ 2 ^ 24 := by exact_mod_cast (by omega : x ≤ 2 ^ 24)
      have hpe2 : pe.toRat ≤ ((x : ℚ) + 1) * r.toRat * (1 + 1 / 2 ^ 24) := by
        have := hpe.1; push_cast at this; exact this
      have key := width_bound_wide r.toRat (x : ℚ) pe.toRat ps.toRat (E : ℚ) (S : ℚ)
        hxQ hr0Q hr3Q hpe2 hps.2.1 fe.1 fs.2
      have key2 : ((E - S : Int) : ℚ) < ((12 : Int) : ℚ) := by
        push_cast; exact key
      have key3 := Int.cast_lt.mp key2
      omega
  generalize (resizeWindow (W : Int) ((W / 2 : Nat) : Int) x).1 = s at hs hl hw hn
  generalize (resizeWindow (W : Int) ((W / 2 : Nat) : Int) x).2 = e at hl hw
  omega

/-- In a halving step from a side `W` below 25,165,827 the loop over the source
columns (or rows) of an output column (or row) runs at least once and at most
11 times. -/
theorem resizeSpan_length_halve (W x : Nat) (h1 : 1 ≤ W) (h2 : W < 25165827)
    (hx : x < max 1 (W / 2)) :
    1 ≤ (resizeSpan (W : Int) ((max 1 (W / 2) : Nat) : Int) x).length
      ∧ (resizeSpan (W : Int) ((max 1 (W / 2) : Nat) : Int) x).length ≤ 11 := by
  by_cases hw : W < 2 ^ 24
  · have h := resizeSpan_length_bounds W (max 1 (W / 2)) x (le_max_left _ _) (by omega) hw
      (by omega) hx
    have hq : W / max 1 (W / 2) ≤ 3 :=
      Nat.lt_succ_iff.mp ((Nat.div_lt_iff_lt_mul (by omega)).mpr (by omega))
    refine ⟨h.1, le_trans h.2 (le_trans (min_le_right _ _) (by omega))⟩
  · have hm : max 1 (W / 2) = W / 2 := by omega
    rw [hm] at hx ⊢
    exact resizeSpan_length_wide W x (by omega) h2 hx

theorem range_four_getD (c : List Nat) (hc : c.length = 4) :
    (List.range 4).map (fun k => c.getD k 0) = c := by
  match c, hc with
  | [_, _, _, _], _ => rfl

theorem tdiv_solid (N v : Nat) (h1 : 1 ≤ N) (h2 : N ≤ 8421504) (hv : v ≤ 255) :
    (Int.tdiv (toInt32 ((N * v : Nat) : Int)) (toInt32 (N : Int)) % 256).toNat = v := by
  have hlt : N * v < 2147483648 := by
    have := Nat.mul_le_mul h2 hv
    omega
  rw [toInt32_of_lt _ hlt, toInt32_of_lt N (by omega),
    Int.tdiv_eq_ediv (Int.natCast_nonneg _) (Int.natCast_nonneg _)]
  have hne : (N : Int) ≠ 0 := by omega
  rw [Nat.cast_mul N v, Int.mul_ediv_cancel_left _ hne]
  omega

/-- The bytes computed for an output pixel from a solid source are the colour
again, when the window is not empty and holds at most 8,421,504 pixels, so
that the sums stay below `2 ^ 31`. -/
theorem resizePixel_solid_same (srcW srcH : Nat) (dstW dstH : Int) (c : List Nat)
    (hc : c.length = 4) (hbyte : ∀ k, k < 4 → c.getD k 0 ≤ 255) (x y : Nat)
    (hR1 : 1 ≤ (resizeSpan (srcH : Int) dstH y).length)
    (hC1 : 1 ≤ (resizeSpan (srcW : Int) dstW x).length)
    (hRC : (resizeSpan (srcH : Int) dstH y).length * (resizeSpan (srcW : Int) dstW x).length
      ≤ 8421504) :
    resizePixel (solidRaster (srcW * srcH) c) (srcW : Int) (srcH : Int) dstW dstH x y
      = some c := by
  rw [resizePixel_solid srcW srcH dstW dstH c hc x y]
  generalize (resizeSpan (srcH : Int) dstH y).length = R at hR1 hRC
  generalize (resizeSpan (srcW : Int) dstW x).length = C at hC1 hRC
  have hRC1 : 1 ≤ R * C := Nat.mul_pos hR1 hC1
  have h0 : 0 < toInt32 ((R * C : Nat) : Int) := by
    rw [toInt32_of_lt (R * C) (by omega)]; omega
  rw [if_pos h0]
  have hm : (List.range 4).map (fun k =>
      (Int.tdiv (toInt32 ((R * C * c.getD k 0 : Nat) : Int)) (toInt32 ((R * C : Nat) : Int))
        % 256).toNat) = (List.range 4).map (fun k => c.getD k 0) := by
    apply List.map_congr_left
    intro k hk
    exact tdiv_solid (R * C) _ hRC1 hRC (hbyte k (List.mem_range.mp hk))
  rw [hm, range_four_getD c hc]

theorem resizePixel_none (src : List Nat) (srcW srcH dstW dstH : Int) (x y : Nat)
    (h : (resizeSpan srcW dstW x).length = 0) :
    resizePixel src srcW srcH dstW dstH x y = none := by
  rw [resizePixel_eq, h, Nat.mul_zero]
  rfl

/-- Claim C28 (counterexample).  A solid white opaque row of 25,165,827 pixels
halved to 12,582,913 pixels, which is the first call of the mipmap loop for an
image of that width: `(float)srcW` is 25,165,828, `xRatio` is
8388609 / 4194304, and for the last output column `x = 12582912` the product
`x * xRatio` is 25,165,827 before rounding and 25,165,828 after it, so
`startX` is not below `srcW`, the loops over the window do not run, `count`
stays 0 and the four bytes of that pixel keep what `nextBuffer` held (zeros
here), not the colour.  The same happens for 16,777,215 pixels resized to
16,777,214.  And a solid white raster of 3000 x 3000 pixels resized to one
pixel: the window holds 9,000,000 pixels, each `int` accumulator reaches
2,295,000,000, which wraps to -1,999,967,296, and the stored byte is 34, not
255. -/
theorem C28_solid_counterexample :
    resizeWindow 25165827 12582913 12582912 = (25165828, 25165830)
      ∧ (∀ src : List Nat, resizePixel src 25165827 1 12582913 1 12582912 0 = none)
      ∧ ((ResizeImage (solidRaster (25165827 * 1) [255, 255, 255, 255])
            (List.replicate (12582913 * 1 * 4) 0) 25165827 1 12582913 1).drop
              (4 * 12582912)).take 4 = [0, 0, 0, 0]
      ∧ (∀ (env : Env) (s : MipState), s.mipLevel = 0 → s.curW = 25165827 → s.curH = 1 →
          (mipStep env 16 s).curBuffer = env.ResizeImage s.curBuffer 25165827 1 12582913 1)
      ∧ resizeWindow 16777215 16777214 16777213 = (16777215, 16777216)
      ∧ (∀ src : List Nat, resizePixel src 16777215 1 16777214 1 16777213 0 = none)
      ∧ ResizeImage (solidRaster (3000 * 3000) [255, 255, 255, 255]) [0, 0, 0, 0] 3000 3000 1 1
        = [34, 34, 34, 34]
      ∧ solidRaster (1 * 1) [255, 255, 255, 255] = [255, 255, 255, 255]
      ∧ toInt32 (3000 * 3000 * 255) = -1999967296 := by
  have hwA : resizeWindow 25165827 12582913 12582912 = (25165828, 25165830) := by decide
  have hwB : resizeWindow 16777215 16777214 16777213 = (16777215, 16777216) := by decide
  have hlA : (resizeSpan 25165827 12582913 12582912).length = 0 := by
    rw [resizeSpan_length, hwA]; rfl
  have hlB : (resizeSpan 16777215 16777214 16777213).length = 0 := by
    rw [resizeSpan_length, hwB]; rfl
  have hw : resizeWindow 3000 1 0 = (0, 3000) := by decide
  have hl : (resizeSpan 3000 1 0).length = 3000 := by
    rw [resizeSpan_length, hw]; rfl
  have hp : resizePixel (solidRaster (3000 * 3000) [255, 255, 255, 255]) 3000 3000 1 1 0 0
      = some [34, 34, 34, 34] := by
    have h := resizePixel_solid 3000 3000 1 1 [255, 255, 255, 255] rfl 0 0
    have hl2 : (resizeSpan ((3000 : Nat) : Int) 1 0).length = 3000 := hl
    rw [hl2] at h
    refine h.trans ?_
    rw [if_pos (show 0 < toInt32 (((3000 * 3000 : Nat)) : Int) from by decide)]
    decide
  have hq := ResizeImage_quad (solidRaster (3000 * 3000) [255, 255, 255, 255]) [0, 0, 0, 0]
    3000 3000 1 1 rfl
  have h0 := hq.2 0 (by decide)
  have hlen := hq.1
  rw [List.drop_zero, List.take_of_length_le (by rw [hlen])] at h0
  refine ⟨hwA, fun src => resizePixel_none src _ _ _ _ _ _ hlA, ?_, ?_, hwB,
    fun src => resizePixel_none src _ _ _ _ _ _ hlB, ?_, by decide, by decide⟩
  · have hqA := ResizeImage_quad (solidRaster (25165827 * 1) [255, 255, 255, 255])
      (List.replicate (12582913 * 1 * 4) 0) 25165827 1 12582913 1
      (by rw [List.length_replicate])
    have hA := hqA.2 12582912 (by norm_num)
    refine hA.trans ?_
    have hm : 12582912 % 12582913 = 12582912 := by norm_num
    have hd : 12582912 / 12582913 = 0 := by norm_num
    rw [hm, hd]
    show (resizePixel (solidRaster (25165827 * 1) [255, 255, 255, 255]) 25165827 1
      12582913 1 12582912 0).getD _ = _
    rw [resizePixel_none _ _ _ _ _ _ _ hlA, Option.getD_none, List.drop_replicate,
      List.take_replicate]
    rfl
  · intro env s hm hW hH
    unfold mipStep
    rw [hm, hW, hH]
    rfl
  · refine Eq.trans h0 ?_
    show (resizePixel (solidRaster (3000 * 3000) [255, 255, 255, 255]) 3000 3000 1 1 0 0).getD _ = _
    rw [hp]
    rfl

/-- From a solid source, when the window of every output pixel holds at least
one and at most 8,421,504 source pixels, `ResizeImage` computes the colour of
the source for every output pixel, stores it, and leaves the solid raster of
that colour. -/
theorem ResizeImage_solid_of_windows (srcW srcH dstW dstH : Nat) (c dst : List Nat)
    (hc : c.length = 4) (hbyte : ∀ k, k < 4 → c.getD k 0 ≤ 255)
    (hcols : ∀ x, x < dstW → 1 ≤ (resizeSpan (srcW : Int) (dstW : Int) x).length)
    (hrows : ∀ y, y < dstH → 1 ≤ (resizeSpan (srcH : Int) (dstH : Int) y).length)
    (hfit : ∀ x y, x < dstW → y < dstH →
      (resizeSpan (srcH : Int) (dstH : Int) y).length
        * (resizeSpan (srcW : Int) (dstW : Int) x).length ≤ 8421504)
    (hdst : dst.length = dstW * dstH * 4) :
    (∀ x y, x < dstW → y < dstH →
        resizePixel (solidRaster (srcW * srcH) c) (srcW : Int) (srcH : Int)
          (dstW : Int) (dstH : Int) x y = some c)
      ∧ ResizeImage (solidRaster (srcW * srcH) c) dst (srcW : Int) (srcH : Int)
          (dstW : Int) (dstH : Int) = solidRaster (dstW * dstH) c := by
  have hpix : ∀ x y, x < dstW → y < dstH →
      resizePixel (solidRaster (srcW * srcH) c) (srcW : Int) (srcH : Int)
        (dstW : Int) (dstH : Int) x y = some c := fun x y hx hy =>
    resizePixel_solid_same srcW srcH _ _ c hc hbyte x y (hrows y hy) (hcols x hx)
      (hfit x y hx hy)
  refine ⟨hpix, ?_⟩
  have hd : dst.length = 4 * (dstH * dstW) := by rw [hdst]; ring
  have hq := ResizeImage_quad (solidRaster (srcW * srcH) c) dst (srcW : Int) (srcH : Int)
    dstW dstH hd
  rw [Nat.mul_comm dstW dstH]
  apply eq_of_quads _ _ (dstH * dstW) hq.1 (solidRaster_length _ c hc)
  intro i hi
  have hW0 : 0 < dstW := by
    rcases Nat.eq_zero_or_pos dstW with h | h
    · rw [h, Nat.mul_zero] at hi; exact absurd hi (Nat.not_lt_zero _)
    · exact h
  rw [hq.2 i hi, hpix _ _ (Nat.mod_lt _ hW0) ((Nat.div_lt_iff_lt_mul hW0).mpr hi)]
  unfold solidRaster
  rw [flatMap_quad (fun _ => c) (fun _ => hc) _ i hi]
  rfl

/-! ## Claim C25: two files that differ outside the bytes of level 0 -/

theorem withFile_gResult (B hB : List Nat) (g : Globals) :
    (withFile B hB g).gResult = g.gResult := rfl

theorem withFile_pos (B hB : List Nat) (g : Globals) :
    (withFile B hB g).file.pos = g.file.pos := rfl

theorem withFile_bytes (B hB : List Nat) (g : Globals) :
    (withFile B hB g).file.bytes = B := rfl

theorem withFile_blpHeader (B hB : List Nat) (g : Globals) :
    (withFile B hB g).gData.blpHeader = hB := rfl

theorem withFile_imageBuffer (B hB : List Nat) (g : Globals) :
    (withFile B hB g).gData.imageBuffer = g.gData.imageBuffer := rfl

theorem withFile_gFormatRecord (B hB : List Nat) (g : Globals) :
    (withFile B hB g).gFormatRecord = g.gFormatRecord := rfl

theorem withFile_delivered (B hB : List Nat) (g : Globals) :
    (withFile B hB g).delivered = g.delivered := rfl

theorem setFPos_withFile (B hB : List Nat) (g : Globals) (off : Nat) :
    setFPos (withFile B hB g) off = withFile B hB (setFPos g off) := rfl

theorem setImageBuffer_withFile (B hB : List Nat) (g : Globals) (b : Option (List Nat)) :
    setImageBuffer (withFile B hB g) b = withFile B hB (setImageBuffer g b) := rfl

theorem withFile_set_gResult (B hB : List Nat) (g : Globals) (r : Int) :
    { withFile B hB g with gResult := r } = withFile B hB { g with gResult := r } := rfl

theorem bothWith_ite (B hB : List Nat) (c : Prop) [Decidable c] (a b : Except Globals Globals) :
    bothWith B hB (if c then a else b) = if c then bothWith B hB a else bothWith B hB b := by
  split_ifs <;> rfl

theorem bothWith_ok (B hB : List Nat) (g : Globals) :
    bothWith B hB (.ok g) = .ok (withFile B hB g) := rfl

theorem bothWith_error (B hB : List Nat) (g : Globals) :
    bothWith B hB (.error g) = .error (withFile B hB g) := rfl

theorem sameBytes_of_take (A B : List Nat) (s L : Nat)
    (h : (A.drop s).take L = (B.drop s).take L) : sameBytes A B s (s + L) := by
  intro i h1 h2
  have e := congrArg (fun l => l[i - s]?) h
  simp only [List.getElem?_take, List.getElem?_drop] at e
  rw [if_pos (by omega), if_pos (by omega), Nat.add_sub_cancel' h1] at e
  exact e

theorem take_of_sameBytes (A B : List Nat) (s k e : Nat) (h : sameBytes A B s e)
    (hk : s + k ≤ e) : (A.drop s).take k = (B.drop s).take k := by
  apply List.ext_getElem?
  intro i
  rw [List.getElem?_take, List.getElem?_take, List.getElem?_drop, List.getElem?_drop]
  by_cases hi : i < k
  · rw [if_pos hi, if_pos hi]; exact h (s + i) (by omega) (by omega)
  · rw [if_neg hi, if_neg hi]

theorem sameBytes_mono (A B : List Nat) (s e s2 e2 : Nat) (h : sameBytes A B s e)
    (hs : s ≤ s2) (he : e2 ≤ e) : sameBytes A B s2 e2 :=
  fun i h1 h2 => h i (by omega) (by omega)

/-- A read gives the same bytes, the same result and the same position over two
files that hold the same bytes where it reads. -/
theorem ReadSome_withFile (B hB : List Nat) (count : Int) (buffer : List Nat) (g : Globals)
    (h : sameBytes g.file.bytes B g.file.pos (g.file.pos + count.toNat)) :
    ReadSome count buffer (withFile B hB g)
      = (withFile B hB (ReadSome count buffer g).1, (ReadSome count buffer g).2) := by
  have e := take_of_sameBytes _ _ _ count.toNat _ h (Nat.le_refl _)
  unfold ReadSome PSSDKRead
  by_cases h0 : g.gResult ≠ noErr
  · rw [withFile_gResult, if_pos h0, if_pos h0]
  · rw [withFile_gResult, if_neg h0, if_neg h0]
    simp only [withFile_bytes, withFile_pos, ← e]
    rfl

theorem ReadSome_ok_count (count : Int) (buffer : List Nat) (g : Globals)
    (h0 : g.gResult = noErr) (h : (ReadSome count buffer g).1.gResult = noErr) :
    0 ≤ count := by
  unfold ReadSome PSSDKRead at h
  simp only [h0, ne_eq, not_true_eq_false, if_false, true_and] at h
  split_ifs at h with hc
  · rw [← hc]; exact Int.natCast_nonneg _
  · exact absurd h (by decide)

/-- The DIRECT branch of the load block over two files that hold the same
palette bytes, index plane and alpha plane and whose headers give the same
`Offset[0]` and `alpha_bits`. -/
theorem readDirect_withFile (env : Env) (w h : Int) (g : Globals) (B hB : List Nat)
    (hoff : hdrOffset hB 0 = hdrOffset g.gData.blpHeader 0)
    (hab : hdrAlphaBits hB = hdrAlphaBits g.gData.blpHeader)
    (hpal : sameBytes g.file.bytes B 156
      (156 + (paletteSize env.sizeBits (hdrOffset g.gData.blpHeader 0) * 4).toNat))
    (hidx : sameBytes g.file.bytes B (hdrOffset g.gData.blpHeader 0)
      (hdrOffset g.gData.blpHeader 0 + (toInt32 (w * h)).toNat))
    (halpha : 0 ≤ toInt32 (w * h) → sameBytes g.file.bytes B (hdrOffset g.gData.blpHeader 0)
      (hdrOffset g.gData.blpHeader 0 + (toInt32 (w * h)).toNat
        + (toUInt32 (toInt32 (w * h)) * hdrAlphaBits g.gData.blpHeader + 7) % 4294967296 / 8)) :
    readDirect env w h (withFile B hB g) = bothWith B hB (readDirect env w h g) := by
  have f1 := ReadSome_frame
    (paletteSize env.sizeBits (hdrOffset g.gData.blpHeader 0) * 4) env.stackPalette
    (setFPos g sizeofHeader)
  have e1 := ReadSome_withFile B hB
    (paletteSize env.sizeBits (hdrOffset g.gData.blpHeader 0) * 4) env.stackPalette
    (setFPos g sizeofHeader) hpal
  generalize hrp : ReadSome (paletteSize env.sizeBits (hdrOffset g.gData.blpHeader 0) * 4)
    env.stackPalette (setFPos g sizeofHeader) = rp at f1 e1
  have hb1 : rp.1.file.bytes = g.file.bytes := f1.2.2.2.1
  have hh1 : rp.1.gData.blpHeader = g.gData.blpHeader := congrArg BLPData.blpHeader f1.2.2.1
  have f2 := ReadSome_frame (toInt32 (w * h)) [] (setFPos rp.1 (hdrOffset g.gData.blpHeader 0))
  have p2 := ReadSome_pos (toInt32 (w * h)) [] (setFPos rp.1 (hdrOffset g.gData.blpHeader 0)) rfl
  have e2 := ReadSome_withFile B hB (toInt32 (w * h)) []
    (setFPos rp.1 (hdrOffset g.gData.blpHeader 0))
    (by show sameBytes rp.1.file.bytes B _ _; rw [hb1]; exact hidx)
  have k2 := ReadSome_ok_count (toInt32 (w * h)) []
    (setFPos rp.1 (hdrOffset g.gData.blpHeader 0)) rfl
  generalize hri : ReadSome (toInt32 (w * h)) []
    (setFPos rp.1 (hdrOffset g.gData.blpHeader 0)) = ri at f2 p2 e2 k2
  have hb2 : ri.1.file.bytes = g.file.bytes := f2.2.2.2.1.trans hb1
  have hp2 : hdrOffset g.gData.blpHeader 0 ≤ ri.1.file.pos
      ∧ ri.1.file.pos ≤ hdrOffset g.gData.blpHeader 0 + (toInt32 (w * h)).toNat := by
    have := p2.1
    simp only [setFPos_file] at this
    omega
  unfold readDirect
  simp only [withFile_blpHeader, hoff, hab, setFPos_withFile, hrp, e1, withFile_gResult,
    bothWith_ite, bothWith_error, bothWith_ok, withFile_set_gResult, hri, e2]
  by_cases hs : ri.1.gResult = noErr
  · have e3 := ReadSome_withFile B hB
      (((toUInt32 (toInt32 (w * h)) * hdrAlphaBits g.gData.blpHeader + 7) % 4294967296 / 8 : Nat) : Int)
      [] ri.1
      (by
        rw [hb2, Int.toNat_natCast]
        exact sameBytes_mono _ _ _ _ _ _ (halpha (k2 hs)) hp2.1 (by omega))
    simp only [e3, withFile_gResult, setImageBuffer_withFile, withFile_imageBuffer]
  · simp only [hs, ne_eq, not_false_eq_true, if_true]

theorem u32le_read_four (bytes : List Nat) (pos : Nat) :
    u32le (overlay ((bytes.drop pos).take 4) []) 0 = u32le bytes pos := by
  rw [overlay_nil]
  unfold u32le
  rw [take_getD _ 4 0 (by norm_num), take_getD _ 4 (0 + 1) (by norm_num),
    take_getD _ 4 (0 + 2) (by norm_num), take_getD _ 4 (0 + 3) (by norm_num),
    drop_getD, drop_getD, drop_getD, drop_getD]
  rfl

/-- The JPEG branch of the load block over two files that hold the same shared
header and the same level-0 body and whose headers give the same `Offset[0]`
and `Size[0]`. -/
theorem readJpeg_withFile (env : Env) (w h : Int) (g : Globals) (B hB : List Nat)
    (hoff : hdrOffset hB 0 = hdrOffset g.gData.blpHeader 0)
    (hsz : hdrSize hB 0 = hdrSize g.gData.blpHeader 0)
    (hshared : sameBytes g.file.bytes B 156
      (160 + (toInt32 (u32le g.file.bytes 156)).toNat))
    (hbody : sameBytes g.file.bytes B (hdrOffset g.gData.blpHeader 0)
      (hdrOffset g.gData.blpHeader 0 + (toInt32 (hdrSize g.gData.blpHeader 0)).toNat)) :
    readJpeg env w h (withFile B hB g) = bothWith B hB (readJpeg env w h g) := by
  have f1 := ReadSome_frame 4 [] (setFPos g sizeofHeader)
  have p1 := ReadSome_pos 4 [] (setFPos g sizeofHeader) rfl
  have e1 := ReadSome_withFile B hB 4 [] (setFPos g sizeofHeader)
    (sameBytes_mono _ _ _ _ _ _ hshared (Nat.le_refl _)
      (show 156 + 4 ≤ _ from Nat.le_add_right 160 _))
  have v1 : u32le (ReadSome 4 [] (setFPos g sizeofHeader)).2 0 = u32le g.file.bytes 156 := by
    show u32le (overlay ((g.file.bytes.drop 156).take 4) []) 0 = _
    exact u32le_read_four _ _
  generalize hrh : ReadSome 4 [] (setFPos g sizeofHeader) = rh at f1 p1 e1 v1
  have hb1 : rh.1.file.bytes = g.file.bytes := f1.2.2.2.1
  have hp1 : 156 ≤ rh.1.file.pos ∧ rh.1.file.pos ≤ 160 := by
    have hpos : rh.1.file.pos = 156 + min 4 (g.file.bytes.length - 156) := p1.1
    clear f1 e1 v1 p1 hoff hsz hshared hbody
    omega
  clear p1
  have f2 := ReadSome_frame (toInt32 (u32le rh.2 0)) [] rh.1
  have e2 := ReadSome_withFile B hB (toInt32 (u32le rh.2 0)) [] rh.1
    (by
      rw [hb1, v1]
      have hle := hp1.2
      exact sameBytes_mono _ _ _ _ _ _ hshared hp1.1 (Nat.add_le_add_right hle _))
  generalize hr1 : ReadSome (toInt32 (u32le rh.2 0)) [] rh.1 = r1 at f2 e2
  have hb2 : r1.1.file.bytes = g.file.bytes := f2.2.2.2.1.trans hb1
  have e3 := ReadSome_withFile B hB (toInt32 (hdrSize g.gData.blpHeader 0)) []
    (setFPos r1.1 (hdrOffset g.gData.blpHeader 0))
    (by show sameBytes r1.1.file.bytes B _ _; rw [hb2]; exact hbody)
  generalize hr2 : ReadSome (toInt32 (hdrSize g.gData.blpHeader 0)) []
    (setFPos r1.1 (hdrOffset g.gData.blpHeader 0)) = r2 at e3
  unfold readJpeg
  simp only [withFile_blpHeader, hoff, hsz, setFPos_withFile, hrh, e1, withFile_gResult,
    bothWith_ite, bothWith_error, bothWith_ok, withFile_set_gResult, hr1, e2, hr2, e3,
    setImageBuffer_withFile, withFile_imageBuffer]
  split_ifs
  · rfl
  · rfl
  · rfl
  · rfl
  · cases env.jpeg_decompress
      (List.take ((u32le rh.2 0 + hdrSize g.gData.blpHeader 0) % 4294967296) (r1.2 ++ r2.2)) <;> rfl

/-- The load block of `DoReadContinue` over two files whose headers give the
same compression, `alpha_bits`, `Offset[0]` and `Size[0]` and that hold the same
bytes where the branch taken reads. -/
theorem loadImage_withFile (env : Env) (g : Globals) (B hB : List Nat)
    (hcomp : hdrCompression hB = hdrCompression g.gData.blpHeader)
    (hoff : hdrOffset hB 0 = hdrOffset g.gData.blpHeader 0)
    (hab : hdrAlphaBits hB = hdrAlphaBits g.gData.blpHeader)
    (hsz : hdrSize hB 0 = hdrSize g.gData.blpHeader 0)
    (hD : hdrCompression g.gData.blpHeader = BLP_COMPRESSION_DIRECT →
      sameBytes g.file.bytes B 156
        (156 + (paletteSize env.sizeBits (hdrOffset g.gData.blpHeader 0) * 4).toNat)
      ∧ sameBytes g.file.bytes B (hdrOffset g.gData.blpHeader 0)
        (hdrOffset g.gData.blpHeader 0
          + (toInt32 ((GetFormatImageSize g.gFormatRecord).h
              * (GetFormatImageSize g.gFormatRecord).v)).toNat)
      ∧ (0 ≤ toInt32 ((GetFormatImageSize g.gFormatRecord).h
              * (GetFormatImageSize g.gFormatRecord).v) →
        sameBytes g.file.bytes B (hdrOffset g.gData.blpHeader 0)
          (hdrOffset g.gData.blpHeader 0
            + (toInt32 ((GetFormatImageSize g.gFormatRecord).h
                * (GetFormatImageSize g.gFormatRecord).v)).toNat
            + (toUInt32 (toInt32 ((GetFormatImageSize g.gFormatRecord).h
                * (GetFormatImageSize g.gFormatRecord).v))
                * hdrAlphaBits g.gData.blpHeader + 7) % 4294967296 / 8)))
    (hJ : hdrCompression g.gData.blpHeader = BLP_COMPRESSION_JPEG →
      sameBytes g.file.bytes B 156 (160 + (toInt32 (u32le g.file.bytes 156)).toNat)
      ∧ sameBytes g.file.bytes B (hdrOffset g.gData.blpHeader 0)
        (hdrOffset g.gData.blpHeader 0 + (toInt32 (hdrSize g.gData.blpHeader 0)).toNat)) :
    loadImage env (withFile B hB g) = bothWith B hB (loadImage env g) := by
  unfold loadImage
  rw [withFile_imageBuffer]
  cases hbuf : g.gData.imageBuffer with
  | some b => rfl
  | none =>
    simp only [withFile_gFormatRecord, withFile_blpHeader, hcomp, bothWith_ite,
      bothWith_error, bothWith_ok, withFile_set_gResult, setImageBuffer_withFile]
    by_cases hm : env.mallocOk (toInt32 (toInt32 ((GetFormatImageSize g.gFormatRecord).h
        * (GetFormatImageSize g.gFormatRecord).v) * 4)) = true
    · rw [hm]
      simp only [Bool.not_true, Bool.false_eq_true, if_false]
      by_cases hd : hdrCompression g.gData.blpHeader = BLP_COMPRESSION_DIRECT
      · rw [if_pos hd, if_pos hd]
        obtain ⟨h1, h2, h3⟩ := hD hd
        exact readDirect_withFile env _ _ _ B hB hoff hab h1 h2 h3
      · rw [if_neg hd, if_neg hd]
        by_cases hj : hdrCompression g.gData.blpHeader = BLP_COMPRESSION_JPEG
        · rw [if_pos hj, if_pos hj]
          obtain ⟨h1, h2⟩ := hJ hj
          exact readJpeg_withFile env _ _ _ B hB hoff hsz h1 h2
        · rw [if_neg hj, if_neg hj]
    · have hm2 : env.mallocOk (toInt32 (toInt32 ((GetFormatImageSize g.gFormatRecord).h
        * (GetFormatImageSize g.gFormatRecord).v) * 4)) = false := by
        cases hv : env.mallocOk (toInt32 (toInt32 ((GetFormatImageSize g.gFormatRecord).h
          * (GetFormatImageSize g.gFormatRecord).v) * 4))
        · rfl
        · exact absurd hv hm
      rw [hm2]
      simp only [Bool.not_false, if_true]
      rfl

theorem foldl_comm_state {σ α : Type} (φ : σ → σ) (f : σ → α → σ)
    (hf : ∀ s x, f (φ s) x = φ (f s x)) (l : List α) (s : σ) :
    l.foldl f (φ s) = φ (l.foldl f s) := by
  induction l generalizing s with
  | nil => rfl
  | cons a t ih => rw [List.foldl_cons, List.foldl_cons, hf, ih]

theorem readRow_withFile (env : Env) (h planes : Int) (buf : List Nat) (plane : Nat)
    (B hB : List Nat) (st : Globals × Nat) (row : Nat) :
    readRow env h planes buf plane (withFile B hB st.1, st.2) row
      = (withFile B hB (readRow env h planes buf plane st row).1,
          (readRow env h planes buf plane st row).2) := by
  unfold readRow
  simp only [withFile_gResult]
  split_ifs <;> rfl

theorem readPlane_withFile (env : Env) (h v planes : Int) (buf : List Nat)
    (B hB : List Nat) (st : Globals × Nat) (plane : Nat) :
    readPlane env h v planes buf (withFile B hB st.1, st.2) plane
      = (withFile B hB (readPlane env h v planes buf st plane).1,
          (readPlane env h v planes buf st plane).2) := by
  unfold readPlane
  simp only [withFile_gResult]
  split_ifs
  · rfl
  · exact foldl_comm_state (fun s : Globals × Nat => (withFile B hB s.1, s.2)) _
      (fun s x => readRow_withFile env h planes buf plane B hB s x) _ st

theorem GetFormatImageSize_dispose (fr : FormatRecord) :
    GetFormatImageSize (DisposeImageResources fr) = GetFormatImageSize fr := by
  unfold DisposeImageResources GetFormatImageSize
  split_ifs <;> rfl

/-- The routine `DoReadContinue` over two files whose headers give the same
compression, `alpha_bits`, `Offset[0]` and `Size[0]` and that hold the same bytes
where the branch taken reads: the runs differ in the stream and in the header
image only. -/
theorem DoReadContinue_withFile (env : Env) (g : Globals) (B hB : List Nat)
    (hcomp : hdrCompression hB = hdrCompression g.gData.blpHeader)
    (hoff : hdrOffset hB 0 = hdrOffset g.gData.blpHeader 0)
    (hab : hdrAlphaBits hB = hdrAlphaBits g.gData.blpHeader)
    (hsz : hdrSize hB 0 = hdrSize g.gData.blpHeader 0)
    (hD : hdrCompression g.gData.blpHeader = BLP_COMPRESSION_DIRECT →
      sameBytes g.file.bytes B 156
        (156 + (paletteSize env.sizeBits (hdrOffset g.gData.blpHeader 0) * 4).toNat)
      ∧ sameBytes g.file.bytes B (hdrOffset g.gData.blpHeader 0)
        (hdrOffset g.gData.blpHeader 0
          + (toInt32 ((GetFormatImageSize g.gFormatRecord).h
              * (GetFormatImageSize g.gFormatRecord).v)).toNat)
      ∧ (0 ≤ toInt32 ((GetFormatImageSize g.gFormatRecord).h
              * (GetFormatImageSize g.gFormatRecord).v) →
        sameBytes g.file.bytes B (hdrOffset g.gData.blpHeader 0)
          (hdrOffset g.gData.blpHeader 0
            + (toInt32 ((GetFormatImageSize g.gFormatRecord).h
                * (GetFormatImageSize g.gFormatRecord).v)).toNat
            + (toUInt32 (toInt32 ((GetFormatImageSize g.gFormatRecord).h
                * (GetFormatImageSize g.gFormatRecord).v))
                * hdrAlphaBits g.gData.blpHeader + 7) % 4294967296 / 8)))
    (hJ : hdrCompression g.gData.blpHeader = BLP_COMPRESSION_JPEG →
      sameBytes g.file.bytes B 156 (160 + (toInt32 (u32le g.file.bytes 156)).toNat)
      ∧ sameBytes g.file.bytes B (hdrOffset g.gData.blpHeader 0)
        (hdrOffset g.gData.blpHeader 0 + (toInt32 (hdrSize g.gData.blpHeader 0)).toNat)) :
    DoReadContinue env (withFile B hB g) = withFile B hB (DoReadContinue env g) := by
  have hl := loadImage_withFile env
    { g with gFormatRecord := DisposeImageResources g.gFormatRecord } B hB hcomp hoff hab hsz
    (by
      intro hd
      have := hD hd
      simp only [GetFormatImageSize_dispose]
      exact this)
    hJ
  unfold DoReadContinue
  have e0 : ({ withFile B hB g with
        gFormatRecord := DisposeImageResources (withFile B hB g).gFormatRecord } : Globals)
      = withFile B hB { g with gFormatRecord := DisposeImageResources g.gFormatRecord } := rfl
  simp only [e0, hl]
  cases loadImage env { g with gFormatRecord := DisposeImageResources g.gFormatRecord } with
  | error ge => rfl
  | ok g1 =>
    simp only [bothWith_ok, withFile_gFormatRecord, withFile_imageBuffer]
    split_ifs
    · rfl
    · have hf := foldl_comm_state (fun s : Globals × Nat => (withFile B hB s.1, s.2))
        (readPlane env (GetFormatImageSize g1.gFormatRecord).h
          (GetFormatImageSize g1.gFormatRecord).v g1.gFormatRecord.planes
          (g1.gData.imageBuffer.getD []))
        (fun s x => readPlane_withFile env _ _ _ _ B hB s x)
        (List.range g1.gFormatRecord.planes.toNat) (g1, 0)
      simp only at hf
      rw [hf]
      rfl

theorem onFile_bytes (g : Globals) (A : List Nat) : (onFile g A).file.bytes = A := rfl

theorem onFile_gData (g : Globals) (A : List Nat) : (onFile g A).gData = g.gData := rfl

/-- The indexed-colour branch of `DoReadStart` on a stream of at least 156
bytes: the palette read, from the state `S` in which the header has been
stored, and the colour tables. -/
theorem DoReadStart_palette (env : Env) (g S : Globals)
    (hlen : 156 ≤ g.file.bytes.length)
    (hmagic : ¬ magicMismatch g.file.bytes = true)
    (hcomp : hdrCompression g.file.bytes = BLP_COMPRESSION_DIRECT)
    (hab : ¬ hdrAlphaBits g.file.bytes > 0)
    (hS : S = { g with
        gResult := noErr, file := { g.file with pos := 156 },
        gFormatRecord :=
          { SetFormatImageSize { v := toInt32 (hdrHeight g.file.bytes),
                                 h := toInt32 (hdrWidth g.file.bytes) } g.gFormatRecord with
            depth := 8, imageMode := plugInModeIndexedColor, planes := 1,
            transparencyPlane := -1 },
        gData := { g.gData with
          blpHeader := overlay (g.file.bytes.take 156) g.gData.blpHeader,
          needsSwap := false } }) :
    DoReadStart env g
      = if (ReadSome (paletteSize env.sizeBits (hdrOffset g.file.bytes 0) * 4)
              env.stackPalette S).1.gResult ≠ noErr then
          (ReadSome (paletteSize env.sizeBits (hdrOffset g.file.bytes 0) * 4)
              env.stackPalette S).1
        else
          readStartFinish
            { (ReadSome (paletteSize env.sizeBits (hdrOffset g.file.bytes 0) * 4)
                env.stackPalette S).1 with
              gFormatRecord :=
                { (ReadSome (paletteSize env.sizeBits (hdrOffset g.file.bytes 0) * 4)
                    env.stackPalette S).1.gFormatRecord with
                  blueLUT := loadLUT (ReadSome (paletteSize env.sizeBits (hdrOffset g.file.bytes 0) * 4)
                      env.stackPalette S).2 (paletteSize env.sizeBits (hdrOffset g.file.bytes 0)) 0
                    (ReadSome (paletteSize env.sizeBits (hdrOffset g.file.bytes 0) * 4)
                      env.stackPalette S).1.gFormatRecord.blueLUT,
                  greenLUT := loadLUT (ReadSome (paletteSize env.sizeBits (hdrOffset g.file.bytes 0) * 4)
                      env.stackPalette S).2 (paletteSize env.sizeBits (hdrOffset g.file.bytes 0)) 1
                    (ReadSome (paletteSize env.sizeBits (hdrOffset g.file.bytes 0) * 4)
                      env.stackPalette S).1.gFormatRecord.greenLUT,
                  redLUT := loadLUT (ReadSome (paletteSize env.sizeBits (hdrOffset g.file.bytes 0) * 4)
                      env.stackPalette S).2 (paletteSize env.sizeBits (hdrOffset g.file.bytes 0)) 2
                    (ReadSome (paletteSize env.sizeBits (hdrOffset g.file.bytes 0) * 4)
                      env.stackPalette S).1.gFormatRecord.redLUT } } := by
  subst hS
  have hc : hdrCompression (overlay (g.file.bytes.take 156) g.gData.blpHeader)
      = hdrCompression g.file.bytes := header_u32le _ _ 4 hlen (by norm_num)
  have ha : hdrAlphaBits (overlay (g.file.bytes.take 156) g.gData.blpHeader)
      = hdrAlphaBits g.file.bytes := header_u32le _ _ 8 hlen (by norm_num)
  have hw : hdrWidth (overlay (g.file.bytes.take 156) g.gData.blpHeader)
      = hdrWidth g.file.bytes := header_u32le _ _ 12 hlen (by norm_num)
  have hh : hdrHeight (overlay (g.file.bytes.take 156) g.gData.blpHeader)
      = hdrHeight g.file.bytes := header_u32le _ _ 16 hlen (by norm_num)
  have ho : hdrOffset (overlay (g.file.bytes.take 156) g.gData.blpHeader) 0
      = hdrOffset g.file.bytes 0 := header_u32le _ _ 28 hlen (by norm_num)
  have hm : magicMismatch (overlay (g.file.bytes.take 156) g.gData.blpHeader)
      = magicMismatch g.file.bytes := magicMismatch_header _ _ hlen
  unfold DoReadStart
  simp only [setFPos_gResult, ne_eq, not_true_eq_false, if_false, setFPos_gData,
    ReadSome_header g _ hlen, hm, hmagic, Bool.false_eq_true, hc, ha, ho, hw, hh, hcomp,
    if_true, hab]

/-- The routine `DoReadStart` over two files of at least 156 bytes whose headers
agree on the magic number, the compression, `alpha_bits`, the dimensions and
`Offset[0]`, and that hold the same palette bytes when it reads the palette:
the runs differ in the stream and in the header image only. -/
theorem DoReadStart_withFile (env : Env) (g : Globals) (A B : List Nat)
    (hA : 156 ≤ A.length) (hB : 156 ≤ B.length)
    (hmagic : magicMismatch B = magicMismatch A)
    (hcomp : hdrCompression B = hdrCompression A)
    (hab : hdrAlphaBits B = hdrAlphaBits A)
    (hw : hdrWidth B = hdrWidth A) (hh : hdrHeight B = hdrHeight A)
    (hoff : hdrOffset B 0 = hdrOffset A 0)
    (hpal : hdrCompression A = BLP_COMPRESSION_DIRECT → ¬ hdrAlphaBits A > 0 →
      sameBytes A B 156 (156 + (paletteSize env.sizeBits (hdrOffset A 0) * 4).toNat)) :
    DoReadStart env (onFile g B)
      = withFile B (overlay (B.take 156) g.gData.blpHeader) (DoReadStart env (onFile g A)) := by
  by_cases hp : (¬ magicMismatch A = true) ∧ hdrCompression A = BLP_COMPRESSION_DIRECT
      ∧ ¬ hdrAlphaBits A > 0
  · obtain ⟨hm, hd, ha⟩ := hp
    have key := ReadSome_withFile B (overlay (B.take 156) g.gData.blpHeader)
      (paletteSize env.sizeBits (hdrOffset (onFile g A).file.bytes 0) * 4) env.stackPalette
      ({ onFile g A with
        gResult := noErr, file := { (onFile g A).file with pos := 156 },
        gFormatRecord :=
          { SetFormatImageSize { v := toInt32 (hdrHeight (onFile g A).file.bytes),
                                 h := toInt32 (hdrWidth (onFile g A).file.bytes) }
              (onFile g A).gFormatRecord with
            depth := 8, imageMode := plugInModeIndexedColor, planes := 1,
            transparencyPlane := -1 },
        gData := { (onFile g A).gData with
          blpHeader := overlay ((onFile g A).file.bytes.take 156) (onFile g A).gData.blpHeader,
          needsSwap := false } } : Globals)
      (hpal hd ha)
    have hoffB : hdrOffset (onFile g B).file.bytes 0 = hdrOffset (onFile g A).file.bytes 0 :=
      hoff
    rw [DoReadStart_palette env (onFile g A) _ hA hm hd ha rfl,
      DoReadStart_palette env (onFile g B)
        (withFile B (overlay (B.take 156) g.gData.blpHeader)
          ({ onFile g A with
            gResult := noErr, file := { (onFile g A).file with pos := 156 },
            gFormatRecord :=
              { SetFormatImageSize { v := toInt32 (hdrHeight (onFile g A).file.bytes),
                                     h := toInt32 (hdrWidth (onFile g A).file.bytes) }
                  (onFile g A).gFormatRecord with
                depth := 8, imageMode := plugInModeIndexedColor, planes := 1,
                transparencyPlane := -1 },
            gData := { (onFile g A).gData with
              blpHeader := overlay ((onFile g A).file.bytes.take 156)
                (onFile g A).gData.blpHeader,
              needsSwap := false } } : Globals))
        hB (by rw [onFile_bytes, hmagic]; exact hm)
        (by rw [onFile_bytes, hcomp]; exact hd) (by rw [onFile_bytes, hab]; exact ha)
        (by
          rw [show hdrHeight (onFile g B).file.bytes = hdrHeight (onFile g A).file.bytes from hh,
            show hdrWidth (onFile g B).file.bytes = hdrWidth (onFile g A).file.bytes from hw]
          rfl),
      hoffB, key]
    generalize ReadSome (paletteSize env.sizeBits (hdrOffset (onFile g A).file.bytes 0) * 4)
      env.stackPalette _ = rp
    dsimp only
    by_cases hr : rp.1.gResult = noErr
    · rw [if_neg (show ¬ (withFile B (overlay (B.take 156) g.gData.blpHeader) rp.1).gResult ≠ noErr
        from fun h => h hr), if_neg (show ¬ rp.1.gResult ≠ noErr from fun h => h hr)]
      rfl
    · rw [if_pos (show (withFile B (overlay (B.take 156) g.gData.blpHeader) rp.1).gResult ≠ noErr
        from hr), if_pos (show rp.1.gResult ≠ noErr from hr)]
  · have rA := ReadSome_header (onFile g A) g.gData.blpHeader hA
    have rB := ReadSome_header (onFile g B) g.gData.blpHeader hB
    have mA : magicMismatch (overlay (A.take 156) g.gData.blpHeader) = magicMismatch A :=
      magicMismatch_header _ _ hA
    have mB : magicMismatch (overlay (B.take 156) g.gData.blpHeader) = magicMismatch A :=
      (magicMismatch_header _ _ hB).trans hmagic
    have cA : hdrCompression (overlay (A.take 156) g.gData.blpHeader) = hdrCompression A :=
      header_u32le _ _ 4 hA (by norm_num)
    have cB : hdrCompression (overlay (B.take 156) g.gData.blpHeader) = hdrCompression A :=
      (header_u32le _ _ 4 hB (by norm_num)).trans hcomp
    have aA : hdrAlphaBits (overlay (A.take 156) g.gData.blpHeader) = hdrAlphaBits A :=
      header_u32le _ _ 8 hA (by norm_num)
    have aB : hdrAlphaBits (overlay (B.take 156) g.gData.blpHeader) = hdrAlphaBits A :=
      (header_u32le _ _ 8 hB (by norm_num)).trans hab
    have wA : hdrWidth (overlay (A.take 156) g.gData.blpHeader) = hdrWidth A :=
      header_u32le _ _ 12 hA (by norm_num)
    have wB : hdrWidth (overlay (B.take 156) g.gData.blpHeader) = hdrWidth A :=
      (header_u32le _ _ 12 hB (by norm_num)).trans hw
    have hA2 : hdrHeight (overlay (A.take 156) g.gData.blpHeader) = hdrHeight A :=
      header_u32le _ _ 16 hA (by norm_num)
    have hB2 : hdrHeight (overlay (B.take 156) g.gData.blpHeader) = hdrHeight A :=
      (header_u32le _ _ 16 hB (by norm_num)).trans hh
    unfold DoReadStart
    simp only [setFPos_gResult, ne_eq, not_true_eq_false, if_false, setFPos_gData, onFile_gData,
      onFile_bytes, rA, rB, mA, mB, cA, cB, aA, aB, wA, wB, hA2, hB2]
    by_cases hm : magicMismatch A = true
    · simp only [hm, if_true]
      rfl
    · simp only [hm, Bool.false_eq_true, if_false]
      by_cases hd : hdrCompression A = BLP_COMPRESSION_DIRECT
      · simp only [hd, if_true]
        by_cases ha : hdrAlphaBits A > 0
        · simp only [ha, if_true]
          rfl
        · exact absurd ⟨hm, hd, ha⟩ hp
      · simp only [hd, if_false]
        split_ifs <;> rfl

theorem GetFormatImageSize_congr (a b : FormatRecord)
    (h1 : a.HostSupports32BitCoordinates = b.HostSupports32BitCoordinates)
    (h2 : a.PluginUsing32BitCoordinates = b.PluginUsing32BitCoordinates)
    (h3 : a.imageSize = b.imageSize) (h4 : a.imageSize32 = b.imageSize32) :
    GetFormatImageSize a = GetFormatImageSize b := by
  unfold GetFormatImageSize
  rw [h1, h2, h3, h4]

/-- After a `DoReadStart` that reports no error on a stream of at least 156 bytes:
the header image is the first 156 bytes, the stream is unchanged, and the image
size is the one set from the header's width and height. -/
theorem DoReadStart_facts (env : Env) (g : Globals) (hlen : 156 ≤ g.file.bytes.length)
    (hok : (DoReadStart env g).gResult = noErr) :
    (DoReadStart env g).gData.blpHeader = overlay (g.file.bytes.take 156) g.gData.blpHeader
      ∧ (DoReadStart env g).file.bytes = g.file.bytes
      ∧ GetFormatImageSize (DoReadStart env g).gFormatRecord
          = GetFormatImageSize (SetFormatImageSize
              { v := toInt32 (hdrHeight g.file.bytes), h := toInt32 (hdrWidth g.file.bytes) }
              g.gFormatRecord) := by
  by_cases hp : (¬ magicMismatch g.file.bytes = true)
      ∧ hdrCompression g.file.bytes = BLP_COMPRESSION_DIRECT
      ∧ ¬ hdrAlphaBits g.file.bytes > 0
  · obtain ⟨hm, hd, ha⟩ := hp
    rw [DoReadStart_palette env g _ hlen hm hd ha rfl] at hok ⊢
    have f := ReadSome_frame (paletteSize env.sizeBits (hdrOffset g.file.bytes 0) * 4)
      env.stackPalette
      ({ g with
        gResult := noErr, file := { g.file with pos := 156 },
        gFormatRecord :=
          { SetFormatImageSize { v := toInt32 (hdrHeight g.file.bytes),
                                 h := toInt32 (hdrWidth g.file.bytes) } g.gFormatRecord with
            depth := 8, imageMode := plugInModeIndexedColor, planes := 1,
            transparencyPlane := -1 },
        gData := { g.gData with
          blpHeader := overlay (g.file.bytes.take 156) g.gData.blpHeader,
          needsSwap := false } } : Globals)
    generalize ReadSome (paletteSize env.sizeBits (hdrOffset g.file.bytes 0) * 4)
      env.stackPalette _ = rp at hok f ⊢
    obtain ⟨f1, -, f3, f4, -⟩ := f
    by_cases hr : rp.1.gResult = noErr
    · rw [if_neg (show ¬ rp.1.gResult ≠ noErr from fun h => h hr)]
      refine ⟨congrArg BLPData.blpHeader f3, f4, ?_⟩
      show GetFormatImageSize { rp.1.gFormatRecord with
        blueLUT := _, greenLUT := _, redLUT := _, transparencyMatting := DESIREDMATTING,
        imageRsrcSize := 0, imageRsrcData := false } = _
      rw [f1]
      exact GetFormatImageSize_congr _ _ rfl rfl rfl rfl
    · rw [if_pos (show rp.1.gResult ≠ noErr from hr)] at hok
      exact absurd hok hr
  · have rA := ReadSome_header g g.gData.blpHeader hlen
    have mA : magicMismatch (overlay (g.file.bytes.take 156) g.gData.blpHeader)
        = magicMismatch g.file.bytes := magicMismatch_header _ _ hlen
    have cA : hdrCompression (overlay (g.file.bytes.take 156) g.gData.blpHeader)
        = hdrCompression g.file.bytes := header_u32le _ _ 4 hlen (by norm_num)
    have aA : hdrAlphaBits (overlay (g.file.bytes.take 156) g.gData.blpHeader)
        = hdrAlphaBits g.file.bytes := header_u32le _ _ 8 hlen (by norm_num)
    have wA : hdrWidth (overlay (g.file.bytes.take 156) g.gData.blpHeader)
        = hdrWidth g.file.bytes := header_u32le _ _ 12 hlen (by norm_num)
    have hA2 : hdrHeight (overlay (g.file.bytes.take 156) g.gData.blpHeader)
        = hdrHeight g.file.bytes := header_u32le _ _ 16 hlen (by norm_num)
    have hne : formatCannotRead ≠ noErr := by decide
    unfold DoReadStart at hok ⊢
    simp only [setFPos_gResult, ne_eq, not_true_eq_false, if_false, setFPos_gData,
      rA, mA, cA, aA, wA, hA2] at hok ⊢
    by_cases hm : magicMismatch g.file.bytes = true
    · simp only [hm, if_true] at hok
      exact absurd hok hne
    · simp only [hm, Bool.false_eq_true, if_false] at hok ⊢
      by_cases hd : hdrCompression g.file.bytes = BLP_COMPRESSION_DIRECT
      · simp only [hd, if_true] at hok ⊢
        by_cases ha : hdrAlphaBits g.file.bytes > 0
        · simp only [ha, if_true]
          exact ⟨rfl, rfl, GetFormatImageSize_congr _ _ rfl rfl rfl rfl⟩
        · exact absurd ⟨hm, hd, ha⟩ hp
      · simp only [hd, if_false] at hok ⊢
        by_cases hj : hdrCompression g.file.bytes = BLP_COMPRESSION_JPEG
        · simp only [hj, if_true]
          exact ⟨rfl, rfl, GetFormatImageSize_congr _ _ rfl rfl rfl rfl⟩
        · simp only [hj, if_false] at hok
          exact absurd hok hne

theorem natAbs_toInt32_le (x : Int) : (toInt32 x).natAbs ≤ x.natAbs := by
  unfold toInt32; omega

theorem natAbs_toInt16_le (x : Int) : (toInt16 x).natAbs ≤ x.natAbs := by
  unfold toInt16; omega

/-- The width and the height that `SetFormatImageSize` stores for a header are
no larger in absolute value than the header's. -/
theorem imageSize_bounds (W H : Nat) (fr : FormatRecord) :
    (GetFormatImageSize (SetFormatImageSize
        { v := toInt32 (H : Int), h := toInt32 (W : Int) } fr)).h.natAbs ≤ W
      ∧ (GetFormatImageSize (SetFormatImageSize
        { v := toInt32 (H : Int), h := toInt32 (W : Int) } fr)).v.natAbs ≤ H := by
  have w1 := natAbs_toInt32_le (W : Int)
  have h1 := natAbs_toInt32_le (H : Int)
  have w2 := natAbs_toInt16_le (toInt32 (W : Int))
  have h2 := natAbs_toInt16_le (toInt32 (H : Int))
  rw [Int.natAbs_ofNat] at w1 h1
  unfold GetFormatImageSize SetFormatImageSize
  by_cases hc : (fr.HostSupports32BitCoordinates && fr.PluginUsing32BitCoordinates) = true
  · simp only [hc, if_true]
    exact ⟨w1, h1⟩
  · simp only [hc, Bool.false_eq_true, if_false]
    exact ⟨le_trans w2 w1, le_trans h2 h1⟩

/-- The number of index bytes the DIRECT branch reads is at most `W * H`. -/
theorem npix_le (w h : Int) (W H : Nat) (hw : w.natAbs ≤ W) (hh : h.natAbs ≤ H) :
    (toInt32 (w * h)).toNat ≤ W * H := by
  have h1 := natAbs_toInt32_le (w * h)
  rw [Int.natAbs_mul] at h1
  have h2 := Nat.mul_le_mul hw hh
  have h3 : (toInt32 (w * h)).toNat ≤ (toInt32 (w * h)).natAbs := by omega
  exact le_trans h3 (le_trans h1 h2)

/-- The number of alpha bytes the DIRECT branch reads is at most
`ceil (W * H * alpha_bits / 8)`. -/
theorem alphaSize_le (n : Int) (N ab : Nat) (h0 : 0 ≤ n) (hn : n.toNat ≤ N) :
    (toUInt32 n * ab + 7) % 4294967296 / 8 ≤ (N * ab + 7) / 8 := by
  have h1 : toUInt32 n ≤ N := by unfold toUInt32; omega
  exact Nat.div_le_div_right (le_trans (Nat.mod_le _ _)
    (Nat.add_le_add_right (Nat.mul_le_mul_right ab h1) 7))

theorem u32le_of_take_eq (A B : List Nat) (n off : Nat) (h : A.take n = B.take n)
    (hoff : off + 4 ≤ n) : u32le A off = u32le B off := by
  unfold u32le
  rw [← take_getD A n off (by omega), ← take_getD A n (off + 1) (by omega),
    ← take_getD A n (off + 2) (by omega), ← take_getD A n (off + 3) (by omega), h,
    take_getD B n off (by omega), take_getD B n (off + 1) (by omega),
    take_getD B n (off + 2) (by omega), take_getD B n (off + 3) (by omega)]

theorem magicMismatch_of_take_eq (A B : List Nat) (n : Nat) (h : A.take n = B.take n)
    (hn : 4 ≤ n) : magicMismatch A = magicMismatch B := by
  unfold magicMismatch
  rw [← take_getD A n 0 (by omega), ← take_getD A n 1 (by omega),
    ← take_getD A n 2 (by omega), ← take_getD A n 3 (by omega), h,
    take_getD B n 0 (by omega), take_getD B n 1 (by omega),
    take_getD B n 2 (by omega), take_getD B n 3 (by omega)]

theorem paletteSize_le (bits off : Nat) : paletteSize bits off ≤ 256 := by
  unfold paletteSize
  simp only
  split_ifs with h
  · exact le_refl _
  · exact not_lt.mp h

theorem paletteBytes_le (bits off : Nat) : (paletteSize bits off * 4).toNat ≤ 1024 := by
  have h := paletteSize_le bits off
  generalize paletteSize bits off = p at h
  omega

theorem toNat_toInt32_le (x : Nat) : (toInt32 (x : Int)).toNat ≤ x := by
  unfold toInt32; omega

/-- Claim C25.  Two streams of at least 156 bytes that agree on the header
bytes 0 to 31 (magic number, compression, `alpha_bits`, width, height, the two
flags and `Offset[0]`) and on `Size[0]`, and that hold the same bytes in the
palette and in the level-0 payload (DIRECT: the palette entries at offset 156,
4 bytes for each of the `paletteSize` entries of the file, and the `W * H` index
bytes with the `ceil (W * H * alpha_bits / 8)` alpha bytes at `Offset[0]`;
JPEG: the length field and the shared header at offset 156 and the `Size[0]`
bytes at `Offset[0]`), decode alike from the same globals: the two
decodes differ in the stream and in the header image only, so the result code,
the format record (size, mode, colour tables), the rows handed to the host and
the raster are the same.  `Offset[1..15]`, `Size[1..15]` and every other byte
are free. -/
theorem C25_level0_only (env : Env) (g : Globals) (A B : List Nat)
    (hA : 156 ≤ A.length) (hB : 156 ≤ B.length)
    (hfields : A.take 32 = B.take 32)
    (hsize0 : (A.drop 92).take 4 = (B.drop 92).take 4)
    (hdirect : hdrCompression A = BLP_COMPRESSION_DIRECT →
      (A.drop 156).take (paletteSize env.sizeBits (hdrOffset A 0) * 4).toNat
          = (B.drop 156).take (paletteSize env.sizeBits (hdrOffset A 0) * 4).toNat
      ∧ (A.drop (hdrOffset A 0)).take
            (hdrWidth A * hdrHeight A + (hdrWidth A * hdrHeight A * hdrAlphaBits A + 7) / 8)
          = (B.drop (hdrOffset A 0)).take
            (hdrWidth A * hdrHeight A + (hdrWidth A * hdrHeight A * hdrAlphaBits A + 7) / 8))
    (hjpeg : hdrCompression A = BLP_COMPRESSION_JPEG →
      (A.drop 156).take (4 + u32le A 156) = (B.drop 156).take (4 + u32le A 156)
      ∧ (A.drop (hdrOffset A 0)).take (hdrSize A 0)
          = (B.drop (hdrOffset A 0)).take (hdrSize A 0)) :
    decode env (onFile g B)
        = withFile B (overlay (B.take 156) g.gData.blpHeader) (decode env (onFile g A))
      ∧ (decode env (onFile g B)).gResult = (decode env (onFile g A)).gResult
      ∧ (decode env (onFile g B)).gFormatRecord = (decode env (onFile g A)).gFormatRecord
      ∧ (decode env (onFile g B)).delivered = (decode env (onFile g A)).delivered
      ∧ ((DoReadStart env (onFile g A)).gResult = noErr →
          loadedBuffer env (DoReadStart env (onFile g B))
            = loadedBuffer env (DoReadStart env (onFile g A))) := by
  have hmagic : magicMismatch B = magicMismatch A :=
    (magicMismatch_of_take_eq A B 32 hfields (by norm_num)).symm
  have hcomp : hdrCompression B = hdrCompression A :=
    (u32le_of_take_eq A B 32 4 hfields (by norm_num)).symm
  have hab : hdrAlphaBits B = hdrAlphaBits A :=
    (u32le_of_take_eq A B 32 8 hfields (by norm_num)).symm
  have hw : hdrWidth B = hdrWidth A :=
    (u32le_of_take_eq A B 32 12 hfields (by norm_num)).symm
  have hh : hdrHeight B = hdrHeight A :=
    (u32le_of_take_eq A B 32 16 hfields (by norm_num)).symm
  have hoff : hdrOffset B 0 = hdrOffset A 0 :=
    (u32le_of_take_eq A B 32 28 hfields (by norm_num)).symm
  have hsz : hdrSize B 0 = hdrSize A 0 :=
    ((u32le_of_drop_take A 92 _ hsize0).trans (u32le_of_drop_take B 92 _ rfl).symm).symm
  have hpal : hdrCompression A = BLP_COMPRESSION_DIRECT →
      sameBytes A B 156 (156 + (paletteSize env.sizeBits (hdrOffset A 0) * 4).toNat) :=
    fun hd => sameBytes_of_take _ _ _ _ (hdirect hd).1
  have hstart := DoReadStart_withFile env g A B hA hB hmagic hcomp hab hw hh hoff
    (fun hd _ => hpal hd)
  have hcont : (DoReadStart env (onFile g A)).gResult = noErr →
      loadImage env (withFile B (overlay (B.take 156) g.gData.blpHeader)
          (DoReadStart env (onFile g A)))
        = bothWith B (overlay (B.take 156) g.gData.blpHeader)
            (loadImage env (DoReadStart env (onFile g A)))
      ∧ DoReadContinue env (withFile B (overlay (B.take 156) g.gData.blpHeader)
          (DoReadStart env (onFile g A)))
        = withFile B (overlay (B.take 156) g.gData.blpHeader)
            (DoReadContinue env (DoReadStart env (onFile g A))) := by
    intro hok
    obtain ⟨fh, fb, fs⟩ := DoReadStart_facts env (onFile g A) hA hok
    rw [onFile_bytes] at fb fs
    rw [onFile_bytes, onFile_gData] at fh
    have hb := imageSize_bounds (hdrWidth A) (hdrHeight A) (onFile g A).gFormatRecord
    rw [← fs] at hb
    generalize DoReadStart env (onFile g A) = s at fh fb hb
    have c1 : hdrCompression (overlay (B.take 156) g.gData.blpHeader)
        = hdrCompression s.gData.blpHeader := by
      rw [fh]
      exact (header_u32le _ _ 4 hB (by norm_num)).trans
        (hcomp.trans (header_u32le _ _ 4 hA (by norm_num)).symm)
    have c2 : hdrOffset (overlay (B.take 156) g.gData.blpHeader) 0
        = hdrOffset s.gData.blpHeader 0 := by
      rw [fh]
      exact (header_u32le _ _ 28 hB (by norm_num)).trans
        (hoff.trans (header_u32le _ _ 28 hA (by norm_num)).symm)
    have c3 : hdrAlphaBits (overlay (B.take 156) g.gData.blpHeader)
        = hdrAlphaBits s.gData.blpHeader := by
      rw [fh]
      exact (header_u32le _ _ 8 hB (by norm_num)).trans
        (hab.trans (header_u32le _ _ 8 hA (by norm_num)).symm)
    have c4 : hdrSize (overlay (B.take 156) g.gData.blpHeader) 0
        = hdrSize s.gData.blpHeader 0 := by
      rw [fh]
      exact (header_u32le _ _ 92 hB (by norm_num)).trans
        (hsz.trans (header_u32le _ _ 92 hA (by norm_num)).symm)
    have vC : hdrCompression s.gData.blpHeader = hdrCompression A := by
      rw [fh]; exact header_u32le _ _ 4 hA (by norm_num)
    have vO : hdrOffset s.gData.blpHeader 0 = hdrOffset A 0 := by
      rw [fh]; exact header_u32le _ _ 28 hA (by norm_num)
    have vA : hdrAlphaBits s.gData.blpHeader = hdrAlphaBits A := by
      rw [fh]; exact header_u32le _ _ 8 hA (by norm_num)
    have vS : hdrSize s.gData.blpHeader 0 = hdrSize A 0 := by
      rw [fh]; exact header_u32le _ _ 92 hA (by norm_num)
    have hn := npix_le _ _ _ _ hb.1 hb.2
    have dD : hdrCompression s.gData.blpHeader = BLP_COMPRESSION_DIRECT →
        sameBytes s.file.bytes B 156
          (156 + (paletteSize env.sizeBits (hdrOffset s.gData.blpHeader 0) * 4).toNat)
        ∧ sameBytes s.file.bytes B (hdrOffset s.gData.blpHeader 0)
          (hdrOffset s.gData.blpHeader 0
            + (toInt32 ((GetFormatImageSize s.gFormatRecord).h
                * (GetFormatImageSize s.gFormatRecord).v)).toNat)
        ∧ (0 ≤ toInt32 ((GetFormatImageSize s.gFormatRecord).h
                * (GetFormatImageSize s.gFormatRecord).v) →
          sameBytes s.file.bytes B (hdrOffset s.gData.blpHeader 0)
            (hdrOffset s.gData.blpHeader 0
              + (toInt32 ((GetFormatImageSize s.gFormatRecord).h
                  * (GetFormatImageSize s.gFormatRecord).v)).toNat
              + (toUInt32 (toInt32 ((GetFormatImageSize s.gFormatRecord).h
                  * (GetFormatImageSize s.gFormatRecord).v))
                  * hdrAlphaBits s.gData.blpHeader + 7) % 4294967296 / 8)) := by
      intro hd
      rw [vC] at hd
      rw [fb, vO, vA]
      have hpay := sameBytes_of_take _ _ _ _ (hdirect hd).2
      refine ⟨hpal hd, ?_, ?_⟩
      · exact sameBytes_mono _ _ _ _ _ _ hpay (Nat.le_refl _)
          (Nat.add_le_add_left (le_trans hn (Nat.le_add_right _ _)) _)
      · intro h0
        have ha := alphaSize_le _ _ (hdrAlphaBits A) h0 hn
        exact sameBytes_mono _ _ _ _ _ _ hpay (Nat.le_refl _)
          (by rw [Nat.add_assoc]; exact Nat.add_le_add_left (Nat.add_le_add hn ha) _)
    have dJ : hdrCompression s.gData.blpHeader = BLP_COMPRESSION_JPEG →
        sameBytes s.file.bytes B 156 (160 + (toInt32 (u32le s.file.bytes 156)).toNat)
        ∧ sameBytes s.file.bytes B (hdrOffset s.gData.blpHeader 0)
          (hdrOffset s.gData.blpHeader 0 + (toInt32 (hdrSize s.gData.blpHeader 0)).toNat) := by
      intro hj
      rw [vC] at hj
      rw [fb, vO, vS]
      have t1 := toNat_toInt32_le (u32le A 156)
      have t2 := toNat_toInt32_le (hdrSize A 0)
      refine ⟨?_, ?_⟩
      · exact sameBytes_mono _ _ _ _ _ _ (sameBytes_of_take _ _ _ _ (hjpeg hj).1)
          (Nat.le_refl _)
          (show 160 + _ ≤ 156 + (4 + _) from by
            rw [← Nat.add_assoc]; exact Nat.add_le_add_left t1 160)
      · exact sameBytes_mono _ _ _ _ _ _ (sameBytes_of_take _ _ _ _ (hjpeg hj).2)
          (Nat.le_refl _) (Nat.add_le_add_left t2 _)
    exact ⟨loadImage_withFile env s B _ c1 c2 c3 c4 dD dJ,
      DoReadContinue_withFile env s B _ c1 c2 c3 c4 dD dJ⟩
  have hdec : decode env (onFile g B)
      = withFile B (overlay (B.take 156) g.gData.blpHeader) (decode env (onFile g A)) := by
    unfold decode
    rw [hstart, withFile_gResult]
    by_cases hok : (DoReadStart env (onFile g A)).gResult = noErr
    · rw [if_neg (fun h => h hok), if_neg (fun h => h hok)]
      exact (hcont hok).2
    · rw [if_pos hok, if_pos hok]
  refine ⟨hdec, ?_, ?_, ?_, ?_⟩
  · rw [hdec]; rfl
  · rw [hdec]; rfl
  · rw [hdec]; rfl
  · intro hok
    unfold loadedBuffer
    rw [hstart, (hcont hok).1]
    cases loadImage env (DoReadStart env (onFile g A)) <;> rfl

/-- Witness of C25: two DIRECT files of 2 x 2 pixels with the same header fields,
the same palette of four entries and the same index plane; the second has another
`Offset[1]` and `Size[1]` and other bytes after the index plane.  The rows
handed to the host are the same. -/
theorem C25_level0_only_witness :
    fileMipA ≠ fileMipB
      ∧ hdrOffset fileMipA 1 ≠ hdrOffset fileMipB 1
      ∧ (decode sampleEnv (onFile (sampleGlobals []) fileMipB)).delivered
          = (decode sampleEnv (onFile (sampleGlobals []) fileMipA)).delivered :=
  ⟨by decide, by decide,
    (C25_level0_only sampleEnv (sampleGlobals []) fileMipA fileMipB (by decide) (by decide)
      (by decide) (by decide) (by decide) (by decide)).2.2.2.1⟩

/-! ## Claim C28: the mip chain of a solid image -/

/-- One pass of the mipmap loop keeps the current level solid. -/
theorem mipStep_solid (env : Env) (c : List Nat) (hc : c.length = 4)
    (hbyte : ∀ k, k < 4 → c.getD k 0 ≤ 255)
    (hres : ∀ src sw sh dw dh, ∃ dst, dst.length = (dw * dh * 4).toNat
      ∧ env.ResizeImage src sw sh dw dh = ResizeImage src dst sw sh dw dh)
    (s : MipState) (W H : Nat) (hW : 1 ≤ W) (hH : 1 ≤ H)
    (hsW : W < 25165827) (hsH : H < 25165827)
    (hcw : s.curW = (W : Int)) (hch : s.curH = (H : Int))
    (hbuf : s.curBuffer = solidRaster (W * H) c) :
    ∃ W2 H2 : Nat, 1 ≤ W2 ∧ 1 ≤ H2 ∧ W2 < 25165827 ∧ H2 < 25165827
      ∧ (mipStep env 16 s).curW = (W2 : Int) ∧ (mipStep env 16 s).curH = (H2 : Int)
      ∧ (mipStep env 16 s).curBuffer = solidRaster (W2 * H2) c := by
  by_cases hge : (s.mipLevel : Int) ≥ 16
  · unfold mipStep
    rw [if_pos hge]
    exact ⟨W, H, hW, hH, hsW, hsH, hcw, hch, hbuf⟩
  · have ha0 : ¬ ((W : Int) = 0) := by omega
    have hb0 : ¬ ((H : Int) = 0) := by omega
    unfold mipStep
    simp only [hge, if_false, hcw, hch, ha0, hb0, halve_cast]
    split_ifs with h1
    · exact ⟨W, H, hW, hH, hsW, hsH, rfl, rfl, hbuf⟩
    · obtain ⟨dst, hlen, he⟩ := hres s.curBuffer (W : Int) (H : Int)
        ((max 1 (W / 2) : Nat) : Int) ((max 1 (H / 2) : Nat) : Int)
      have hlen2 : dst.length = max 1 (W / 2) * max 1 (H / 2) * 4 := by
        rw [hlen]
        have : (((max 1 (W / 2) : Nat) : Int) * ((max 1 (H / 2) : Nat) : Int) * 4)
            = ((max 1 (W / 2) * max 1 (H / 2) * 4 : Nat) : Int) := by push_cast; ring
        rw [this, Int.toNat_natCast]
      have hsol := (ResizeImage_solid_of_windows W H (max 1 (W / 2)) (max 1 (H / 2)) c dst
        hc hbyte
        (fun x hx => (resizeSpan_length_halve W x hW hsW hx).1)
        (fun y hy => (resizeSpan_length_halve H y hH hsH hy).1)
        (fun x y hx hy => le_trans
          (Nat.mul_le_mul (resizeSpan_length_halve H y hH hsH hy).2
            (resizeSpan_length_halve W x hW hsW hx).2) (by norm_num))
        hlen2).2
      refine ⟨max 1 (W / 2), max 1 (H / 2), le_max_left _ _, le_max_left _ _, by omega,
        by omega, rfl, rfl, ?_⟩
      show env.ResizeImage s.curBuffer _ _ _ _ = _
      rw [he, hbuf, hsol]

/-- Every pass of the mipmap loop works on a solid level. -/
theorem mipLoop_solid (env : Env) (c : List Nat) (hc : c.length = 4)
    (hbyte : ∀ k, k < 4 → c.getD k 0 ≤ 255)
    (hres : ∀ src sw sh dw dh, ∃ dst, dst.length = (dw * dh * 4).toNat
      ∧ env.ResizeImage src sw sh dw dh = ResizeImage src dst sw sh dw dh) :
    ∀ (k : Nat) (s : MipState) (W H : Nat), 1 ≤ W → 1 ≤ H → W < 25165827 → H < 25165827 →
      s.curW = (W : Int) → s.curH = (H : Int) → s.curBuffer = solidRaster (W * H) c →
      ∃ W2 H2 : Nat, 1 ≤ W2 ∧ 1 ≤ H2 ∧ W2 < 25165827 ∧ H2 < 25165827
        ∧ (mipLoop env 16 k s).curW = (W2 : Int) ∧ (mipLoop env 16 k s).curH = (H2 : Int)
        ∧ (mipLoop env 16 k s).curBuffer = solidRaster (W2 * H2) c := by
  intro k
  induction k with
  | zero =>
    intro s W H hW hH hsW hsH hcw hch hbuf
    exact ⟨W, H, hW, hH, hsW, hsH, hcw, hch, hbuf⟩
  | succ k ih =>
    intro s W H hW hH hsW hsH hcw hch hbuf
    unfold mipLoop
    split_ifs with hm
    · obtain ⟨W2, H2, h1, h2, h3, h3b, h4, h5, h6⟩ :=
        mipStep_solid env c hc hbyte hres s W H hW hH hsW hsH hcw hch hbuf
      exact ih _ W2 H2 h1 h2 h3 h3b h4 h5 h6
    · exact ⟨W, H, hW, hH, hsW, hsH, hcw, hch, hbuf⟩

/-- Claim C28 (amended).  For a solid source of `srcW x srcH` pixels, both at
least one, whose `srcW * srcH * 4` bytes can be indexed by an `int`, and every
colour: (1) whatever the target size (its bytes indexed by an `int` too), when
the window of every output pixel holds at least one and at most 8,421,504
source pixels, `ResizeImage` computes the colour of the source for every output
pixel, stores it, and leaves the solid raster of that colour; (2) for sides
below 16,777,216 and a target of at least one and at most 8,388,608 pixels per
side, no larger than the source in either dimension, the window of every output
pixel holds at least one source pixel and spans at most
`min srcW (srcW / dstW + 6)` columns and `min srcH (srcH / dstH + 6)` rows;
(3) in the mipmap loop of `DoWriteStart`, started on a solid image with sides
below 25,165,827, the current level after any number of passes has at least
one pixel per side and is the solid raster of that colour. -/
theorem C28_solid_preserved (srcW srcH : Nat) (c : List Nat)
    (hc : c.length = 4) (hbyte : ∀ k, k < 4 → c.getD k 0 ≤ 255)
    (hW0 : 1 ≤ srcW) (hH0 : 1 ≤ srcH) (_hidx : srcW * srcH * 4 < 2147483648) :
    (∀ dstW dstH : Nat, dstW * dstH * 4 < 2147483648 →
        (∀ x, x < dstW → 1 ≤ (resizeSpan (srcW : Int) (dstW : Int) x).length) →
        (∀ y, y < dstH → 1 ≤ (resizeSpan (srcH : Int) (dstH : Int) y).length) →
        (∀ x, x < dstW → ∀ y, y < dstH →
          (resizeSpan (srcH : Int) (dstH : Int) y).length
            * (resizeSpan (srcW : Int) (dstW : Int) x).length ≤ 8421504) →
        (∀ x y, x < dstW → y < dstH →
          resizePixel (solidRaster (srcW * srcH) c) (srcW : Int) (srcH : Int)
            (dstW : Int) (dstH : Int) x y = some c)
        ∧ ∀ dst : List Nat, dst.length = dstW * dstH * 4 →
            ResizeImage (solidRaster (srcW * srcH) c) dst (srcW : Int) (srcH : Int)
              (dstW : Int) (dstH : Int) = solidRaster (dstW * dstH) c)
      ∧ (srcW < 16777216 → srcH < 16777216 →
          ∀ dstW dstH : Nat, 1 ≤ dstW → dstW ≤ srcW → dstW ≤ 8388608 →
            1 ≤ dstH → dstH ≤ srcH → dstH ≤ 8388608 →
            ∀ x y, x < dstW → y < dstH →
              1 ≤ (resizeSpan (srcW : Int) (dstW : Int) x).length
                ∧ (resizeSpan (srcW : Int) (dstW : Int) x).length
                    ≤ min srcW (srcW / dstW + 6)
                ∧ 1 ≤ (resizeSpan (srcH : Int) (dstH : Int) y).length
                ∧ (resizeSpan (srcH : Int) (dstH : Int) y).length
                    ≤ min srcH (srcH / dstH + 6))
      ∧ (srcW < 25165827 → srcH < 25165827 →
          ∀ (env : Env) (s : MipState) (k : Nat),
            (∀ src sw sh dw dh, ∃ d, d.length = (dw * dh * 4).toNat
              ∧ env.ResizeImage src sw sh dw dh = ResizeImage src d sw sh dw dh) →
            s.curW = (srcW : Int) → s.curH = (srcH : Int) →
            s.curBuffer = solidRaster (srcW * srcH) c →
            1 ≤ (mipLoop env 16 k s).curW ∧ 1 ≤ (mipLoop env 16 k s).curH
              ∧ (mipLoop env 16 k s).curBuffer
                = solidRaster ((mipLoop env 16 k s).curW.toNat
                    * (mipLoop env 16 k s).curH.toNat) c) := by
  refine ⟨?_, ?_, ?_⟩
  · intro dstW dstH _ hcols hrows hfit
    constructor
    · exact (ResizeImage_solid_of_windows srcW srcH dstW dstH c
        (List.replicate (dstW * dstH * 4) 0) hc hbyte hcols hrows
        (fun x y hx hy => hfit x hx y hy) (List.length_replicate _ _)).1
    · intro dst hdst
      exact (ResizeImage_solid_of_windows srcW srcH dstW dstH c dst hc hbyte hcols hrows
        (fun x y hx hy => hfit x hx y hy) hdst).2
  · intro hsW hsH dstW dstH hW1 hW2 hWmax hH1 hH2 hHmax x y hx hy
    have hC := resizeSpan_length_bounds srcW dstW x hW1 hW2 (by norm_num; omega)
      (by norm_num; omega) hx
    have hR := resizeSpan_length_bounds srcH dstH y hH1 hH2 (by norm_num; omega)
      (by norm_num; omega) hy
    exact ⟨hC.1, hC.2, hR.1, hR.2⟩
  · intro hsW hsH env s k hres hcw hch hbuf
    obtain ⟨W2, H2, h1, h2, -, -, h4, h5, h6⟩ := mipLoop_solid env c hc hbyte hres k s srcW srcH
      hW0 hH0 hsW hsH hcw hch hbuf
    rw [h4, h5, Int.toNat_natCast, Int.toNat_natCast]
    exact ⟨by exact_mod_cast h1, by exact_mod_cast h2, h6⟩

/-- Witness of C28 (amended): a solid raster of 5 x 3 pixels resized to 2 x 1, its
windows, and the second pass of the mipmap loop on it, which works on one pixel
of that colour. -/
theorem C28_solid_preserved_witness :
    ResizeImage (solidRaster (5 * 3) [10, 20, 30, 255]) (List.replicate 8 0)
        ((5 : Nat) : Int) ((3 : Nat) : Int) ((2 : Nat) : Int) ((1 : Nat) : Int)
      = solidRaster (2 * 1) [10, 20, 30, 255]
    ∧ (1 ≤ (resizeSpan ((5 : Nat) : Int) ((2 : Nat) : Int) 1).length
        ∧ (resizeSpan ((5 : Nat) : Int) ((2 : Nat) : Int) 1).length ≤ min 5 (5 / 2 + 6)
        ∧ 1 ≤ (resizeSpan ((3 : Nat) : Int) ((1 : Nat) : Int) 0).length
        ∧ (resizeSpan ((3 : Nat) : Int) ((1 : Nat) : Int) 0).length ≤ min 3 (3 / 1 + 6))
    ∧ (mipLoop resizeEnv 16 2 solidStart).curBuffer
      = solidRaster ((mipLoop resizeEnv 16 2 solidStart).curW.toNat
          * (mipLoop resizeEnv 16 2 solidStart).curH.toNat) [10, 20, 30, 255]
    ∧ (mipLoop resizeEnv 16 2 solidStart).curW = 1
    ∧ (mipLoop resizeEnv 16 2 solidStart).curBuffer = [10, 20, 30, 255] :=
  ⟨((C28_solid_preserved 5 3 [10, 20, 30, 255] rfl (by decide) (by decide) (by decide)
      (by decide)).1 2 1 (by decide) (by decide) (by decide) (by decide)).2
      (List.replicate 8 0) rfl,
   (C28_solid_preserved 5 3 [10, 20, 30, 255] rfl (by decide) (by decide) (by decide)
      (by decide)).2.1 (by decide) (by decide) 2 1 (by decide) (by decide) (by decide)
      (by decide) (by decide) (by decide) 1 0 (by decide) (by decide),
   ((C28_solid_preserved 5 3 [10, 20, 30, 255] rfl (by decide) (by decide) (by decide)
      (by decide)).2.2 (by decide) (by decide) resizeEnv solidStart 2
      (fun _ _ _ dw dh => ⟨List.replicate (dw * dh * 4).toNat 0,
        List.length_replicate _ _, rfl⟩) rfl rfl rfl).2.2,
   by decide, by decide⟩

/-! ## Claim C24: the palette of a DIRECT file, for every `alpha_bits` -/

theorem DoReadStart_keeps_buffer (env : Env) (g : Globals)
    (hlen : 156 ≤ g.file.bytes.length) :
    (DoReadStart env g).gData.imageBuffer = g.gData.imageBuffer := by
  by_cases hp : (¬ magicMismatch g.file.bytes = true)
      ∧ hdrCompression g.file.bytes = BLP_COMPRESSION_DIRECT
      ∧ ¬ hdrAlphaBits g.file.bytes > 0
  · obtain ⟨hm, hd, ha⟩ := hp
    rw [DoReadStart_palette env g _ hlen hm hd ha rfl]
    have f := ReadSome_frame (paletteSize env.sizeBits (hdrOffset g.file.bytes 0) * 4)
      env.stackPalette
      ({ g with
        gResult := noErr, file := { g.file with pos := 156 },
        gFormatRecord :=
          { SetFormatImageSize { v := toInt32 (hdrHeight g.file.bytes),
                                 h := toInt32 (hdrWidth g.file.bytes) } g.gFormatRecord with
            depth := 8, imageMode := plugInModeIndexedColor, planes := 1,
            transparencyPlane := -1 },
        gData := { g.gData with
          blpHeader := overlay (g.file.bytes.take 156) g.gData.blpHeader,
          needsSwap := false } } : Globals)
    generalize ReadSome (paletteSize env.sizeBits (hdrOffset g.file.bytes 0) * 4)
      env.stackPalette _ = rp at f ⊢
    have f3 := congrArg BLPData.imageBuffer f.2.2.1
    split_ifs
    · exact f3
    · exact f3
  · have rA := ReadSome_header g g.gData.blpHeader hlen
    have mA : magicMismatch (overlay (g.file.bytes.take 156) g.gData.blpHeader)
        = magicMismatch g.file.bytes := magicMismatch_header _ _ hlen
    have cA : hdrCompression (overlay (g.file.bytes.take 156) g.gData.blpHeader)
        = hdrCompression g.file.bytes := header_u32le _ _ 4 hlen (by norm_num)
    have aA : hdrAlphaBits (overlay (g.file.bytes.take 156) g.gData.blpHeader)
        = hdrAlphaBits g.file.bytes := header_u32le _ _ 8 hlen (by norm_num)
    unfold DoReadStart
    simp only [setFPos_gResult, ne_eq, not_true_eq_false, if_false, setFPos_gData,
      rA, mA, cA, aA]
    by_cases hm : magicMismatch g.file.bytes = true
    · simp only [hm, if_true]
    · simp only [hm, Bool.false_eq_true, if_false]
      by_cases hd : hdrCompression g.file.bytes = BLP_COMPRESSION_DIRECT
      · simp only [hd, if_true]
        by_cases ha : hdrAlphaBits g.file.bytes > 0
        · simp only [ha, if_true]
          rfl
        · exact absurd ⟨hm, hd, ha⟩ hp
      · simp only [hd, if_false]
        split_ifs <;> rfl

/-- On a DIRECT file with valid magic whose palette bytes are present,
`DoReadStart` ends in `noErr`; without alpha it has read the palette entries,
with alpha it has read the header only. -/
theorem DoReadStart_direct_ok (env : Env) (g : Globals)
    (hlen : 156 ≤ g.file.bytes.length)
    (hmagic : g.file.bytes.take 4 = [0x42, 0x4C, 0x50, 0x31])
    (hcomp : hdrCompression g.file.bytes = BLP_COMPRESSION_DIRECT)
    (hbits : 32 ≤ env.sizeBits) (hbytes : ∀ b, b ∈ g.file.bytes → b < 256)
    (hge : 156 ≤ hdrOffset g.file.bytes 0)
    (hav : 156 + 4 * min 256 ((hdrOffset g.file.bytes 0 - 156) / 4) ≤ g.file.bytes.length) :
    (DoReadStart env g).gResult = noErr
      ∧ (DoReadStart env g).file.pos
          = if hdrAlphaBits g.file.bytes > 0 then 156
            else 156 + 4 * min 256 ((hdrOffset g.file.bytes 0 - 156) / 4) := by
  have hm : ¬ magicMismatch g.file.bytes = true :=
    (magicMismatch_iff g.file.bytes (by omega)).not.mpr (by simpa using hmagic)
  by_cases ha : hdrAlphaBits g.file.bytes > 0
  · have rA := ReadSome_header g g.gData.blpHeader hlen
    have mA : magicMismatch (overlay (g.file.bytes.take 156) g.gData.blpHeader)
        = magicMismatch g.file.bytes := magicMismatch_header _ _ hlen
    have cA : hdrCompression (overlay (g.file.bytes.take 156) g.gData.blpHeader)
        = hdrCompression g.file.bytes := header_u32le _ _ 4 hlen (by norm_num)
    have aA : hdrAlphaBits (overlay (g.file.bytes.take 156) g.gData.blpHeader)
        = hdrAlphaBits g.file.bytes := header_u32le _ _ 8 hlen (by norm_num)
    rw [if_pos ha]
    unfold DoReadStart
    simp only [setFPos_gResult, ne_eq, not_true_eq_false, if_false, setFPos_gData,
      rA, mA, cA, aA, hm, Bool.false_eq_true, hcomp, if_true, ha]
    exact ⟨rfl, rfl⟩
  · rw [if_neg ha, DoReadStart_palette env g _ hlen hm hcomp ha rfl]
    have hps := paletteSize_of_ge env.sizeBits _ hbits hge (u32le_lt _ hbytes _)
    have hn4 : ((min 256 ((hdrOffset g.file.bytes 0 - 156) / 4) : Nat) : Int) * 4
        = ((4 * min 256 ((hdrOffset g.file.bytes 0 - 156) / 4) : Nat) : Int) := by
      rw [Nat.cast_mul, mul_comm]; rfl
    rw [hps, hn4, ReadSome_of_avail _ _ _ rfl hav]
    exact ⟨rfl, rfl⟩

/-- C24, amended: for a DIRECT header, whatever its `alpha_bits`, whose
`Offset[0]` is at least 156 (on a host whose `size_t` has at least 32 bits), the
number of palette entries is `min 256 ((Offset[0] - 156) / 4)`: a quantity above
256 is clamped to 256, the file is not rejected for it, and a quantity of at
most 256 is the count itself.  When the stream holds that many entries after
the header, `DoReadStart` ends in `noErr`, having read exactly them when
`alpha_bits = 0`; and the load block of `DoReadContinue`, for every
`alpha_bits`, composes the raster from a palette that holds exactly these
entries of the file, followed by what the stack array held. -/
theorem C24_palette_clamped (env : Env) (g : Globals)
    (hlen : 156 ≤ g.file.bytes.length)
    (hmagic : g.file.bytes.take 4 = [0x42, 0x4C, 0x50, 0x31])
    (hcomp : hdrCompression g.file.bytes = BLP_COMPRESSION_DIRECT)
    (hbits : 32 ≤ env.sizeBits) (hbytes : ∀ b, b ∈ g.file.bytes → b < 256)
    (hge : 156 ≤ hdrOffset g.file.bytes 0)
    (hav : 156 + 4 * min 256 ((hdrOffset g.file.bytes 0 - 156) / 4) ≤ g.file.bytes.length) :
    paletteSize env.sizeBits (hdrOffset g.file.bytes 0)
      = ((min 256 ((hdrOffset g.file.bytes 0 - 156) / 4) : Nat) : Int) ∧
    ((hdrOffset g.file.bytes 0 - 156) / 4 ≤ 256 →
      paletteSize env.sizeBits (hdrOffset g.file.bytes 0)
        = (((hdrOffset g.file.bytes 0 - 156) / 4 : Nat) : Int)) ∧
    (DoReadStart env g).gResult = noErr ∧
    (hdrAlphaBits g.file.bytes = 0 →
      (DoReadStart env g).file.pos
        = 156 + 4 * min 256 ((hdrOffset g.file.bytes 0 - 156) / 4)) ∧
    hdrOffset (DoReadStart env g).gData.blpHeader 0 = hdrOffset g.file.bytes 0 ∧
    (∀ W H : Nat, (∀ k, env.mallocOk k = true) → g.gData.imageBuffer = none →
      GetFormatImageSize (SetFormatImageSize
          { v := toInt32 (hdrHeight g.file.bytes), h := toInt32 (hdrWidth g.file.bytes) }
          g.gFormatRecord) = { v := (H : Int), h := (W : Int) } →
      W * H * 4 < 2147483648 →
      hdrOffset g.file.bytes 0 + W * H
          + (W * H * hdrAlphaBits g.file.bytes + 7) % 4294967296 / 8 ≤ g.file.bytes.length →
      loadedBuffer env (DoReadStart env g)
        = some ((List.range (W * H)).flatMap
            (directPixel
              (overlay ((g.file.bytes.drop 156).take
                  (4 * min 256 ((hdrOffset g.file.bytes 0 - 156) / 4))) env.stackPalette)
              ((g.file.bytes.drop (hdrOffset g.file.bytes 0)).take (W * H))
              (if hdrAlphaBits g.file.bytes > 0 then
                (g.file.bytes.drop (hdrOffset g.file.bytes 0 + W * H)).take
                  ((W * H * hdrAlphaBits g.file.bytes + 7) % 4294967296 / 8) else [])
              (hdrAlphaBits g.file.bytes)))) := by
  have hps := paletteSize_of_ge env.sizeBits _ hbits hge (u32le_lt _ hbytes _)
  have hstart := DoReadStart_direct_ok env g hlen hmagic hcomp hbits hbytes hge hav
  obtain ⟨fh, fb, fs⟩ := DoReadStart_facts env g hlen hstart.1
  have fbuf := DoReadStart_keeps_buffer env g hlen
  have vO : hdrOffset (DoReadStart env g).gData.blpHeader 0 = hdrOffset g.file.bytes 0 := by
    rw [fh]; exact header_u32le _ _ 28 hlen (by norm_num)
  have vC : hdrCompression (DoReadStart env g).gData.blpHeader = hdrCompression g.file.bytes := by
    rw [fh]; exact header_u32le _ _ 4 hlen (by norm_num)
  have vA : hdrAlphaBits (DoReadStart env g).gData.blpHeader = hdrAlphaBits g.file.bytes := by
    rw [fh]; exact header_u32le _ _ 8 hlen (by norm_num)
  refine ⟨hps, ?_, hstart.1, ?_, vO, ?_⟩
  · intro hle
    rw [hps, Nat.min_eq_right hle]
  · intro h0
    rw [hstart.2, if_neg (by omega)]
  · intro W H hmalloc hbuf hsize hfit hdata
    obtain ⟨g1, e1, -, -, e4⟩ := loadImage_direct env (DoReadStart env g) W H
      (hdrOffset g.file.bytes 0) (hdrAlphaBits g.file.bytes) hbits hmalloc
      (fbuf.trans hbuf) (fs.trans hsize) hfit (vC.trans hcomp) vA vO hge
      (u32le_lt _ hbytes _) (by rw [fb]; exact hav) (by rw [fb]; exact hdata)
    unfold loadedBuffer
    rw [e1]
    show g1.gData.imageBuffer = _
    rw [e4, fb]

/-- Witness of C24 (amended): scenario E1 has `Offset[0] = 172`, which gives 4
palette entries, read by `DoReadStart`; and on a file of 2 x 1 pixels with an
8-bit alpha plane and two palette entries the load block of `DoReadContinue`
composes the raster from these two entries. -/
theorem C24_palette_clamped_witness :
    hdrOffset (sampleGlobals fileE1).file.bytes 0 = 172 ∧
    min 256 ((hdrOffset (sampleGlobals fileE1).file.bytes 0 - 156) / 4) = 4 ∧
    paletteSize sampleEnv.sizeBits (hdrOffset (sampleGlobals fileE1).file.bytes 0)
      = ((min 256 ((hdrOffset (sampleGlobals fileE1).file.bytes 0 - 156) / 4) : Nat) : Int) ∧
    (DoReadStart sampleEnv (sampleGlobals fileE1)).file.pos
      = 156 + 4 * min 256 ((hdrOffset (sampleGlobals fileE1).file.bytes 0 - 156) / 4) ∧
    hdrAlphaBits (sampleGlobals fileA8).file.bytes = 8 ∧
    min 256 ((hdrOffset (sampleGlobals fileA8).file.bytes 0 - 156) / 4) = 2 ∧
    loadedBuffer sampleEnv (DoReadStart sampleEnv (sampleGlobals fileA8))
      = some ((List.range (2 * 1)).flatMap
          (directPixel
            (overlay (((sampleGlobals fileA8).file.bytes.drop 156).take
                (4 * min 256 ((hdrOffset (sampleGlobals fileA8).file.bytes 0 - 156) / 4)))
              sampleEnv.stackPalette)
            (((sampleGlobals fileA8).file.bytes.drop
              (hdrOffset (sampleGlobals fileA8).file.bytes 0)).take (2 * 1))
            (if hdrAlphaBits (sampleGlobals fileA8).file.bytes > 0 then
              ((sampleGlobals fileA8).file.bytes.drop
                (hdrOffset (sampleGlobals fileA8).file.bytes 0 + 2 * 1)).take
                ((2 * 1 * hdrAlphaBits (sampleGlobals fileA8).file.bytes + 7) % 4294967296 / 8)
              else [])
            (hdrAlphaBits (sampleGlobals fileA8).file.bytes))) :=
  ⟨by decide, by decide,
   (C24_palette_clamped sampleEnv (sampleGlobals fileE1) (by decide) (by decide) (by decide)
     (by decide) (by decide) (by decide) (by decide)).1,
   (C24_palette_clamped sampleEnv (sampleGlobals fileE1) (by decide) (by decide) (by decide)
     (by decide) (by decide) (by decide) (by decide)).2.2.2.1 (by decide),
   by decide, by decide,
   (C24_palette_clamped sampleEnv (sampleGlobals fileA8) (by decide) (by decide) (by decide)
     (by decide) (by decide) (by decide) (by decide)).2.2.2.2.2 2 1 (fun _ => rfl) rfl
     (by decide) (by decide) (by decide)⟩

end BLPFormat
